import Mathlib

/-!
# USB full-speed device driver (libusb_stm32): endpoint layer

Shallow embedding of `src/src/usb_32v0.c` (namespace `V0`) and
`src/src/usb_32v1.c` (namespace `V1`): the packet-memory allocator
`get_next_pma`, endpoint configuration `ep_config` / `ep_deconfig`, stall
control `ep_setstall`, and the packet copy routines `pma_write` / `pma_read`.

Machine integers are natural numbers with explicit truncation.  The hardware
state is threaded explicitly: `State.epr` holds the eight endpoint registers
and `State.pma` the bytes of the packet memory, addressed by their offset from
`USB_PMAADDR` as the CPU sees them.  The buffer descriptor table lives in that
same memory (at offset 0), exactly as `EPT` computes it.
-/

namespace Usb

/-! ## Constants of the device and stack headers -/

/-- Modelled from the spec: the device header `stm32.h` is not among the
sources; the endpoint-register bit positions are those of the peripheral's
reference manual, which §6 requires to be matched bit for bit.  Sticky
correct-transfer flag, RX. -/
def USB_EP_CTR_RX : Nat := 0x8000
/-- Modelled from the spec: `stm32.h` is missing; RX data-toggle bit. -/
def USB_EP_DTOG_RX : Nat := 0x4000
/-- Modelled from the spec: `stm32.h` is missing; RX status field. -/
def USB_EPRX_STAT : Nat := 0x3000
/-- Modelled from the spec: `stm32.h` is missing; setup-packet flag. -/
def USB_EP_SETUP : Nat := 0x0800
/-- Modelled from the spec: `stm32.h` is missing; transfer-type field. -/
def USB_EP_T_FIELD : Nat := 0x0600
/-- Modelled from the spec: `stm32.h` is missing; the kind bit. -/
def USB_EP_KIND : Nat := 0x0100
/-- Modelled from the spec: `stm32.h` is missing; sticky correct-transfer
flag, TX. -/
def USB_EP_CTR_TX : Nat := 0x0080
/-- Modelled from the spec: `stm32.h` is missing; TX data-toggle bit. -/
def USB_EP_DTOG_TX : Nat := 0x0040
/-- Modelled from the spec: `stm32.h` is missing; TX status field. -/
def USB_EPTX_STAT : Nat := 0x0030
/-- Modelled from the spec: `stm32.h` is missing; endpoint address field. -/
def USB_EPADDR_FIELD : Nat := 0x000F
/-- Modelled from the spec: `stm32.h` is missing; the bits a read-modify-write
must hand back unchanged: `CTR_RX | SETUP | T_FIELD | KIND | CTR_TX | EA`. -/
def USB_EPREG_MASK : Nat := 0x8F8F

/-- Modelled from the spec: `stm32.h` is missing; transfer type bulk. -/
def USB_EP_BULK : Nat := 0x0000
/-- Modelled from the spec: `stm32.h` is missing; transfer type control. -/
def USB_EP_CONTROL : Nat := 0x0200
/-- Modelled from the spec: `stm32.h` is missing; transfer type isochronous. -/
def USB_EP_ISOCHRONOUS : Nat := 0x0400
/-- Modelled from the spec: `stm32.h` is missing; transfer type interrupt. -/
def USB_EP_INTERRUPT : Nat := 0x0600

/-- Modelled from the spec: `stm32.h` is missing; TX status DISABLED. -/
def USB_EP_TX_DIS : Nat := 0x0000
/-- Modelled from the spec: `stm32.h` is missing; TX status STALL. -/
def USB_EP_TX_STALL : Nat := 0x0010
/-- Modelled from the spec: `stm32.h` is missing; TX status NAK. -/
def USB_EP_TX_NAK : Nat := 0x0020
/-- Modelled from the spec: `stm32.h` is missing; TX status VALID. -/
def USB_EP_TX_VALID : Nat := 0x0030
/-- Modelled from the spec: `stm32.h` is missing; RX status DISABLED. -/
def USB_EP_RX_DIS : Nat := 0x0000
/-- Modelled from the spec: `stm32.h` is missing; RX status STALL. -/
def USB_EP_RX_STALL : Nat := 0x1000
/-- Modelled from the spec: `stm32.h` is missing; RX status NAK. -/
def USB_EP_RX_NAK : Nat := 0x2000
/-- Modelled from the spec: `stm32.h` is missing; RX status VALID. -/
def USB_EP_RX_VALID : Nat := 0x3000

/-- Software buffer-index flag of the TX direction: `#define USB_EP_SWBUF_TX
USB_EP_DTOG_RX`. -/
def USB_EP_SWBUF_TX : Nat := USB_EP_DTOG_RX
/-- Software buffer-index flag of the RX direction: `#define USB_EP_SWBUF_RX
USB_EP_DTOG_TX`. -/
def USB_EP_SWBUF_RX : Nat := USB_EP_DTOG_TX

/-- Modelled from the spec: the stack header `usb.h` is not among the sources;
endpoint type code of a control endpoint. -/
def USB_EPTYPE_CONTROL : Nat := 0x00
/-- Modelled from the spec: `usb.h` is missing; isochronous endpoint. -/
def USB_EPTYPE_ISOCHRONUS : Nat := 0x01
/-- Modelled from the spec: `usb.h` is missing; bulk endpoint. -/
def USB_EPTYPE_BULK : Nat := 0x02
/-- Modelled from the spec: `usb.h` is missing; interrupt endpoint. -/
def USB_EPTYPE_INTERRUPT : Nat := 0x03
/-- Modelled from the spec: `usb.h` is missing; double-buffer flag, or-ed onto
the bulk type code. -/
def USB_EPTYPE_DBLBUF : Nat := 0x04

/-! ## Hardware state -/

/-- Hardware context threaded through every operation: the eight endpoint
registers (index `0..7`), the packet memory, one natural number per byte,
addressed by CPU offset from `USB_PMAADDR`, and the device registers
`USB->ISTR`, `USB->CNTR` and `USB->BTABLE`. -/
structure State where
  epr : Nat → Nat
  pma : Nat → Nat
  istr : Nat := 0
  cntr : Nat := 0
  btable : Nat := 0

/-- A 16-bit load from little-endian byte memory (`*(uint16_t*)p`). -/
def rd16 (m : Nat → Nat) (a : Nat) : Nat :=
  m a % 256 + 256 * (m (a + 1) % 256)

/-- A 16-bit store to little-endian byte memory; the value is truncated to
16 bits. -/
def wr16 (m : Nat → Nat) (a v : Nat) : Nat → Nat :=
  fun x => if x = a then v % 256 else if x = a + 1 then v / 256 % 256 else m x

/-- A one-byte store into the caller's buffer (`*buf++ = v` with `uint8_t`
truncation). -/
def wr8 (b : Nat → Nat) (i v : Nat) : Nat → Nat :=
  fun x => if x = i then v % 256 else b x

/-- Modelled from the spec: the peripheral is not code of the repository; a
store of `w` to an endpoint register that currently holds `cur` follows the
toggle-on-write rule: bits `0x7070` (status fields and data toggles) flip where
a 1 is written, the correct-transfer flags `0x8080` are cleared only where a 0
is written, and the other bits `0x0F0F` take the written value. -/
def hw_store (cur w : Nat) : Nat :=
  ((cur ^^^ w) &&& 0x7070) ||| ((cur &&& w) &&& 0x8080) ||| (w &&& 0x0F0F)

/-- Register index selected by `EPR(ep)`: `(ep & 0x07) * 4 + USB_BASE`. -/
def EPR (ep : Nat) : Nat := ep &&& 0x07

/-- The load `*reg`. -/
def reg_rd (s : State) (reg : Nat) : Nat := s.epr reg

/-- The store `*reg = w`, through the hardware write rule. -/
def reg_wr (s : State) (reg w : Nat) : State :=
  { s with epr := fun i => if i = reg then hw_store (s.epr reg) w else s.epr i }

/-- A 16-bit store into packet memory. -/
def pma_wr (s : State) (a v : Nat) : State :=
  { s with pma := wr16 s.pma a v }

/-- The macro `EP_TOGGLE_SET(epr, bits, mask)`:
`*(epr) = (*(epr) ^ (bits)) & (USB_EPREG_MASK | (mask))`. -/
def EP_TOGGLE_SET (s : State) (reg bits mask : Nat) : State :=
  reg_wr s reg ((reg_rd s reg ^^^ bits) &&& (USB_EPREG_MASK ||| mask))

def EP_TX_STALL (s : State) (reg : Nat) : State :=
  EP_TOGGLE_SET s reg USB_EP_TX_STALL USB_EPTX_STAT
def EP_RX_STALL (s : State) (reg : Nat) : State :=
  EP_TOGGLE_SET s reg USB_EP_RX_STALL USB_EPRX_STAT
def EP_TX_UNSTALL (s : State) (reg : Nat) : State :=
  EP_TOGGLE_SET s reg USB_EP_TX_NAK (USB_EPTX_STAT ||| USB_EP_DTOG_TX)
def EP_RX_UNSTALL (s : State) (reg : Nat) : State :=
  EP_TOGGLE_SET s reg USB_EP_RX_VALID (USB_EPRX_STAT ||| USB_EP_DTOG_RX)
def EP_DTX_UNSTALL (s : State) (reg : Nat) : State :=
  EP_TOGGLE_SET s reg USB_EP_TX_VALID
    (USB_EPTX_STAT ||| USB_EP_DTOG_TX ||| USB_EP_SWBUF_TX)
def EP_DRX_UNSTALL (s : State) (reg : Nat) : State :=
  EP_TOGGLE_SET s reg (USB_EP_RX_VALID ||| USB_EP_SWBUF_RX)
    (USB_EPRX_STAT ||| USB_EP_DTOG_RX ||| USB_EP_SWBUF_RX)
def EP_TX_VALID (s : State) (reg : Nat) : State :=
  EP_TOGGLE_SET s reg USB_EP_TX_VALID USB_EPTX_STAT
def EP_RX_VALID (s : State) (reg : Nat) : State :=
  EP_TOGGLE_SET s reg USB_EP_RX_VALID USB_EPRX_STAT

/-- The switch at the head of `ep_config`: the word stored to the register to
commit type, kind bit and endpoint address. -/
def ep_type_word (ep eptype : Nat) : Nat :=
  if eptype = USB_EPTYPE_CONTROL then USB_EP_CONTROL ||| (ep &&& 0x07)
  else if eptype = USB_EPTYPE_ISOCHRONUS then USB_EP_ISOCHRONOUS ||| (ep &&& 0x07)
  else if eptype = USB_EPTYPE_BULK then USB_EP_BULK ||| (ep &&& 0x07)
  else if eptype = (USB_EPTYPE_BULK ||| USB_EPTYPE_DBLBUF) then
    USB_EP_BULK ||| USB_EP_KIND ||| (ep &&& 0x07)
  else USB_EP_INTERRUPT ||| (ep &&& 0x07)

/-- The statement `if (epsize & 0x01) epsize++;` on a `uint16_t`. -/
def ep_align (epsize : Nat) : Nat :=
  if epsize &&& 0x01 ≠ 0 then (epsize + 1) % 0x10000 else epsize

/-- The RX length block of `ep_config` (`if (epsize > 62) ... else ...`): the
count word `_rxcnt` and the size then handed to the allocator. -/
def ep_rxcnt (epsize : Nat) : Nat × Nat :=
  if epsize > 62 then
    let epsize1 := if epsize &&& 0x1F ≠ 0 then epsize &&& 0x1F else epsize - 0x20
    ((0x8000 ||| (epsize1 <<< 5)) % 0x10000, (epsize1 + 0x20) % 0x10000)
  else
    ((epsize <<< 9) % 0x10000, epsize)

/-- The test `(eptype == USB_EPTYPE_ISOCHRONUS) || (eptype == (USB_EPTYPE_BULK
| USB_EPTYPE_DBLBUF))`. -/
def is_dbl (eptype : Nat) : Bool :=
  eptype = USB_EPTYPE_ISOCHRONUS || eptype = (USB_EPTYPE_BULK ||| USB_EPTYPE_DBLBUF)

/-- The scan of `get_next_pma` over one descriptor entry whose two offset
words sit at `rxa` and `txa`. -/
def pma_scan_step (m : Nat → Nat) (rxa txa r : Nat) : Nat :=
  let r1 := if rd16 m rxa ≠ 0 ∧ rd16 m rxa < r then rd16 m rxa else r
  if rd16 m txa ≠ 0 ∧ rd16 m txa < r1 then rd16 m txa else r1

/-- The copy loop of `pma_write`; `stride` is the distance in bytes between
consecutive packet-memory words (2 in v0, 4 in v1), `p` the read position in
the caller's buffer. -/
def pma_write_loop (stride : Nat) (buf : Nat → Nat) :
    Nat → Nat → Nat → (Nat → Nat) → (Nat → Nat)
  | 0, _, _, m => m
  | 1, p, pma, m => wr16 m pma (buf p)
  | n + 2, p, pma, m =>
    pma_write_loop stride buf n (p + 2) (pma + stride)
      (wr16 m pma ((buf (p + 1) <<< 8) ||| buf p))

/-- The copy loop of `pma_read`; `p` is the write position in the caller's
buffer. -/
def pma_read_loop (stride : Nat) (m : Nat → Nat) :
    Nat → Nat → Nat → (Nat → Nat) → (Nat → Nat)
  | 0, _, _, buf => buf
  | 1, p, pma, buf => wr8 buf p (rd16 m pma &&& 0xFF)
  | n + 2, p, pma, buf =>
    pma_read_loop stride m n (p + 2) (pma + stride)
      (wr8 (wr8 buf p (rd16 m pma &&& 0xFF)) (p + 1) (rd16 m pma >>> 8))

/-- Stall control, `ep_setstall(ep, stall)`; the text is the same in both
revisions. -/
def ep_setstall (s : State) (ep : Nat) (stall : Bool) : State :=
  let reg := EPR ep
  if USB_EP_ISOCHRONOUS = (reg_rd s reg &&& USB_EP_T_FIELD) then s
  else if ep &&& 0x80 ≠ 0 then
    if USB_EP_TX_DIS = (reg_rd s reg &&& USB_EPTX_STAT) then s
    else if stall then EP_TX_STALL s reg
    else if (USB_EP_KIND ||| USB_EP_BULK) =
        (reg_rd s reg &&& (USB_EP_T_FIELD ||| USB_EP_KIND)) then
      EP_DTX_UNSTALL s reg
    else EP_TX_UNSTALL s reg
  else
    if USB_EP_RX_DIS = (reg_rd s reg &&& USB_EPRX_STAT) then s
    else if stall then EP_RX_STALL s reg
    else if (USB_EP_KIND ||| USB_EP_BULK) =
        (reg_rd s reg &&& (USB_EP_T_FIELD ||| USB_EP_KIND)) then
      EP_DRX_UNSTALL s reg
    else EP_RX_UNSTALL s reg

/-- The query `ep_isstalled(ep)`; the text is the same in both revisions. -/
def ep_isstalled (s : State) (ep : Nat) : Bool :=
  if ep &&& 0x80 ≠ 0 then
    USB_EP_TX_STALL = (USB_EPTX_STAT &&& reg_rd s (EPR ep))
  else
    USB_EP_RX_STALL = (USB_EPRX_STAT &&& reg_rd s (EPR ep))

end Usb

open Usb

/-! ## Revision 0 (`usb_32v0.c`): descriptor rows of four 16-bit words -/

namespace V0

/-- Default of `usb_32v0.c`: `#define USB_PMASIZE 0x400`. -/
def USB_PMASIZE : Nat := 0x400

/-- Offset of the descriptor entry returned by `EPT(ep)`:
`(ep & 0x07) * 8 + USB_PMAADDR`. -/
def EPT (ep : Nat) : Nat := (ep &&& 0x07) * 8

/-- Member `tx` of `union pma_table` (first `pma_rec`). -/
def tx (tbl : Nat) : Nat := tbl
/-- Member `rx` of `union pma_table` (second `pma_rec`). -/
def rx (tbl : Nat) : Nat := tbl + 4
/-- Member `tx0`, the same storage as `tx`. -/
def tx0 (tbl : Nat) : Nat := tbl
/-- Member `tx1`, the same storage as `rx`. -/
def tx1 (tbl : Nat) : Nat := tbl + 4
/-- Member `rx0`, the same storage as `tx`. -/
def rx0 (tbl : Nat) : Nat := tbl
/-- Member `rx1`, the same storage as `rx`. -/
def rx1 (tbl : Nat) : Nat := tbl + 4
/-- Field `addr` of a `pma_rec`. -/
def addr (rec : Nat) : Nat := rec
/-- Field `cnt` of a `pma_rec`. -/
def cnt (rec : Nat) : Nat := rec + 2

/-- The loop of `get_next_pma`: the high-water mark, the smallest nonzero
recorded offset, starting from `USB_PMASIZE`. -/
def pma_mark (s : State) : Nat :=
  (List.range 8).foldl
    (fun r i => pma_scan_step s.pma (addr (rx (EPT i))) (addr (tx (EPT i))) r)
    USB_PMASIZE

/-- The allocator `get_next_pma(sz)`; `8 * sizeof(pma_table)` is `8 * 8`. -/
def get_next_pma (s : State) (sz : Nat) : Nat :=
  let _result := pma_mark s
  if _result < 8 * 8 + sz then 0 else (_result - sz) % 0x10000

/-- The block `if ((ep & 0x80) || (eptype == USB_EPTYPE_CONTROL)) { ... }` of
`ep_config`; the flag is `false` where the source returns `false`. -/
def ep_config_tx (s : State) (ep eptype epsize : Nat) : Bool × State :=
  let reg := EPR ep
  let tbl := EPT ep
  let _pma := get_next_pma s epsize
  if _pma = 0 then (false, s) else
  let s1 := pma_wr (pma_wr s (addr (tx tbl)) _pma) (cnt (tx tbl)) 0
  if is_dbl eptype then
    let _pma1 := get_next_pma s1 epsize
    if _pma1 = 0 then (false, s1) else
    let s2 := pma_wr (pma_wr s1 (addr (tx1 tbl)) _pma1) (cnt (tx1 tbl)) 0
    (true, EP_DTX_UNSTALL s2 reg)
  else
    (true, EP_TX_UNSTALL s1 reg)

/-- The block `if (!(ep & 0x80)) { ... }` of `ep_config`. -/
def ep_config_rx (s : State) (ep eptype epsize : Nat) : Bool × State :=
  let reg := EPR ep
  let tbl := EPT ep
  let _rxcnt := (ep_rxcnt epsize).1
  let epsize1 := (ep_rxcnt epsize).2
  let _pma := get_next_pma s epsize1
  if _pma = 0 then (false, s) else
  let s1 := pma_wr (pma_wr s (addr (rx tbl)) _pma) (cnt (rx tbl)) _rxcnt
  if is_dbl eptype then
    let _pma1 := get_next_pma s1 epsize1
    if _pma1 = 0 then (false, s1) else
    let s2 := pma_wr (pma_wr s1 (addr (rx0 tbl)) _pma1) (cnt (rx0 tbl)) _rxcnt
    (true, EP_DRX_UNSTALL s2 reg)
  else
    (true, EP_RX_UNSTALL s1 reg)

/-- Endpoint configuration `ep_config(ep, eptype, epsize)`: the returned flag
and the hardware state it leaves. -/
def ep_config (s : State) (ep eptype epsize : Nat) : Bool × State :=
  let epsize1 := ep_align epsize
  let s1 := reg_wr s (EPR ep) (ep_type_word ep eptype)
  let r1 :=
    if ep &&& 0x80 ≠ 0 ∨ eptype = USB_EPTYPE_CONTROL then
      ep_config_tx s1 ep eptype epsize1
    else (true, s1)
  if r1.1 = false then (false, r1.2)
  else if ep &&& 0x80 = 0 then ep_config_rx r1.2 ep eptype epsize1
  else (true, r1.2)

/-- Endpoint deconfiguration `ep_deconfig(ep)`; `~USB_EPREG_MASK` is `0x7070`
on the 16-bit register. -/
def ep_deconfig (s : State) (ep : Nat) : State :=
  let ept := EPT ep
  let s1 := reg_wr s (EPR ep) (reg_rd s (EPR ep) &&& 0x7070)
  pma_wr (pma_wr (pma_wr (pma_wr s1 (addr (rx ept)) 0) (cnt (rx ept)) 0)
    (addr (tx ept)) 0) (cnt (tx ept)) 0

/-- The routine `pma_read(buf, blen, rx)`: returned length, the caller's
buffer afterwards, and the state (`~0x3FF` is `0xFC00` on the 16-bit count). -/
def pma_read (s : State) (buf : Nat → Nat) (blen rec : Nat) :
    Nat × (Nat → Nat) × State :=
  let pma := rd16 s.pma (addr rec)
  let rxcnt := rd16 s.pma (cnt rec) &&& 0x03FF
  let s1 := pma_wr s (cnt rec) (rd16 s.pma (cnt rec) &&& 0xFC00)
  let blen1 := if blen > rxcnt then rxcnt else blen
  (blen1, pma_read_loop 2 s1.pma blen1 0 pma buf, s1)

/-- The routine `pma_write(buf, blen, tx)`. -/
def pma_write (s : State) (buf : Nat → Nat) (blen rec : Nat) : State :=
  let pma := rd16 s.pma (addr rec)
  let s1 := pma_wr s (cnt rec) blen
  { s1 with pma := pma_write_loop 2 buf blen 0 pma s1.pma }

/-- Results of a sequence of `ep_config` calls `(ep, eptype, epsize)` issued
one after the other. -/
def config_seq (s : State) : List (Nat × Nat × Nat) → List Bool
  | [] => []
  | c :: cs =>
    (ep_config s c.1 c.2.1 c.2.2).1 :: config_seq (ep_config s c.1 c.2.1 c.2.2).2 cs

end V0

/-! ## Revision 1 (`usb_32v1.c`): packet memory seen in 32-bit rows -/

namespace V1

/-- Default of `usb_32v1.c`: `#define USB_PMASIZE 0x200`. -/
def USB_PMASIZE : Nat := 0x200

/-- Offset of the descriptor entry returned by `EPT(ep)`:
`(ep & 0x07) * 16 + USB_PMAADDR`. -/
def EPT (ep : Nat) : Nat := (ep &&& 0x07) * 16

/-- Member `txadr` of `union pma_table`. -/
def txadr (tbl : Nat) : Nat := tbl
/-- Member `txcnt`. -/
def txcnt (tbl : Nat) : Nat := tbl + 4
/-- Member `rxadr`. -/
def rxadr (tbl : Nat) : Nat := tbl + 8
/-- Member `rxcnt`. -/
def rxcnt (tbl : Nat) : Nat := tbl + 12
/-- Member `txadr0`, the same storage as `txadr`. -/
def txadr0 (tbl : Nat) : Nat := tbl
/-- Member `txcnt0`. -/
def txcnt0 (tbl : Nat) : Nat := tbl + 4
/-- Member `txadr1`, the same storage as `rxadr`. -/
def txadr1 (tbl : Nat) : Nat := tbl + 8
/-- Member `txcnt1`. -/
def txcnt1 (tbl : Nat) : Nat := tbl + 12
/-- Member `rxadr0`, the same storage as `txadr`. -/
def rxadr0 (tbl : Nat) : Nat := tbl
/-- Member `rxcnt0`. -/
def rxcnt0 (tbl : Nat) : Nat := tbl + 4
/-- Member `rxadr1`, the same storage as `rxadr`. -/
def rxadr1 (tbl : Nat) : Nat := tbl + 8
/-- Member `rxcnt1`. -/
def rxcnt1 (tbl : Nat) : Nat := tbl + 12

/-- The loop of `get_next_pma`: the high-water mark. -/
def pma_mark (s : State) : Nat :=
  (List.range 8).foldl
    (fun r i => pma_scan_step s.pma (rxadr (EPT i)) (txadr (EPT i)) r)
    USB_PMASIZE

/-- The allocator `get_next_pma(sz)`; `4 * sizeof(pma_table)` is `4 * 16`. -/
def get_next_pma (s : State) (sz : Nat) : Nat :=
  let _result := pma_mark s
  if _result < 4 * 16 + sz then 0 else (_result - sz) % 0x10000

/-- The block `if ((ep & 0x80) || (eptype == USB_EPTYPE_CONTROL)) { ... }` of
`ep_config`; the flag is `false` where the source returns `false`. -/
def ep_config_tx (s : State) (ep eptype epsize : Nat) : Bool × State :=
  let reg := EPR ep
  let tbl := EPT ep
  let _pma := get_next_pma s epsize
  if _pma = 0 then (false, s) else
  if is_dbl eptype then
    let s1 := pma_wr s (txadr0 tbl) _pma
    let _pma1 := get_next_pma s1 epsize
    if _pma1 = 0 then (false, s1) else
    let s2 := pma_wr (pma_wr (pma_wr s1 (txadr1 tbl) _pma1) (txcnt0 tbl) 0) (txcnt1 tbl) 0
    (true, EP_DTX_UNSTALL s2 reg)
  else
    let s1 := pma_wr (pma_wr s (txadr tbl) _pma) (txcnt tbl) 0
    (true, EP_TX_UNSTALL s1 reg)

/-- The block `if (!(ep & 0x80)) { ... }` of `ep_config`. -/
def ep_config_rx (s : State) (ep eptype epsize : Nat) : Bool × State :=
  let reg := EPR ep
  let tbl := EPT ep
  let _rxcnt := (ep_rxcnt epsize).1
  let epsize1 := (ep_rxcnt epsize).2
  let _pma := get_next_pma s epsize1
  if _pma = 0 then (false, s) else
  if is_dbl eptype then
    let s1 := pma_wr s (rxadr0 tbl) _pma
    let _pma1 := get_next_pma s1 epsize1
    if _pma1 = 0 then (false, s1) else
    let s2 := pma_wr (pma_wr (pma_wr s1 (rxadr1 tbl) _pma1) (rxcnt0 tbl) _rxcnt)
      (rxcnt1 tbl) _rxcnt
    (true, EP_DRX_UNSTALL s2 reg)
  else
    let s1 := pma_wr (pma_wr s (rxadr tbl) _pma) (rxcnt tbl) _rxcnt
    (true, EP_RX_UNSTALL s1 reg)

/-- Endpoint configuration `ep_config(ep, eptype, epsize)`. -/
def ep_config (s : State) (ep eptype epsize : Nat) : Bool × State :=
  let epsize1 := ep_align epsize
  let s1 := reg_wr s (EPR ep) (ep_type_word ep eptype)
  let r1 :=
    if ep &&& 0x80 ≠ 0 ∨ eptype = USB_EPTYPE_CONTROL then
      ep_config_tx s1 ep eptype epsize1
    else (true, s1)
  if r1.1 = false then (false, r1.2)
  else if ep &&& 0x80 = 0 then ep_config_rx r1.2 ep eptype epsize1
  else (true, r1.2)

/-- Endpoint deconfiguration `ep_deconfig(ep)`. -/
def ep_deconfig (s : State) (ep : Nat) : State :=
  let ept := EPT ep
  let s1 := reg_wr s (EPR ep) (reg_rd s (EPR ep) &&& 0x7070)
  pma_wr (pma_wr (pma_wr (pma_wr s1 (rxadr ept) 0) (rxcnt ept) 0)
    (txadr ept) 0) (txcnt ept) 0

/-- The routine `pma_write(txadr, buf, blen)`: words go to every other 16-bit
cell (`pma += 2`), starting at `USB_PMAADDR + 2 * txadr`. -/
def pma_write (s : State) (txadr : Nat) (buf : Nat → Nat) (blen : Nat) : State :=
  { s with pma := pma_write_loop 4 buf blen 0 (2 * txadr) s.pma }

/-- The routine `pma_read(rxadr, buf, blen, rxlen)`: the caller's buffer
afterwards. -/
def pma_read (s : State) (rxadr : Nat) (buf : Nat → Nat) (blen rxlen : Nat) :
    Nat → Nat :=
  let blen1 := if blen > rxlen then rxlen else blen
  pma_read_loop 4 s.pma blen1 0 (2 * rxadr) buf

/-- Results of a sequence of `ep_config` calls `(ep, eptype, epsize)`. -/
def config_seq (s : State) : List (Nat × Nat × Nat) → List Bool
  | [] => []
  | c :: cs =>
    (ep_config s c.1 c.2.1 c.2.2).1 :: config_seq (ep_config s c.1 c.2.1 c.2.2).2 cs

end V1

/-! ## Accounting used in the statements -/

/-- Bytes one block of `ep_config` asks of the allocator: one request of `sz`
bytes, or two for an isochronous or double-buffered bulk endpoint. -/
def ep_need (eptype sz : Nat) : Nat := if is_dbl eptype then sz + sz else sz

/-- Bytes a whole `ep_config` call asks of the allocator when no request
fails: the TX block runs for an IN handle or a control endpoint with the
aligned size, the RX block for an OUT handle with the size its length
encoding yields. -/
def ep_total (ep eptype epsize : Nat) : Nat :=
  (if ep &&& 0x80 ≠ 0 ∨ eptype = USB_EPTYPE_CONTROL then
      ep_need eptype (ep_align epsize) else 0) +
  (if ep &&& 0x80 = 0 then ep_need eptype (ep_rxcnt (ep_align epsize)).2 else 0)

/-- Rounding a requested size up to even, as the statements count it. -/
def round_even (n : Nat) : Nat := n + n % 2

/-- Slots counted for a call in the capacity statement: two for a control
endpoint, two for an isochronous or double-buffered bulk endpoint, one
otherwise. -/
def claimed_slots (eptype : Nat) : Nat :=
  if eptype = USB_EPTYPE_CONTROL then 2 else if is_dbl eptype then 2 else 1

/-- Size counted for one call `(ep, eptype, epsize)`. -/
def claimed_size (c : Nat × Nat × Nat) : Nat := claimed_slots c.2.1 * round_even c.2.2

/-- Total size counted for a sequence of calls. -/
def claimed_total (cs : List (Nat × Nat × Nat)) : Nat := (cs.map claimed_size).sum

/-- All eight endpoints deconfigured (v0): every word of the descriptor table
is zero, as `ep_deconfig` leaves it. -/
def V0.deconfigured (s : State) : Prop :=
  ∀ ep, ep < 8 →
    rd16 s.pma (V0.addr (V0.tx (V0.EPT ep))) = 0 ∧ rd16 s.pma (V0.cnt (V0.tx (V0.EPT ep))) = 0 ∧
    rd16 s.pma (V0.addr (V0.rx (V0.EPT ep))) = 0 ∧ rd16 s.pma (V0.cnt (V0.rx (V0.EPT ep))) = 0

/-- All eight endpoints deconfigured (v1). -/
def V1.deconfigured (s : State) : Prop :=
  ∀ ep, ep < 8 →
    rd16 s.pma (V1.txadr (V1.EPT ep)) = 0 ∧ rd16 s.pma (V1.txcnt (V1.EPT ep)) = 0 ∧
    rd16 s.pma (V1.rxadr (V1.EPT ep)) = 0 ∧ rd16 s.pma (V1.rxcnt (V1.EPT ep)) = 0

instance (s : State) : Decidable (V0.deconfigured s) := by
  unfold V0.deconfigured; infer_instance

instance (s : State) : Decidable (V1.deconfigured s) := by
  unfold V1.deconfigured; infer_instance

/-- The state after power-on reset: registers and packet memory all zero. -/
def zero_state : State := { epr := fun _ => 0, pma := fun _ => 0 }

/-- A state whose entry 0 places its first slot at offset 64, right above the
descriptor table. -/
def slot64_state : State := { epr := fun _ => 0, pma := wr16 (fun _ => 0) 0 64 }

/-- Frame condition for endpoint `i` (v0): its register and the four words of
its descriptor entry are the same in `s2` as in `s`. -/
def V0.untouched (s s2 : State) (i : Nat) : Prop :=
  s2.epr i = s.epr i ∧
  rd16 s2.pma (V0.addr (V0.tx (V0.EPT i))) = rd16 s.pma (V0.addr (V0.tx (V0.EPT i))) ∧
  rd16 s2.pma (V0.cnt (V0.tx (V0.EPT i))) = rd16 s.pma (V0.cnt (V0.tx (V0.EPT i))) ∧
  rd16 s2.pma (V0.addr (V0.rx (V0.EPT i))) = rd16 s.pma (V0.addr (V0.rx (V0.EPT i))) ∧
  rd16 s2.pma (V0.cnt (V0.rx (V0.EPT i))) = rd16 s.pma (V0.cnt (V0.rx (V0.EPT i)))

/-- Frame condition for endpoint `i` (v1). -/
def V1.untouched (s s2 : State) (i : Nat) : Prop :=
  s2.epr i = s.epr i ∧
  rd16 s2.pma (V1.txadr (V1.EPT i)) = rd16 s.pma (V1.txadr (V1.EPT i)) ∧
  rd16 s2.pma (V1.txcnt (V1.EPT i)) = rd16 s.pma (V1.txcnt (V1.EPT i)) ∧
  rd16 s2.pma (V1.rxadr (V1.EPT i)) = rd16 s.pma (V1.rxadr (V1.EPT i)) ∧
  rd16 s2.pma (V1.rxcnt (V1.EPT i)) = rd16 s.pma (V1.rxcnt (V1.EPT i))

/-- The register value `r` carries the transfer type requested by `eptype`,
the kind bit exactly for double-buffered bulk, and the address `ep & 7`. -/
def type_committed (r ep eptype : Nat) : Prop :=
  (eptype = USB_EPTYPE_CONTROL → r &&& USB_EP_T_FIELD = USB_EP_CONTROL) ∧
  (eptype = USB_EPTYPE_ISOCHRONUS → r &&& USB_EP_T_FIELD = USB_EP_ISOCHRONOUS) ∧
  (eptype = USB_EPTYPE_BULK ∨ eptype = (USB_EPTYPE_BULK ||| USB_EPTYPE_DBLBUF) →
    r &&& USB_EP_T_FIELD = USB_EP_BULK) ∧
  (eptype = USB_EPTYPE_INTERRUPT → r &&& USB_EP_T_FIELD = USB_EP_INTERRUPT) ∧
  (r &&& USB_EP_KIND =
    if eptype = (USB_EPTYPE_BULK ||| USB_EPTYPE_DBLBUF) then USB_EP_KIND else 0) ∧
  r &&& USB_EPADDR_FIELD = ep &&& 0x07

instance (s s2 : State) (i : Nat) : Decidable (V0.untouched s s2 i) := by
  unfold V0.untouched; infer_instance

instance (s s2 : State) (i : Nat) : Decidable (V1.untouched s s2 i) := by
  unfold V1.untouched; infer_instance

instance (r ep eptype : Nat) : Decidable (type_committed r ep eptype) := by
  unfold type_committed; infer_instance

/-! ## Interrupt status, events, transfers -/

namespace Usb

/-- Modelled from the spec: `stm32.h` is missing; interrupt-status flag
"correct transfer" of `USB->ISTR`. -/
def USB_ISTR_CTR : Nat := 0x8000
/-- Modelled from the spec: `stm32.h` is missing; ISTR flag "error". -/
def USB_ISTR_ERR : Nat := 0x2000
/-- Modelled from the spec: `stm32.h` is missing; ISTR flag "wakeup". -/
def USB_ISTR_WKUP : Nat := 0x1000
/-- Modelled from the spec: `stm32.h` is missing; ISTR flag "suspend". -/
def USB_ISTR_SUSP : Nat := 0x0800
/-- Modelled from the spec: `stm32.h` is missing; ISTR flag "reset". -/
def USB_ISTR_RESET : Nat := 0x0400
/-- Modelled from the spec: `stm32.h` is missing; ISTR flag "start of
frame". -/
def USB_ISTR_SOF : Nat := 0x0200
/-- Modelled from the spec: `stm32.h` is missing; ISTR flag "expected start
of frame". -/
def USB_ISTR_ESOF : Nat := 0x0100
/-- Modelled from the spec: `stm32.h` is missing; ISTR field with the index of
the endpoint that completed a transfer. -/
def USB_ISTR_EP_ID : Nat := 0x000F
/-- Modelled from the spec: `stm32.h` is missing; CNTR bit "force
suspend". -/
def USB_CNTR_FSUSP : Nat := 0x0008

/-- Modelled from the spec: the stack header `usb.h` is not among the sources;
the nine event kinds of §3 that `evt_poll` hands to the callback. -/
inductive usbd_evt where
  | usbd_evt_reset
  | usbd_evt_sof
  | usbd_evt_susp
  | usbd_evt_wkup
  | usbd_evt_eptx
  | usbd_evt_eprx
  | usbd_evt_epsetup
  | usbd_evt_error
  | usbd_evt_esof
  deriving DecidableEq

open usbd_evt

/-- The statement `USB->ISTR &= ~flag` on the 16-bit register. -/
def istr_clear (s : State) (flag : Nat) : State :=
  { s with istr := s.istr &&& (0xFFFF ^^^ flag) }

/-- The branches of `evt_poll` below the transfer-complete one, the same text
in both revisions; `deconfig` is the revision's `ep_deconfig`.  The result is
the callback invocation made, if any (`callback(dev, _ev, _ep)` is the last
statement and is reached at most once), with the hardware state at that
moment. -/
def evt_poll_other (deconfig : State → Nat → State) (s : State) (_istr _ep : Nat) :
    Option (usbd_evt × Nat) × State :=
  if _istr &&& USB_ISTR_RESET ≠ 0 then
    let s1 := istr_clear s USB_ISTR_RESET
    let s2 := { s1 with btable := 0 }
    (some (usbd_evt_reset, _ep), (List.range 8).foldl deconfig s2)
  else if _istr &&& USB_ISTR_SOF ≠ 0 then
    (some (usbd_evt_sof, _ep), istr_clear s USB_ISTR_SOF)
  else if _istr &&& USB_ISTR_WKUP ≠ 0 then
    let s1 := { s with cntr := s.cntr &&& (0xFFFF ^^^ USB_CNTR_FSUSP) }
    (some (usbd_evt_wkup, _ep), istr_clear s1 USB_ISTR_WKUP)
  else if _istr &&& USB_ISTR_SUSP ≠ 0 then
    let s1 := { s with cntr := s.cntr ||| USB_CNTR_FSUSP }
    (some (usbd_evt_susp, _ep), istr_clear s1 USB_ISTR_SUSP)
  else if _istr &&& USB_ISTR_ESOF ≠ 0 then
    (some (usbd_evt_esof, _ep), istr_clear s USB_ISTR_ESOF)
  else if _istr &&& USB_ISTR_ERR ≠ 0 then
    (some (usbd_evt_error, _ep), istr_clear s USB_ISTR_ERR)
  else
    (none, s)

end Usb

open Usb.usbd_evt

namespace V0

/-- Event decoding `evt_poll(dev, callback)` of `usb_32v0.c`. -/
def evt_poll (s : State) : Option (usbd_evt × Nat) × State :=
  let _istr := s.istr
  let _ep := _istr &&& USB_ISTR_EP_ID
  if _istr &&& USB_ISTR_CTR ≠ 0 then
    let reg := EPR _ep
    if reg_rd s reg &&& USB_EP_CTR_TX ≠ 0 then
      let s1 := reg_wr s reg (reg_rd s reg &&& (USB_EPREG_MASK ^^^ USB_EP_CTR_TX))
      (some (usbd_evt_eptx, _ep ||| 0x80), s1)
    else
      let s1 := reg_wr s reg (reg_rd s reg &&& (USB_EPREG_MASK ^^^ USB_EP_CTR_RX))
      (some (if reg_rd s1 reg &&& USB_EP_SETUP ≠ 0 then usbd_evt_epsetup
        else usbd_evt_eprx, _ep), s1)
  else evt_poll_other ep_deconfig s _istr _ep

/-- Transfer read `ep_read(ep, buf, blen)`: the returned value (`-1` on
failure), the caller's buffer afterwards and the hardware state. -/
def ep_read (s : State) (ep : Nat) (buf : Nat → Nat) (blen : Nat) :
    Int × (Nat → Nat) × State :=
  let tbl := EPT ep
  let reg := EPR ep
  let key := reg_rd s reg &&& (USB_EPRX_STAT ||| USB_EP_T_FIELD ||| USB_EP_KIND)
  if key = (USB_EP_RX_VALID ||| USB_EP_BULK ||| USB_EP_KIND) then
    let sw := reg_rd s reg &&& (USB_EP_DTOG_RX ||| USB_EP_SWBUF_RX)
    let s1 :=
      if sw = 0 ∨ sw = (USB_EP_DTOG_RX ||| USB_EP_SWBUF_RX) then
        reg_wr s reg ((reg_rd s reg &&& USB_EPREG_MASK) ||| USB_EP_SWBUF_RX)
      else s
    let r :=
      if reg_rd s1 reg &&& USB_EP_SWBUF_RX ≠ 0 then pma_read s1 buf blen (rx1 tbl)
      else pma_read s1 buf blen (rx0 tbl)
    (Int.ofNat r.1, r.2.1, r.2.2)
  else if key = (USB_EP_RX_VALID ||| USB_EP_ISOCHRONOUS) then
    let r :=
      if reg_rd s reg &&& USB_EP_DTOG_RX ≠ 0 then pma_read s buf blen (rx1 tbl)
      else pma_read s buf blen (rx0 tbl)
    (Int.ofNat r.1, r.2.1, r.2.2)
  else if key = (USB_EP_RX_NAK ||| USB_EP_BULK) ∨ key = (USB_EP_RX_NAK ||| USB_EP_CONTROL) ∨
      key = (USB_EP_RX_NAK ||| USB_EP_INTERRUPT) then
    let r := pma_read s buf blen (rx tbl)
    (Int.ofNat r.1, r.2.1, EP_RX_VALID r.2.2 reg)
  else
    (-1, buf, s)

/-- Transfer write `ep_write(ep, buf, blen)`: the returned value (`-1` on
failure) and the hardware state. -/
def ep_write (s : State) (ep : Nat) (buf : Nat → Nat) (blen : Nat) : Int × State :=
  let tbl := EPT ep
  let reg := EPR ep
  let key := reg_rd s reg &&& (USB_EPTX_STAT ||| USB_EP_T_FIELD ||| USB_EP_KIND)
  if key = (USB_EP_TX_NAK ||| USB_EP_BULK ||| USB_EP_KIND) then
    let s1 :=
      if reg_rd s reg &&& USB_EP_SWBUF_TX ≠ 0 then pma_write s buf blen (tx1 tbl)
      else pma_write s buf blen (tx0 tbl)
    (Int.ofNat blen, reg_wr s1 reg ((reg_rd s1 reg &&& USB_EPREG_MASK) ||| USB_EP_SWBUF_TX))
  else if key = (USB_EP_TX_VALID ||| USB_EP_ISOCHRONOUS) then
    let s1 :=
      if ¬ (reg_rd s reg &&& USB_EP_DTOG_TX ≠ 0) then pma_write s buf blen (tx1 tbl)
      else pma_write s buf blen (tx0 tbl)
    (Int.ofNat blen, s1)
  else if key = (USB_EP_TX_NAK ||| USB_EP_BULK) ∨ key = (USB_EP_TX_NAK ||| USB_EP_CONTROL) ∨
      key = (USB_EP_TX_NAK ||| USB_EP_INTERRUPT) then
    (Int.ofNat blen, EP_TX_VALID (pma_write s buf blen (tx tbl)) reg)
  else
    (-1, s)

end V0

namespace V1

/-- Event decoding `evt_poll(dev, callback)` of `usb_32v1.c`. -/
def evt_poll (s : State) : Option (usbd_evt × Nat) × State :=
  let _istr := s.istr
  let _ep := _istr &&& USB_ISTR_EP_ID
  if _istr &&& USB_ISTR_CTR ≠ 0 then
    let reg := EPR _ep
    if reg_rd s reg &&& USB_EP_CTR_TX ≠ 0 then
      let s1 := reg_wr s reg (reg_rd s reg &&& (USB_EPREG_MASK ^^^ USB_EP_CTR_TX))
      (some (usbd_evt_eptx, _ep ||| 0x80), s1)
    else
      let s1 :=
        if (reg_rd s reg &&& (USB_EP_T_FIELD ||| USB_EP_KIND)) = (USB_EP_BULK ||| USB_EP_KIND) then
          reg_wr s reg
            ((reg_rd s reg &&& (USB_EPREG_MASK ^^^ USB_EP_CTR_RX)) ||| USB_EP_SWBUF_RX)
        else
          reg_wr s reg (reg_rd s reg &&& (USB_EPREG_MASK ^^^ USB_EP_CTR_RX))
      (some (if reg_rd s1 reg &&& USB_EP_SETUP ≠ 0 then usbd_evt_epsetup
        else usbd_evt_eprx, _ep), s1)
  else evt_poll_other ep_deconfig s _istr _ep

/-- Transfer read `ep_read(ep, buf, blen)`: the returned value `rxlen`, the
caller's buffer afterwards and the hardware state. -/
def ep_read (s : State) (ep : Nat) (buf : Nat → Nat) (blen : Nat) :
    Nat × (Nat → Nat) × State :=
  let tbl := EPT ep
  let reg := EPR ep
  let key := reg_rd s reg &&& (USB_EP_T_FIELD ||| USB_EP_KIND)
  if key = (USB_EP_BULK ||| USB_EP_KIND) then
    let rxbuf :=
      if reg_rd s reg &&& USB_EP_SWBUF_RX ≠ 0 then rd16 s.pma (rxadr1 tbl)
      else rd16 s.pma (rxadr0 tbl)
    let rxlen :=
      if reg_rd s reg &&& USB_EP_SWBUF_RX ≠ 0 then rd16 s.pma (rxcnt1 tbl) &&& 0x03FF
      else rd16 s.pma (rxcnt0 tbl) &&& 0x03FF
    (rxlen, pma_read s rxbuf buf blen rxlen, s)
  else if key = USB_EP_ISOCHRONOUS then
    let rxbuf :=
      if reg_rd s reg &&& USB_EP_DTOG_RX ≠ 0 then rd16 s.pma (rxadr0 tbl)
      else rd16 s.pma (rxadr1 tbl)
    let rxlen :=
      if reg_rd s reg &&& USB_EP_DTOG_RX ≠ 0 then rd16 s.pma (rxcnt0 tbl) &&& 0x03FF
      else rd16 s.pma (rxcnt1 tbl) &&& 0x03FF
    (rxlen, pma_read s rxbuf buf blen rxlen, s)
  else
    let rxbuf := rd16 s.pma (rxadr tbl)
    let rxlen := rd16 s.pma (rxcnt tbl) &&& 0x03FF
    (rxlen, pma_read s rxbuf buf blen rxlen, EP_RX_VALID s reg)

end V1

/-! ## Statement vocabulary for events and transfers -/

/-- Endpoint `i` reads back cleared (v0): its register is zero and so are the
four words of its descriptor entry. -/
def V0.ep_cleared (s : State) (i : Nat) : Prop :=
  s.epr i = 0 ∧
  rd16 s.pma (V0.addr (V0.tx (V0.EPT i))) = 0 ∧ rd16 s.pma (V0.cnt (V0.tx (V0.EPT i))) = 0 ∧
  rd16 s.pma (V0.addr (V0.rx (V0.EPT i))) = 0 ∧ rd16 s.pma (V0.cnt (V0.rx (V0.EPT i))) = 0

/-- Endpoint `i` reads back cleared (v1). -/
def V1.ep_cleared (s : State) (i : Nat) : Prop :=
  s.epr i = 0 ∧
  rd16 s.pma (V1.txadr (V1.EPT i)) = 0 ∧ rd16 s.pma (V1.txcnt (V1.EPT i)) = 0 ∧
  rd16 s.pma (V1.rxadr (V1.EPT i)) = 0 ∧ rd16 s.pma (V1.rxcnt (V1.EPT i)) = 0

instance (s : State) (i : Nat) : Decidable (V0.ep_cleared s i) := by
  unfold V0.ep_cleared; infer_instance

instance (s : State) (i : Nat) : Decidable (V1.ep_cleared s i) := by
  unfold V1.ep_cleared; infer_instance

/-- The decoding table of `evt_poll` as the statement gives it, for a poll
function `poll`: nothing pending gives no callback and no change; otherwise
exactly one callback, with the event of the first set flag in the order CTR,
RESET, SOF, WKUP, SUSP, ESOF, ERR (CTR giving one of the three transfer
events). -/
def poll_decodes (poll : State → Option (usbd_evt × Nat) × State) (s : State) : Prop :=
  (s.istr &&& USB_ISTR_CTR = 0 → s.istr &&& USB_ISTR_RESET = 0 →
    s.istr &&& USB_ISTR_SOF = 0 → s.istr &&& USB_ISTR_WKUP = 0 →
    s.istr &&& USB_ISTR_SUSP = 0 → s.istr &&& USB_ISTR_ESOF = 0 →
    s.istr &&& USB_ISTR_ERR = 0 → poll s = (none, s)) ∧
  (s.istr &&& USB_ISTR_CTR ≠ 0 →
    ∃ ep, (poll s).1 = some (usbd_evt_eptx, ep) ∨ (poll s).1 = some (usbd_evt_eprx, ep) ∨
      (poll s).1 = some (usbd_evt_epsetup, ep)) ∧
  (s.istr &&& USB_ISTR_CTR = 0 → s.istr &&& USB_ISTR_RESET ≠ 0 →
    (poll s).1 = some (usbd_evt_reset, s.istr &&& USB_ISTR_EP_ID)) ∧
  (s.istr &&& USB_ISTR_CTR = 0 → s.istr &&& USB_ISTR_RESET = 0 →
    s.istr &&& USB_ISTR_SOF ≠ 0 →
    (poll s).1 = some (usbd_evt_sof, s.istr &&& USB_ISTR_EP_ID)) ∧
  (s.istr &&& USB_ISTR_CTR = 0 → s.istr &&& USB_ISTR_RESET = 0 →
    s.istr &&& USB_ISTR_SOF = 0 → s.istr &&& USB_ISTR_WKUP ≠ 0 →
    (poll s).1 = some (usbd_evt_wkup, s.istr &&& USB_ISTR_EP_ID)) ∧
  (s.istr &&& USB_ISTR_CTR = 0 → s.istr &&& USB_ISTR_RESET = 0 →
    s.istr &&& USB_ISTR_SOF = 0 → s.istr &&& USB_ISTR_WKUP = 0 →
    s.istr &&& USB_ISTR_SUSP ≠ 0 →
    (poll s).1 = some (usbd_evt_susp, s.istr &&& USB_ISTR_EP_ID)) ∧
  (s.istr &&& USB_ISTR_CTR = 0 → s.istr &&& USB_ISTR_RESET = 0 →
    s.istr &&& USB_ISTR_SOF = 0 → s.istr &&& USB_ISTR_WKUP = 0 →
    s.istr &&& USB_ISTR_SUSP = 0 → s.istr &&& USB_ISTR_ESOF ≠ 0 →
    (poll s).1 = some (usbd_evt_esof, s.istr &&& USB_ISTR_EP_ID)) ∧
  (s.istr &&& USB_ISTR_CTR = 0 → s.istr &&& USB_ISTR_RESET = 0 →
    s.istr &&& USB_ISTR_SOF = 0 → s.istr &&& USB_ISTR_WKUP = 0 →
    s.istr &&& USB_ISTR_SUSP = 0 → s.istr &&& USB_ISTR_ESOF = 0 →
    s.istr &&& USB_ISTR_ERR ≠ 0 →
    (poll s).1 = some (usbd_evt_error, s.istr &&& USB_ISTR_EP_ID))

/-- What the statement says of a transfer-complete poll, for a poll function
`poll`: the endpoint index is the EP_ID field of ISTR; a set CTR_TX gives
tx-complete with handle `index | 0x80` and leaves CTR_RX as it was; otherwise
the SETUP flag decides between setup-received and rx-complete, with handle
`index`. -/
def poll_reports_transfer (poll : State → Option (usbd_evt × Nat) × State) (s : State) :
    Prop :=
  (s.epr (EPR (s.istr &&& USB_ISTR_EP_ID)) &&& USB_EP_CTR_TX ≠ 0 →
    (poll s).1 = some (usbd_evt_eptx, (s.istr &&& USB_ISTR_EP_ID) ||| 0x80) ∧
    (poll s).2.epr (EPR (s.istr &&& USB_ISTR_EP_ID)) &&& USB_EP_CTR_RX =
      s.epr (EPR (s.istr &&& USB_ISTR_EP_ID)) &&& USB_EP_CTR_RX) ∧
  (s.epr (EPR (s.istr &&& USB_ISTR_EP_ID)) &&& USB_EP_CTR_TX = 0 →
    (s.epr (EPR (s.istr &&& USB_ISTR_EP_ID)) &&& USB_EP_SETUP ≠ 0 →
      (poll s).1 = some (usbd_evt_epsetup, s.istr &&& USB_ISTR_EP_ID)) ∧
    (s.epr (EPR (s.istr &&& USB_ISTR_EP_ID)) &&& USB_EP_SETUP = 0 →
      (poll s).1 = some (usbd_evt_eprx, s.istr &&& USB_ISTR_EP_ID)))

/-- A state with a bus reset pending: ISTR holds RESET and SOF, registers and
packet memory hold arbitrary non-zero values. -/
def reset_pending_state : State where
  epr := fun _ => 0x3630
  pma := fun _ => 0x5A
  istr := 0x0600
  btable := 0x40

/-- A state with a transfer pending on endpoint 1 whose register has both
CTR_RX and CTR_TX set. -/
def ctr_pending_state : State where
  epr := fun i => if i = 1 then 0x80A0 else 0
  pma := fun _ => 0
  istr := 0x8001

/-- A single-buffered bulk OUT endpoint 1 (v0) holding a received packet:
register `RX_NAK | BULK`, RX slot at offset 64, stored count 3, slot bytes
`11 22 33 44`. -/
def single_rx_state : State where
  epr := fun _ => 0x2000
  pma := fun x =>
    if x = 12 then 64 else if x = 14 then 3
    else if x = 64 then 0x11 else if x = 65 then 0x22
    else if x = 66 then 0x33 else if x = 67 then 0x44 else 0

/-- A double-buffered bulk OUT endpoint 1 (v0) whose RX status is NAK:
register `RX_NAK | BULK | KIND`. -/
def dbl_rx_nak_state : State where
  epr := fun _ => 0x2100
  pma := fun x => if x = 8 then 64 else if x = 10 then 3 else if x = 12 then 128 else 0

/-- A double-buffered bulk OUT endpoint 1 (v0) whose RX status is VALID:
register `RX_VALID | BULK | KIND`. -/
def dbl_rx_valid_state : State where
  epr := fun _ => 0x3100
  pma := fun x => if x = 8 then 64 else if x = 10 then 3 else if x = 12 then 128 else 0

/-- A single-buffered OUT endpoint 1 (v1) holding a received packet of eight
bytes: RX slot offset 64 (CPU offset 128), stored count 8, slot words
`0x2211`, `0x4433`. -/
def short_read_state : State where
  epr := fun _ => 0
  pma := fun x =>
    if x = 24 then 64 else if x = 28 then 8
    else if x = 128 then 0x11 else if x = 129 then 0x22
    else if x = 132 then 0x33 else if x = 133 then 0x44 else 0

/-- A single-buffered bulk IN endpoint 1 (v0) with TX status NAK and its TX
slot at offset 64. -/
def tx_ready_state : State where
  epr := fun _ => 0x0020
  pma := fun x => if x = 8 then 64 else 0

/-- The payload `AA BB CC`. -/
def payload3 : Nat → Nat := fun i => if i = 0 then 0xAA else if i = 1 then 0xBB
  else if i = 2 then 0xCC else 0

/-! ## Example states for stall control -/

/-- A single-buffered bulk IN endpoint 1 that is stalled with both data
toggles set: register `DTOG_RX | DTOG_TX | TX_STALL`, type bulk. -/
def stalled_in_state : State where
  epr := fun _ => 0x4050
  pma := fun _ => 0

/-! ## Statement vocabulary for the allocator -/

/-- The sixteen slot offsets recorded in the descriptor table (v0): `rx.addr`
and `tx.addr` of the eight entries, which is also where `rx0`/`rx1` and
`tx0`/`tx1` keep theirs. -/
def V0.recorded_offsets (s : State) : List Nat :=
  (List.range 8).map (fun i => rd16 s.pma (V0.addr (V0.rx (V0.EPT i)))) ++
  (List.range 8).map (fun i => rd16 s.pma (V0.addr (V0.tx (V0.EPT i))))

/-- The sixteen slot offsets recorded in the descriptor table (v1). -/
def V1.recorded_offsets (s : State) : List Nat :=
  (List.range 8).map (fun i => rd16 s.pma (V1.rxadr (V1.EPT i))) ++
  (List.range 8).map (fun i => rd16 s.pma (V1.txadr (V1.EPT i)))

/-- A descriptor table with one slot recorded: offset `0x3C0` in `tx.addr` /
`txadr` of entry 0. -/
def one_slot_state : State where
  epr := fun _ => 0
  pma := fun x => if x = 0 then 0xC0 else if x = 1 then 0x03 else 0

/-! ## `ep_write` (v1) -/

namespace V1

/-- The statements `tbl->txcnt = blen; txbuf = tbl->txadr;` and the call
`pma_write(txbuf, buf, blen)` that `ep_write` runs on the pair of descriptor
words it has selected (`cntw` the count word, `adrw` the offset word). -/
def tx_store (s : State) (cntw adrw : Nat) (buf : Nat → Nat) (blen : Nat) : State :=
  let s1 := pma_wr s cntw blen
  let txbuf := rd16 s1.pma adrw
  pma_write s1 txbuf buf blen

/-- Transfer write `ep_write(ep, buf, blen)`: the returned value `blen` and
the hardware state. -/
def ep_write (s : State) (ep : Nat) (buf : Nat → Nat) (blen : Nat) : Nat × State :=
  let tbl := EPT ep
  let reg := EPR ep
  let s1 :=
    if reg_rd s reg &&& (USB_EP_T_FIELD ||| USB_EP_KIND) = (USB_EP_BULK ||| USB_EP_KIND) then
      if reg_rd s reg &&& USB_EP_SWBUF_TX ≠ 0 then
        tx_store s (txcnt1 tbl) (txadr1 tbl) buf blen
      else tx_store s (txcnt0 tbl) (txadr0 tbl) buf blen
    else if reg_rd s reg &&& (USB_EP_T_FIELD ||| USB_EP_KIND) = USB_EP_ISOCHRONOUS then
      if reg_rd s reg &&& USB_EP_DTOG_TX ≠ 0 then
        tx_store s (txcnt0 tbl) (txadr0 tbl) buf blen
      else tx_store s (txcnt1 tbl) (txadr1 tbl) buf blen
    else tx_store s (txcnt tbl) (txadr tbl) buf blen
  let s2 :=
    if reg_rd s1 reg &&& (USB_EP_T_FIELD ||| USB_EP_KIND) = (USB_EP_BULK ||| USB_EP_KIND) then
      reg_wr s1 reg ((reg_rd s1 reg &&& USB_EPREG_MASK) ||| USB_EP_SWBUF_TX)
    else if reg_rd s1 reg &&& (USB_EP_T_FIELD ||| USB_EP_KIND) = USB_EP_ISOCHRONOUS then s1
    else EP_TX_VALID s1 reg
  (blen, s2)

end V1

/-- A double-buffered bulk IN endpoint 1 with TX status NAK and SWBUF_TX
clear: register `TX_NAK | BULK | KIND`; slot 0 at offset 64 and slot 1 at
offset 128 in the descriptor entry of either revision. -/
def dbl_tx_state : State where
  epr := fun _ => 0x0120
  pma := fun x => if x = 8 then 64 else if x = 12 then 128
    else if x = 16 then 64 else if x = 24 then 128 else 0

/-! ## Serial number descriptor -/

namespace Usb

/-- Modelled from the spec: the stack header `usb.h` is not among the sources;
descriptor type code of a string descriptor ("byte1=type(0x03 STRING)"). -/
def USB_DTYPE_STRING : Nat := 0x03

/-- The loop of `fnv1a32_turn(fnv, data)` with `n` rounds to go; `fnv` is a
`uint32_t`. -/
def fnv1a32_loop : Nat → Nat → Nat → Nat
  | 0, fnv, _ => fnv
  | n + 1, fnv, data =>
    fnv1a32_loop n (((fnv ^^^ (data &&& 0xFF)) * 16777619) % 0x100000000) (data >>> 8)

/-- The routine `fnv1a32_turn(fnv, data)`. -/
def fnv1a32_turn (fnv data : Nat) : Nat := fnv1a32_loop 4 fnv data

/-- The hash `get_serialno_desc` computes in its first four statements; `uid`
gives the word stored at an offset from `UID_BASE`, read as `uint32_t`. -/
def serial_hash (uid : Nat → Nat) : Nat :=
  let fnv := 2166136261
  let fnv1 := fnv1a32_turn fnv (uid 0x00 % 0x100000000)
  let fnv2 := fnv1a32_turn fnv1 (uid 0x04 % 0x100000000)
  fnv1a32_turn fnv2 (uid 0x14 % 0x100000000)

/-- The loop `for (i = 28; i >= 0; i -= 4)` of `get_serialno_desc` with
`n + 1` rounds to go, where `i = 4 * n`; `str` is the position of the next
code unit, `c` a `uint16_t`, `'0'` is 48 and `'A' - 10` is 55. -/
def hex_loop (fnv : Nat) : Nat → Nat → (Nat → Nat) → (Nat → Nat)
  | 0, _, b => b
  | n + 1, str, b =>
    let c := (fnv >>> (4 * n)) &&& 0x0F
    let c1 := (c + (if c < 10 then 48 else 55)) % 0x10000
    hex_loop fnv n (str + 2) (wr16 b str c1)

/-- Modelled from the spec: `struct usb_string_descriptor` is declared in the
missing `usb.h`; its layout is "byte0=length, byte1=type, then little-endian
UTF-16 code units", so `bLength` is byte 0, `bDescriptorType` byte 1 and
`wString` starts at byte 2. The routine `get_serialno_desc(buffer)`: the
returned length and the buffer afterwards. -/
def get_serialno_desc (uid : Nat → Nat) (buffer : Nat → Nat) : Nat × (Nat → Nat) :=
  let fnv := serial_hash uid
  let b1 := hex_loop fnv 8 2 buffer
  let b2 := wr8 b1 1 USB_DTYPE_STRING
  let b3 := wr8 b2 0 18
  (18, b3)

/-- The four bytes of a 32-bit word, least significant first. -/
def le_bytes32 (w : Nat) : List Nat :=
  [w % 256, w / 256 % 256, w / 65536 % 256, w / 16777216 % 256]

/-- 32-bit FNV-1a as the statement gives it: start from the offset basis
2166136261 and for each byte XOR it in, then multiply by the prime 16777619
modulo `2^32`. -/
def fnv1a32 (bytes : List Nat) : Nat :=
  bytes.foldl (fun h b => ((h ^^^ b) * 16777619) % 2 ^ 32) 2166136261

/-- Value of an uppercase hexadecimal digit given by its character code. -/
def hex_value (c : Nat) : Nat := if c ≤ 57 then c - 48 else c - 55

/-- The number the eight code units of a descriptor spell, most significant
digit first. -/
def serial_digits (b : Nat → Nat) : Nat :=
  (List.range 8).foldl (fun acc k => 16 * acc + hex_value (rd16 b (2 + 2 * k))) 0

/-- The unique-ID region with all three words zero. -/
def uid_zero : Nat → Nat := fun _ => 0

end Usb

/-! ## Statement vocabulary for acknowledgement -/

/-- Going from `s` to `s2`, the ISTR bits of `flag` have been cleared and every
other ISTR bit is as it was. -/
def acks_only (s s2 : State) (flag : Nat) : Prop :=
  s2.istr &&& flag = 0 ∧ s2.istr &&& (0xFFFF ^^^ flag) = s.istr &&& (0xFFFF ^^^ flag)

instance (s s2 : State) (flag : Nat) : Decidable (acks_only s s2 flag) := by
  unfold acks_only; infer_instance

/-- A state with start-of-frame, suspend and error pending at once. -/
def sof_pending_state : State where
  epr := fun _ => 0x3630
  pma := fun _ => 0
  istr := 0x2A00

/-- A single-buffered bulk OUT endpoint 1 (v0) in RX status NAK whose count
word holds the capacity encoding of a 64-byte slot and a stored count of 3:
`rx.addr = 64`, `rx.cnt = 0x8403`, slot bytes `11 22 33`. -/
def counted_rx_state : State where
  epr := fun _ => 0x2000
  pma := fun x =>
    if x = 12 then 64 else if x = 14 then 0x03 else if x = 15 then 0x84
    else if x = 64 then 0x11 else if x = 65 then 0x22 else if x = 66 then 0x33 else 0

/-! ## Statement vocabulary and example states for the closing claims -/

/-- The `len` bytes from offset `lo` lie above the 64-byte descriptor table,
inside a packet memory of `cap` bytes, and off every slot of `slots`, each
given as (offset, size). -/
def free_run (slots : List (Nat × Nat)) (lo len cap : Nat) : Prop :=
  64 ≤ lo ∧ lo + len ≤ cap ∧ ∀ p ∈ slots, p.1 + p.2 ≤ lo ∨ lo + len ≤ p.1

instance (slots : List (Nat × Nat)) (lo len cap : Nat) :
    Decidable (free_run slots lo len cap) := by
  unfold free_run; infer_instance

/-- The power-on state after `ep_config(0x81, BULK, 512)` (v0). -/
def frag_state1 : State := (V0.ep_config zero_state 0x81 USB_EPTYPE_BULK 512).2

/-- Then `ep_config(0x82, BULK, 64)`. -/
def frag_state2 : State := (V0.ep_config frag_state1 0x82 USB_EPTYPE_BULK 64).2

/-- Then `ep_deconfig(0x81)`: endpoint 2 keeps its 64-byte slot, the 512 bytes
of endpoint 1 above it are no longer recorded. -/
def frag_state : State := V0.ep_deconfig frag_state2 0x81

/-- An isochronous OUT endpoint 1 with RX status VALID and DTOG_RX set, laid
out for both revisions at once: the v0 entry (bytes 8..15) has `rx0` at offset
64 and `rx1` at offset 128, the v1 entry (bytes 16..31) has `rxadr0 = 32` and
`rxadr1 = 64`, which are the same CPU offsets 64 and 128; both counts are 2;
slot 0 holds `A0 A1` and slot 1 holds `B0 B1`. -/
def iso_rx_state : State where
  epr := fun _ => 0x7400
  pma := fun x =>
    if x = 8 then 64 else if x = 10 then 2 else if x = 12 then 128 else if x = 14 then 2
    else if x = 16 then 32 else if x = 20 then 2 else if x = 24 then 64
    else if x = 28 then 2
    else if x = 64 then 0xA0 else if x = 65 then 0xA1
    else if x = 128 then 0xB0 else if x = 129 then 0xB1 else 0

/-- The same endpoint with DTOG_RX clear. -/
def iso_rx_state0 : State where
  epr := fun _ => 0x3400
  pma := iso_rx_state.pma

/-- A single-buffered bulk IN endpoint 1 whose previous packet is still
pending (TX status VALID, count 2), with its TX slot at CPU offset 64 in
either revision (`tx.addr = 64` in the v0 entry, `txadr = 32` in the v1
entry); endpoint 2 is disabled. -/
def tx_busy_state : State where
  epr := fun i => if i = 1 then 0x0030 else 0
  pma := fun x =>
    if x = 8 then 64 else if x = 10 then 2 else if x = 16 then 32 else if x = 20 then 2
    else if x = 64 then 0x11 else if x = 65 then 0x22 else 0

/-! ## Statement vocabulary for slots and length encodings -/

/-- The RX length encoding as the statements give it, for a size already
rounded up to even: up to 62 bytes the size shifted left by 9 (the number of
2-byte blocks in bits 14..10); above 62 bytes the flag bit 15 and, in bits
14..10, the number of 32-byte blocks that hold the size, less one. -/
def rx_len_encoding (sz : Nat) : Nat :=
  if sz ≤ 62 then sz <<< 9 else 0x8000 ||| (((sz + 31) / 32 - 1) <<< 10)

/-- The mark as the statement words it: the smallest nonzero offset among
`offs`, or `cap` if every offset is 0. -/
def smallest_nonzero_or (offs : List Nat) (cap : Nat) : Nat :=
  match offs.filter (fun a => a ≠ 0) with
  | [] => cap
  | a :: l => l.foldl min a

/-- The power-on state after `ep_config(0x81, BULK, 64)` (v0): a
single-buffered bulk IN endpoint 1 in TX status NAK whose slot the allocator
placed at offset 960. -/
def tx_config_state : State := (V0.ep_config zero_state 0x81 USB_EPTYPE_BULK 64).2

/-- A single-buffered OUT endpoint 1 (v1) whose RX record points at the slot
at offset 64 with a stored count of 3, as after the reception of a three-byte
packet. -/
def rx3_state : State where
  epr := fun _ => 0x2000
  pma := fun x => if x = 24 then 64 else if x = 28 then 3 else 0

/-- The `len` bytes of `buf` sit in the memory `m` from CPU offset `base`, two
per 16-bit word with the low byte first, the words `stride` bytes apart; an
odd last byte sits in its word with a zero high byte. -/
def slot_holds (m : Nat → Nat) (base stride : Nat) (buf : Nat → Nat) (len : Nat) : Prop :=
  ∀ k, k < len →
    (2 * k + 1 < len → rd16 m (base + stride * k) = buf (2 * k) + 256 * buf (2 * k + 1)) ∧
    (2 * k + 1 = len → rd16 m (base + stride * k) = buf (2 * k))

instance (m : Nat → Nat) (base stride : Nat) (buf : Nat → Nat) (len : Nat) :
    Decidable (slot_holds m base stride buf len) := by
  unfold slot_holds; infer_instance

/-- The payload `11 22`. -/
def payload2 : Nat → Nat := fun i => if i = 0 then 0x11 else if i = 1 then 0x22 else 0

/-- Every offset recorded in the descriptor table (v0) is a slot offset: 0 for
an unallocated slot, or a value in the range the allocator returns, at least
64 and at most `USB_PMASIZE`. -/
def V0.offsets_allocated (s : State) : Prop :=
  ∀ a ∈ V0.recorded_offsets s, a = 0 ∨ (64 ≤ a ∧ a ≤ V0.USB_PMASIZE)

/-- Every offset recorded in the descriptor table (v1) is a slot offset. -/
def V1.offsets_allocated (s : State) : Prop :=
  ∀ a ∈ V1.recorded_offsets s, a = 0 ∨ (64 ≤ a ∧ a ≤ V1.USB_PMASIZE)

instance (s : State) : Decidable (V0.offsets_allocated s) := by
  unfold V0.offsets_allocated; infer_instance

instance (s : State) : Decidable (V1.offsets_allocated s) := by
  unfold V1.offsets_allocated; infer_instance

/-! # Theorems -/

/-! ## Byte memory -/

namespace Usb

theorem rd16_lt (m : Nat → Nat) (a : Nat) : rd16 m a < 65536 := by
  unfold rd16; omega

theorem rd16_wr16_same (m : Nat → Nat) (a v : Nat) :
    rd16 (wr16 m a v) a = v % 65536 := by
  simp only [rd16, wr16, if_true, Nat.succ_ne_self, if_false]; omega

theorem rd16_wr16_other (m : Nat → Nat) (a v b : Nat) (h : b + 1 < a ∨ a + 1 < b) :
    rd16 (wr16 m a v) b = rd16 m b := by
  have h1 : b ≠ a := by omega
  have h2 : b ≠ a + 1 := by omega
  have h3 : b + 1 ≠ a := by omega
  have h4 : b + 1 ≠ a + 1 := by omega
  simp only [rd16, wr16, h1, h2, h3, h4, if_false]

theorem wr16_other (m : Nat → Nat) (a v x : Nat) (h1 : x ≠ a) (h2 : x ≠ a + 1) :
    wr16 m a v x = m x := by
  simp only [wr16, h1, h2, if_false]

theorem rd16_congr (m1 m2 : Nat → Nat) (a : Nat) (h0 : m1 a = m2 a)
    (h1 : m1 (a + 1) = m2 (a + 1)) : rd16 m1 a = rd16 m2 a := by
  simp only [rd16, h0, h1]

theorem and7_lt (ep : Nat) : ep &&& 0x07 < 8 :=
  Nat.and_lt_two_pow ep (show 7 < 2 ^ 3 by norm_num)

theorem and_3ff (x : Nat) : x &&& 0x03FF = x % 1024 :=
  Nat.and_pow_two_sub_one_eq_mod x 10

/-- The word `buf[1] << 8 | buf[0]` of two bytes. -/
theorem word_of_bytes (lo hi : Nat) (hlo : lo < 256) :
    (hi <<< 8) ||| lo = 256 * hi + lo := by
  rw [Nat.shiftLeft_eq, Nat.mul_comm]
  exact (Nat.mul_add_lt_is_or (show lo < 2 ^ 8 from hlo) hi).symm

theorem and_ff (x : Nat) : x &&& 0xFF = x % 256 :=
  Nat.and_pow_two_sub_one_eq_mod x 8

theorem shr8 (x : Nat) : x >>> 8 = x / 256 :=
  Nat.shiftRight_eq_div_pow x 8

/-- The write loop leaves every byte below its start address alone. -/
theorem pma_write_loop_below (st : Nat) (buf : Nat → Nat) :
    ∀ (n p a : Nat) (m : Nat → Nat) (x : Nat), x < a →
      pma_write_loop st buf n p a m x = m x := by
  intro n
  induction n using Nat.strong_induction_on with
  | _ n ih =>
    intro p a m x hx
    match n with
    | 0 => rfl
    | 1 =>
      simp only [pma_write_loop]
      exact wr16_other m a _ x (by omega) (by omega)
    | k + 2 =>
      simp only [pma_write_loop]
      rw [ih k (by omega) (p + 2) (a + st) _ x (by omega)]
      exact wr16_other m a _ x (by omega) (by omega)

/-- Reading back what the write loop stored: if `m2` agrees from `a` upwards
with the memory the write loop produced, the read loop delivers the `n` bytes
of `buf` and touches nothing else in the output buffer. -/
theorem pma_read_loop_write_loop (st : Nat) (hst : 2 ≤ st) (buf : Nat → Nat) :
    ∀ (n p a : Nat) (m m2 : Nat → Nat) (q : Nat) (out : Nat → Nat),
      (∀ j, j < n → buf (p + j) < 256) →
      (∀ x, a ≤ x → m2 x = pma_write_loop st buf n p a m x) →
      ∀ j, pma_read_loop st m2 n q a out j =
        if q ≤ j ∧ j < q + n then buf (p + (j - q)) else out j := by
  intro n
  induction n using Nat.strong_induction_on with
  | _ n ih =>
    intro p a m m2 q out hb hm j
    match n with
    | 0 =>
      simp only [pma_read_loop]
      rw [if_neg (by omega)]
    | 1 =>
      have e0 : m2 a = buf p % 256 := by
        rw [hm a (le_refl a)]; simp [pma_write_loop, wr16]
      have hb0 : buf p < 256 := by simpa using hb 0 (by omega)
      simp only [pma_read_loop, wr8, rd16, and_ff, e0]
      by_cases hj : j = q
      · subst hj
        rw [if_pos rfl, if_pos (by omega)]
        simp only [Nat.sub_self, Nat.add_zero]
        omega
      · rw [if_neg hj, if_neg (by omega)]
    | k + 2 =>
      have hb0 : buf p < 256 := by simpa using hb 0 (by omega)
      have hb1 : buf (p + 1) < 256 := hb 1 (by omega)
      have e0 : m2 a = ((buf (p + 1) <<< 8) ||| buf p) % 256 := by
        rw [hm a (le_refl a)]
        simp only [pma_write_loop]
        rw [pma_write_loop_below st buf k (p + 2) (a + st) _ a (by omega)]
        simp [wr16]
      have e1 : m2 (a + 1) = ((buf (p + 1) <<< 8) ||| buf p) / 256 % 256 := by
        rw [hm (a + 1) (by omega)]
        simp only [pma_write_loop]
        rw [pma_write_loop_below st buf k (p + 2) (a + st) _ (a + 1) (by omega)]
        simp [wr16]
      rw [word_of_bytes _ _ hb0] at e0 e1
      have hr : rd16 m2 a = 256 * buf (p + 1) + buf p := by
        simp only [rd16, e0, e1]; omega
      simp only [pma_read_loop]
      rw [ih k (by omega) (p + 2) (a + st) (wr16 m a ((buf (p + 1) <<< 8) ||| buf p)) m2
        (q + 2) _ (fun i hi => by
          have := hb (i + 2) (by omega)
          rwa [show p + (i + 2) = p + 2 + i by omega] at this)
        (fun x hx => by rw [hm x (by omega)]; simp only [pma_write_loop]) j]
      simp only [wr8, hr, and_ff, shr8]
      by_cases h1 : q + 2 ≤ j ∧ j < q + 2 + k
      · rw [if_pos h1, if_pos (by omega)]
        congr 1; omega
      · rw [if_neg h1]
        by_cases h2 : j = q + 1
        · subst h2
          rw [if_pos rfl, if_pos (by omega)]
          rw [show p + (q + 1 - q) = p + 1 by omega]
          omega
        · rw [if_neg h2]
          by_cases h3 : j = q
          · subst h3
            rw [if_pos rfl, if_pos (by omega)]
            simp only [Nat.sub_self, Nat.add_zero]
            omega
          · rw [if_neg h3, if_neg (by omega)]

end Usb

/-! ## C1: write / read round trip -/

namespace Usb

theorem map_range_getD (data : List Nat) (f : Nat → Nat)
    (h : ∀ j, j < data.length → f j = data.getD j 0) :
    (List.range data.length).map f = data := by
  apply List.ext_getElem
  · simp
  · intro i h1 h2
    simp only [List.getElem_map, List.getElem_range]
    rw [h i h2, List.getD_eq_getElem _ _ h2]

end Usb

namespace V0

/-- Round trip through one descriptor record whose slot lies above the
descriptor table. -/
theorem pma_round_trip (s : State) (buf out : Nat → Nat) (n rec : Nat)
    (hb : ∀ j, j < n → buf j < 256) (hn : n ≤ 1023) (hrec : rec + 4 ≤ 64)
    (ha : 64 ≤ rd16 s.pma (addr rec)) :
    (pma_read (pma_write s buf n rec) out n rec).1 = n ∧
    ∀ j, (pma_read (pma_write s buf n rec) out n rec).2.1 j =
      if j < n then buf j else out j := by
  have hA : rd16 (pma_write s buf n rec).pma (addr rec) = rd16 s.pma (addr rec) := by
    simp only [pma_write, pma_wr, addr, cnt] at ha ⊢
    rw [rd16_congr _ (wr16 s.pma (rec + 2) n) rec
      (pma_write_loop_below _ _ _ _ _ _ _ (by omega))
      (pma_write_loop_below _ _ _ _ _ _ _ (by omega))]
    exact rd16_wr16_other _ _ _ _ (Or.inl (by omega))
  have hC : rd16 (pma_write s buf n rec).pma (cnt rec) = n := by
    simp only [pma_write, pma_wr, addr, cnt] at ha ⊢
    rw [rd16_congr _ (wr16 s.pma (rec + 2) n) (rec + 2)
      (pma_write_loop_below _ _ _ _ _ _ _ (by omega))
      (pma_write_loop_below _ _ _ _ _ _ _ (by omega))]
    rw [rd16_wr16_same]; omega
  have hlen : (pma_read (pma_write s buf n rec) out n rec).1 = n := by
    simp only [pma_read, hC, and_3ff]
    rw [if_neg (by omega)]
  refine ⟨hlen, fun j => ?_⟩
  have h2 : (pma_read (pma_write s buf n rec) out n rec).2.1 =
      pma_read_loop 2
        (wr16 (pma_write s buf n rec).pma (cnt rec) (n &&& 0xFC00)) n 0
        (rd16 s.pma (addr rec)) out := by
    simp only [pma_read, pma_wr, hC, hA, and_3ff]
    rw [if_neg (by omega)]
  rw [h2, pma_read_loop_write_loop 2 (le_refl 2) buf n 0 (rd16 s.pma (addr rec))
    (wr16 s.pma (cnt rec) n) _ 0 out (fun i hi => by simpa using hb i hi)
    (fun x hx => by
      simp only [addr, cnt] at ha hx ⊢
      rw [wr16_other _ _ _ _ (by omega) (by omega)]
      simp only [pma_write, pma_wr, addr, cnt]) j]
  simp

end V0

namespace V1

/-- Round trip through a slot at any offset: `pma_read` reads no descriptor. -/
theorem pma_round_trip_v1 (s : State) (buf out : Nat → Nat) (n a : Nat)
    (hb : ∀ j, j < n → buf j < 256) :
    ∀ j, pma_read (pma_write s a buf n) a out n n j =
      if j < n then buf j else out j := by
  intro j
  simp only [pma_read, pma_write]
  rw [if_neg (by omega), pma_read_loop_write_loop 4 (by omega) buf n 0 (2 * a) s.pma _ 0 out
    (fun i hi => by simpa using hb i hi) (fun x _ => rfl) j]
  simp

end V1

namespace V0
/-- The count word after `pma_write` holds the length written. -/
theorem pma_write_cnt (s : State) (buf : Nat → Nat) (n rec : Nat)
    (hn : n ≤ 1023) (hrec : rec + 4 ≤ 64) (ha : 64 ≤ rd16 s.pma (addr rec)) :
    rd16 (pma_write s buf n rec).pma (cnt rec) = n := by
  simp only [pma_write, pma_wr, addr, cnt] at ha ⊢
  rw [rd16_congr _ (wr16 s.pma (rec + 2) n) (rec + 2)
    (pma_write_loop_below _ _ _ _ _ _ _ (by omega))
    (pma_write_loop_below _ _ _ _ _ _ _ (by omega))]
  rw [rd16_wr16_same]; omega
end V0

/-! ## Endpoint register arithmetic -/

namespace Usb

theorem testBit_hi (c i : Nat) (hc : c < 65536) (hi : ¬ i < 16) :
    Nat.testBit c i = false :=
  Nat.testBit_lt_two_pow (lt_of_lt_of_le hc (by
    calc 65536 = 2 ^ 16 := by norm_num
      _ ≤ 2 ^ i := Nat.pow_le_pow_right (by norm_num) (by omega)))

theorem hw_store_toggle (r w : Nat) : hw_store r w &&& 0x7070 = (r ^^^ w) &&& 0x7070 := by
  apply Nat.eq_of_testBit_eq; intro i
  simp only [hw_store, Nat.testBit_and, Nat.testBit_or, Nat.testBit_xor]
  by_cases hi : i < 16
  · interval_cases i <;> simp [Nat.testBit]
  · simp [testBit_hi _ i _ hi]

theorem hw_store_plain (r w : Nat) : hw_store r w &&& 0x0F0F = w &&& 0x0F0F := by
  apply Nat.eq_of_testBit_eq; intro i
  simp only [hw_store, Nat.testBit_and, Nat.testBit_or, Nat.testBit_xor]
  by_cases hi : i < 16
  · interval_cases i <;> simp [Nat.testBit]
  · simp [testBit_hi _ i _ hi]

theorem hw_store_ctr (r w : Nat) : hw_store r w &&& 0x8080 = r &&& w &&& 0x8080 := by
  apply Nat.eq_of_testBit_eq; intro i
  simp only [hw_store, Nat.testBit_and, Nat.testBit_or, Nat.testBit_xor]
  by_cases hi : i < 16
  · interval_cases i <;> simp [Nat.testBit]
  · simp [testBit_hi _ i _ hi]

/-- A store without toggle bits leaves status fields and data toggles alone. -/
theorem hw_store_keep (r w : Nat) (h : w &&& 0x7070 = 0) :
    hw_store r w &&& 0x7070 = r &&& 0x7070 := by
  rw [hw_store_toggle, Nat.and_xor_distrib_right, h, Nat.xor_zero]

theorem tx_unstall_field (r : Nat) :
    hw_store r ((r ^^^ 0x20) &&& (0x8F8F ||| (0x30 ||| 0x40))) &&& 0x70 = 0x20 := by
  apply Nat.eq_of_testBit_eq; intro i
  simp only [hw_store, Nat.testBit_and, Nat.testBit_or, Nat.testBit_xor]
  by_cases hi : i < 16
  · interval_cases i <;> simp [Nat.testBit]
  · simp [testBit_hi _ i _ hi]

theorem tx_unstall_frame (r : Nat) :
    hw_store r ((r ^^^ 0x20) &&& (0x8F8F ||| (0x30 ||| 0x40))) &&& 0xFF8F = r &&& 0xFF8F := by
  apply Nat.eq_of_testBit_eq; intro i
  simp only [hw_store, Nat.testBit_and, Nat.testBit_or, Nat.testBit_xor]
  by_cases hi : i < 16
  · interval_cases i <;> simp [Nat.testBit]
  · simp [testBit_hi _ i _ hi]

theorem dtx_unstall_field (r : Nat) :
    hw_store r ((r ^^^ 0x30) &&& (0x8F8F ||| (0x30 ||| 0x40 ||| 0x4000))) &&& 0x4070
      = 0x30 := by
  apply Nat.eq_of_testBit_eq; intro i
  simp only [hw_store, Nat.testBit_and, Nat.testBit_or, Nat.testBit_xor]
  by_cases hi : i < 16
  · interval_cases i <;> simp [Nat.testBit]
  · simp [testBit_hi _ i _ hi]

theorem dtx_unstall_frame (r : Nat) :
    hw_store r ((r ^^^ 0x30) &&& (0x8F8F ||| (0x30 ||| 0x40 ||| 0x4000))) &&& 0xBF8F
      = r &&& 0xBF8F := by
  apply Nat.eq_of_testBit_eq; intro i
  simp only [hw_store, Nat.testBit_and, Nat.testBit_or, Nat.testBit_xor]
  by_cases hi : i < 16
  · interval_cases i <;> simp [Nat.testBit]
  · simp [testBit_hi _ i _ hi]

theorem rx_unstall_field (r : Nat) :
    hw_store r ((r ^^^ 0x3000) &&& (0x8F8F ||| (0x3000 ||| 0x4000))) &&& 0x7000
      = 0x3000 := by
  apply Nat.eq_of_testBit_eq; intro i
  simp only [hw_store, Nat.testBit_and, Nat.testBit_or, Nat.testBit_xor]
  by_cases hi : i < 16
  · interval_cases i <;> simp [Nat.testBit]
  · simp [testBit_hi _ i _ hi]

theorem rx_unstall_frame (r : Nat) :
    hw_store r ((r ^^^ 0x3000) &&& (0x8F8F ||| (0x3000 ||| 0x4000))) &&& 0x8FFF
      = r &&& 0x8FFF := by
  apply Nat.eq_of_testBit_eq; intro i
  simp only [hw_store, Nat.testBit_and, Nat.testBit_or, Nat.testBit_xor]
  by_cases hi : i < 16
  · interval_cases i <;> simp [Nat.testBit]
  · simp [testBit_hi _ i _ hi]

theorem drx_unstall_field (r : Nat) :
    hw_store r ((r ^^^ (0x3000 ||| 0x40)) &&& (0x8F8F ||| (0x3000 ||| 0x4000 ||| 0x40)))
      &&& 0x7040 = 0x3040 := by
  apply Nat.eq_of_testBit_eq; intro i
  simp only [hw_store, Nat.testBit_and, Nat.testBit_or, Nat.testBit_xor]
  by_cases hi : i < 16
  · interval_cases i <;> simp [Nat.testBit]
  · simp [testBit_hi _ i _ hi]

theorem drx_unstall_frame (r : Nat) :
    hw_store r ((r ^^^ (0x3000 ||| 0x40)) &&& (0x8F8F ||| (0x3000 ||| 0x4000 ||| 0x40)))
      &&& 0x8FBF = r &&& 0x8FBF := by
  apply Nat.eq_of_testBit_eq; intro i
  simp only [hw_store, Nat.testBit_and, Nat.testBit_or, Nat.testBit_xor]
  by_cases hi : i < 16
  · interval_cases i <;> simp [Nat.testBit]
  · simp [testBit_hi _ i _ hi]

/-- Narrowing a mask: what holds under `m` holds under every part `c` of it. -/
theorem and_narrow (x y m c : Nat) (h : x &&& m = y &&& m) (hc : m &&& c = c) :
    x &&& c = y &&& c := by
  calc x &&& c = x &&& (m &&& c) := by rw [hc]
    _ = (x &&& m) &&& c := (Nat.and_assoc _ _ _).symm
    _ = (y &&& m) &&& c := by rw [h]
    _ = y &&& (m &&& c) := Nat.and_assoc _ _ _
    _ = y &&& c := by rw [hc]

theorem and_narrow_const (x v m c : Nat) (h : x &&& m = v) (hc : m &&& c = c) :
    x &&& c = v &&& c := by
  calc x &&& c = x &&& (m &&& c) := by rw [hc]
    _ = (x &&& m) &&& c := (Nat.and_assoc _ _ _).symm
    _ = v &&& c := by rw [h]

/-- The word `TYPE | KIND | (ep & 7)` that `ep_config` stores carries no
toggle bit. -/
theorem ep_type_word_toggle (ep eptype : Nat) : ep_type_word ep eptype &&& 0x7070 = 0 := by
  unfold ep_type_word
  split_ifs
  all_goals
    apply Nat.eq_of_testBit_eq; intro i
    simp only [USB_EP_CONTROL, USB_EP_ISOCHRONOUS, USB_EP_BULK, USB_EP_KIND,
      USB_EP_INTERRUPT, Nat.testBit_and, Nat.testBit_or, Nat.testBit_xor]
    by_cases hi : i < 16
    · interval_cases i <;> simp [Nat.testBit]
    · simp [testBit_hi _ i _ hi]

theorem ep_type_word_ea (ep eptype : Nat) : ep_type_word ep eptype &&& 0x000F = ep &&& 0x07 := by
  unfold ep_type_word
  split_ifs
  all_goals
    apply Nat.eq_of_testBit_eq; intro i
    simp only [USB_EP_CONTROL, USB_EP_ISOCHRONOUS, USB_EP_BULK, USB_EP_KIND,
      USB_EP_INTERRUPT, Nat.testBit_and, Nat.testBit_or, Nat.testBit_xor]
    by_cases hi : i < 16
    · interval_cases i <;> simp [Nat.testBit]
    · simp [testBit_hi _ i _ hi]

/-- Type and kind fields of the word `ep_config` stores. -/
theorem ep_type_word_type (ep eptype : Nat) :
    ep_type_word ep eptype &&& 0x0700 =
      if eptype = USB_EPTYPE_CONTROL then USB_EP_CONTROL
      else if eptype = USB_EPTYPE_ISOCHRONUS then USB_EP_ISOCHRONOUS
      else if eptype = USB_EPTYPE_BULK then USB_EP_BULK
      else if eptype = (USB_EPTYPE_BULK ||| USB_EPTYPE_DBLBUF) then USB_EP_BULK ||| USB_EP_KIND
      else USB_EP_INTERRUPT := by
  unfold ep_type_word
  split_ifs
  all_goals
    apply Nat.eq_of_testBit_eq; intro i
    simp only [USB_EP_CONTROL, USB_EP_ISOCHRONOUS, USB_EP_BULK, USB_EP_KIND,
      USB_EP_INTERRUPT, Nat.testBit_and, Nat.testBit_or, Nat.testBit_xor]
    by_cases hi : i < 16
    · interval_cases i <;> simp [Nat.testBit]
    · simp [testBit_hi _ i _ hi]

end Usb

/-! ## The allocator's high-water mark -/

namespace Usb

theorem pma_scan_step_le (m : Nat → Nat) (a b r : Nat) : pma_scan_step m a b r ≤ r := by
  simp only [pma_scan_step]; split_ifs <;> omega

theorem pma_scan_step_le_rx (m : Nat → Nat) (a b r : Nat) (h : rd16 m a ≠ 0) :
    pma_scan_step m a b r ≤ rd16 m a := by
  simp only [pma_scan_step]; split_ifs <;> omega

theorem pma_scan_step_le_tx (m : Nat → Nat) (a b r : Nat) (h : rd16 m b ≠ 0) :
    pma_scan_step m a b r ≤ rd16 m b := by
  simp only [pma_scan_step]; split_ifs <;> omega

theorem pma_scan_step_cases (m : Nat → Nat) (a b r : Nat) :
    pma_scan_step m a b r = r ∨
    (pma_scan_step m a b r = rd16 m a ∧ rd16 m a ≠ 0) ∨
    (pma_scan_step m a b r = rd16 m b ∧ rd16 m b ≠ 0) := by
  simp only [pma_scan_step]; split_ifs <;> omega

/-- What the scan loop computes: a lower bound of the start value and of every
nonzero offset it visits, attained by one of them. -/
theorem pma_scan_spec (m : Nat → Nat) (fa fb : Nat → Nat) :
    ∀ (l : List Nat) (init : Nat),
      l.foldl (fun r i => pma_scan_step m (fa i) (fb i) r) init ≤ init ∧
      (∀ i ∈ l,
        (rd16 m (fa i) ≠ 0 →
          l.foldl (fun r i => pma_scan_step m (fa i) (fb i) r) init ≤ rd16 m (fa i)) ∧
        (rd16 m (fb i) ≠ 0 →
          l.foldl (fun r i => pma_scan_step m (fa i) (fb i) r) init ≤ rd16 m (fb i))) ∧
      (l.foldl (fun r i => pma_scan_step m (fa i) (fb i) r) init = init ∨
        ∃ i ∈ l,
          (l.foldl (fun r i => pma_scan_step m (fa i) (fb i) r) init = rd16 m (fa i) ∧
            rd16 m (fa i) ≠ 0) ∨
          (l.foldl (fun r i => pma_scan_step m (fa i) (fb i) r) init = rd16 m (fb i) ∧
            rd16 m (fb i) ≠ 0)) := by
  intro l
  induction l with
  | nil => intro init; simp
  | cons j l ih =>
    intro init
    simp only [List.foldl_cons]
    obtain ⟨h1, h2, h3⟩ := ih (pma_scan_step m (fa j) (fb j) init)
    have hle := pma_scan_step_le m (fa j) (fb j) init
    refine ⟨by omega, ?_, ?_⟩
    · intro i hi
      rcases List.mem_cons.mp hi with rfl | hi
      · exact ⟨fun h => le_trans h1 (pma_scan_step_le_rx m _ _ _ h),
          fun h => le_trans h1 (pma_scan_step_le_tx m _ _ _ h)⟩
      · exact h2 i hi
    · rcases h3 with h3 | ⟨i, hi, h3⟩
      · rcases pma_scan_step_cases m (fa j) (fb j) init with h | h | h
        · left; omega
        · right; exact ⟨j, List.mem_cons_self _ _, Or.inl ⟨by omega, h.2⟩⟩
        · right; exact ⟨j, List.mem_cons_self _ _, Or.inr ⟨by omega, h.2⟩⟩
      · right; exact ⟨i, List.mem_cons_of_mem _ hi, h3⟩

/-- The scan result is determined by the specification above. -/
theorem pma_scan_unique (m : Nat → Nat) (fa fb : Nat → Nat) (l : List Nat) (init M : Nat)
    (h1 : M ≤ init)
    (h2 : ∀ i ∈ l, (rd16 m (fa i) ≠ 0 → M ≤ rd16 m (fa i)) ∧
      (rd16 m (fb i) ≠ 0 → M ≤ rd16 m (fb i)))
    (h3 : M = init ∨ ∃ i ∈ l, (M = rd16 m (fa i) ∧ rd16 m (fa i) ≠ 0) ∨
      (M = rd16 m (fb i) ∧ rd16 m (fb i) ≠ 0)) :
    l.foldl (fun r i => pma_scan_step m (fa i) (fb i) r) init = M := by
  obtain ⟨g1, g2, g3⟩ := pma_scan_spec m fa fb l init
  apply le_antisymm
  · rcases h3 with h3 | ⟨i, hi, h3 | h3⟩
    · omega
    · rw [h3.1]; exact (g2 i hi).1 h3.2
    · rw [h3.1]; exact (g2 i hi).2 h3.2
  · rcases g3 with g3 | ⟨i, hi, g3 | g3⟩
    · omega
    · rw [g3.1]; exact (h2 i hi).1 g3.2
    · rw [g3.1]; exact (h2 i hi).2 g3.2

theorem and7_of_lt (i : Nat) (h : i < 8) : i &&& 0x07 = i := by
  interval_cases i <;> rfl

end Usb

namespace Usb

/-- The scan only looks at the offset words: memories that agree on them give
the same mark. -/
theorem pma_scan_congr (m m2 : Nat → Nat) (fa fb : Nat → Nat) (l : List Nat) (init : Nat)
    (h : ∀ i ∈ l, rd16 m2 (fa i) = rd16 m (fa i) ∧ rd16 m2 (fb i) = rd16 m (fb i)) :
    l.foldl (fun r i => pma_scan_step m2 (fa i) (fb i) r) init =
      l.foldl (fun r i => pma_scan_step m (fa i) (fb i) r) init := by
  obtain ⟨g1, g2, g3⟩ := pma_scan_spec m fa fb l init
  apply pma_scan_unique m2 fa fb l init _ g1
  · intro i hi
    rw [(h i hi).1, (h i hi).2]
    exact g2 i hi
  · rcases g3 with g3 | ⟨i, hi, g3⟩
    · exact Or.inl g3
    · right
      refine ⟨i, hi, ?_⟩
      rw [(h i hi).1, (h i hi).2]
      exact g3

/-- Committing a fresh offset `v`, nonzero and not above the current mark, to
one of the scanned offset words makes `v` the new mark. -/
theorem pma_scan_commit (m : Nat → Nat) (fa fb : Nat → Nat) (l : List Nat)
    (init x v : Nat) (hv0 : v ≠ 0) (hv1 : v < 65536)
    (hv : v ≤ l.foldl (fun r i => pma_scan_step m (fa i) (fb i) r) init)
    (hx : ∃ i ∈ l, x = fa i ∨ x = fb i)
    (hd : ∀ i ∈ l, (fa i = x ∨ fa i + 1 < x ∨ x + 1 < fa i) ∧
      (fb i = x ∨ fb i + 1 < x ∨ x + 1 < fb i)) :
    l.foldl (fun r i => pma_scan_step (wr16 m x v) (fa i) (fb i) r) init = v := by
  obtain ⟨g1, g2, _⟩ := pma_scan_spec m fa fb l init
  have hsame : rd16 (wr16 m x v) x = v := by rw [rd16_wr16_same]; omega
  apply pma_scan_unique
  · omega
  · intro i hi
    constructor
    · intro hne
      rcases (hd i hi).1 with e | e
      · rw [e, hsame]
      · rw [rd16_wr16_other _ _ _ _ e] at hne ⊢
        exact le_trans hv ((g2 i hi).1 hne)
    · intro hne
      rcases (hd i hi).2 with e | e
      · rw [e, hsame]
      · rw [rd16_wr16_other _ _ _ _ e] at hne ⊢
        exact le_trans hv ((g2 i hi).2 hne)
  · right
    obtain ⟨i, hi, e | e⟩ := hx
    · exact ⟨i, hi, Or.inl (by rw [← e, hsame]; exact ⟨rfl, hv0⟩)⟩
    · exact ⟨i, hi, Or.inr (by rw [← e, hsame]; exact ⟨rfl, hv0⟩)⟩

theorem reg_wr_pma (s : State) (reg w : Nat) : (reg_wr s reg w).pma = s.pma := rfl
theorem pma_wr_epr (s : State) (a v : Nat) : (pma_wr s a v).epr = s.epr := rfl
theorem pma_wr_pma (s : State) (a v : Nat) : (pma_wr s a v).pma = wr16 s.pma a v := rfl
theorem toggle_pma (s : State) (reg b m : Nat) : (EP_TOGGLE_SET s reg b m).pma = s.pma := rfl
theorem tx_unstall_pma (s : State) (reg : Nat) : (EP_TX_UNSTALL s reg).pma = s.pma := rfl
theorem dtx_unstall_pma (s : State) (reg : Nat) : (EP_DTX_UNSTALL s reg).pma = s.pma := rfl
theorem rx_unstall_pma (s : State) (reg : Nat) : (EP_RX_UNSTALL s reg).pma = s.pma := rfl
theorem drx_unstall_pma (s : State) (reg : Nat) : (EP_DRX_UNSTALL s reg).pma = s.pma := rfl

end Usb

namespace V0

theorem EPT_lt (ep : Nat) : EPT ep + 8 ≤ 64 := by
  have := and7_lt ep
  unfold EPT; omega

theorem pma_mark_le (s : State) : pma_mark s ≤ USB_PMASIZE :=
  (pma_scan_spec s.pma _ _ _ _).1

theorem pma_mark_congr (s s2 : State) (h : s2.pma = s.pma) : pma_mark s2 = pma_mark s := by
  unfold pma_mark; rw [h]

/-- A store to a count word does not move the mark. -/
theorem pma_mark_wr_cnt (s : State) (ep k v : Nat) :
    pma_mark (pma_wr s (EPT ep + 4 * k + 2) v) = pma_mark s := by
  unfold pma_mark
  apply pma_scan_congr
  intro i hi
  have hi8 : i < 8 := List.mem_range.mp hi
  have h7 := and7_lt ep
  simp only [pma_wr_pma, addr, rx, tx, EPT, and7_of_lt i hi8]
  constructor <;> apply rd16_wr16_other <;> omega

/-- A store of a fresh offset to an offset word makes it the mark. -/
theorem pma_mark_wr_addr (s : State) (ep k v : Nat) (hk : k ≤ 1)
    (hv0 : v ≠ 0) (hv : v ≤ pma_mark s) :
    pma_mark (pma_wr s (EPT ep + 4 * k) v) = v := by
  have hle := pma_mark_le s
  have h7 := and7_lt ep
  unfold pma_mark at hv ⊢
  apply pma_scan_commit _ _ _ _ _ _ _ hv0 (by unfold USB_PMASIZE at hle; unfold pma_mark at hle; omega) hv
  · refine ⟨ep &&& 0x07, List.mem_range.mpr h7, ?_⟩
    simp only [addr, rx, tx, EPT, and7_of_lt _ h7]
    omega
  · intro i hi
    have hi8 : i < 8 := List.mem_range.mp hi
    simp only [addr, rx, tx, EPT, and7_of_lt i hi8]
    omega

theorem get_next_pma_eq (s : State) (sz : Nat) :
    get_next_pma s sz = if pma_mark s < 64 + sz then 0 else pma_mark s - sz := by
  have hle := pma_mark_le s
  unfold USB_PMASIZE at hle
  simp only [get_next_pma]
  split_ifs <;> omega

end V0

namespace V1

theorem EPT_lt_v1 (ep : Nat) : EPT ep + 16 ≤ 128 := by
  have := and7_lt ep
  unfold EPT; omega

theorem pma_mark_le_v1 (s : State) : pma_mark s ≤ USB_PMASIZE :=
  (pma_scan_spec s.pma _ _ _ _).1

theorem pma_mark_congr_v1 (s s2 : State) (h : s2.pma = s.pma) : pma_mark s2 = pma_mark s := by
  unfold pma_mark; rw [h]

/-- A store to a count word does not move the mark. -/
theorem pma_mark_wr_cnt_v1 (s : State) (ep k v : Nat) :
    pma_mark (pma_wr s (EPT ep + 8 * k + 4) v) = pma_mark s := by
  unfold pma_mark
  apply pma_scan_congr
  intro i hi
  have hi8 : i < 8 := List.mem_range.mp hi
  have h7 := and7_lt ep
  simp only [pma_wr_pma, rxadr, txadr, EPT, and7_of_lt i hi8]
  constructor <;> apply rd16_wr16_other <;> omega

/-- A store of a fresh offset to an offset word makes it the mark. -/
theorem pma_mark_wr_addr_v1 (s : State) (ep k v : Nat) (hk : k ≤ 1)
    (hv0 : v ≠ 0) (hv : v ≤ pma_mark s) :
    pma_mark (pma_wr s (EPT ep + 8 * k) v) = v := by
  have hle := pma_mark_le_v1 s
  have h7 := and7_lt ep
  unfold pma_mark at hv ⊢
  apply pma_scan_commit _ _ _ _ _ _ _ hv0 (by unfold USB_PMASIZE at hle; unfold pma_mark at hle; omega) hv
  · refine ⟨ep &&& 0x07, List.mem_range.mpr h7, ?_⟩
    simp only [rxadr, txadr, EPT, and7_of_lt _ h7]
    omega
  · intro i hi
    have hi8 : i < 8 := List.mem_range.mp hi
    simp only [rxadr, txadr, EPT, and7_of_lt i hi8]
    omega

theorem get_next_pma_eq_v1 (s : State) (sz : Nat) :
    get_next_pma s sz = if pma_mark s < 64 + sz then 0 else pma_mark s - sz := by
  have hle := pma_mark_le_v1 s
  unfold USB_PMASIZE at hle
  simp only [get_next_pma]
  split_ifs <;> omega

end V1

/-! ## C1: the round trip through a slot -/

namespace V1

/-- Reading through `ep_read` on a single-buffered endpoint whose RX record
points at the slot `pma_write` has just filled. -/
theorem ep_read_after_write_v1 (s : State) (ep a n : Nat) (buf out : Nat → Nat)
    (h1 : s.epr (EPR ep) &&& (USB_EP_T_FIELD ||| USB_EP_KIND) ≠ (USB_EP_BULK ||| USB_EP_KIND))
    (h2 : s.epr (EPR ep) &&& (USB_EP_T_FIELD ||| USB_EP_KIND) ≠ USB_EP_ISOCHRONOUS)
    (ha : rd16 s.pma (rxadr (EPT ep)) = a)
    (hc : rd16 s.pma (rxcnt (EPT ep)) &&& 0x03FF = n)
    (h64 : 64 ≤ a) :
    (ep_read (pma_write s a buf n) ep out n).1 = n ∧
    (ep_read (pma_write s a buf n) ep out n).2.1 =
      pma_read (pma_write s a buf n) a out n n := by
  have hE := EPT_lt_v1 ep
  have ea : rd16 (pma_write s a buf n).pma (rxadr (EPT ep)) = a := by
    have e : rd16 (pma_write s a buf n).pma (rxadr (EPT ep)) =
        rd16 s.pma (rxadr (EPT ep)) := by
      simp only [pma_write, rxadr]
      exact rd16_congr _ _ _ (pma_write_loop_below _ _ _ _ _ _ _ (by omega))
        (pma_write_loop_below _ _ _ _ _ _ _ (by omega))
    rw [e, ha]
  have ec : rd16 (pma_write s a buf n).pma (rxcnt (EPT ep)) &&& 0x03FF = n := by
    have e : rd16 (pma_write s a buf n).pma (rxcnt (EPT ep)) =
        rd16 s.pma (rxcnt (EPT ep)) := by
      simp only [pma_write, rxcnt]
      exact rd16_congr _ _ _ (pma_write_loop_below _ _ _ _ _ _ _ (by omega))
        (pma_write_loop_below _ _ _ _ _ _ _ (by omega))
    rw [e, hc]
  have he : (pma_write s a buf n).epr = s.epr := rfl
  simp only [ep_read, reg_rd, he, if_neg h1, if_neg h2, ea, ec]
  exact ⟨trivial, trivial⟩

end V1

/-- C1: round trip: for every byte sequence `data` of length `N <= 1023` and
every slot lying inside packet memory, storing `data` with `pma_write` and
then draining the same slot with `pma_read` (`maxLen = N`, stored count `N`)
returns `N` and yields exactly `data` byte for byte. In v0 the slot is given
by a descriptor record; its offset is a slot offset, so at least 64 (the
allocator hands out nothing below the descriptor table), and `pma_write`
leaves `N` as the stored count. In v1 the copy routines take the slot offset
as an argument and `pma_read` returns no value: the length is returned by
`ep_read`, here on a single-buffered endpoint whose RX record points at the
slot with stored count `N`. -/
theorem C1_round_trip (data : List Nat) (out : Nat → Nat)
    (hb : ∀ b ∈ data, b < 256) (hn : data.length ≤ 1023) :
    (∀ (s : State) (ep rec : Nat),
      rec = V0.tx (V0.EPT ep) ∨ rec = V0.rx (V0.EPT ep) →
      64 ≤ rd16 s.pma (V0.addr rec) →
      rd16 s.pma (V0.addr rec) + data.length ≤ V0.USB_PMASIZE →
      rd16 (V0.pma_write s (fun i => data.getD i 0) data.length rec).pma (V0.cnt rec)
        = data.length ∧
      (V0.pma_read (V0.pma_write s (fun i => data.getD i 0) data.length rec)
        out data.length rec).1 = data.length ∧
      (List.range data.length).map
        (V0.pma_read (V0.pma_write s (fun i => data.getD i 0) data.length rec)
          out data.length rec).2.1 = data) ∧
    (∀ (s : State) (a : Nat),
      a + data.length ≤ V1.USB_PMASIZE →
      (List.range data.length).map
        (V1.pma_read (V1.pma_write s a (fun i => data.getD i 0) data.length) a
          out data.length data.length) = data) ∧
    (∀ (s : State) (ep a : Nat),
      64 ≤ a → a + data.length ≤ V1.USB_PMASIZE →
      s.epr (EPR ep) &&& (USB_EP_T_FIELD ||| USB_EP_KIND) ≠ (USB_EP_BULK ||| USB_EP_KIND) →
      s.epr (EPR ep) &&& (USB_EP_T_FIELD ||| USB_EP_KIND) ≠ USB_EP_ISOCHRONOUS →
      rd16 s.pma (V1.rxadr (V1.EPT ep)) = a →
      rd16 s.pma (V1.rxcnt (V1.EPT ep)) &&& 0x03FF = data.length →
      (V1.ep_read (V1.pma_write s a (fun i => data.getD i 0) data.length) ep out
        data.length).1 = data.length ∧
      (List.range data.length).map
        (V1.ep_read (V1.pma_write s a (fun i => data.getD i 0) data.length) ep out
          data.length).2.1 = data) := by
  have hbuf : ∀ j, j < data.length → (fun i => data.getD i 0) j < 256 := by
    intro j hj
    simp only [List.getD_eq_getElem _ _ hj]
    exact hb _ (List.getElem_mem hj)
  refine ⟨fun s ep rec hrec h64 _ => ?_, fun s a _ => ?_, fun s ep a h64 _ h1 h2 ha hc => ?_⟩
  · have hr : rec + 4 ≤ 64 := by
      have := and7_lt ep
      rcases hrec with h | h <;> simp only [h, V0.tx, V0.rx, V0.EPT] <;> omega
    have h0 := V0.pma_round_trip s _ out data.length rec hbuf hn hr h64
    refine ⟨V0.pma_write_cnt s _ _ rec hn hr h64, h0.1, ?_⟩
    apply map_range_getD
    intro j hj
    rw [h0.2 j, if_pos hj]
  · apply map_range_getD
    intro j hj
    rw [V1.pma_round_trip_v1 s _ out data.length a hbuf j, if_pos hj]
  · obtain ⟨e1, e2⟩ := V1.ep_read_after_write_v1 s ep a data.length _ out h1 h2 ha hc h64
    refine ⟨e1, ?_⟩
    rw [e2]
    apply map_range_getD
    intro j hj
    rw [V1.pma_round_trip_v1 s _ out data.length a hbuf j, if_pos hj]

theorem C1_round_trip_witness :
    (rd16 tx_config_state.pma (V0.addr (V0.tx (V0.EPT 0x81))) = 960 ∧
      (V0.pma_read (V0.pma_write tx_config_state (fun i => [1, 2, 3].getD i 0) 3
        (V0.tx (V0.EPT 0x81))) (fun _ => 0) 3 (V0.tx (V0.EPT 0x81))).1 = 3 ∧
      (List.range 3).map
        (V0.pma_read (V0.pma_write tx_config_state (fun i => [1, 2, 3].getD i 0) 3
          (V0.tx (V0.EPT 0x81))) (fun _ => 0) 3 (V0.tx (V0.EPT 0x81))).2.1 = [1, 2, 3]) ∧
    (List.range 3).map
      (V1.pma_read (V1.pma_write zero_state 448 (fun i => [1, 2, 3].getD i 0) 3) 448
        (fun _ => 0) 3 3) = [1, 2, 3] ∧
    ((V1.ep_read (V1.pma_write rx3_state 64 (fun i => [1, 2, 3].getD i 0) 3) 0x01
        (fun _ => 0) 3).1 = 3 ∧
      (List.range 3).map
        (V1.ep_read (V1.pma_write rx3_state 64 (fun i => [1, 2, 3].getD i 0) 3) 0x01
          (fun _ => 0) 3).2.1 = [1, 2, 3]) :=
  have h := C1_round_trip [1, 2, 3] (fun _ => 0) (by decide) (by decide)
  have h0 := h.1 tx_config_state 0x81 (V0.tx (V0.EPT 0x81)) (Or.inl rfl) (by decide)
    (by decide)
  ⟨⟨by decide, h0.2.1, h0.2.2⟩, h.2.1 zero_state 448 (by decide),
    h.2.2 rx3_state 0x01 64 (by decide) (by decide) (by decide) (by decide) (by decide)
      (by decide)⟩

/-! ## `ep_config` and the mark -/

namespace V0

theorem pma_mark_commit_tx (s : State) (ep p c : Nat) (hp0 : p ≠ 0) (hp : p ≤ pma_mark s) :
    pma_mark (pma_wr (pma_wr s (EPT ep) p) (EPT ep + 2) c) = p := by
  have h1 := pma_mark_wr_cnt (pma_wr s (EPT ep) p) ep 0 c
  have h2 := pma_mark_wr_addr s ep 0 p (by omega) hp0 hp
  simp only [Nat.mul_zero, Nat.add_zero] at h1 h2
  rw [h1, h2]

theorem pma_mark_commit_rx (s : State) (ep p c : Nat) (hp0 : p ≠ 0) (hp : p ≤ pma_mark s) :
    pma_mark (pma_wr (pma_wr s (EPT ep + 4) p) (EPT ep + 4 + 2) c) = p := by
  have h1 := pma_mark_wr_cnt (pma_wr s (EPT ep + 4) p) ep 1 c
  have h2 := pma_mark_wr_addr s ep 1 p (by omega) hp0 hp
  simp only [Nat.mul_one] at h1 h2
  rw [h1, h2]

/-- The TX block succeeds exactly when its requests fit under the mark, and
then lowers the mark by what it took. -/
theorem ep_config_tx_spec (s : State) (ep t e : Nat) :
    ((ep_config_tx s ep t e).1 = true ↔ 64 + ep_need t e ≤ pma_mark s) ∧
    ((ep_config_tx s ep t e).1 = true →
      pma_mark (ep_config_tx s ep t e).2 = pma_mark s - ep_need t e) := by
  simp only [ep_config_tx, get_next_pma_eq, ep_need, addr, cnt, tx, tx1]
  by_cases h1 : pma_mark s < 64 + e
  · have hn : ¬ (64 + (if is_dbl t = true then e + e else e) ≤ pma_mark s) := by
      split_ifs <;> omega
    simp only [h1, if_true, hn]
    simp
  · have hp0 : pma_mark s - e ≠ 0 := by omega
    have hm1 := pma_mark_commit_tx s ep (pma_mark s - e) 0 hp0 (by omega)
    simp only [h1, if_false, hp0, hm1]
    by_cases hd : is_dbl t = true
    · simp only [hd, if_true]
      by_cases h2 : pma_mark s - e < 64 + e
      · simp only [h2, if_true]
        constructor
        · constructor
          · intro h; cases h
          · intro h; omega
        · intro h; cases h
      · have hq0 : pma_mark s - e - e ≠ 0 := by omega
        simp only [h2, if_false, hq0]
        constructor
        · constructor
          · intro _; omega
          · intro _; trivial
        · intro _
          rw [pma_mark_congr _ _ (dtx_unstall_pma _ _),
            pma_mark_commit_rx _ ep _ 0 hq0 (by rw [hm1]; omega)]
          omega
    · simp only [hd, Bool.false_eq_true, if_false]
      constructor
      · constructor
        · intro _; omega
        · intro _; trivial
      · intro _
        rw [pma_mark_congr _ _ (tx_unstall_pma _ _), hm1]

/-- The RX block succeeds exactly when its requests fit under the mark, and
then lowers the mark by what it took. -/
theorem ep_config_rx_spec (s : State) (ep t e : Nat) :
    ((ep_config_rx s ep t e).1 = true ↔ 64 + ep_need t (ep_rxcnt e).2 ≤ pma_mark s) ∧
    ((ep_config_rx s ep t e).1 = true →
      pma_mark (ep_config_rx s ep t e).2 = pma_mark s - ep_need t (ep_rxcnt e).2) := by
  simp only [ep_config_rx, get_next_pma_eq, ep_need, addr, cnt, rx, rx0]
  generalize (ep_rxcnt e).2 = e1
  generalize (ep_rxcnt e).1 = c
  by_cases h1 : pma_mark s < 64 + e1
  · have hn : ¬ (64 + (if is_dbl t = true then e1 + e1 else e1) ≤ pma_mark s) := by
      split_ifs <;> omega
    simp only [h1, if_true, hn]
    simp
  · have hp0 : pma_mark s - e1 ≠ 0 := by omega
    have hm1 := pma_mark_commit_rx s ep (pma_mark s - e1) c hp0 (by omega)
    simp only [h1, if_false, hp0, hm1]
    by_cases hd : is_dbl t = true
    · simp only [hd, if_true]
      by_cases h2 : pma_mark s - e1 < 64 + e1
      · simp only [h2, if_true]
        constructor
        · constructor
          · intro h; cases h
          · intro h; omega
        · intro h; cases h
      · have hq0 : pma_mark s - e1 - e1 ≠ 0 := by omega
        simp only [h2, if_false, hq0]
        constructor
        · constructor
          · intro _; omega
          · intro _; trivial
        · intro _
          rw [pma_mark_congr _ _ (drx_unstall_pma _ _),
            pma_mark_commit_tx _ ep _ c hq0 (by rw [hm1]; omega)]
          omega
    · simp only [hd, Bool.false_eq_true, if_false]
      constructor
      · constructor
        · intro _; omega
        · intro _; trivial
      · intro _
        rw [pma_mark_congr _ _ (rx_unstall_pma _ _), hm1]

/-- A call of `ep_config` succeeds exactly when all its requests fit under the
mark, and then lowers the mark by their sum. -/
theorem ep_config_spec (s : State) (ep t e : Nat) :
    ((ep_config s ep t e).1 = true ↔ 64 + ep_total ep t e ≤ pma_mark s) ∧
    ((ep_config s ep t e).1 = true →
      pma_mark (ep_config s ep t e).2 = pma_mark s - ep_total ep t e) := by
  have hs1 : pma_mark (reg_wr s (EPR ep) (ep_type_word ep t)) = pma_mark s :=
    pma_mark_congr _ _ (reg_wr_pma _ _ _)
  obtain ⟨ht1, ht2⟩ := ep_config_tx_spec (reg_wr s (EPR ep) (ep_type_word ep t)) ep t (ep_align e)
  rw [hs1] at ht1 ht2
  simp only [ep_config, ep_total]
  by_cases htx : ep &&& 0x80 ≠ 0 ∨ t = USB_EPTYPE_CONTROL
  · simp only [htx, if_true]
    by_cases hok : (ep_config_tx (reg_wr s (EPR ep) (ep_type_word ep t)) ep t (ep_align e)).1 = true
    · have hfit := ht1.mp hok
      have hmk := ht2 hok
      obtain ⟨hr1, hr2⟩ := ep_config_rx_spec
        (ep_config_tx (reg_wr s (EPR ep) (ep_type_word ep t)) ep t (ep_align e)).2 ep t (ep_align e)
      rw [hmk] at hr1 hr2
      simp only [hok, Bool.true_eq_false, if_false]
      by_cases hrx : ep &&& 0x80 = 0
      · simp only [hrx, if_true]
        constructor
        · rw [hr1]; omega
        · intro h; rw [hr2 h]; omega
      · simp only [hrx, if_false, Nat.add_zero]
        exact ⟨⟨fun _ => hfit, fun _ => trivial⟩, fun _ => hmk⟩
    · have hnf : ¬ (64 + ep_need t (ep_align e) ≤ pma_mark s) := fun h => hok (ht1.mpr h)
      have hf : (ep_config_tx (reg_wr s (EPR ep) (ep_type_word ep t)) ep t (ep_align e)).1 = false := by
        simpa using hok
      simp only [hf, if_true]
      constructor
      · constructor
        · intro h; cases h
        · intro h; omega
      · intro h; cases h
  · have hrx : ep &&& 0x80 = 0 := by
      by_contra h; exact htx (Or.inl h)
    obtain ⟨hr1, hr2⟩ := ep_config_rx_spec (reg_wr s (EPR ep) (ep_type_word ep t)) ep t (ep_align e)
    rw [hs1] at hr1 hr2
    simp only [if_neg htx]
    simp only [Bool.true_eq_false, if_false, hrx, if_true, Nat.zero_add]
    exact ⟨hr1, hr2⟩

end V0

namespace V1

theorem pma_mark_a0_v1 (s : State) (ep p : Nat) (hp0 : p ≠ 0) (hp : p ≤ pma_mark s) :
    pma_mark (pma_wr s (EPT ep) p) = p := by
  have h := pma_mark_wr_addr_v1 s ep 0 p (by omega) hp0 hp
  rwa [show EPT ep + 8 * 0 = EPT ep by omega] at h

theorem pma_mark_a1_v1 (s : State) (ep p : Nat) (hp0 : p ≠ 0) (hp : p ≤ pma_mark s) :
    pma_mark (pma_wr s (EPT ep + 8) p) = p := by
  have h := pma_mark_wr_addr_v1 s ep 1 p (by omega) hp0 hp
  rwa [show EPT ep + 8 * 1 = EPT ep + 8 by omega] at h

theorem pma_mark_c0_v1 (s : State) (ep c : Nat) :
    pma_mark (pma_wr s (EPT ep + 4) c) = pma_mark s := by
  have h := pma_mark_wr_cnt_v1 s ep 0 c
  rwa [show EPT ep + 8 * 0 + 4 = EPT ep + 4 by omega] at h

theorem pma_mark_c1_v1 (s : State) (ep c : Nat) :
    pma_mark (pma_wr s (EPT ep + 12) c) = pma_mark s := by
  have h := pma_mark_wr_cnt_v1 s ep 1 c
  rwa [show EPT ep + 8 * 1 + 4 = EPT ep + 12 by omega] at h

/-- The TX block succeeds exactly when its requests fit under the mark, and
then lowers the mark by what it took. -/
theorem ep_config_tx_spec_v1 (s : State) (ep t e : Nat) :
    ((ep_config_tx s ep t e).1 = true ↔ 64 + ep_need t e ≤ pma_mark s) ∧
    ((ep_config_tx s ep t e).1 = true →
      pma_mark (ep_config_tx s ep t e).2 = pma_mark s - ep_need t e) := by
  simp only [ep_config_tx, get_next_pma_eq_v1, ep_need, txadr, txcnt, txadr0, txadr1,
    txcnt0, txcnt1]
  by_cases h1 : pma_mark s < 64 + e
  · have hn : ¬ (64 + (if is_dbl t = true then e + e else e) ≤ pma_mark s) := by
      split_ifs <;> omega
    simp only [h1, if_true, hn]
    simp
  · have hp0 : pma_mark s - e ≠ 0 := by omega
    have hm1 := pma_mark_a0_v1 s ep (pma_mark s - e) hp0 (by omega)
    simp only [h1, if_false, hp0]
    by_cases hd : is_dbl t = true
    · simp only [hd, if_true, hm1]
      by_cases h2 : pma_mark s - e < 64 + e
      · simp only [h2, if_true]
        constructor
        · constructor
          · intro h; cases h
          · intro h; omega
        · intro h; cases h
      · have hq0 : pma_mark s - e - e ≠ 0 := by omega
        simp only [h2, if_false, hq0]
        constructor
        · constructor
          · intro _; omega
          · intro _; trivial
        · intro _
          rw [pma_mark_congr_v1 _ _ (dtx_unstall_pma _ _), pma_mark_c1_v1, pma_mark_c0_v1,
            pma_mark_a1_v1 _ ep _ hq0 (by rw [hm1]; omega)]
          omega
    · simp only [hd, Bool.false_eq_true, if_false]
      constructor
      · constructor
        · intro _; omega
        · intro _; trivial
      · intro _
        rw [pma_mark_congr_v1 _ _ (tx_unstall_pma _ _), pma_mark_c0_v1, hm1]

/-- The RX block succeeds exactly when its requests fit under the mark, and
then lowers the mark by what it took. -/
theorem ep_config_rx_spec_v1 (s : State) (ep t e : Nat) :
    ((ep_config_rx s ep t e).1 = true ↔ 64 + ep_need t (ep_rxcnt e).2 ≤ pma_mark s) ∧
    ((ep_config_rx s ep t e).1 = true →
      pma_mark (ep_config_rx s ep t e).2 = pma_mark s - ep_need t (ep_rxcnt e).2) := by
  simp only [ep_config_rx, get_next_pma_eq_v1, ep_need, rxadr, rxcnt, rxadr0, rxadr1,
    rxcnt0, rxcnt1]
  generalize (ep_rxcnt e).2 = e1
  generalize (ep_rxcnt e).1 = c
  by_cases h1 : pma_mark s < 64 + e1
  · have hn : ¬ (64 + (if is_dbl t = true then e1 + e1 else e1) ≤ pma_mark s) := by
      split_ifs <;> omega
    simp only [h1, if_true, hn]
    simp
  · have hp0 : pma_mark s - e1 ≠ 0 := by omega
    simp only [h1, if_false, hp0]
    by_cases hd : is_dbl t = true
    · have hm1 := pma_mark_a0_v1 s ep (pma_mark s - e1) hp0 (by omega)
      simp only [hd, if_true, hm1]
      by_cases h2 : pma_mark s - e1 < 64 + e1
      · simp only [h2, if_true]
        constructor
        · constructor
          · intro h; cases h
          · intro h; omega
        · intro h; cases h
      · have hq0 : pma_mark s - e1 - e1 ≠ 0 := by omega
        simp only [h2, if_false, hq0]
        constructor
        · constructor
          · intro _; omega
          · intro _; trivial
        · intro _
          rw [pma_mark_congr_v1 _ _ (drx_unstall_pma _ _), pma_mark_c1_v1, pma_mark_c0_v1,
            pma_mark_a1_v1 _ ep _ hq0 (by rw [hm1]; omega)]
          omega
    · have hm1 := pma_mark_a1_v1 s ep (pma_mark s - e1) hp0 (by omega)
      simp only [hd, Bool.false_eq_true, if_false]
      constructor
      · constructor
        · intro _; omega
        · intro _; trivial
      · intro _
        rw [pma_mark_congr_v1 _ _ (rx_unstall_pma _ _), pma_mark_c1_v1, hm1]

/-- A call of `ep_config` succeeds exactly when all its requests fit under the
mark, and then lowers the mark by their sum. -/
theorem ep_config_spec_v1 (s : State) (ep t e : Nat) :
    ((ep_config s ep t e).1 = true ↔ 64 + ep_total ep t e ≤ pma_mark s) ∧
    ((ep_config s ep t e).1 = true →
      pma_mark (ep_config s ep t e).2 = pma_mark s - ep_total ep t e) := by
  have hs1 : pma_mark (reg_wr s (EPR ep) (ep_type_word ep t)) = pma_mark s :=
    pma_mark_congr_v1 _ _ (reg_wr_pma _ _ _)
  obtain ⟨ht1, ht2⟩ := ep_config_tx_spec_v1 (reg_wr s (EPR ep) (ep_type_word ep t)) ep t (ep_align e)
  rw [hs1] at ht1 ht2
  simp only [ep_config, ep_total]
  by_cases htx : ep &&& 0x80 ≠ 0 ∨ t = USB_EPTYPE_CONTROL
  · simp only [htx, if_true]
    by_cases hok : (ep_config_tx (reg_wr s (EPR ep) (ep_type_word ep t)) ep t (ep_align e)).1 = true
    · have hfit := ht1.mp hok
      have hmk := ht2 hok
      obtain ⟨hr1, hr2⟩ := ep_config_rx_spec_v1
        (ep_config_tx (reg_wr s (EPR ep) (ep_type_word ep t)) ep t (ep_align e)).2 ep t (ep_align e)
      rw [hmk] at hr1 hr2
      simp only [hok, Bool.true_eq_false, if_false]
      by_cases hrx : ep &&& 0x80 = 0
      · simp only [hrx, if_true]
        constructor
        · rw [hr1]; omega
        · intro h; rw [hr2 h]; omega
      · simp only [hrx, if_false, Nat.add_zero]
        exact ⟨⟨fun _ => hfit, fun _ => trivial⟩, fun _ => hmk⟩
    · have hnf : ¬ (64 + ep_need t (ep_align e) ≤ pma_mark s) := fun h => hok (ht1.mpr h)
      have hf : (ep_config_tx (reg_wr s (EPR ep) (ep_type_word ep t)) ep t (ep_align e)).1 = false := by
        simpa using hok
      simp only [hf, if_true]
      constructor
      · constructor
        · intro h; cases h
        · intro h; omega
      · intro h; cases h
  · have hrx : ep &&& 0x80 = 0 := by
      by_contra h; exact htx (Or.inl h)
    obtain ⟨hr1, hr2⟩ := ep_config_rx_spec_v1 (reg_wr s (EPR ep) (ep_type_word ep t)) ep t (ep_align e)
    rw [hs1] at hr1 hr2
    simp only [if_neg htx]
    simp only [Bool.true_eq_false, if_false, hrx, if_true, Nat.zero_add]
    exact ⟨hr1, hr2⟩

end V1

/-! ## C2: requests that fit all succeed -/

namespace Usb

theorem ep_align_le (e : Nat) : ep_align e ≤ round_even e := by
  unfold ep_align round_even
  rw [Nat.and_one_is_mod]
  split_ifs <;> omega

theorem ep_rxcnt_le (e : Nat) : (ep_rxcnt e).2 ≤ e := by
  unfold ep_rxcnt
  have h := @Nat.and_le_right e 0x1F
  split_ifs <;> simp only <;> omega

theorem is_dbl_not_control (t : Nat) (h : is_dbl t = true) : t ≠ USB_EPTYPE_CONTROL := by
  intro h0
  rw [h0] at h
  revert h
  decide

/-- The allocator is never asked for more than the statement counts. -/
theorem ep_total_le (ep t e : Nat) : ep_total ep t e ≤ claimed_size (ep, t, e) := by
  have h1 := ep_align_le e
  have h2 := ep_rxcnt_le (ep_align e)
  simp only [ep_total, ep_need, claimed_size, claimed_slots]
  by_cases hd : is_dbl t = true
  · have hc := is_dbl_not_control t hd
    simp only [hd, if_true, hc, if_false, or_false]
    split_ifs <;> omega
  · by_cases hc : t = USB_EPTYPE_CONTROL
    · subst hc
      have hd0 : is_dbl USB_EPTYPE_CONTROL = false := by decide
      simp only [hd0, Bool.false_eq_true, if_false, if_true, or_true]
      split_ifs <;> omega
    · simp only [hd, hc, if_false, or_false]
      split_ifs <;> omega

end Usb

namespace V0

theorem pma_mark_deconfigured (s : State) (h : deconfigured s) : pma_mark s = USB_PMASIZE := by
  unfold pma_mark
  apply pma_scan_unique _ _ _ _ _ _ (le_refl _)
  · intro i hi
    have hi8 : i < 8 := List.mem_range.mp hi
    obtain ⟨h1, _, h3, _⟩ := h i hi8
    exact ⟨fun hne => absurd h3 hne, fun hne => absurd h1 hne⟩
  · exact Or.inl rfl

/-- Requests whose counted total fits under the mark all succeed. -/
theorem config_seq_fit : ∀ (cs : List (Nat × Nat × Nat)) (s : State),
    64 + claimed_total cs ≤ pma_mark s → ∀ b ∈ config_seq s cs, b = true := by
  intro cs
  induction cs with
  | nil => intro s _ b hb; simp [config_seq] at hb
  | cons c cs ih =>
    intro s h b hb
    obtain ⟨ep, t, e⟩ := c
    obtain ⟨h1, h2⟩ := ep_config_spec s ep t e
    have hle := ep_total_le ep t e
    have hsum : claimed_total ((ep, t, e) :: cs) = claimed_size (ep, t, e) + claimed_total cs := by
      simp [claimed_total]
    have hok : (ep_config s ep t e).1 = true := h1.mpr (by omega)
    simp only [config_seq, List.mem_cons] at hb
    rcases hb with hb | hb
    · rw [hb, hok]
    · exact ih _ (by rw [h2 hok]; omega) b hb

end V0

namespace V1

theorem pma_mark_deconfigured_v1 (s : State) (h : deconfigured s) : pma_mark s = USB_PMASIZE := by
  unfold pma_mark
  apply pma_scan_unique _ _ _ _ _ _ (le_refl _)
  · intro i hi
    have hi8 : i < 8 := List.mem_range.mp hi
    obtain ⟨h1, _, h3, _⟩ := h i hi8
    exact ⟨fun hne => absurd h3 hne, fun hne => absurd h1 hne⟩
  · exact Or.inl rfl

/-- Requests whose counted total fits under the mark all succeed. -/
theorem config_seq_fit_v1 : ∀ (cs : List (Nat × Nat × Nat)) (s : State),
    64 + claimed_total cs ≤ pma_mark s → ∀ b ∈ config_seq s cs, b = true := by
  intro cs
  induction cs with
  | nil => intro s _ b hb; simp [config_seq] at hb
  | cons c cs ih =>
    intro s h b hb
    obtain ⟨ep, t, e⟩ := c
    obtain ⟨h1, h2⟩ := ep_config_spec_v1 s ep t e
    have hle := ep_total_le ep t e
    have hsum : claimed_total ((ep, t, e) :: cs) = claimed_size (ep, t, e) + claimed_total cs := by
      simp [claimed_total]
    have hok : (ep_config s ep t e).1 = true := h1.mpr (by omega)
    simp only [config_seq, List.mem_cons] at hb
    rcases hb with hb | hb
    · rw [hb, hok]
    · exact ih _ (by rw [h2 hok]; omega) b hb

end V1

/-- C2: starting from the state in which all 8 endpoints are deconfigured,
for every sequence of `ep_config` calls on pairwise distinct physical endpoint
indices whose total requested size (each maxPacketSize rounded up to even,
counted twice for a control, isochronous or double-buffered bulk endpoint and
once otherwise) plus the 64-byte descriptor table is at most `USB_PMASIZE`,
every call returns true; in v0 and in v1. -/
theorem C2_config_within_capacity (cs : List (Nat × Nat × Nat)) (s0 s1 : State)
    (h0 : V0.deconfigured s0) (h1 : V1.deconfigured s1)
    (_hd : (cs.map (fun c => c.1 &&& 0x07)).Nodup) :
    (claimed_total cs + 64 ≤ V0.USB_PMASIZE → ∀ b ∈ V0.config_seq s0 cs, b = true) ∧
    (claimed_total cs + 64 ≤ V1.USB_PMASIZE → ∀ b ∈ V1.config_seq s1 cs, b = true) := by
  constructor
  · intro h
    exact V0.config_seq_fit cs s0 (by rw [V0.pma_mark_deconfigured s0 h0]; omega)
  · intro h
    exact V1.config_seq_fit_v1 cs s1 (by rw [V1.pma_mark_deconfigured_v1 s1 h1]; omega)

theorem C2_config_within_capacity_witness :
    (∀ b ∈ V0.config_seq zero_state
      [(0x00, USB_EPTYPE_CONTROL, 64), (0x81, USB_EPTYPE_BULK, 63),
        (0x02, USB_EPTYPE_BULK ||| USB_EPTYPE_DBLBUF, 64)], b = true) ∧
    (∀ b ∈ V1.config_seq zero_state
      [(0x00, USB_EPTYPE_CONTROL, 64), (0x81, USB_EPTYPE_BULK, 63),
        (0x02, USB_EPTYPE_BULK ||| USB_EPTYPE_DBLBUF, 64)], b = true) :=
  have h := C2_config_within_capacity
    [(0x00, USB_EPTYPE_CONTROL, 64), (0x81, USB_EPTYPE_BULK, 63),
      (0x02, USB_EPTYPE_BULK ||| USB_EPTYPE_DBLBUF, 64)] zero_state zero_state
    (by decide) (by decide) (by decide)
  ⟨h.1 (by decide), h.2 (by decide)⟩

/-! ## The toggle macros on the state -/

namespace Usb

theorem reg_wr_epr_same (s : State) (reg w : Nat) :
    (reg_wr s reg w).epr reg = hw_store (s.epr reg) w := by
  simp [reg_wr]

theorem reg_wr_epr_other (s : State) (reg w i : Nat) (h : i ≠ reg) :
    (reg_wr s reg w).epr i = s.epr i := by
  simp [reg_wr, h]

theorem pma_wr_other (s : State) (a v x : Nat) (h1 : x ≠ a) (h2 : x ≠ a + 1) :
    (pma_wr s a v).pma x = s.pma x := wr16_other _ _ _ _ h1 h2

theorem tx_unstall_epr (s : State) (reg : Nat) :
    (EP_TX_UNSTALL s reg).epr reg &&& 0x70 = 0x20 ∧
    (EP_TX_UNSTALL s reg).epr reg &&& 0xFF8F = s.epr reg &&& 0xFF8F := by
  have e : (EP_TX_UNSTALL s reg).epr reg =
      hw_store (s.epr reg) ((s.epr reg ^^^ 0x20) &&& (0x8F8F ||| (0x30 ||| 0x40))) := by
    simp [EP_TX_UNSTALL, EP_TOGGLE_SET, reg_wr, reg_rd, USB_EP_TX_NAK, USB_EPTX_STAT,
      USB_EP_DTOG_TX, USB_EPREG_MASK]
  rw [e]
  exact ⟨tx_unstall_field _, tx_unstall_frame _⟩

theorem dtx_unstall_epr (s : State) (reg : Nat) :
    (EP_DTX_UNSTALL s reg).epr reg &&& 0x4070 = 0x30 ∧
    (EP_DTX_UNSTALL s reg).epr reg &&& 0xBF8F = s.epr reg &&& 0xBF8F := by
  have e : (EP_DTX_UNSTALL s reg).epr reg =
      hw_store (s.epr reg)
        ((s.epr reg ^^^ 0x30) &&& (0x8F8F ||| (0x30 ||| 0x40 ||| 0x4000))) := by
    simp [EP_DTX_UNSTALL, EP_TOGGLE_SET, reg_wr, reg_rd, USB_EP_TX_VALID, USB_EPTX_STAT,
      USB_EP_DTOG_TX, USB_EP_SWBUF_TX, USB_EP_DTOG_RX, USB_EPREG_MASK]
  rw [e]
  exact ⟨dtx_unstall_field _, dtx_unstall_frame _⟩

theorem rx_unstall_epr (s : State) (reg : Nat) :
    (EP_RX_UNSTALL s reg).epr reg &&& 0x7000 = 0x3000 ∧
    (EP_RX_UNSTALL s reg).epr reg &&& 0x8FFF = s.epr reg &&& 0x8FFF := by
  have e : (EP_RX_UNSTALL s reg).epr reg =
      hw_store (s.epr reg) ((s.epr reg ^^^ 0x3000) &&& (0x8F8F ||| (0x3000 ||| 0x4000))) := by
    simp [EP_RX_UNSTALL, EP_TOGGLE_SET, reg_wr, reg_rd, USB_EP_RX_VALID, USB_EPRX_STAT,
      USB_EP_DTOG_RX, USB_EPREG_MASK]
  rw [e]
  exact ⟨rx_unstall_field _, rx_unstall_frame _⟩

theorem drx_unstall_epr (s : State) (reg : Nat) :
    (EP_DRX_UNSTALL s reg).epr reg &&& 0x7040 = 0x3040 ∧
    (EP_DRX_UNSTALL s reg).epr reg &&& 0x8FBF = s.epr reg &&& 0x8FBF := by
  have e : (EP_DRX_UNSTALL s reg).epr reg =
      hw_store (s.epr reg)
        ((s.epr reg ^^^ (0x3000 ||| 0x40)) &&&
          (0x8F8F ||| (0x3000 ||| 0x4000 ||| 0x40))) := by
    simp [EP_DRX_UNSTALL, EP_TOGGLE_SET, reg_wr, reg_rd, USB_EP_RX_VALID, USB_EPRX_STAT,
      USB_EP_DTOG_RX, USB_EP_SWBUF_RX, USB_EP_DTOG_TX, USB_EPREG_MASK]
  rw [e]
  exact ⟨drx_unstall_field _, drx_unstall_frame _⟩

theorem toggle_epr_other (s : State) (reg b m i : Nat) (h : i ≠ reg) :
    (EP_TOGGLE_SET s reg b m).epr i = s.epr i := by
  simp [EP_TOGGLE_SET, reg_wr, h]

theorem ep_rxcnt_lt (e : Nat) : (ep_rxcnt e).1 < 65536 := by
  unfold ep_rxcnt
  split_ifs <;> simp only <;> omega

end Usb

/-! ## What the blocks of `ep_config` leave behind (v0) -/

namespace V0

theorem get_next_pma_lt (s : State) (sz : Nat) : get_next_pma s sz < 65536 := by
  simp only [get_next_pma]
  split_ifs <;> omega

/-- Registers of other endpoints and memory outside the descriptor entry are
not touched by the TX block. -/
theorem ep_config_tx_frame (s : State) (ep t e : Nat) :
    (∀ i, i ≠ EPR ep → (ep_config_tx s ep t e).2.epr i = s.epr i) ∧
    (∀ x, x < EPT ep ∨ EPT ep + 8 ≤ x → (ep_config_tx s ep t e).2.pma x = s.pma x) := by
  simp only [ep_config_tx, addr, cnt, tx, tx1]
  split_ifs
  · exact ⟨fun _ _ => rfl, fun _ _ => rfl⟩
  · refine ⟨fun _ _ => rfl, fun x hx => ?_⟩
    simp (disch := omega) only [pma_wr_pma, wr16_other]
  · refine ⟨fun i hi => ?_, fun x hx => ?_⟩
    · simp only [EP_DTX_UNSTALL, toggle_epr_other _ _ _ _ _ hi, pma_wr_epr]
    · simp (disch := omega) only [dtx_unstall_pma, pma_wr_pma, wr16_other]
  · refine ⟨fun i hi => ?_, fun x hx => ?_⟩
    · simp only [EP_TX_UNSTALL, toggle_epr_other _ _ _ _ _ hi, pma_wr_epr]
    · simp (disch := omega) only [tx_unstall_pma, pma_wr_pma, wr16_other]

/-- The TX block hands the type, kind and address bits of the register back
unchanged, whatever it returns. -/
theorem ep_config_tx_plain (s : State) (ep t e : Nat) :
    (ep_config_tx s ep t e).2.epr (EPR ep) &&& 0x0F0F = s.epr (EPR ep) &&& 0x0F0F := by
  simp only [ep_config_tx, addr, cnt, tx, tx1]
  split_ifs
  · rfl
  · rfl
  · exact and_narrow _ _ _ _ (dtx_unstall_epr _ _).2 (by decide)
  · exact and_narrow _ _ _ _ (tx_unstall_epr _ _).2 (by decide)

/-- A failing TX block leaves the register alone, and the packet memory too
when the failing request is the first one. -/
theorem ep_config_tx_fail (s : State) (ep t e : Nat)
    (h : (ep_config_tx s ep t e).1 = false) :
    (ep_config_tx s ep t e).2.epr = s.epr ∧
    (is_dbl t = false ∨ get_next_pma s e = 0 → (ep_config_tx s ep t e).2.pma = s.pma) := by
  simp only [ep_config_tx, addr, cnt, tx, tx1] at h ⊢
  split_ifs at h ⊢ with h1 hd h2
  · exact ⟨rfl, fun _ => rfl⟩
  · refine ⟨rfl, fun hh => ?_⟩
    rcases hh with hh | hh
    · rw [hd] at hh; cases hh
    · exact absurd hh h1

/-- A successful single-buffered TX block: slot offset, count and register. -/
theorem ep_config_tx_single (s : State) (ep t e : Nat)
    (h : (ep_config_tx s ep t e).1 = true) (hd : is_dbl t = false) :
    get_next_pma s e ≠ 0 ∧
    rd16 (ep_config_tx s ep t e).2.pma (addr (tx (EPT ep))) = get_next_pma s e ∧
    rd16 (ep_config_tx s ep t e).2.pma (cnt (tx (EPT ep))) = 0 ∧
    (∀ x, EPT ep + 4 ≤ x → (ep_config_tx s ep t e).2.pma x = s.pma x) ∧
    (ep_config_tx s ep t e).2.epr (EPR ep) &&& 0x70 = 0x20 ∧
    (ep_config_tx s ep t e).2.epr (EPR ep) &&& 0xFF8F = s.epr (EPR ep) &&& 0xFF8F := by
  have hlt := get_next_pma_lt s e
  simp only [ep_config_tx, addr, cnt, tx, tx1, hd, Bool.false_eq_true, if_false] at h ⊢
  split_ifs at h ⊢ with h1
  refine ⟨h1, ?_, ?_, fun x hx => ?_, ?_, ?_⟩
  · simp (disch := omega) only [tx_unstall_pma, pma_wr_pma, rd16_wr16_other, rd16_wr16_same]
    omega
  · simp (disch := omega) only [tx_unstall_pma, pma_wr_pma, rd16_wr16_other, rd16_wr16_same]
  · simp (disch := omega) only [tx_unstall_pma, pma_wr_pma, wr16_other]
  · exact (tx_unstall_epr _ _).1
  · exact (tx_unstall_epr _ _).2

/-- A successful double-buffered TX block: both slots and the register. -/
theorem ep_config_tx_double (s : State) (ep t e : Nat)
    (h : (ep_config_tx s ep t e).1 = true) (hd : is_dbl t = true) :
    rd16 (ep_config_tx s ep t e).2.pma (addr (tx0 (EPT ep))) ≠ 0 ∧
    rd16 (ep_config_tx s ep t e).2.pma (cnt (tx0 (EPT ep))) = 0 ∧
    rd16 (ep_config_tx s ep t e).2.pma (addr (tx1 (EPT ep))) ≠ 0 ∧
    rd16 (ep_config_tx s ep t e).2.pma (cnt (tx1 (EPT ep))) = 0 ∧
    (ep_config_tx s ep t e).2.epr (EPR ep) &&& 0x4070 = 0x30 ∧
    (ep_config_tx s ep t e).2.epr (EPR ep) &&& 0xBF8F = s.epr (EPR ep) &&& 0xBF8F := by
  have hlt := get_next_pma_lt s e
  simp only [ep_config_tx, addr, cnt, tx, tx0, tx1, hd, if_true] at h ⊢
  split_ifs at h ⊢ with h1 h2
  have hlt2 := get_next_pma_lt (pma_wr (pma_wr s (EPT ep) (get_next_pma s e)) (EPT ep + 2) 0) e
  refine ⟨?_, ?_, ?_, ?_, ?_, ?_⟩
  · simp (disch := omega) only [dtx_unstall_pma, pma_wr_pma, rd16_wr16_other, rd16_wr16_same]
    omega
  · simp (disch := omega) only [dtx_unstall_pma, pma_wr_pma, rd16_wr16_other, rd16_wr16_same]
  · simp (disch := omega) only [dtx_unstall_pma, pma_wr_pma, rd16_wr16_other, rd16_wr16_same]
    simp only [pma_wr_pma] at hlt2 h2
    omega
  · simp (disch := omega) only [dtx_unstall_pma, pma_wr_pma, rd16_wr16_other, rd16_wr16_same]
  · exact (dtx_unstall_epr _ _).1
  · exact (dtx_unstall_epr _ _).2

/-- Registers of other endpoints and memory outside the descriptor entry are
not touched by the RX block. -/
theorem ep_config_rx_frame (s : State) (ep t e : Nat) :
    (∀ i, i ≠ EPR ep → (ep_config_rx s ep t e).2.epr i = s.epr i) ∧
    (∀ x, x < EPT ep ∨ EPT ep + 8 ≤ x → (ep_config_rx s ep t e).2.pma x = s.pma x) := by
  simp only [ep_config_rx, addr, cnt, rx, rx0]
  split_ifs
  · exact ⟨fun _ _ => rfl, fun _ _ => rfl⟩
  · refine ⟨fun _ _ => rfl, fun x hx => ?_⟩
    simp (disch := omega) only [pma_wr_pma, wr16_other]
  · refine ⟨fun i hi => ?_, fun x hx => ?_⟩
    · simp only [EP_DRX_UNSTALL, toggle_epr_other _ _ _ _ _ hi, pma_wr_epr]
    · simp (disch := omega) only [drx_unstall_pma, pma_wr_pma, wr16_other]
  · refine ⟨fun i hi => ?_, fun x hx => ?_⟩
    · simp only [EP_RX_UNSTALL, toggle_epr_other _ _ _ _ _ hi, pma_wr_epr]
    · simp (disch := omega) only [rx_unstall_pma, pma_wr_pma, wr16_other]

/-- The RX block hands the type, kind and address bits of the register back
unchanged, whatever it returns. -/
theorem ep_config_rx_plain (s : State) (ep t e : Nat) :
    (ep_config_rx s ep t e).2.epr (EPR ep) &&& 0x0F0F = s.epr (EPR ep) &&& 0x0F0F := by
  simp only [ep_config_rx, addr, cnt, rx, rx0]
  split_ifs
  · rfl
  · rfl
  · exact and_narrow _ _ _ _ (drx_unstall_epr _ _).2 (by decide)
  · exact and_narrow _ _ _ _ (rx_unstall_epr _ _).2 (by decide)

/-- A failing RX block leaves the register alone, and the packet memory too
when the failing request is the first one. -/
theorem ep_config_rx_fail (s : State) (ep t e : Nat)
    (h : (ep_config_rx s ep t e).1 = false) :
    (ep_config_rx s ep t e).2.epr = s.epr ∧
    (is_dbl t = false ∨ get_next_pma s (ep_rxcnt e).2 = 0 →
      (ep_config_rx s ep t e).2.pma = s.pma) := by
  simp only [ep_config_rx, addr, cnt, rx, rx0] at h ⊢
  split_ifs at h ⊢ with h1 hd h2
  · exact ⟨rfl, fun _ => rfl⟩
  · refine ⟨rfl, fun hh => ?_⟩
    rcases hh with hh | hh
    · rw [hd] at hh; cases hh
    · exact absurd hh h1

/-- A successful single-buffered RX block: slot offset, count word and
register; the first record of the entry is not touched. -/
theorem ep_config_rx_single (s : State) (ep t e : Nat)
    (h : (ep_config_rx s ep t e).1 = true) (hd : is_dbl t = false) :
    get_next_pma s (ep_rxcnt e).2 ≠ 0 ∧
    rd16 (ep_config_rx s ep t e).2.pma (addr (rx (EPT ep))) = get_next_pma s (ep_rxcnt e).2 ∧
    rd16 (ep_config_rx s ep t e).2.pma (cnt (rx (EPT ep))) = (ep_rxcnt e).1 ∧
    (∀ x, x < EPT ep + 4 → (ep_config_rx s ep t e).2.pma x = s.pma x) ∧
    (ep_config_rx s ep t e).2.epr (EPR ep) &&& 0x7000 = 0x3000 ∧
    (ep_config_rx s ep t e).2.epr (EPR ep) &&& 0x8FFF = s.epr (EPR ep) &&& 0x8FFF := by
  have hlt := get_next_pma_lt s (ep_rxcnt e).2
  have hc := ep_rxcnt_lt e
  simp only [ep_config_rx, addr, cnt, rx, rx0, hd, Bool.false_eq_true, if_false] at h ⊢
  split_ifs at h ⊢ with h1
  refine ⟨h1, ?_, ?_, fun x hx => ?_, ?_, ?_⟩
  · simp (disch := omega) only [rx_unstall_pma, pma_wr_pma, rd16_wr16_other, rd16_wr16_same]
    omega
  · simp (disch := omega) only [rx_unstall_pma, pma_wr_pma, rd16_wr16_other, rd16_wr16_same]
    omega
  · simp (disch := omega) only [rx_unstall_pma, pma_wr_pma, wr16_other]
  · exact (rx_unstall_epr _ _).1
  · exact (rx_unstall_epr _ _).2

/-- A successful double-buffered RX block: both slots and the register. -/
theorem ep_config_rx_double (s : State) (ep t e : Nat)
    (h : (ep_config_rx s ep t e).1 = true) (hd : is_dbl t = true) :
    rd16 (ep_config_rx s ep t e).2.pma (addr (rx0 (EPT ep))) ≠ 0 ∧
    rd16 (ep_config_rx s ep t e).2.pma (cnt (rx0 (EPT ep))) = (ep_rxcnt e).1 ∧
    rd16 (ep_config_rx s ep t e).2.pma (addr (rx1 (EPT ep))) ≠ 0 ∧
    rd16 (ep_config_rx s ep t e).2.pma (cnt (rx1 (EPT ep))) = (ep_rxcnt e).1 ∧
    (ep_config_rx s ep t e).2.epr (EPR ep) &&& 0x7040 = 0x3040 ∧
    (ep_config_rx s ep t e).2.epr (EPR ep) &&& 0x8FBF = s.epr (EPR ep) &&& 0x8FBF := by
  have hlt := get_next_pma_lt s (ep_rxcnt e).2
  have hc := ep_rxcnt_lt e
  simp only [ep_config_rx, addr, cnt, rx, rx0, rx1, hd, if_true] at h ⊢
  split_ifs at h ⊢ with h1 h2
  have hlt2 := get_next_pma_lt
    (pma_wr (pma_wr s (EPT ep + 4) (get_next_pma s (ep_rxcnt e).2)) (EPT ep + 4 + 2)
      (ep_rxcnt e).1) (ep_rxcnt e).2
  refine ⟨?_, ?_, ?_, ?_, ?_, ?_⟩
  · simp (disch := omega) only [drx_unstall_pma, pma_wr_pma, rd16_wr16_other, rd16_wr16_same]
    simp only [pma_wr_pma] at hlt2 h2
    omega
  · simp (disch := omega) only [drx_unstall_pma, pma_wr_pma, rd16_wr16_other, rd16_wr16_same]
    omega
  · simp (disch := omega) only [drx_unstall_pma, pma_wr_pma, rd16_wr16_other, rd16_wr16_same]
    omega
  · simp (disch := omega) only [drx_unstall_pma, pma_wr_pma, rd16_wr16_other, rd16_wr16_same]
    omega
  · exact (drx_unstall_epr _ _).1
  · exact (drx_unstall_epr _ _).2

end V0

/-! ## What the blocks of `ep_config` leave behind (v1) -/

namespace V1

theorem get_next_pma_lt_v1 (s : State) (sz : Nat) : get_next_pma s sz < 65536 := by
  simp only [get_next_pma]
  split_ifs <;> omega

/-- Registers of other endpoints and memory outside the descriptor entry are
not touched by the TX block. -/
theorem ep_config_tx_frame_v1 (s : State) (ep t e : Nat) :
    (∀ i, i ≠ EPR ep → (ep_config_tx s ep t e).2.epr i = s.epr i) ∧
    (∀ x, x < EPT ep ∨ EPT ep + 16 ≤ x → (ep_config_tx s ep t e).2.pma x = s.pma x) := by
  simp only [ep_config_tx, txadr, txcnt, txadr0, txadr1, txcnt0, txcnt1]
  split_ifs
  · exact ⟨fun _ _ => rfl, fun _ _ => rfl⟩
  · refine ⟨fun _ _ => rfl, fun x hx => ?_⟩
    simp (disch := omega) only [pma_wr_pma, wr16_other]
  · refine ⟨fun i hi => ?_, fun x hx => ?_⟩
    · simp only [EP_DTX_UNSTALL, toggle_epr_other _ _ _ _ _ hi, pma_wr_epr]
    · simp (disch := omega) only [dtx_unstall_pma, pma_wr_pma, wr16_other]
  · refine ⟨fun i hi => ?_, fun x hx => ?_⟩
    · simp only [EP_TX_UNSTALL, toggle_epr_other _ _ _ _ _ hi, pma_wr_epr]
    · simp (disch := omega) only [tx_unstall_pma, pma_wr_pma, wr16_other]

/-- The TX block hands the type, kind and address bits of the register back
unchanged, whatever it returns. -/
theorem ep_config_tx_plain_v1 (s : State) (ep t e : Nat) :
    (ep_config_tx s ep t e).2.epr (EPR ep) &&& 0x0F0F = s.epr (EPR ep) &&& 0x0F0F := by
  simp only [ep_config_tx, txadr, txcnt, txadr0, txadr1, txcnt0, txcnt1]
  split_ifs
  · rfl
  · rfl
  · exact and_narrow _ _ _ _ (dtx_unstall_epr _ _).2 (by decide)
  · exact and_narrow _ _ _ _ (tx_unstall_epr _ _).2 (by decide)

/-- A failing TX block leaves the register alone, and the packet memory too
when the failing request is the first one. -/
theorem ep_config_tx_fail_v1 (s : State) (ep t e : Nat)
    (h : (ep_config_tx s ep t e).1 = false) :
    (ep_config_tx s ep t e).2.epr = s.epr ∧
    (is_dbl t = false ∨ get_next_pma s e = 0 → (ep_config_tx s ep t e).2.pma = s.pma) := by
  simp only [ep_config_tx, txadr, txcnt, txadr0, txadr1, txcnt0, txcnt1] at h ⊢
  split_ifs at h ⊢ with h1 hd h2
  · exact ⟨rfl, fun _ => rfl⟩
  · refine ⟨rfl, fun hh => ?_⟩
    rcases hh with hh | hh
    · rw [hd] at hh; cases hh
    · exact absurd hh h1

/-- A successful single-buffered TX block: slot offset, count and register. -/
theorem ep_config_tx_single_v1 (s : State) (ep t e : Nat)
    (h : (ep_config_tx s ep t e).1 = true) (hd : is_dbl t = false) :
    get_next_pma s e ≠ 0 ∧
    rd16 (ep_config_tx s ep t e).2.pma (txadr (EPT ep)) = get_next_pma s e ∧
    rd16 (ep_config_tx s ep t e).2.pma (txcnt (EPT ep)) = 0 ∧
    (∀ x, EPT ep + 8 ≤ x → (ep_config_tx s ep t e).2.pma x = s.pma x) ∧
    (ep_config_tx s ep t e).2.epr (EPR ep) &&& 0x70 = 0x20 ∧
    (ep_config_tx s ep t e).2.epr (EPR ep) &&& 0xFF8F = s.epr (EPR ep) &&& 0xFF8F := by
  have hlt := get_next_pma_lt_v1 s e
  simp only [ep_config_tx, txadr, txcnt, txadr0, txadr1, txcnt0, txcnt1, hd,
    Bool.false_eq_true, if_false] at h ⊢
  split_ifs at h ⊢ with h1
  refine ⟨h1, ?_, ?_, fun x hx => ?_, ?_, ?_⟩
  · simp (disch := omega) only [tx_unstall_pma, pma_wr_pma, rd16_wr16_other, rd16_wr16_same]
    omega
  · simp (disch := omega) only [tx_unstall_pma, pma_wr_pma, rd16_wr16_other, rd16_wr16_same]
  · simp (disch := omega) only [tx_unstall_pma, pma_wr_pma, wr16_other]
  · exact (tx_unstall_epr _ _).1
  · exact (tx_unstall_epr _ _).2

/-- A successful double-buffered TX block: both slots and the register. -/
theorem ep_config_tx_double_v1 (s : State) (ep t e : Nat)
    (h : (ep_config_tx s ep t e).1 = true) (hd : is_dbl t = true) :
    rd16 (ep_config_tx s ep t e).2.pma (txadr0 (EPT ep)) ≠ 0 ∧
    rd16 (ep_config_tx s ep t e).2.pma (txcnt0 (EPT ep)) = 0 ∧
    rd16 (ep_config_tx s ep t e).2.pma (txadr1 (EPT ep)) ≠ 0 ∧
    rd16 (ep_config_tx s ep t e).2.pma (txcnt1 (EPT ep)) = 0 ∧
    (ep_config_tx s ep t e).2.epr (EPR ep) &&& 0x4070 = 0x30 ∧
    (ep_config_tx s ep t e).2.epr (EPR ep) &&& 0xBF8F = s.epr (EPR ep) &&& 0xBF8F := by
  have hlt := get_next_pma_lt_v1 s e
  simp only [ep_config_tx, txadr, txcnt, txadr0, txadr1, txcnt0, txcnt1, hd, if_true] at h ⊢
  split_ifs at h ⊢ with h1 h2
  have hlt2 := get_next_pma_lt_v1 (pma_wr s (EPT ep) (get_next_pma s e)) e
  refine ⟨?_, ?_, ?_, ?_, ?_, ?_⟩
  · simp (disch := omega) only [dtx_unstall_pma, pma_wr_pma, rd16_wr16_other, rd16_wr16_same]
    omega
  · simp (disch := omega) only [dtx_unstall_pma, pma_wr_pma, rd16_wr16_other, rd16_wr16_same]
  · simp (disch := omega) only [dtx_unstall_pma, pma_wr_pma, rd16_wr16_other, rd16_wr16_same]
    simp only [pma_wr_pma] at hlt2 h2
    omega
  · simp (disch := omega) only [dtx_unstall_pma, pma_wr_pma, rd16_wr16_other, rd16_wr16_same]
  · exact (dtx_unstall_epr _ _).1
  · exact (dtx_unstall_epr _ _).2

/-- Registers of other endpoints and memory outside the descriptor entry are
not touched by the RX block. -/
theorem ep_config_rx_frame_v1 (s : State) (ep t e : Nat) :
    (∀ i, i ≠ EPR ep → (ep_config_rx s ep t e).2.epr i = s.epr i) ∧
    (∀ x, x < EPT ep ∨ EPT ep + 16 ≤ x → (ep_config_rx s ep t e).2.pma x = s.pma x) := by
  simp only [ep_config_rx, rxadr, rxcnt, rxadr0, rxadr1, rxcnt0, rxcnt1]
  split_ifs
  · exact ⟨fun _ _ => rfl, fun _ _ => rfl⟩
  · refine ⟨fun _ _ => rfl, fun x hx => ?_⟩
    simp (disch := omega) only [pma_wr_pma, wr16_other]
  · refine ⟨fun i hi => ?_, fun x hx => ?_⟩
    · simp only [EP_DRX_UNSTALL, toggle_epr_other _ _ _ _ _ hi, pma_wr_epr]
    · simp (disch := omega) only [drx_unstall_pma, pma_wr_pma, wr16_other]
  · refine ⟨fun i hi => ?_, fun x hx => ?_⟩
    · simp only [EP_RX_UNSTALL, toggle_epr_other _ _ _ _ _ hi, pma_wr_epr]
    · simp (disch := omega) only [rx_unstall_pma, pma_wr_pma, wr16_other]

/-- The RX block hands the type, kind and address bits of the register back
unchanged, whatever it returns. -/
theorem ep_config_rx_plain_v1 (s : State) (ep t e : Nat) :
    (ep_config_rx s ep t e).2.epr (EPR ep) &&& 0x0F0F = s.epr (EPR ep) &&& 0x0F0F := by
  simp only [ep_config_rx, rxadr, rxcnt, rxadr0, rxadr1, rxcnt0, rxcnt1]
  split_ifs
  · rfl
  · rfl
  · exact and_narrow _ _ _ _ (drx_unstall_epr _ _).2 (by decide)
  · exact and_narrow _ _ _ _ (rx_unstall_epr _ _).2 (by decide)

/-- A failing RX block leaves the register alone, and the packet memory too
when the failing request is the first one. -/
theorem ep_config_rx_fail_v1 (s : State) (ep t e : Nat)
    (h : (ep_config_rx s ep t e).1 = false) :
    (ep_config_rx s ep t e).2.epr = s.epr ∧
    (is_dbl t = false ∨ get_next_pma s (ep_rxcnt e).2 = 0 →
      (ep_config_rx s ep t e).2.pma = s.pma) := by
  simp only [ep_config_rx, rxadr, rxcnt, rxadr0, rxadr1, rxcnt0, rxcnt1] at h ⊢
  split_ifs at h ⊢ with h1 hd h2
  · exact ⟨rfl, fun _ => rfl⟩
  · refine ⟨rfl, fun hh => ?_⟩
    rcases hh with hh | hh
    · rw [hd] at hh; cases hh
    · exact absurd hh h1

/-- A successful single-buffered RX block: slot offset, count word and
register; the first record of the entry is not touched. -/
theorem ep_config_rx_single_v1 (s : State) (ep t e : Nat)
    (h : (ep_config_rx s ep t e).1 = true) (hd : is_dbl t = false) :
    get_next_pma s (ep_rxcnt e).2 ≠ 0 ∧
    rd16 (ep_config_rx s ep t e).2.pma (rxadr (EPT ep)) = get_next_pma s (ep_rxcnt e).2 ∧
    rd16 (ep_config_rx s ep t e).2.pma (rxcnt (EPT ep)) = (ep_rxcnt e).1 ∧
    (∀ x, x < EPT ep + 8 → (ep_config_rx s ep t e).2.pma x = s.pma x) ∧
    (ep_config_rx s ep t e).2.epr (EPR ep) &&& 0x7000 = 0x3000 ∧
    (ep_config_rx s ep t e).2.epr (EPR ep) &&& 0x8FFF = s.epr (EPR ep) &&& 0x8FFF := by
  have hlt := get_next_pma_lt_v1 s (ep_rxcnt e).2
  have hc := ep_rxcnt_lt e
  simp only [ep_config_rx, rxadr, rxcnt, rxadr0, rxadr1, rxcnt0, rxcnt1, hd,
    Bool.false_eq_true, if_false] at h ⊢
  split_ifs at h ⊢ with h1
  refine ⟨h1, ?_, ?_, fun x hx => ?_, ?_, ?_⟩
  · simp (disch := omega) only [rx_unstall_pma, pma_wr_pma, rd16_wr16_other, rd16_wr16_same]
    omega
  · simp (disch := omega) only [rx_unstall_pma, pma_wr_pma, rd16_wr16_other, rd16_wr16_same]
    omega
  · simp (disch := omega) only [rx_unstall_pma, pma_wr_pma, wr16_other]
  · exact (rx_unstall_epr _ _).1
  · exact (rx_unstall_epr _ _).2

/-- A successful double-buffered RX block: both slots and the register. -/
theorem ep_config_rx_double_v1 (s : State) (ep t e : Nat)
    (h : (ep_config_rx s ep t e).1 = true) (hd : is_dbl t = true) :
    rd16 (ep_config_rx s ep t e).2.pma (rxadr0 (EPT ep)) ≠ 0 ∧
    rd16 (ep_config_rx s ep t e).2.pma (rxcnt0 (EPT ep)) = (ep_rxcnt e).1 ∧
    rd16 (ep_config_rx s ep t e).2.pma (rxadr1 (EPT ep)) ≠ 0 ∧
    rd16 (ep_config_rx s ep t e).2.pma (rxcnt1 (EPT ep)) = (ep_rxcnt e).1 ∧
    (ep_config_rx s ep t e).2.epr (EPR ep) &&& 0x7040 = 0x3040 ∧
    (ep_config_rx s ep t e).2.epr (EPR ep) &&& 0x8FBF = s.epr (EPR ep) &&& 0x8FBF := by
  have hlt := get_next_pma_lt_v1 s (ep_rxcnt e).2
  have hc := ep_rxcnt_lt e
  simp only [ep_config_rx, rxadr, rxcnt, rxadr0, rxadr1, rxcnt0, rxcnt1, hd, if_true] at h ⊢
  split_ifs at h ⊢ with h1 h2
  have hlt2 := get_next_pma_lt_v1 (pma_wr s (EPT ep) (get_next_pma s (ep_rxcnt e).2))
    (ep_rxcnt e).2
  refine ⟨?_, ?_, ?_, ?_, ?_, ?_⟩
  · simp (disch := omega) only [drx_unstall_pma, pma_wr_pma, rd16_wr16_other, rd16_wr16_same]
    simp only [pma_wr_pma] at hlt2 h2
    omega
  · simp (disch := omega) only [drx_unstall_pma, pma_wr_pma, rd16_wr16_other, rd16_wr16_same]
    omega
  · simp (disch := omega) only [drx_unstall_pma, pma_wr_pma, rd16_wr16_other, rd16_wr16_same]
    omega
  · simp (disch := omega) only [drx_unstall_pma, pma_wr_pma, rd16_wr16_other, rd16_wr16_same]
    omega
  · exact (drx_unstall_epr _ _).1
  · exact (drx_unstall_epr _ _).2

end V1

/-! ## Paths through `ep_config` (v0) -/

namespace V0

theorem get_next_pma_congr (s s2 : State) (sz : Nat) (h : s2.pma = s.pma) :
    get_next_pma s2 sz = get_next_pma s sz := by
  simp only [get_next_pma, pma_mark_congr s s2 h]

theorem ep_config_tx_first (s : State) (ep t e : Nat)
    (h : (ep_config_tx s ep t e).1 = true) : get_next_pma s e ≠ 0 := by
  intro h0
  simp [ep_config_tx, h0] at h

/-- Path: the TX block fails. -/
theorem ep_config_path_tx_fail (s : State) (ep t e : Nat)
    (htx : ep &&& 0x80 ≠ 0 ∨ t = USB_EPTYPE_CONTROL)
    (hf : (ep_config_tx (reg_wr s (EPR ep) (ep_type_word ep t)) ep t (ep_align e)).1 = false) :
    ep_config s ep t e =
      (false, (ep_config_tx (reg_wr s (EPR ep) (ep_type_word ep t)) ep t (ep_align e)).2) := by
  simp only [ep_config, if_pos htx, hf, if_true]

/-- Path: the TX block succeeds and the handle is an OUT handle (a control
endpoint), so the RX block runs next. -/
theorem ep_config_path_tx_rx (s : State) (ep t e : Nat)
    (htx : ep &&& 0x80 ≠ 0 ∨ t = USB_EPTYPE_CONTROL)
    (hok : (ep_config_tx (reg_wr s (EPR ep) (ep_type_word ep t)) ep t (ep_align e)).1 = true)
    (hrx : ep &&& 0x80 = 0) :
    ep_config s ep t e =
      ep_config_rx (ep_config_tx (reg_wr s (EPR ep) (ep_type_word ep t)) ep t (ep_align e)).2
        ep t (ep_align e) := by
  simp only [ep_config, if_pos htx, hok, Bool.true_eq_false, if_false, if_pos hrx]

/-- Path: the TX block succeeds on an IN handle; the RX block is skipped. -/
theorem ep_config_path_tx (s : State) (ep t e : Nat)
    (htx : ep &&& 0x80 ≠ 0 ∨ t = USB_EPTYPE_CONTROL)
    (hok : (ep_config_tx (reg_wr s (EPR ep) (ep_type_word ep t)) ep t (ep_align e)).1 = true)
    (hrx : ep &&& 0x80 ≠ 0) :
    ep_config s ep t e =
      (true, (ep_config_tx (reg_wr s (EPR ep) (ep_type_word ep t)) ep t (ep_align e)).2) := by
  simp only [ep_config, if_pos htx, hok, Bool.true_eq_false, if_false, if_neg hrx]

/-- Path: an OUT handle of a non-control endpoint; only the RX block runs. -/
theorem ep_config_path_rx (s : State) (ep t e : Nat)
    (htx : ¬ (ep &&& 0x80 ≠ 0 ∨ t = USB_EPTYPE_CONTROL)) :
    ep_config s ep t e =
      ep_config_rx (reg_wr s (EPR ep) (ep_type_word ep t)) ep t (ep_align e) := by
  have hrx : ep &&& 0x80 = 0 := by
    by_contra h; exact htx (Or.inl h)
  simp only [ep_config, if_neg htx, Bool.true_eq_false, if_false, if_pos hrx]

/-- Whatever `ep_config` returns, the register holds the type, kind and
address bits of the word stored first. -/
theorem ep_config_plain (s : State) (ep t e : Nat) :
    (ep_config s ep t e).2.epr (EPR ep) &&& 0x0F0F = ep_type_word ep t &&& 0x0F0F := by
  have h0 : (reg_wr s (EPR ep) (ep_type_word ep t)).epr (EPR ep) &&& 0x0F0F =
      ep_type_word ep t &&& 0x0F0F := by
    rw [reg_wr_epr_same, hw_store_plain]
  have h1 := ep_config_tx_plain (reg_wr s (EPR ep) (ep_type_word ep t)) ep t (ep_align e)
  by_cases htx : ep &&& 0x80 ≠ 0 ∨ t = USB_EPTYPE_CONTROL
  · by_cases hok :
      (ep_config_tx (reg_wr s (EPR ep) (ep_type_word ep t)) ep t (ep_align e)).1 = true
    · by_cases hrx : ep &&& 0x80 = 0
      · rw [ep_config_path_tx_rx s ep t e htx hok hrx, ep_config_rx_plain, h1, h0]
      · rw [ep_config_path_tx s ep t e htx hok hrx, h1, h0]
    · rw [ep_config_path_tx_fail s ep t e htx (by simpa using hok), h1, h0]
  · rw [ep_config_path_rx s ep t e htx, ep_config_rx_plain, h0]

/-- Registers of other endpoints and memory outside the descriptor entry are
not touched by `ep_config`. -/
theorem ep_config_frame (s : State) (ep t e : Nat) :
    (∀ i, i ≠ EPR ep → (ep_config s ep t e).2.epr i = s.epr i) ∧
    (∀ x, x < EPT ep ∨ EPT ep + 8 ≤ x → (ep_config s ep t e).2.pma x = s.pma x) := by
  have h0e : ∀ i, i ≠ EPR ep → (reg_wr s (EPR ep) (ep_type_word ep t)).epr i = s.epr i :=
    fun i hi => reg_wr_epr_other _ _ _ _ hi
  obtain ⟨t1, t2⟩ :=
    ep_config_tx_frame (reg_wr s (EPR ep) (ep_type_word ep t)) ep t (ep_align e)
  by_cases htx : ep &&& 0x80 ≠ 0 ∨ t = USB_EPTYPE_CONTROL
  · by_cases hok :
      (ep_config_tx (reg_wr s (EPR ep) (ep_type_word ep t)) ep t (ep_align e)).1 = true
    · by_cases hrx : ep &&& 0x80 = 0
      · obtain ⟨r1, r2⟩ := ep_config_rx_frame
          (ep_config_tx (reg_wr s (EPR ep) (ep_type_word ep t)) ep t (ep_align e)).2
          ep t (ep_align e)
        rw [ep_config_path_tx_rx s ep t e htx hok hrx]
        exact ⟨fun i hi => by rw [r1 i hi, t1 i hi, h0e i hi],
          fun x hx => by rw [r2 x hx, t2 x hx, reg_wr_pma]⟩
      · rw [ep_config_path_tx s ep t e htx hok hrx]
        exact ⟨fun i hi => by rw [t1 i hi, h0e i hi],
          fun x hx => by rw [t2 x hx, reg_wr_pma]⟩
    · rw [ep_config_path_tx_fail s ep t e htx (by simpa using hok)]
      exact ⟨fun i hi => by rw [t1 i hi, h0e i hi],
        fun x hx => by rw [t2 x hx, reg_wr_pma]⟩
  · obtain ⟨r1, r2⟩ :=
      ep_config_rx_frame (reg_wr s (EPR ep) (ep_type_word ep t)) ep t (ep_align e)
    rw [ep_config_path_rx s ep t e htx]
    exact ⟨fun i hi => by rw [r1 i hi, h0e i hi],
      fun x hx => by rw [r2 x hx, reg_wr_pma]⟩

/-- A failing `ep_config` whose first request fails, or that needs one slot
only, leaves the packet memory as it was. -/
theorem ep_config_fail_pma (s : State) (ep t e : Nat)
    (hf : (ep_config s ep t e).1 = false)
    (h : (is_dbl t = false ∧ (t ≠ USB_EPTYPE_CONTROL ∨ ep &&& 0x80 ≠ 0)) ∨
      get_next_pma s
        (if ep &&& 0x80 ≠ 0 ∨ t = USB_EPTYPE_CONTROL then ep_align e
          else (ep_rxcnt (ep_align e)).2) = 0) :
    (ep_config s ep t e).2.pma = s.pma := by
  have hg : ∀ sz, get_next_pma (reg_wr s (EPR ep) (ep_type_word ep t)) sz =
      get_next_pma s sz := fun sz => get_next_pma_congr _ _ sz (reg_wr_pma _ _ _)
  by_cases htx : ep &&& 0x80 ≠ 0 ∨ t = USB_EPTYPE_CONTROL
  · rw [if_pos htx] at h
    by_cases hok :
      (ep_config_tx (reg_wr s (EPR ep) (ep_type_word ep t)) ep t (ep_align e)).1 = true
    · have hfirst := ep_config_tx_first _ _ _ _ hok
      rw [hg] at hfirst
      by_cases hrx : ep &&& 0x80 = 0
      · exfalso
        rcases h with ⟨_, h2⟩ | h
        · rcases htx with a | a
          · exact a hrx
          · rcases h2 with b | b
            · exact b a
            · exact b hrx
        · exact hfirst h
      · rw [ep_config_path_tx s ep t e htx hok hrx] at hf
        cases hf
    · have hfl : (ep_config_tx (reg_wr s (EPR ep) (ep_type_word ep t)) ep t
          (ep_align e)).1 = false := by simpa using hok
      rw [ep_config_path_tx_fail s ep t e htx hfl]
      have := (ep_config_tx_fail _ ep t (ep_align e) hfl).2 (by
        rcases h with ⟨h1, _⟩ | h
        · exact Or.inl h1
        · right; rw [hg]; exact h)
      rw [this, reg_wr_pma]
  · rw [if_neg htx] at h
    rw [ep_config_path_rx s ep t e htx] at hf ⊢
    have := (ep_config_rx_fail _ ep t (ep_align e) hf).2 (by
      rcases h with ⟨h1, _⟩ | h
      · exact Or.inl h1
      · right; rw [hg]; exact h)
    rw [this, reg_wr_pma]

end V0

/-! ## What a successful `ep_config` leaves behind (v0) -/

namespace V0

theorem ep_config_tx_ok_of_ok (s : State) (ep t e : Nat)
    (htx : ep &&& 0x80 ≠ 0 ∨ t = USB_EPTYPE_CONTROL)
    (hok : (ep_config s ep t e).1 = true) :
    (ep_config_tx (reg_wr s (EPR ep) (ep_type_word ep t)) ep t (ep_align e)).1 = true := by
  by_contra h
  rw [ep_config_path_tx_fail s ep t e htx (by simpa using h)] at hok
  cases hok

/-- TX side of a successful call on an IN or control handle, single-buffered
type. -/
theorem ep_config_in_single (s : State) (ep t e : Nat)
    (htx : ep &&& 0x80 ≠ 0 ∨ t = USB_EPTYPE_CONTROL)
    (hok : (ep_config s ep t e).1 = true) (hd : is_dbl t = false) :
    get_next_pma s (ep_align e) ≠ 0 ∧
    rd16 (ep_config s ep t e).2.pma (addr (tx (EPT ep))) = get_next_pma s (ep_align e) ∧
    rd16 (ep_config s ep t e).2.pma (cnt (tx (EPT ep))) = 0 ∧
    (ep_config s ep t e).2.epr (EPR ep) &&& 0x70 = 0x20 := by
  have hg : get_next_pma (reg_wr s (EPR ep) (ep_type_word ep t)) (ep_align e) =
      get_next_pma s (ep_align e) := get_next_pma_congr _ _ _ (reg_wr_pma _ _ _)
  have hok1 := ep_config_tx_ok_of_ok s ep t e htx hok
  obtain ⟨a1, a2, a3, _, a5, _⟩ := ep_config_tx_single _ ep t (ep_align e) hok1 hd
  rw [hg] at a1 a2
  by_cases hrx : ep &&& 0x80 = 0
  · rw [ep_config_path_tx_rx s ep t e htx hok1 hrx] at hok ⊢
    obtain ⟨_, _, _, b4, _, b6⟩ := ep_config_rx_single _ ep t (ep_align e) hok hd
    refine ⟨a1, ?_, ?_, ?_⟩
    · rw [← a2]
      simp only [addr, tx]
      exact rd16_congr _ _ _ (b4 _ (by omega)) (b4 _ (by omega))
    · rw [← a3]
      simp only [cnt, tx]
      exact rd16_congr _ _ _ (b4 _ (by omega)) (b4 _ (by omega))
    · rw [and_narrow _ _ _ _ b6 (by decide), a5]
  · rw [ep_config_path_tx s ep t e htx hok1 hrx]
    exact ⟨a1, a2, a3, a5⟩

/-- TX side of a successful call on an IN handle, isochronous or
double-buffered bulk. -/
theorem ep_config_in_double (s : State) (ep t e : Nat)
    (htx : ep &&& 0x80 ≠ 0 ∨ t = USB_EPTYPE_CONTROL)
    (hok : (ep_config s ep t e).1 = true) (hd : is_dbl t = true) :
    rd16 (ep_config s ep t e).2.pma (addr (tx0 (EPT ep))) ≠ 0 ∧
    rd16 (ep_config s ep t e).2.pma (cnt (tx0 (EPT ep))) = 0 ∧
    rd16 (ep_config s ep t e).2.pma (addr (tx1 (EPT ep))) ≠ 0 ∧
    rd16 (ep_config s ep t e).2.pma (cnt (tx1 (EPT ep))) = 0 ∧
    (ep_config s ep t e).2.epr (EPR ep) &&& 0x4070 = 0x30 := by
  have hok1 := ep_config_tx_ok_of_ok s ep t e htx hok
  have hrx : ep &&& 0x80 ≠ 0 := by
    rcases htx with h | h
    · exact h
    · exact absurd h (is_dbl_not_control t hd)
  obtain ⟨a1, a2, a3, a4, a5, _⟩ := ep_config_tx_double _ ep t (ep_align e) hok1 hd
  rw [ep_config_path_tx s ep t e htx hok1 hrx]
  exact ⟨a1, a2, a3, a4, a5⟩

/-- The RX block is the last step of a successful call on an OUT handle. -/
theorem ep_config_out_last (s : State) (ep t e : Nat) (hrx : ep &&& 0x80 = 0) :
    ∃ s1, ep_config s ep t e = ep_config_rx s1 ep t (ep_align e) ∨
      (ep_config s ep t e).1 = false := by
  by_cases htx : ep &&& 0x80 ≠ 0 ∨ t = USB_EPTYPE_CONTROL
  · by_cases hok1 :
      (ep_config_tx (reg_wr s (EPR ep) (ep_type_word ep t)) ep t (ep_align e)).1 = true
    · exact ⟨_, Or.inl (ep_config_path_tx_rx s ep t e htx hok1 hrx)⟩
    · refine ⟨s, Or.inr ?_⟩
      rw [ep_config_path_tx_fail s ep t e htx (by simpa using hok1)]
  · exact ⟨_, Or.inl (ep_config_path_rx s ep t e htx)⟩

/-- RX side of a successful call on an OUT handle, single-buffered type. -/
theorem ep_config_out_single (s : State) (ep t e : Nat) (hrx : ep &&& 0x80 = 0)
    (hok : (ep_config s ep t e).1 = true) (hd : is_dbl t = false) :
    rd16 (ep_config s ep t e).2.pma (addr (rx (EPT ep))) ≠ 0 ∧
    rd16 (ep_config s ep t e).2.pma (cnt (rx (EPT ep))) = (ep_rxcnt (ep_align e)).1 ∧
    (ep_config s ep t e).2.epr (EPR ep) &&& 0x7000 = 0x3000 := by
  obtain ⟨s1, h | h⟩ := ep_config_out_last s ep t e hrx
  · rw [h] at hok ⊢
    obtain ⟨b1, b2, b3, _, b5, _⟩ := ep_config_rx_single s1 ep t (ep_align e) hok hd
    exact ⟨by rw [b2]; exact b1, b3, b5⟩
  · rw [h] at hok; cases hok

/-- RX side of a successful call on an OUT handle, isochronous or
double-buffered bulk. -/
theorem ep_config_out_double (s : State) (ep t e : Nat) (hrx : ep &&& 0x80 = 0)
    (hok : (ep_config s ep t e).1 = true) (hd : is_dbl t = true) :
    rd16 (ep_config s ep t e).2.pma (addr (rx0 (EPT ep))) ≠ 0 ∧
    rd16 (ep_config s ep t e).2.pma (cnt (rx0 (EPT ep))) = (ep_rxcnt (ep_align e)).1 ∧
    rd16 (ep_config s ep t e).2.pma (addr (rx1 (EPT ep))) ≠ 0 ∧
    rd16 (ep_config s ep t e).2.pma (cnt (rx1 (EPT ep))) = (ep_rxcnt (ep_align e)).1 ∧
    (ep_config s ep t e).2.epr (EPR ep) &&& 0x7040 = 0x3040 := by
  obtain ⟨s1, h | h⟩ := ep_config_out_last s ep t e hrx
  · rw [h] at hok ⊢
    obtain ⟨b1, b2, b3, b4, b5, _⟩ := ep_config_rx_double s1 ep t (ep_align e) hok hd
    exact ⟨b1, b2, b3, b4, b5⟩
  · rw [h] at hok; cases hok

end V0

/-! ## Paths through `ep_config` (v1) -/

namespace V1

theorem get_next_pma_congr_v1 (s s2 : State) (sz : Nat) (h : s2.pma = s.pma) :
    get_next_pma s2 sz = get_next_pma s sz := by
  simp only [get_next_pma, pma_mark_congr_v1 s s2 h]

theorem ep_config_tx_first_v1 (s : State) (ep t e : Nat)
    (h : (ep_config_tx s ep t e).1 = true) : get_next_pma s e ≠ 0 := by
  intro h0
  simp [ep_config_tx, h0] at h

/-- Path: the TX block fails. -/
theorem ep_config_path_tx_fail_v1 (s : State) (ep t e : Nat)
    (htx : ep &&& 0x80 ≠ 0 ∨ t = USB_EPTYPE_CONTROL)
    (hf : (ep_config_tx (reg_wr s (EPR ep) (ep_type_word ep t)) ep t (ep_align e)).1 = false) :
    ep_config s ep t e =
      (false, (ep_config_tx (reg_wr s (EPR ep) (ep_type_word ep t)) ep t (ep_align e)).2) := by
  simp only [ep_config, if_pos htx, hf, if_true]

/-- Path: the TX block succeeds and the handle is an OUT handle (a control
endpoint), so the RX block runs next. -/
theorem ep_config_path_tx_rx_v1 (s : State) (ep t e : Nat)
    (htx : ep &&& 0x80 ≠ 0 ∨ t = USB_EPTYPE_CONTROL)
    (hok : (ep_config_tx (reg_wr s (EPR ep) (ep_type_word ep t)) ep t (ep_align e)).1 = true)
    (hrx : ep &&& 0x80 = 0) :
    ep_config s ep t e =
      ep_config_rx (ep_config_tx (reg_wr s (EPR ep) (ep_type_word ep t)) ep t (ep_align e)).2
        ep t (ep_align e) := by
  simp only [ep_config, if_pos htx, hok, Bool.true_eq_false, if_false, if_pos hrx]

/-- Path: the TX block succeeds on an IN handle; the RX block is skipped. -/
theorem ep_config_path_tx_v1 (s : State) (ep t e : Nat)
    (htx : ep &&& 0x80 ≠ 0 ∨ t = USB_EPTYPE_CONTROL)
    (hok : (ep_config_tx (reg_wr s (EPR ep) (ep_type_word ep t)) ep t (ep_align e)).1 = true)
    (hrx : ep &&& 0x80 ≠ 0) :
    ep_config s ep t e =
      (true, (ep_config_tx (reg_wr s (EPR ep) (ep_type_word ep t)) ep t (ep_align e)).2) := by
  simp only [ep_config, if_pos htx, hok, Bool.true_eq_false, if_false, if_neg hrx]

/-- Path: an OUT handle of a non-control endpoint; only the RX block runs. -/
theorem ep_config_path_rx_v1 (s : State) (ep t e : Nat)
    (htx : ¬ (ep &&& 0x80 ≠ 0 ∨ t = USB_EPTYPE_CONTROL)) :
    ep_config s ep t e =
      ep_config_rx (reg_wr s (EPR ep) (ep_type_word ep t)) ep t (ep_align e) := by
  have hrx : ep &&& 0x80 = 0 := by
    by_contra h; exact htx (Or.inl h)
  simp only [ep_config, if_neg htx, Bool.true_eq_false, if_false, if_pos hrx]

/-- Whatever `ep_config` returns, the register holds the type, kind and
address bits of the word stored first. -/
theorem ep_config_plain_v1 (s : State) (ep t e : Nat) :
    (ep_config s ep t e).2.epr (EPR ep) &&& 0x0F0F = ep_type_word ep t &&& 0x0F0F := by
  have h0 : (reg_wr s (EPR ep) (ep_type_word ep t)).epr (EPR ep) &&& 0x0F0F =
      ep_type_word ep t &&& 0x0F0F := by
    rw [reg_wr_epr_same, hw_store_plain]
  have h1 := ep_config_tx_plain_v1 (reg_wr s (EPR ep) (ep_type_word ep t)) ep t (ep_align e)
  by_cases htx : ep &&& 0x80 ≠ 0 ∨ t = USB_EPTYPE_CONTROL
  · by_cases hok :
      (ep_config_tx (reg_wr s (EPR ep) (ep_type_word ep t)) ep t (ep_align e)).1 = true
    · by_cases hrx : ep &&& 0x80 = 0
      · rw [ep_config_path_tx_rx_v1 s ep t e htx hok hrx, ep_config_rx_plain_v1, h1, h0]
      · rw [ep_config_path_tx_v1 s ep t e htx hok hrx, h1, h0]
    · rw [ep_config_path_tx_fail_v1 s ep t e htx (by simpa using hok), h1, h0]
  · rw [ep_config_path_rx_v1 s ep t e htx, ep_config_rx_plain_v1, h0]

/-- Registers of other endpoints and memory outside the descriptor entry are
not touched by `ep_config`. -/
theorem ep_config_frame_v1 (s : State) (ep t e : Nat) :
    (∀ i, i ≠ EPR ep → (ep_config s ep t e).2.epr i = s.epr i) ∧
    (∀ x, x < EPT ep ∨ EPT ep + 16 ≤ x → (ep_config s ep t e).2.pma x = s.pma x) := by
  have h0e : ∀ i, i ≠ EPR ep → (reg_wr s (EPR ep) (ep_type_word ep t)).epr i = s.epr i :=
    fun i hi => reg_wr_epr_other _ _ _ _ hi
  obtain ⟨t1, t2⟩ :=
    ep_config_tx_frame_v1 (reg_wr s (EPR ep) (ep_type_word ep t)) ep t (ep_align e)
  by_cases htx : ep &&& 0x80 ≠ 0 ∨ t = USB_EPTYPE_CONTROL
  · by_cases hok :
      (ep_config_tx (reg_wr s (EPR ep) (ep_type_word ep t)) ep t (ep_align e)).1 = true
    · by_cases hrx : ep &&& 0x80 = 0
      · obtain ⟨r1, r2⟩ := ep_config_rx_frame_v1
          (ep_config_tx (reg_wr s (EPR ep) (ep_type_word ep t)) ep t (ep_align e)).2
          ep t (ep_align e)
        rw [ep_config_path_tx_rx_v1 s ep t e htx hok hrx]
        exact ⟨fun i hi => by rw [r1 i hi, t1 i hi, h0e i hi],
          fun x hx => by rw [r2 x hx, t2 x hx, reg_wr_pma]⟩
      · rw [ep_config_path_tx_v1 s ep t e htx hok hrx]
        exact ⟨fun i hi => by rw [t1 i hi, h0e i hi],
          fun x hx => by rw [t2 x hx, reg_wr_pma]⟩
    · rw [ep_config_path_tx_fail_v1 s ep t e htx (by simpa using hok)]
      exact ⟨fun i hi => by rw [t1 i hi, h0e i hi],
        fun x hx => by rw [t2 x hx, reg_wr_pma]⟩
  · obtain ⟨r1, r2⟩ :=
      ep_config_rx_frame_v1 (reg_wr s (EPR ep) (ep_type_word ep t)) ep t (ep_align e)
    rw [ep_config_path_rx_v1 s ep t e htx]
    exact ⟨fun i hi => by rw [r1 i hi, h0e i hi],
      fun x hx => by rw [r2 x hx, reg_wr_pma]⟩

/-- A failing `ep_config` whose first request fails, or that needs one slot
only, leaves the packet memory as it was. -/
theorem ep_config_fail_pma_v1 (s : State) (ep t e : Nat)
    (hf : (ep_config s ep t e).1 = false)
    (h : (is_dbl t = false ∧ (t ≠ USB_EPTYPE_CONTROL ∨ ep &&& 0x80 ≠ 0)) ∨
      get_next_pma s
        (if ep &&& 0x80 ≠ 0 ∨ t = USB_EPTYPE_CONTROL then ep_align e
          else (ep_rxcnt (ep_align e)).2) = 0) :
    (ep_config s ep t e).2.pma = s.pma := by
  have hg : ∀ sz, get_next_pma (reg_wr s (EPR ep) (ep_type_word ep t)) sz =
      get_next_pma s sz := fun sz => get_next_pma_congr_v1 _ _ sz (reg_wr_pma _ _ _)
  by_cases htx : ep &&& 0x80 ≠ 0 ∨ t = USB_EPTYPE_CONTROL
  · rw [if_pos htx] at h
    by_cases hok :
      (ep_config_tx (reg_wr s (EPR ep) (ep_type_word ep t)) ep t (ep_align e)).1 = true
    · have hfirst := ep_config_tx_first_v1 _ _ _ _ hok
      rw [hg] at hfirst
      by_cases hrx : ep &&& 0x80 = 0
      · exfalso
        rcases h with ⟨_, h2⟩ | h
        · rcases htx with a | a
          · exact a hrx
          · rcases h2 with b | b
            · exact b a
            · exact b hrx
        · exact hfirst h
      · rw [ep_config_path_tx_v1 s ep t e htx hok hrx] at hf
        cases hf
    · have hfl : (ep_config_tx (reg_wr s (EPR ep) (ep_type_word ep t)) ep t
          (ep_align e)).1 = false := by simpa using hok
      rw [ep_config_path_tx_fail_v1 s ep t e htx hfl]
      have := (ep_config_tx_fail_v1 _ ep t (ep_align e) hfl).2 (by
        rcases h with ⟨h1, _⟩ | h
        · exact Or.inl h1
        · right; rw [hg]; exact h)
      rw [this, reg_wr_pma]
  · rw [if_neg htx] at h
    rw [ep_config_path_rx_v1 s ep t e htx] at hf ⊢
    have := (ep_config_rx_fail_v1 _ ep t (ep_align e) hf).2 (by
      rcases h with ⟨h1, _⟩ | h
      · exact Or.inl h1
      · right; rw [hg]; exact h)
    rw [this, reg_wr_pma]

end V1

/-! ## What a successful `ep_config` leaves behind (v1) -/

namespace V1

theorem ep_config_tx_ok_of_ok_v1 (s : State) (ep t e : Nat)
    (htx : ep &&& 0x80 ≠ 0 ∨ t = USB_EPTYPE_CONTROL)
    (hok : (ep_config s ep t e).1 = true) :
    (ep_config_tx (reg_wr s (EPR ep) (ep_type_word ep t)) ep t (ep_align e)).1 = true := by
  by_contra h
  rw [ep_config_path_tx_fail_v1 s ep t e htx (by simpa using h)] at hok
  cases hok

/-- TX side of a successful call on an IN or control handle, single-buffered
type. -/
theorem ep_config_in_single_v1 (s : State) (ep t e : Nat)
    (htx : ep &&& 0x80 ≠ 0 ∨ t = USB_EPTYPE_CONTROL)
    (hok : (ep_config s ep t e).1 = true) (hd : is_dbl t = false) :
    get_next_pma s (ep_align e) ≠ 0 ∧
    rd16 (ep_config s ep t e).2.pma (txadr (EPT ep)) = get_next_pma s (ep_align e) ∧
    rd16 (ep_config s ep t e).2.pma (txcnt (EPT ep)) = 0 ∧
    (ep_config s ep t e).2.epr (EPR ep) &&& 0x70 = 0x20 := by
  have hg : get_next_pma (reg_wr s (EPR ep) (ep_type_word ep t)) (ep_align e) =
      get_next_pma s (ep_align e) := get_next_pma_congr_v1 _ _ _ (reg_wr_pma _ _ _)
  have hok1 := ep_config_tx_ok_of_ok_v1 s ep t e htx hok
  obtain ⟨a1, a2, a3, _, a5, _⟩ := ep_config_tx_single_v1 _ ep t (ep_align e) hok1 hd
  rw [hg] at a1 a2
  by_cases hrx : ep &&& 0x80 = 0
  · rw [ep_config_path_tx_rx_v1 s ep t e htx hok1 hrx] at hok ⊢
    obtain ⟨_, _, _, b4, _, b6⟩ := ep_config_rx_single_v1 _ ep t (ep_align e) hok hd
    refine ⟨a1, ?_, ?_, ?_⟩
    · rw [← a2]
      simp only [txadr]
      exact rd16_congr _ _ _ (b4 _ (by omega)) (b4 _ (by omega))
    · rw [← a3]
      simp only [txcnt]
      exact rd16_congr _ _ _ (b4 _ (by omega)) (b4 _ (by omega))
    · rw [and_narrow _ _ _ _ b6 (by decide), a5]
  · rw [ep_config_path_tx_v1 s ep t e htx hok1 hrx]
    exact ⟨a1, a2, a3, a5⟩

/-- TX side of a successful call on an IN handle, isochronous or
double-buffered bulk. -/
theorem ep_config_in_double_v1 (s : State) (ep t e : Nat)
    (htx : ep &&& 0x80 ≠ 0 ∨ t = USB_EPTYPE_CONTROL)
    (hok : (ep_config s ep t e).1 = true) (hd : is_dbl t = true) :
    rd16 (ep_config s ep t e).2.pma (txadr0 (EPT ep)) ≠ 0 ∧
    rd16 (ep_config s ep t e).2.pma (txcnt0 (EPT ep)) = 0 ∧
    rd16 (ep_config s ep t e).2.pma (txadr1 (EPT ep)) ≠ 0 ∧
    rd16 (ep_config s ep t e).2.pma (txcnt1 (EPT ep)) = 0 ∧
    (ep_config s ep t e).2.epr (EPR ep) &&& 0x4070 = 0x30 := by
  have hok1 := ep_config_tx_ok_of_ok_v1 s ep t e htx hok
  have hrx : ep &&& 0x80 ≠ 0 := by
    rcases htx with h | h
    · exact h
    · exact absurd h (is_dbl_not_control t hd)
  obtain ⟨a1, a2, a3, a4, a5, _⟩ := ep_config_tx_double_v1 _ ep t (ep_align e) hok1 hd
  rw [ep_config_path_tx_v1 s ep t e htx hok1 hrx]
  exact ⟨a1, a2, a3, a4, a5⟩

/-- The RX block is the last step of a successful call on an OUT handle. -/
theorem ep_config_out_last_v1 (s : State) (ep t e : Nat) (hrx : ep &&& 0x80 = 0) :
    ∃ s1, ep_config s ep t e = ep_config_rx s1 ep t (ep_align e) ∨
      (ep_config s ep t e).1 = false := by
  by_cases htx : ep &&& 0x80 ≠ 0 ∨ t = USB_EPTYPE_CONTROL
  · by_cases hok1 :
      (ep_config_tx (reg_wr s (EPR ep) (ep_type_word ep t)) ep t (ep_align e)).1 = true
    · exact ⟨_, Or.inl (ep_config_path_tx_rx_v1 s ep t e htx hok1 hrx)⟩
    · refine ⟨s, Or.inr ?_⟩
      rw [ep_config_path_tx_fail_v1 s ep t e htx (by simpa using hok1)]
  · exact ⟨_, Or.inl (ep_config_path_rx_v1 s ep t e htx)⟩

/-- RX side of a successful call on an OUT handle, single-buffered type. -/
theorem ep_config_out_single_v1 (s : State) (ep t e : Nat) (hrx : ep &&& 0x80 = 0)
    (hok : (ep_config s ep t e).1 = true) (hd : is_dbl t = false) :
    rd16 (ep_config s ep t e).2.pma (rxadr (EPT ep)) ≠ 0 ∧
    rd16 (ep_config s ep t e).2.pma (rxcnt (EPT ep)) = (ep_rxcnt (ep_align e)).1 ∧
    (ep_config s ep t e).2.epr (EPR ep) &&& 0x7000 = 0x3000 := by
  obtain ⟨s1, h | h⟩ := ep_config_out_last_v1 s ep t e hrx
  · rw [h] at hok ⊢
    obtain ⟨b1, b2, b3, _, b5, _⟩ := ep_config_rx_single_v1 s1 ep t (ep_align e) hok hd
    exact ⟨by rw [b2]; exact b1, b3, b5⟩
  · rw [h] at hok; cases hok

/-- RX side of a successful call on an OUT handle, isochronous or
double-buffered bulk. -/
theorem ep_config_out_double_v1 (s : State) (ep t e : Nat) (hrx : ep &&& 0x80 = 0)
    (hok : (ep_config s ep t e).1 = true) (hd : is_dbl t = true) :
    rd16 (ep_config s ep t e).2.pma (rxadr0 (EPT ep)) ≠ 0 ∧
    rd16 (ep_config s ep t e).2.pma (rxcnt0 (EPT ep)) = (ep_rxcnt (ep_align e)).1 ∧
    rd16 (ep_config s ep t e).2.pma (rxadr1 (EPT ep)) ≠ 0 ∧
    rd16 (ep_config s ep t e).2.pma (rxcnt1 (EPT ep)) = (ep_rxcnt (ep_align e)).1 ∧
    (ep_config s ep t e).2.epr (EPR ep) &&& 0x7040 = 0x3040 := by
  obtain ⟨s1, h | h⟩ := ep_config_out_last_v1 s ep t e hrx
  · rw [h] at hok ⊢
    obtain ⟨b1, b2, b3, b4, b5, _⟩ := ep_config_rx_double_v1 s1 ep t (ep_align e) hok hd
    exact ⟨b1, b2, b3, b4, b5⟩
  · rw [h] at hok; cases hok

end V1

/-! ## C3: a request beyond capacity that is accepted -/

/-- C3, evaluated at the failing input: from the all-deconfigured state the
single call `ep_config(0x01, USB_EPTYPE_ISOCHRONUS, 1000)` asks for two
slots of 1000 bytes, far above `USB_PMASIZE - 64`, yet returns true: the RX
length block keeps `1000 & 0x1F = 8` and reserves 40 bytes per slot (offsets
984 and 944). -/
theorem C3_oversized_out_accepted :
    V0.deconfigured zero_state ∧
    2 * round_even 1000 + 64 > V0.USB_PMASIZE ∧
    (V0.ep_config zero_state 0x01 USB_EPTYPE_ISOCHRONUS 1000).1 = true ∧
    rd16 (V0.ep_config zero_state 0x01 USB_EPTYPE_ISOCHRONUS 1000).2.pma
      (V0.addr (V0.rx1 (V0.EPT 0x01))) = 984 ∧
    rd16 (V0.ep_config zero_state 0x01 USB_EPTYPE_ISOCHRONUS 1000).2.pma
      (V0.addr (V0.rx0 (V0.EPT 0x01))) = 944 := by
  refine ⟨by decide, by decide, by decide, by decide, by decide⟩

/-! ## C4: what a failing call leaves in the descriptor entry -/

/-- C4 (amended): whenever `ep_config` returns false on a request for a single
slot (single-buffered type, not a control endpoint on an OUT handle), or
returns false because its first request to the allocator fails, no slot has
been committed: the packet memory, and with it the descriptor entry of that
endpoint, is exactly what it was before the call. Stated for v0 and for v1
separately, each with the allocator of its own revision. -/
theorem C4_first_failure_commits_nothing (s : State) (ep eptype epsize : Nat) :
    ((V0.ep_config s ep eptype epsize).1 = false →
      ((is_dbl eptype = false ∧ (eptype ≠ USB_EPTYPE_CONTROL ∨ ep &&& 0x80 ≠ 0)) ∨
        V0.get_next_pma s
          (if ep &&& 0x80 ≠ 0 ∨ eptype = USB_EPTYPE_CONTROL then ep_align epsize
            else (ep_rxcnt (ep_align epsize)).2) = 0) →
      (V0.ep_config s ep eptype epsize).2.pma = s.pma) ∧
    ((V1.ep_config s ep eptype epsize).1 = false →
      ((is_dbl eptype = false ∧ (eptype ≠ USB_EPTYPE_CONTROL ∨ ep &&& 0x80 ≠ 0)) ∨
        V1.get_next_pma s
          (if ep &&& 0x80 ≠ 0 ∨ eptype = USB_EPTYPE_CONTROL then ep_align epsize
            else (ep_rxcnt (ep_align epsize)).2) = 0) →
      (V1.ep_config s ep eptype epsize).2.pma = s.pma) :=
  ⟨fun hf h => V0.ep_config_fail_pma s ep eptype epsize hf h,
    fun hf h => V1.ep_config_fail_pma_v1 s ep eptype epsize hf h⟩

theorem C4_first_failure_commits_nothing_witness :
    ((V0.ep_config zero_state 0x81 USB_EPTYPE_BULK 1000).1 = false ∧
      (V0.ep_config zero_state 0x81 USB_EPTYPE_BULK 1000).2.pma = zero_state.pma) ∧
    ((V0.ep_config one_slot_state 0x01 (USB_EPTYPE_BULK ||| USB_EPTYPE_DBLBUF) 960).1 = false ∧
      V0.get_next_pma one_slot_state (ep_rxcnt (ep_align 960)).2 = 0 ∧
      (V0.ep_config one_slot_state 0x01 (USB_EPTYPE_BULK ||| USB_EPTYPE_DBLBUF) 960).2.pma =
        one_slot_state.pma) ∧
    ((V1.ep_config zero_state 0x81 (USB_EPTYPE_BULK ||| USB_EPTYPE_DBLBUF) 460).1 = false ∧
      (V0.ep_config zero_state 0x81 (USB_EPTYPE_BULK ||| USB_EPTYPE_DBLBUF) 460).1 = true ∧
      V1.get_next_pma zero_state (ep_align 460) = 0 ∧
      V0.get_next_pma zero_state (ep_align 460) ≠ 0 ∧
      (V1.ep_config zero_state 0x81 (USB_EPTYPE_BULK ||| USB_EPTYPE_DBLBUF) 460).2.pma =
        zero_state.pma) :=
  ⟨⟨by decide,
      (C4_first_failure_commits_nothing zero_state 0x81 USB_EPTYPE_BULK 1000).1 (by decide)
        (Or.inl (by decide))⟩,
    ⟨by decide, by decide,
      (C4_first_failure_commits_nothing one_slot_state 0x01
        (USB_EPTYPE_BULK ||| USB_EPTYPE_DBLBUF) 960).1 (by decide) (Or.inr (by decide))⟩,
    ⟨by decide, by decide, by decide, by decide,
      (C4_first_failure_commits_nothing zero_state 0x81
        (USB_EPTYPE_BULK ||| USB_EPTYPE_DBLBUF) 460).2 (by decide) (Or.inr (by decide))⟩⟩

/-- C4 as stated fails: from the all-deconfigured state,
`ep_config(0x81, USB_EPTYPE_BULK | USB_EPTYPE_DBLBUF, 512)` returns false at
its second request, and the first slot stays committed (offset 512, was 0)
while the second is still unallocated. -/
theorem C4_counterexample :
    (V0.ep_config zero_state 0x81 (USB_EPTYPE_BULK ||| USB_EPTYPE_DBLBUF) 512).1 = false ∧
    rd16 zero_state.pma (V0.addr (V0.tx0 (V0.EPT 0x81))) = 0 ∧
    rd16 (V0.ep_config zero_state 0x81 (USB_EPTYPE_BULK ||| USB_EPTYPE_DBLBUF) 512).2.pma
      (V0.addr (V0.tx0 (V0.EPT 0x81))) = 512 ∧
    rd16 (V0.ep_config zero_state 0x81 (USB_EPTYPE_BULK ||| USB_EPTYPE_DBLBUF) 512).2.pma
      (V0.addr (V0.tx1 (V0.EPT 0x81))) = 0 := by
  refine ⟨by decide, by decide, by decide, by decide⟩

/-! ## C5: the type commit is not rolled back -/

namespace Usb

theorem type_committed_of_plain (r ep t : Nat)
    (h : r &&& 0x0F0F = ep_type_word ep t &&& 0x0F0F) : type_committed r ep t := by
  have h7 : r &&& 0x0700 = ep_type_word ep t &&& 0x0700 := and_narrow _ _ _ _ h (by decide)
  have hf : r &&& 0x000F = ep &&& 0x07 := by
    rw [and_narrow _ _ _ _ h (show 0x0F0F &&& 0x000F = 0x000F by decide), ep_type_word_ea]
  rw [ep_type_word_type] at h7
  have h6 := and_narrow_const _ _ _ 0x0600 h7 (by decide)
  have h1 := and_narrow_const _ _ _ 0x0100 h7 (by decide)
  simp only [type_committed, USB_EP_T_FIELD, USB_EP_KIND, USB_EPADDR_FIELD]
  refine ⟨?_, ?_, ?_, ?_, ?_, hf⟩
  · intro ht; subst ht; rw [h6]; decide
  · intro ht; subst ht; rw [h6]; decide
  · intro ht
    rcases ht with ht | ht <;> subst ht <;> rw [h6] <;> decide
  · intro ht; subst ht; rw [h6]; decide
  · rw [h1]
    by_cases c0 : t = USB_EPTYPE_CONTROL
    · subst c0; decide
    · by_cases c1 : t = USB_EPTYPE_ISOCHRONUS
      · subst c1; decide
      · by_cases c2 : t = USB_EPTYPE_BULK
        · subst c2; decide
        · by_cases c3 : t = (USB_EPTYPE_BULK ||| USB_EPTYPE_DBLBUF)
          · subst c3; decide
          · simp only [c0, c1, c2, c3, if_false]
            decide

end Usb

/-- C5: whenever `ep_config` returns false, the endpoint register already
holds the requested transfer type, the kind bit (set only for
double-buffered bulk) and the address `ep & 7`: the type commit made before
allocation is not rolled back; in v0 and in v1. -/
theorem C5_type_commit_not_rolled_back (s : State) (ep eptype epsize : Nat) :
    ((V0.ep_config s ep eptype epsize).1 = false →
      type_committed ((V0.ep_config s ep eptype epsize).2.epr (EPR ep)) ep eptype) ∧
    ((V1.ep_config s ep eptype epsize).1 = false →
      type_committed ((V1.ep_config s ep eptype epsize).2.epr (EPR ep)) ep eptype) :=
  ⟨fun _ => type_committed_of_plain _ _ _ (V0.ep_config_plain s ep eptype epsize),
    fun _ => type_committed_of_plain _ _ _ (V1.ep_config_plain_v1 s ep eptype epsize)⟩

theorem C5_type_commit_not_rolled_back_witness :
    type_committed
      ((V0.ep_config zero_state 0x81 (USB_EPTYPE_BULK ||| USB_EPTYPE_DBLBUF) 512).2.epr
        (EPR 0x81)) 0x81 (USB_EPTYPE_BULK ||| USB_EPTYPE_DBLBUF) ∧
    type_committed
      ((V1.ep_config zero_state 0x81 (USB_EPTYPE_BULK ||| USB_EPTYPE_DBLBUF) 512).2.epr
        (EPR 0x81)) 0x81 (USB_EPTYPE_BULK ||| USB_EPTYPE_DBLBUF) :=
  have h := C5_type_commit_not_rolled_back zero_state 0x81
    (USB_EPTYPE_BULK ||| USB_EPTYPE_DBLBUF) 512
  ⟨h.1 (by decide), h.2 (by decide)⟩

/-! ## C6: other endpoints are not touched -/

namespace Usb

theorem ep_setstall_pma (s : State) (ep : Nat) (stall : Bool) :
    (ep_setstall s ep stall).pma = s.pma := by
  simp only [ep_setstall]
  split_ifs <;> rfl

theorem ep_setstall_epr_other (s : State) (ep : Nat) (stall : Bool) (i : Nat)
    (hi : i ≠ EPR ep) : (ep_setstall s ep stall).epr i = s.epr i := by
  simp only [ep_setstall, EP_TX_STALL, EP_RX_STALL, EP_TX_UNSTALL, EP_RX_UNSTALL,
    EP_DTX_UNSTALL, EP_DRX_UNSTALL]
  split_ifs <;> first | rfl | exact toggle_epr_other _ _ _ _ _ hi

end Usb

namespace V0

theorem untouched_of_frame (s s2 : State) (ep i : Nat) (hi : i < 8) (hne : i ≠ ep &&& 0x07)
    (h1 : ∀ j, j ≠ EPR ep → s2.epr j = s.epr j)
    (h2 : ∀ x, x < EPT ep ∨ EPT ep + 8 ≤ x → s2.pma x = s.pma x) :
    untouched s s2 i := by
  have h7 := and7_lt ep
  simp only [EPT] at h2
  simp only [untouched, addr, cnt, tx, rx, EPT, and7_of_lt i hi]
  refine ⟨h1 i hne, ?_, ?_, ?_, ?_⟩ <;>
    exact rd16_congr _ _ _ (h2 _ (by omega)) (h2 _ (by omega))

theorem ep_deconfig_frame (s : State) (ep : Nat) :
    (∀ i, i ≠ EPR ep → (ep_deconfig s ep).epr i = s.epr i) ∧
    (∀ x, x < EPT ep ∨ EPT ep + 8 ≤ x → (ep_deconfig s ep).pma x = s.pma x) := by
  simp only [ep_deconfig, addr, cnt, tx, rx]
  refine ⟨fun i hi => ?_, fun x hx => ?_⟩
  · simp only [pma_wr_epr, reg_wr_epr_other _ _ _ _ hi]
  · simp (disch := omega) only [pma_wr_pma, wr16_other, reg_wr_pma]

end V0

namespace V1

theorem untouched_of_frame_v1 (s s2 : State) (ep i : Nat) (hi : i < 8) (hne : i ≠ ep &&& 0x07)
    (h1 : ∀ j, j ≠ EPR ep → s2.epr j = s.epr j)
    (h2 : ∀ x, x < EPT ep ∨ EPT ep + 16 ≤ x → s2.pma x = s.pma x) :
    untouched s s2 i := by
  have h7 := and7_lt ep
  simp only [EPT] at h2
  simp only [untouched, txadr, txcnt, rxadr, rxcnt, EPT, and7_of_lt i hi]
  refine ⟨h1 i hne, ?_, ?_, ?_, ?_⟩ <;>
    exact rd16_congr _ _ _ (h2 _ (by omega)) (h2 _ (by omega))

theorem ep_deconfig_frame_v1 (s : State) (ep : Nat) :
    (∀ i, i ≠ EPR ep → (ep_deconfig s ep).epr i = s.epr i) ∧
    (∀ x, x < EPT ep ∨ EPT ep + 16 ≤ x → (ep_deconfig s ep).pma x = s.pma x) := by
  simp only [ep_deconfig, txadr, txcnt, rxadr, rxcnt]
  refine ⟨fun i hi => ?_, fun x hx => ?_⟩
  · simp only [pma_wr_epr, reg_wr_epr_other _ _ _ _ hi]
  · simp (disch := omega) only [pma_wr_pma, wr16_other, reg_wr_pma]

end V1

/-- C6: `ep_config` (whether it succeeds or fails), `ep_deconfig` and
`ep_setstall` on handle `h` change only the endpoint register and the
descriptor entry of physical index `h & 7`: for each of the other seven
endpoints `i` the register, both slot offsets and both slot counts are
unchanged; in v0 and in v1. -/
theorem C6_other_endpoints_untouched (s : State) (h eptype epsize : Nat) (stall : Bool)
    (i : Nat) (hi : i < 8) (hne : i ≠ h &&& 0x07) :
    (V0.untouched s (V0.ep_config s h eptype epsize).2 i ∧
      V0.untouched s (V0.ep_deconfig s h) i ∧
      V0.untouched s (ep_setstall s h stall) i) ∧
    (V1.untouched s (V1.ep_config s h eptype epsize).2 i ∧
      V1.untouched s (V1.ep_deconfig s h) i ∧
      V1.untouched s (ep_setstall s h stall) i) := by
  refine ⟨⟨?_, ?_, ?_⟩, ⟨?_, ?_, ?_⟩⟩
  · exact V0.untouched_of_frame _ _ h i hi hne (V0.ep_config_frame s h eptype epsize).1
      (V0.ep_config_frame s h eptype epsize).2
  · exact V0.untouched_of_frame _ _ h i hi hne (V0.ep_deconfig_frame s h).1
      (V0.ep_deconfig_frame s h).2
  · exact V0.untouched_of_frame _ _ h i hi hne (ep_setstall_epr_other s h stall)
      (fun x _ => by rw [ep_setstall_pma])
  · exact V1.untouched_of_frame_v1 _ _ h i hi hne (V1.ep_config_frame_v1 s h eptype epsize).1
      (V1.ep_config_frame_v1 s h eptype epsize).2
  · exact V1.untouched_of_frame_v1 _ _ h i hi hne (V1.ep_deconfig_frame_v1 s h).1
      (V1.ep_deconfig_frame_v1 s h).2
  · exact V1.untouched_of_frame_v1 _ _ h i hi hne (ep_setstall_epr_other s h stall)
      (fun x _ => by rw [ep_setstall_pma])

theorem C6_other_endpoints_untouched_witness :
    V0.untouched slot64_state (V0.ep_config slot64_state 0x81 USB_EPTYPE_BULK 64).2 0 ∧
    V1.untouched slot64_state (V1.ep_deconfig slot64_state 0x81) 0 :=
  have h := C6_other_endpoints_untouched slot64_state 0x81 USB_EPTYPE_BULK 64 true 0
    (by decide) (by decide)
  ⟨h.1.1, h.2.2.1⟩

/-! ## C7: the TX side after a successful configuration -/

/-- C7: after a successful `ep_config` on an IN or control handle, under the
toggle-on-write register rule: for a single-buffered type the TX slot offset
is the nonzero offset the allocator returned, the TX count is 0, TX status is
NAK and DTOG_TX is 0; for isochronous or double-buffered bulk both TX slots
have nonzero offsets and count 0, and TX status is VALID with DTOG_TX and
SWBUF_TX cleared; in v0 and in v1. -/
theorem C7_tx_side_after_config (s : State) (ep eptype epsize : Nat)
    (hin : ep &&& 0x80 ≠ 0 ∨ eptype = USB_EPTYPE_CONTROL) :
    ((V0.ep_config s ep eptype epsize).1 = true →
      (is_dbl eptype = false →
        V0.get_next_pma s (ep_align epsize) ≠ 0 ∧
        rd16 (V0.ep_config s ep eptype epsize).2.pma (V0.addr (V0.tx (V0.EPT ep))) =
          V0.get_next_pma s (ep_align epsize) ∧
        rd16 (V0.ep_config s ep eptype epsize).2.pma (V0.cnt (V0.tx (V0.EPT ep))) = 0 ∧
        (V0.ep_config s ep eptype epsize).2.epr (EPR ep) &&& USB_EPTX_STAT = USB_EP_TX_NAK ∧
        (V0.ep_config s ep eptype epsize).2.epr (EPR ep) &&& USB_EP_DTOG_TX = 0) ∧
      (is_dbl eptype = true →
        rd16 (V0.ep_config s ep eptype epsize).2.pma (V0.addr (V0.tx0 (V0.EPT ep))) ≠ 0 ∧
        rd16 (V0.ep_config s ep eptype epsize).2.pma (V0.cnt (V0.tx0 (V0.EPT ep))) = 0 ∧
        rd16 (V0.ep_config s ep eptype epsize).2.pma (V0.addr (V0.tx1 (V0.EPT ep))) ≠ 0 ∧
        rd16 (V0.ep_config s ep eptype epsize).2.pma (V0.cnt (V0.tx1 (V0.EPT ep))) = 0 ∧
        (V0.ep_config s ep eptype epsize).2.epr (EPR ep) &&& USB_EPTX_STAT = USB_EP_TX_VALID ∧
        (V0.ep_config s ep eptype epsize).2.epr (EPR ep) &&& USB_EP_DTOG_TX = 0 ∧
        (V0.ep_config s ep eptype epsize).2.epr (EPR ep) &&& USB_EP_SWBUF_TX = 0)) ∧
    ((V1.ep_config s ep eptype epsize).1 = true →
      (is_dbl eptype = false →
        V1.get_next_pma s (ep_align epsize) ≠ 0 ∧
        rd16 (V1.ep_config s ep eptype epsize).2.pma (V1.txadr (V1.EPT ep)) =
          V1.get_next_pma s (ep_align epsize) ∧
        rd16 (V1.ep_config s ep eptype epsize).2.pma (V1.txcnt (V1.EPT ep)) = 0 ∧
        (V1.ep_config s ep eptype epsize).2.epr (EPR ep) &&& USB_EPTX_STAT = USB_EP_TX_NAK ∧
        (V1.ep_config s ep eptype epsize).2.epr (EPR ep) &&& USB_EP_DTOG_TX = 0) ∧
      (is_dbl eptype = true →
        rd16 (V1.ep_config s ep eptype epsize).2.pma (V1.txadr0 (V1.EPT ep)) ≠ 0 ∧
        rd16 (V1.ep_config s ep eptype epsize).2.pma (V1.txcnt0 (V1.EPT ep)) = 0 ∧
        rd16 (V1.ep_config s ep eptype epsize).2.pma (V1.txadr1 (V1.EPT ep)) ≠ 0 ∧
        rd16 (V1.ep_config s ep eptype epsize).2.pma (V1.txcnt1 (V1.EPT ep)) = 0 ∧
        (V1.ep_config s ep eptype epsize).2.epr (EPR ep) &&& USB_EPTX_STAT = USB_EP_TX_VALID ∧
        (V1.ep_config s ep eptype epsize).2.epr (EPR ep) &&& USB_EP_DTOG_TX = 0 ∧
        (V1.ep_config s ep eptype epsize).2.epr (EPR ep) &&& USB_EP_SWBUF_TX = 0)) := by
  simp only [USB_EPTX_STAT, USB_EP_TX_NAK, USB_EP_TX_VALID, USB_EP_DTOG_TX, USB_EP_SWBUF_TX,
    USB_EP_DTOG_RX]
  refine ⟨fun hok => ⟨fun hd => ?_, fun hd => ?_⟩, fun hok => ⟨fun hd => ?_, fun hd => ?_⟩⟩
  · obtain ⟨a1, a2, a3, a4⟩ := V0.ep_config_in_single s ep eptype epsize hin hok hd
    exact ⟨a1, a2, a3, and_narrow_const _ _ _ 0x30 a4 (by decide),
      and_narrow_const _ _ _ 0x40 a4 (by decide)⟩
  · obtain ⟨a1, a2, a3, a4, a5⟩ := V0.ep_config_in_double s ep eptype epsize hin hok hd
    exact ⟨a1, a2, a3, a4, and_narrow_const _ _ _ 0x30 a5 (by decide),
      and_narrow_const _ _ _ 0x40 a5 (by decide),
      and_narrow_const _ _ _ 0x4000 a5 (by decide)⟩
  · obtain ⟨a1, a2, a3, a4⟩ := V1.ep_config_in_single_v1 s ep eptype epsize hin hok hd
    exact ⟨a1, a2, a3, and_narrow_const _ _ _ 0x30 a4 (by decide),
      and_narrow_const _ _ _ 0x40 a4 (by decide)⟩
  · obtain ⟨a1, a2, a3, a4, a5⟩ := V1.ep_config_in_double_v1 s ep eptype epsize hin hok hd
    exact ⟨a1, a2, a3, a4, and_narrow_const _ _ _ 0x30 a5 (by decide),
      and_narrow_const _ _ _ 0x40 a5 (by decide),
      and_narrow_const _ _ _ 0x4000 a5 (by decide)⟩

theorem C7_tx_side_after_config_witness :
    (rd16 (V0.ep_config zero_state 0x00 USB_EPTYPE_CONTROL 64).2.pma
        (V0.addr (V0.tx (V0.EPT 0x00))) = V0.get_next_pma zero_state (ep_align 64) ∧
      (V0.ep_config zero_state 0x00 USB_EPTYPE_CONTROL 64).2.epr (EPR 0x00) &&& USB_EPTX_STAT
        = USB_EP_TX_NAK) ∧
    (rd16 (V1.ep_config zero_state 0x81 USB_EPTYPE_ISOCHRONUS 64).2.pma
        (V1.txadr1 (V1.EPT 0x81)) ≠ 0 ∧
      (V1.ep_config zero_state 0x81 USB_EPTYPE_ISOCHRONUS 64).2.epr (EPR 0x81)
        &&& USB_EPTX_STAT = USB_EP_TX_VALID) :=
  have h0 := ((C7_tx_side_after_config zero_state 0x00 USB_EPTYPE_CONTROL 64
    (Or.inr rfl)).1 (by decide)).1 (by decide)
  have h1 := ((C7_tx_side_after_config zero_state 0x81 USB_EPTYPE_ISOCHRONUS 64
    (Or.inl (by decide))).2 (by decide)).2 (by decide)
  ⟨⟨h0.2.1, h0.2.2.2.1⟩, ⟨h1.2.2.1, h1.2.2.2.2.1⟩⟩

/-! ## C8: the RX side after a successful configuration -/

/-- C8 as stated fails for a control endpoint configured through an IN handle:
`ep_config(0x80, USB_EPTYPE_CONTROL, 64)` from the all-deconfigured state
returns true, yet the RX block is skipped: the RX slot offset is still 0 and
the RX status is DISABLED, not VALID. -/
theorem C8_counterexample :
    (V0.ep_config zero_state 0x80 USB_EPTYPE_CONTROL 64).1 = true ∧
    rd16 (V0.ep_config zero_state 0x80 USB_EPTYPE_CONTROL 64).2.pma
      (V0.addr (V0.rx (V0.EPT 0x80))) = 0 ∧
    (V0.ep_config zero_state 0x80 USB_EPTYPE_CONTROL 64).2.epr (EPR 0x80) &&& USB_EPRX_STAT
      = USB_EP_RX_DIS ∧
    (V0.ep_config zero_state 0x80 USB_EPTYPE_CONTROL 64).2.epr (EPR 0x80) &&& USB_EPRX_STAT
      ≠ USB_EP_RX_VALID := by
  refine ⟨by decide, by decide, by decide, by decide⟩

/-! ## C9 and C10: the RX length encoding -/

namespace Usb

theorem ep_align_even (sz : Nat) (h : sz % 2 = 0) : ep_align sz = sz := by
  unfold ep_align
  rw [Nat.and_one_is_mod, h]
  simp

theorem ep_rxcnt_linear (sz : Nat) (h62 : sz ≤ 62) : ep_rxcnt sz = (sz <<< 9, sz) := by
  unfold ep_rxcnt
  rw [if_neg (by omega), Nat.shiftLeft_eq]
  congr 1
  omega

end Usb

/-- C9: RX length encoding, linear range: for every even size `sz` in
`{2, 4, ..., 62}` the count word `ep_config` computes for an OUT endpoint is
`sz << 9`, `sz` bytes are requested from the allocator, and a successful call
stores that word as the count of the RX slot (of both RX slots for
isochronous / double-buffered bulk); in v0 and in v1. -/
theorem C9_rx_count_linear (sz : Nat) (heven : sz % 2 = 0) (_h2 : 2 ≤ sz) (h62 : sz ≤ 62)
    (s : State) (ep eptype : Nat) (hout : ep &&& 0x80 = 0) :
    ep_rxcnt (ep_align sz) = (sz <<< 9, sz) ∧
    ((V0.ep_config s ep eptype sz).1 = true →
      rd16 (V0.ep_config s ep eptype sz).2.pma (V0.cnt (V0.rx (V0.EPT ep))) = sz <<< 9 ∧
      (is_dbl eptype = true →
        rd16 (V0.ep_config s ep eptype sz).2.pma (V0.cnt (V0.rx0 (V0.EPT ep))) = sz <<< 9)) ∧
    ((V1.ep_config s ep eptype sz).1 = true →
      (is_dbl eptype = false →
        rd16 (V1.ep_config s ep eptype sz).2.pma (V1.rxcnt (V1.EPT ep)) = sz <<< 9) ∧
      (is_dbl eptype = true →
        rd16 (V1.ep_config s ep eptype sz).2.pma (V1.rxcnt0 (V1.EPT ep)) = sz <<< 9 ∧
        rd16 (V1.ep_config s ep eptype sz).2.pma (V1.rxcnt1 (V1.EPT ep)) = sz <<< 9)) := by
  have he : ep_rxcnt (ep_align sz) = (sz <<< 9, sz) := by
    rw [ep_align_even sz heven, ep_rxcnt_linear sz h62]
  have h1 : (ep_rxcnt (ep_align sz)).1 = sz <<< 9 := by rw [he]
  refine ⟨he, fun hok => ?_, fun hok => ⟨fun hd => ?_, fun hd => ?_⟩⟩
  · by_cases hd : is_dbl eptype = true
    · obtain ⟨_, a2, _, a4, _⟩ := V0.ep_config_out_double s ep eptype sz hout hok hd
      exact ⟨by rw [← h1]; exact a4, fun _ => by rw [← h1]; exact a2⟩
    · have hd0 : is_dbl eptype = false := by simpa using hd
      obtain ⟨_, a2, _⟩ := V0.ep_config_out_single s ep eptype sz hout hok hd0
      exact ⟨by rw [← h1]; exact a2, fun h => by rw [hd0] at h; cases h⟩
  · obtain ⟨_, a2, _⟩ := V1.ep_config_out_single_v1 s ep eptype sz hout hok hd
    rw [← h1]; exact a2
  · obtain ⟨_, a2, _, a4, _⟩ := V1.ep_config_out_double_v1 s ep eptype sz hout hok hd
    exact ⟨by rw [← h1]; exact a2, by rw [← h1]; exact a4⟩

theorem C9_rx_count_linear_witness :
    ep_rxcnt (ep_align 8) = (8 <<< 9, 8) ∧
    rd16 (V0.ep_config zero_state 0x01 USB_EPTYPE_INTERRUPT 8).2.pma
      (V0.cnt (V0.rx (V0.EPT 0x01))) = 8 <<< 9 ∧
    rd16 (V1.ep_config zero_state 0x01 USB_EPTYPE_INTERRUPT 8).2.pma
      (V1.rxcnt (V1.EPT 0x01)) = 8 <<< 9 :=
  have h := C9_rx_count_linear 8 (by decide) (by decide) (by decide) zero_state 0x01
    USB_EPTYPE_INTERRUPT (by decide)
  ⟨h.1, (h.2.1 (by decide)).1, (h.2.2 (by decide)).1 (by decide)⟩

/-- C10 (amended): RX length encoding, coarse range: for size 64 the count
word `ep_config` computes for an OUT endpoint is `0x8000 | (1 << 10)` and for
size 512 it is `0x8000 | (15 << 10)` (block count in bits 14..10), with 64 and
512 bytes requested from the allocator; a successful call stores that word as
the count of the RX slot; in v0 and, for size 64, in v1 (whose 512-byte
packet memory cannot hold a 512-byte slot). -/
theorem C10_rx_count_coarse (s : State) (ep eptype : Nat) (hout : ep &&& 0x80 = 0) :
    ep_rxcnt (ep_align 64) = (0x8000 ||| (1 <<< 10), 64) ∧
    ep_rxcnt (ep_align 512) = (0x8000 ||| (15 <<< 10), 512) ∧
    ((V0.ep_config s ep eptype 64).1 = true →
      rd16 (V0.ep_config s ep eptype 64).2.pma (V0.cnt (V0.rx (V0.EPT ep)))
        = 0x8000 ||| (1 <<< 10)) ∧
    ((V0.ep_config s ep eptype 512).1 = true →
      rd16 (V0.ep_config s ep eptype 512).2.pma (V0.cnt (V0.rx (V0.EPT ep)))
        = 0x8000 ||| (15 <<< 10)) ∧
    ((V1.ep_config s ep eptype 64).1 = true →
      rd16 (V1.ep_config s ep eptype 64).2.pma (V1.rxcnt (V1.EPT ep))
        = 0x8000 ||| (1 <<< 10)) := by
  refine ⟨by decide, by decide, fun hok => ?_, fun hok => ?_, fun hok => ?_⟩
  · by_cases hd : is_dbl eptype = true
    · have h := (V0.ep_config_out_double s ep eptype 64 hout hok hd).2.2.2.1
      exact h.trans (by decide)
    · have h := (V0.ep_config_out_single s ep eptype 64 hout hok (by simpa using hd)).2.1
      exact h.trans (by decide)
  · by_cases hd : is_dbl eptype = true
    · have h := (V0.ep_config_out_double s ep eptype 512 hout hok hd).2.2.2.1
      exact h.trans (by decide)
    · have h := (V0.ep_config_out_single s ep eptype 512 hout hok (by simpa using hd)).2.1
      exact h.trans (by decide)
  · by_cases hd : is_dbl eptype = true
    · have h := (V1.ep_config_out_double_v1 s ep eptype 64 hout hok hd).2.2.2.1
      exact h.trans (by decide)
    · have h := (V1.ep_config_out_single_v1 s ep eptype 64 hout hok (by simpa using hd)).2.1
      exact h.trans (by decide)

theorem C10_rx_count_coarse_witness :
    rd16 (V0.ep_config zero_state 0x01 USB_EPTYPE_BULK 64).2.pma
      (V0.cnt (V0.rx (V0.EPT 0x01))) = 0x8000 ||| (1 <<< 10) ∧
    rd16 (V0.ep_config zero_state 0x01 USB_EPTYPE_BULK 512).2.pma
      (V0.cnt (V0.rx (V0.EPT 0x01))) = 0x8000 ||| (15 <<< 10) ∧
    rd16 (V1.ep_config zero_state 0x01 USB_EPTYPE_BULK 64).2.pma
      (V1.rxcnt (V1.EPT 0x01)) = 0x8000 ||| (1 <<< 10) :=
  have h := C10_rx_count_coarse zero_state 0x01 USB_EPTYPE_BULK (by decide)
  ⟨h.2.2.1 (by decide), h.2.2.2.1 (by decide), h.2.2.2.2 (by decide)⟩

/-- C10 as stated fails: for size 64 the count word is `0x8400`, not
`0x8000 | (1 << 5) = 0x8020`, and for size 512 it is `0xBC00`, not
`0x8000 | (15 << 5) = 0x81E0`; the words `ep_config` stores from the
all-deconfigured state are the same. -/
theorem C10_counterexample :
    (ep_rxcnt (ep_align 64)).1 = 0x8400 ∧
    (ep_rxcnt (ep_align 64)).1 ≠ 0x8000 ||| (1 <<< 5) ∧
    (ep_rxcnt (ep_align 512)).1 = 0xBC00 ∧
    (ep_rxcnt (ep_align 512)).1 ≠ 0x8000 ||| (15 <<< 5) ∧
    (V0.ep_config zero_state 0x01 USB_EPTYPE_BULK 64).1 = true ∧
    rd16 (V0.ep_config zero_state 0x01 USB_EPTYPE_BULK 64).2.pma
      (V0.cnt (V0.rx (V0.EPT 0x01))) = 0x8400 ∧
    (V0.ep_config zero_state 0x01 USB_EPTYPE_BULK 512).1 = true ∧
    rd16 (V0.ep_config zero_state 0x01 USB_EPTYPE_BULK 512).2.pma
      (V0.cnt (V0.rx (V0.EPT 0x01))) = 0xBC00 := by
  refine ⟨by decide, by decide, by decide, by decide, by decide, by decide, by decide,
    by decide⟩

/-! ## More register arithmetic: deconfiguration, correct-transfer flags -/

namespace Usb

/-- The store of `*reg & ~USB_EPREG_MASK` clears the whole register. -/
theorem hw_store_deconfig (r : Nat) : hw_store r (r &&& 0x7070) = 0 := by
  apply Nat.eq_of_testBit_eq; intro i
  simp only [hw_store, Nat.testBit_and, Nat.testBit_or, Nat.testBit_xor]
  by_cases hi : i < 16
  · interval_cases i <;> simp [Nat.testBit]
  · simp [testBit_hi _ i _ hi]

theorem ctr_tx_clear_flag (r : Nat) :
    hw_store r (r &&& (0x8F8F ^^^ 0x0080)) &&& 0x0080 = 0 := by
  apply Nat.eq_of_testBit_eq; intro i
  simp only [hw_store, Nat.testBit_and, Nat.testBit_or, Nat.testBit_xor]
  by_cases hi : i < 16
  · interval_cases i <;> simp [Nat.testBit]
  · simp [testBit_hi _ i _ hi]

theorem ctr_tx_clear_frame (r : Nat) :
    hw_store r (r &&& (0x8F8F ^^^ 0x0080)) &&& 0xFF7F = r &&& 0xFF7F := by
  apply Nat.eq_of_testBit_eq; intro i
  simp only [hw_store, Nat.testBit_and, Nat.testBit_or, Nat.testBit_xor]
  by_cases hi : i < 16
  · interval_cases i <;> simp [Nat.testBit]
  · simp [testBit_hi _ i _ hi]

theorem ctr_rx_clear_flag (r : Nat) :
    hw_store r (r &&& (0x8F8F ^^^ 0x8000)) &&& 0x8000 = 0 := by
  apply Nat.eq_of_testBit_eq; intro i
  simp only [hw_store, Nat.testBit_and, Nat.testBit_or, Nat.testBit_xor]
  by_cases hi : i < 16
  · interval_cases i <;> simp [Nat.testBit]
  · simp [testBit_hi _ i _ hi]

theorem ctr_rx_clear_frame (r : Nat) :
    hw_store r (r &&& (0x8F8F ^^^ 0x8000)) &&& 0x7FFF = r &&& 0x7FFF := by
  apply Nat.eq_of_testBit_eq; intro i
  simp only [hw_store, Nat.testBit_and, Nat.testBit_or, Nat.testBit_xor]
  by_cases hi : i < 16
  · interval_cases i <;> simp [Nat.testBit]
  · simp [testBit_hi _ i _ hi]

/-- The v1 store that clears CTR_RX and flips SWBUF_RX keeps the setup flag. -/
theorem ctr_rx_swap_frame (r : Nat) :
    hw_store r ((r &&& (0x8F8F ^^^ 0x8000)) ||| 0x0040) &&& 0x7FBF = r &&& 0x7FBF := by
  apply Nat.eq_of_testBit_eq; intro i
  simp only [hw_store, Nat.testBit_and, Nat.testBit_or, Nat.testBit_xor]
  by_cases hi : i < 16
  · interval_cases i <;> simp [Nat.testBit]
  · simp [testBit_hi _ i _ hi]

theorem tx_valid_field (r : Nat) :
    hw_store r ((r ^^^ 0x30) &&& (0x8F8F ||| 0x30)) &&& 0x30 = 0x30 := by
  apply Nat.eq_of_testBit_eq; intro i
  simp only [hw_store, Nat.testBit_and, Nat.testBit_or, Nat.testBit_xor]
  by_cases hi : i < 16
  · interval_cases i <;> simp [Nat.testBit]
  · simp [testBit_hi _ i _ hi]

theorem tx_valid_frame (r : Nat) :
    hw_store r ((r ^^^ 0x30) &&& (0x8F8F ||| 0x30)) &&& 0xFFCF = r &&& 0xFFCF := by
  apply Nat.eq_of_testBit_eq; intro i
  simp only [hw_store, Nat.testBit_and, Nat.testBit_or, Nat.testBit_xor]
  by_cases hi : i < 16
  · interval_cases i <;> simp [Nat.testBit]
  · simp [testBit_hi _ i _ hi]

theorem tx_valid_epr (s : State) (reg : Nat) :
    (EP_TX_VALID s reg).epr reg &&& 0x30 = 0x30 ∧
    (EP_TX_VALID s reg).epr reg &&& 0xFFCF = s.epr reg &&& 0xFFCF := by
  have e : (EP_TX_VALID s reg).epr reg =
      hw_store (s.epr reg) ((s.epr reg ^^^ 0x30) &&& (0x8F8F ||| 0x30)) := by
    simp [EP_TX_VALID, EP_TOGGLE_SET, reg_wr, reg_rd, USB_EP_TX_VALID, USB_EPTX_STAT,
      USB_EPREG_MASK]
  rw [e]
  exact ⟨tx_valid_field _, tx_valid_frame _⟩

theorem tx_valid_pma (s : State) (reg : Nat) : (EP_TX_VALID s reg).pma = s.pma := rfl
theorem rx_valid_pma (s : State) (reg : Nat) : (EP_RX_VALID s reg).pma = s.pma := rfl

/-- The switch key of `ep_read` splits into status, type and kind. -/
theorem rx_key_split (r : Nat) :
    r &&& (USB_EPRX_STAT ||| USB_EP_T_FIELD ||| USB_EP_KIND) =
      (r &&& USB_EPRX_STAT) ||| (r &&& USB_EP_T_FIELD) ||| (r &&& USB_EP_KIND) := by
  rw [Nat.and_or_distrib_left, Nat.and_or_distrib_left]

/-- The switch key of `ep_write` splits into status, type and kind. -/
theorem tx_key_split (r : Nat) :
    r &&& (USB_EPTX_STAT ||| USB_EP_T_FIELD ||| USB_EP_KIND) =
      (r &&& USB_EPTX_STAT) ||| (r &&& USB_EP_T_FIELD) ||| (r &&& USB_EP_KIND) := by
  rw [Nat.and_or_distrib_left, Nat.and_or_distrib_left]

end Usb

/-! ## C11: deconfiguration -/

namespace V0

/-- After `ep_deconfig` the register of the endpoint is zero and so are the
four words of its descriptor entry. -/
theorem ep_deconfig_zero (s : State) (ep : Nat) :
    (ep_deconfig s ep).epr (EPR ep) = 0 ∧
    rd16 (ep_deconfig s ep).pma (addr (tx (EPT ep))) = 0 ∧
    rd16 (ep_deconfig s ep).pma (cnt (tx (EPT ep))) = 0 ∧
    rd16 (ep_deconfig s ep).pma (addr (rx (EPT ep))) = 0 ∧
    rd16 (ep_deconfig s ep).pma (cnt (rx (EPT ep))) = 0 := by
  simp only [ep_deconfig, addr, cnt, tx, rx, reg_rd]
  refine ⟨?_, ?_, ?_, ?_, ?_⟩
  · simp only [pma_wr_epr, reg_wr_epr_same, hw_store_deconfig]
  all_goals
    simp (disch := omega) only [pma_wr_pma, rd16_wr16_other, rd16_wr16_same]

end V0

namespace V1

/-- After `ep_deconfig` the register of the endpoint is zero and so are the
four words of its descriptor entry. -/
theorem ep_deconfig_zero_v1 (s : State) (ep : Nat) :
    (ep_deconfig s ep).epr (EPR ep) = 0 ∧
    rd16 (ep_deconfig s ep).pma (txadr (EPT ep)) = 0 ∧
    rd16 (ep_deconfig s ep).pma (txcnt (EPT ep)) = 0 ∧
    rd16 (ep_deconfig s ep).pma (rxadr (EPT ep)) = 0 ∧
    rd16 (ep_deconfig s ep).pma (rxcnt (EPT ep)) = 0 := by
  simp only [ep_deconfig, txadr, txcnt, rxadr, rxcnt, reg_rd]
  refine ⟨?_, ?_, ?_, ?_, ?_⟩
  · simp only [pma_wr_epr, reg_wr_epr_same, hw_store_deconfig]
  all_goals
    simp (disch := omega) only [pma_wr_pma, rd16_wr16_other, rd16_wr16_same]

end V1

/-- C11: after `ep_deconfig(h)` both slot offsets and both count words of
descriptor entry `h & 7` are 0, and under the toggle-on-write register rule
the endpoint register has RX status and TX status DISABLED, both data-toggle
bits 0 and the type and kind fields cleared, whatever the register held
before; in v0 and in v1. -/
theorem C11_deconfig_clears_endpoint (s : State) (h : Nat) :
    (rd16 (V0.ep_deconfig s h).pma (V0.addr (V0.tx (V0.EPT h))) = 0 ∧
      rd16 (V0.ep_deconfig s h).pma (V0.cnt (V0.tx (V0.EPT h))) = 0 ∧
      rd16 (V0.ep_deconfig s h).pma (V0.addr (V0.rx (V0.EPT h))) = 0 ∧
      rd16 (V0.ep_deconfig s h).pma (V0.cnt (V0.rx (V0.EPT h))) = 0 ∧
      (V0.ep_deconfig s h).epr (EPR h) &&& USB_EPRX_STAT = USB_EP_RX_DIS ∧
      (V0.ep_deconfig s h).epr (EPR h) &&& USB_EPTX_STAT = USB_EP_TX_DIS ∧
      (V0.ep_deconfig s h).epr (EPR h) &&& USB_EP_DTOG_RX = 0 ∧
      (V0.ep_deconfig s h).epr (EPR h) &&& USB_EP_DTOG_TX = 0 ∧
      (V0.ep_deconfig s h).epr (EPR h) &&& USB_EP_T_FIELD = 0 ∧
      (V0.ep_deconfig s h).epr (EPR h) &&& USB_EP_KIND = 0) ∧
    (rd16 (V1.ep_deconfig s h).pma (V1.txadr (V1.EPT h)) = 0 ∧
      rd16 (V1.ep_deconfig s h).pma (V1.txcnt (V1.EPT h)) = 0 ∧
      rd16 (V1.ep_deconfig s h).pma (V1.rxadr (V1.EPT h)) = 0 ∧
      rd16 (V1.ep_deconfig s h).pma (V1.rxcnt (V1.EPT h)) = 0 ∧
      (V1.ep_deconfig s h).epr (EPR h) &&& USB_EPRX_STAT = USB_EP_RX_DIS ∧
      (V1.ep_deconfig s h).epr (EPR h) &&& USB_EPTX_STAT = USB_EP_TX_DIS ∧
      (V1.ep_deconfig s h).epr (EPR h) &&& USB_EP_DTOG_RX = 0 ∧
      (V1.ep_deconfig s h).epr (EPR h) &&& USB_EP_DTOG_TX = 0 ∧
      (V1.ep_deconfig s h).epr (EPR h) &&& USB_EP_T_FIELD = 0 ∧
      (V1.ep_deconfig s h).epr (EPR h) &&& USB_EP_KIND = 0) := by
  obtain ⟨a0, a1, a2, a3, a4⟩ := V0.ep_deconfig_zero s h
  obtain ⟨b0, b1, b2, b3, b4⟩ := V1.ep_deconfig_zero_v1 s h
  rw [a0, b0]
  refine ⟨⟨a1, a2, a3, a4, ?_⟩, ⟨b1, b2, b3, b4, ?_⟩⟩ <;>
    simp [USB_EP_RX_DIS, USB_EP_TX_DIS]

/-! ## C12: bus reset -/

namespace Usb

theorem evt_poll_other_reset (deconfig : State → Nat → State) (s : State) (i e : Nat)
    (h : i &&& USB_ISTR_RESET ≠ 0) :
    evt_poll_other deconfig s i e =
      (some (usbd_evt_reset, e),
        (List.range 8).foldl deconfig { istr_clear s USB_ISTR_RESET with btable := 0 }) := by
  simp only [evt_poll_other, if_pos h]

end Usb

namespace V0

theorem ep_deconfig_keeps_cleared (s : State) (j i : Nat) (hi : i < 8)
    (hz : ep_cleared s i) : ep_cleared (ep_deconfig s j) i := by
  by_cases hij : i = j &&& 0x07
  · subst hij
    have hE : EPT (j &&& 0x07) = EPT j := by
      simp only [EPT, and7_of_lt _ hi]
    have := ep_deconfig_zero s j
    simp only [ep_cleared, hE]
    exact this
  · obtain ⟨f1, f2⟩ := ep_deconfig_frame s j
    obtain ⟨u0, u1, u2, u3, u4⟩ := untouched_of_frame s (ep_deconfig s j) j i hi hij f1 f2
    obtain ⟨z0, z1, z2, z3, z4⟩ := hz
    exact ⟨by rw [u0, z0], by rw [u1, z1], by rw [u2, z2], by rw [u3, z3], by rw [u4, z4]⟩

/-- Deconfiguring a list of endpoints leaves cleared every endpoint of the
list and every endpoint that was cleared before. -/
theorem deconfig_all_cleared : ∀ (l : List Nat) (s : State) (i : Nat), i < 8 →
    (i ∈ l ∨ ep_cleared s i) → ep_cleared (l.foldl ep_deconfig s) i := by
  intro l
  induction l with
  | nil =>
    intro s i _ h
    rcases h with h | h
    · cases h
    · exact h
  | cons j t ih =>
    intro s i hi h
    simp only [List.foldl_cons]
    apply ih _ i hi
    rcases h with h | h
    · rcases List.mem_cons.mp h with h | h
      · right
        subst h
        have hE : EPR i = i := and7_of_lt i hi
        have := ep_deconfig_zero s i
        rw [hE] at this
        exact this
      · exact Or.inl h
    · exact Or.inr (ep_deconfig_keeps_cleared s j i hi h)

theorem deconfig_all_btable : ∀ (l : List Nat) (s : State),
    (l.foldl ep_deconfig s).btable = s.btable ∧ (l.foldl ep_deconfig s).istr = s.istr ∧
    (l.foldl ep_deconfig s).cntr = s.cntr := by
  intro l
  induction l with
  | nil => intro s; exact ⟨rfl, rfl, rfl⟩
  | cons j t ih =>
    intro s
    simp only [List.foldl_cons]
    obtain ⟨a, b, c⟩ := ih (ep_deconfig s j)
    exact ⟨a.trans rfl, b.trans rfl, c.trans rfl⟩

/-- The reset branch of `evt_poll`. -/
theorem evt_poll_reset (s : State) (hctr : s.istr &&& USB_ISTR_CTR = 0)
    (hres : s.istr &&& USB_ISTR_RESET ≠ 0) :
    (evt_poll s).1 = some (usbd_evt_reset, s.istr &&& USB_ISTR_EP_ID) ∧
    (∀ i, i < 8 → ep_cleared (evt_poll s).2 i) ∧ (evt_poll s).2.btable = 0 := by
  have hc : ¬ (s.istr &&& USB_ISTR_CTR ≠ 0) := by simpa using hctr
  simp only [evt_poll, if_neg hc, evt_poll_other_reset _ _ _ _ hres]
  refine ⟨trivial, fun i hi => ?_, ?_⟩
  · exact deconfig_all_cleared _ _ i hi (Or.inl (List.mem_range.mpr hi))
  · rw [(deconfig_all_btable _ _).1]

end V0

namespace V1

theorem ep_deconfig_keeps_cleared_v1 (s : State) (j i : Nat) (hi : i < 8)
    (hz : ep_cleared s i) : ep_cleared (ep_deconfig s j) i := by
  by_cases hij : i = j &&& 0x07
  · subst hij
    have hE : EPT (j &&& 0x07) = EPT j := by
      simp only [EPT, and7_of_lt _ hi]
    have := ep_deconfig_zero_v1 s j
    simp only [ep_cleared, hE]
    exact this
  · obtain ⟨f1, f2⟩ := ep_deconfig_frame_v1 s j
    obtain ⟨u0, u1, u2, u3, u4⟩ := untouched_of_frame_v1 s (ep_deconfig s j) j i hi hij f1 f2
    obtain ⟨z0, z1, z2, z3, z4⟩ := hz
    exact ⟨by rw [u0, z0], by rw [u1, z1], by rw [u2, z2], by rw [u3, z3], by rw [u4, z4]⟩

/-- Deconfiguring a list of endpoints leaves cleared every endpoint of the
list and every endpoint that was cleared before. -/
theorem deconfig_all_cleared_v1 : ∀ (l : List Nat) (s : State) (i : Nat), i < 8 →
    (i ∈ l ∨ ep_cleared s i) → ep_cleared (l.foldl ep_deconfig s) i := by
  intro l
  induction l with
  | nil =>
    intro s i _ h
    rcases h with h | h
    · cases h
    · exact h
  | cons j t ih =>
    intro s i hi h
    simp only [List.foldl_cons]
    apply ih _ i hi
    rcases h with h | h
    · rcases List.mem_cons.mp h with h | h
      · right
        subst h
        have hE : EPR i = i := and7_of_lt i hi
        have := ep_deconfig_zero_v1 s i
        rw [hE] at this
        exact this
      · exact Or.inl h
    · exact Or.inr (ep_deconfig_keeps_cleared_v1 s j i hi h)

theorem deconfig_all_btable_v1 : ∀ (l : List Nat) (s : State),
    (l.foldl ep_deconfig s).btable = s.btable ∧ (l.foldl ep_deconfig s).istr = s.istr ∧
    (l.foldl ep_deconfig s).cntr = s.cntr := by
  intro l
  induction l with
  | nil => intro s; exact ⟨rfl, rfl, rfl⟩
  | cons j t ih =>
    intro s
    simp only [List.foldl_cons]
    obtain ⟨a, b, c⟩ := ih (ep_deconfig s j)
    exact ⟨a.trans rfl, b.trans rfl, c.trans rfl⟩

/-- The reset branch of `evt_poll`. -/
theorem evt_poll_reset_v1 (s : State) (hctr : s.istr &&& USB_ISTR_CTR = 0)
    (hres : s.istr &&& USB_ISTR_RESET ≠ 0) :
    (evt_poll s).1 = some (usbd_evt_reset, s.istr &&& USB_ISTR_EP_ID) ∧
    (∀ i, i < 8 → ep_cleared (evt_poll s).2 i) ∧ (evt_poll s).2.btable = 0 := by
  have hc : ¬ (s.istr &&& USB_ISTR_CTR ≠ 0) := by simpa using hctr
  simp only [evt_poll, if_neg hc, evt_poll_other_reset _ _ _ _ hres]
  refine ⟨trivial, fun i hi => ?_, ?_⟩
  · exact deconfig_all_cleared_v1 _ _ i hi (Or.inl (List.mem_range.mpr hi))
  · rw [(deconfig_all_btable_v1 _ _).1]

end V1

/-- C12: when `evt_poll` reads an ISTR with RESET set and CTR clear, it invokes
the callback with the reset event, and at that moment all 8 endpoints read
back with RX and TX status DISABLED and with all slot offsets and counts
zero, and BTABLE is 0; in v0 and in v1. -/
theorem C12_reset_clears_all_endpoints (s : State) (hctr : s.istr &&& USB_ISTR_CTR = 0)
    (hres : s.istr &&& USB_ISTR_RESET ≠ 0) :
    ((V0.evt_poll s).1 = some (usbd_evt_reset, s.istr &&& USB_ISTR_EP_ID) ∧
      (∀ i, i < 8 →
        (V0.evt_poll s).2.epr i &&& USB_EPRX_STAT = USB_EP_RX_DIS ∧
        (V0.evt_poll s).2.epr i &&& USB_EPTX_STAT = USB_EP_TX_DIS) ∧
      V0.deconfigured (V0.evt_poll s).2 ∧ (V0.evt_poll s).2.btable = 0) ∧
    ((V1.evt_poll s).1 = some (usbd_evt_reset, s.istr &&& USB_ISTR_EP_ID) ∧
      (∀ i, i < 8 →
        (V1.evt_poll s).2.epr i &&& USB_EPRX_STAT = USB_EP_RX_DIS ∧
        (V1.evt_poll s).2.epr i &&& USB_EPTX_STAT = USB_EP_TX_DIS) ∧
      V1.deconfigured (V1.evt_poll s).2 ∧ (V1.evt_poll s).2.btable = 0) := by
  obtain ⟨a1, a2, a3⟩ := V0.evt_poll_reset s hctr hres
  obtain ⟨b1, b2, b3⟩ := V1.evt_poll_reset_v1 s hctr hres
  refine ⟨⟨a1, fun i hi => ?_, fun i hi => ?_, a3⟩, ⟨b1, fun i hi => ?_, fun i hi => ?_, b3⟩⟩
  · rw [(a2 i hi).1]; simp [USB_EP_RX_DIS, USB_EP_TX_DIS]
  · exact (a2 i hi).2
  · rw [(b2 i hi).1]; simp [USB_EP_RX_DIS, USB_EP_TX_DIS]
  · exact (b2 i hi).2

theorem C12_reset_clears_all_endpoints_witness :
    ((V0.evt_poll reset_pending_state).1 = some (usbd_evt_reset, 0) ∧
      V0.deconfigured (V0.evt_poll reset_pending_state).2 ∧
      (V0.evt_poll reset_pending_state).2.btable = 0) ∧
    ((V1.evt_poll reset_pending_state).1 = some (usbd_evt_reset, 0) ∧
      V1.deconfigured (V1.evt_poll reset_pending_state).2 ∧
      (V1.evt_poll reset_pending_state).2.btable = 0) :=
  have h := C12_reset_clears_all_endpoints reset_pending_state (by decide) (by decide)
  ⟨⟨h.1.1, h.1.2.2.1, h.1.2.2.2⟩, ⟨h.2.1, h.2.2.2.1, h.2.2.2.2⟩⟩

/-! ## C13 and C14: event decoding -/

namespace Usb

/-- The branches below transfer-complete follow the priority order, and an
ISTR without any cause leaves the state alone. -/
theorem evt_poll_other_decodes (deconfig : State → Nat → State) (s : State) (i e : Nat) :
    (i &&& USB_ISTR_RESET = 0 → i &&& USB_ISTR_SOF = 0 → i &&& USB_ISTR_WKUP = 0 →
      i &&& USB_ISTR_SUSP = 0 → i &&& USB_ISTR_ESOF = 0 → i &&& USB_ISTR_ERR = 0 →
      evt_poll_other deconfig s i e = (none, s)) ∧
    (i &&& USB_ISTR_RESET ≠ 0 →
      (evt_poll_other deconfig s i e).1 = some (usbd_evt_reset, e)) ∧
    (i &&& USB_ISTR_RESET = 0 → i &&& USB_ISTR_SOF ≠ 0 →
      (evt_poll_other deconfig s i e).1 = some (usbd_evt_sof, e)) ∧
    (i &&& USB_ISTR_RESET = 0 → i &&& USB_ISTR_SOF = 0 → i &&& USB_ISTR_WKUP ≠ 0 →
      (evt_poll_other deconfig s i e).1 = some (usbd_evt_wkup, e)) ∧
    (i &&& USB_ISTR_RESET = 0 → i &&& USB_ISTR_SOF = 0 → i &&& USB_ISTR_WKUP = 0 →
      i &&& USB_ISTR_SUSP ≠ 0 →
      (evt_poll_other deconfig s i e).1 = some (usbd_evt_susp, e)) ∧
    (i &&& USB_ISTR_RESET = 0 → i &&& USB_ISTR_SOF = 0 → i &&& USB_ISTR_WKUP = 0 →
      i &&& USB_ISTR_SUSP = 0 → i &&& USB_ISTR_ESOF ≠ 0 →
      (evt_poll_other deconfig s i e).1 = some (usbd_evt_esof, e)) ∧
    (i &&& USB_ISTR_RESET = 0 → i &&& USB_ISTR_SOF = 0 → i &&& USB_ISTR_WKUP = 0 →
      i &&& USB_ISTR_SUSP = 0 → i &&& USB_ISTR_ESOF = 0 → i &&& USB_ISTR_ERR ≠ 0 →
      (evt_poll_other deconfig s i e).1 = some (usbd_evt_error, e)) := by
  refine ⟨?_, ?_, ?_, ?_, ?_, ?_, ?_⟩
  · intro h1 h2 h3 h4 h5 h6
    simp [evt_poll_other, h1, h2, h3, h4, h5, h6]
  · intro h1
    simp [evt_poll_other, h1]
  · intro h1 h2
    simp [evt_poll_other, h1, h2]
  · intro h1 h2 h3
    simp [evt_poll_other, h1, h2, h3]
  · intro h1 h2 h3 h4
    simp [evt_poll_other, h1, h2, h3, h4]
  · intro h1 h2 h3 h4 h5
    simp [evt_poll_other, h1, h2, h3, h4, h5]
  · intro h1 h2 h3 h4 h5 h6
    simp [evt_poll_other, h1, h2, h3, h4, h5, h6]

end Usb

namespace V0

theorem evt_poll_no_ctr (s : State) (h : s.istr &&& USB_ISTR_CTR = 0) :
    evt_poll s = evt_poll_other ep_deconfig s s.istr (s.istr &&& USB_ISTR_EP_ID) := by
  have hc : ¬ (s.istr &&& USB_ISTR_CTR ≠ 0) := by simpa using h
  simp only [evt_poll, if_neg hc]

theorem evt_poll_transfer (s : State) (h : s.istr &&& USB_ISTR_CTR ≠ 0) :
    poll_reports_transfer evt_poll s := by
  simp only [poll_reports_transfer, evt_poll, if_pos h, reg_rd]
  constructor
  · intro htx
    simp only [if_pos htx, reg_wr_epr_same, true_and]
    exact and_narrow _ _ _ _ (ctr_tx_clear_frame _) (by decide)
  · intro htx
    have hn : ¬ (s.epr (EPR (s.istr &&& USB_ISTR_EP_ID)) &&& USB_EP_CTR_TX ≠ 0) := by
      simpa using htx
    have hs : hw_store (s.epr (EPR (s.istr &&& USB_ISTR_EP_ID)))
        (s.epr (EPR (s.istr &&& USB_ISTR_EP_ID)) &&& (USB_EPREG_MASK ^^^ USB_EP_CTR_RX))
        &&& USB_EP_SETUP = s.epr (EPR (s.istr &&& USB_ISTR_EP_ID)) &&& USB_EP_SETUP :=
      and_narrow _ _ _ _ (ctr_rx_clear_frame _) (by decide)
    simp only [if_neg hn, reg_wr_epr_same, hs]
    constructor
    · intro h1; rw [if_pos h1]
    · intro h1; rw [if_neg (by simpa using h1)]

theorem evt_poll_decodes (s : State) : poll_decodes evt_poll s := by
  obtain ⟨o1, o2, o3, o4, o5, o6, o7⟩ :=
    evt_poll_other_decodes ep_deconfig s s.istr (s.istr &&& USB_ISTR_EP_ID)
  refine ⟨?_, ?_, ?_, ?_, ?_, ?_, ?_, ?_⟩
  · intro h0 h1 h2 h3 h4 h5 h6
    rw [evt_poll_no_ctr s h0]; exact o1 h1 h2 h3 h4 h5 h6
  · intro h0
    obtain ⟨t1, t2⟩ := evt_poll_transfer s h0
    by_cases htx : s.epr (EPR (s.istr &&& USB_ISTR_EP_ID)) &&& USB_EP_CTR_TX ≠ 0
    · exact ⟨_, Or.inl (t1 htx).1⟩
    · have htx0 : s.epr (EPR (s.istr &&& USB_ISTR_EP_ID)) &&& USB_EP_CTR_TX = 0 := by
        simpa using htx
      by_cases hsu : s.epr (EPR (s.istr &&& USB_ISTR_EP_ID)) &&& USB_EP_SETUP ≠ 0
      · exact ⟨_, Or.inr (Or.inr ((t2 htx0).1 hsu))⟩
      · exact ⟨_, Or.inr (Or.inl ((t2 htx0).2 (by simpa using hsu)))⟩
  · intro h0 h1
    rw [evt_poll_no_ctr s h0]; exact o2 h1
  · intro h0 h1 h2
    rw [evt_poll_no_ctr s h0]; exact o3 h1 h2
  · intro h0 h1 h2 h3
    rw [evt_poll_no_ctr s h0]; exact o4 h1 h2 h3
  · intro h0 h1 h2 h3 h4
    rw [evt_poll_no_ctr s h0]; exact o5 h1 h2 h3 h4
  · intro h0 h1 h2 h3 h4 h5
    rw [evt_poll_no_ctr s h0]; exact o6 h1 h2 h3 h4 h5
  · intro h0 h1 h2 h3 h4 h5 h6
    rw [evt_poll_no_ctr s h0]; exact o7 h1 h2 h3 h4 h5 h6

end V0

namespace V1

theorem evt_poll_no_ctr_v1 (s : State) (h : s.istr &&& USB_ISTR_CTR = 0) :
    evt_poll s = evt_poll_other ep_deconfig s s.istr (s.istr &&& USB_ISTR_EP_ID) := by
  have hc : ¬ (s.istr &&& USB_ISTR_CTR ≠ 0) := by simpa using h
  simp only [evt_poll, if_neg hc]

theorem evt_poll_transfer_v1 (s : State) (h : s.istr &&& USB_ISTR_CTR ≠ 0) :
    poll_reports_transfer evt_poll s := by
  simp only [poll_reports_transfer, evt_poll, if_pos h, reg_rd]
  constructor
  · intro htx
    simp only [if_pos htx, reg_wr_epr_same, true_and]
    exact and_narrow _ _ _ _ (ctr_tx_clear_frame _) (by decide)
  · intro htx
    have hn : ¬ (s.epr (EPR (s.istr &&& USB_ISTR_EP_ID)) &&& USB_EP_CTR_TX ≠ 0) := by
      simpa using htx
    have hs1 : hw_store (s.epr (EPR (s.istr &&& USB_ISTR_EP_ID)))
        (s.epr (EPR (s.istr &&& USB_ISTR_EP_ID)) &&& (USB_EPREG_MASK ^^^ USB_EP_CTR_RX))
        &&& USB_EP_SETUP = s.epr (EPR (s.istr &&& USB_ISTR_EP_ID)) &&& USB_EP_SETUP :=
      and_narrow _ _ _ _ (ctr_rx_clear_frame _) (by decide)
    have hs2 : hw_store (s.epr (EPR (s.istr &&& USB_ISTR_EP_ID)))
        ((s.epr (EPR (s.istr &&& USB_ISTR_EP_ID)) &&& (USB_EPREG_MASK ^^^ USB_EP_CTR_RX))
          ||| USB_EP_SWBUF_RX)
        &&& USB_EP_SETUP = s.epr (EPR (s.istr &&& USB_ISTR_EP_ID)) &&& USB_EP_SETUP :=
      and_narrow _ _ _ _ (ctr_rx_swap_frame _) (by decide)
    simp only [if_neg hn]
    split_ifs with hk h1 h1
    · simp only [reg_wr_epr_same, hs2] at h1
      exact ⟨fun _ => rfl, fun h0 => absurd h0 h1⟩
    · simp only [reg_wr_epr_same, hs2] at h1
      exact ⟨fun h0 => absurd h0 h1, fun _ => rfl⟩
    · simp only [reg_wr_epr_same, hs1] at h1
      exact ⟨fun _ => rfl, fun h0 => absurd h0 h1⟩
    · simp only [reg_wr_epr_same, hs1] at h1
      exact ⟨fun h0 => absurd h0 h1, fun _ => rfl⟩

theorem evt_poll_decodes_v1 (s : State) : poll_decodes evt_poll s := by
  obtain ⟨o1, o2, o3, o4, o5, o6, o7⟩ :=
    evt_poll_other_decodes ep_deconfig s s.istr (s.istr &&& USB_ISTR_EP_ID)
  refine ⟨?_, ?_, ?_, ?_, ?_, ?_, ?_, ?_⟩
  · intro h0 h1 h2 h3 h4 h5 h6
    rw [evt_poll_no_ctr_v1 s h0]; exact o1 h1 h2 h3 h4 h5 h6
  · intro h0
    obtain ⟨t1, t2⟩ := evt_poll_transfer_v1 s h0
    by_cases htx : s.epr (EPR (s.istr &&& USB_ISTR_EP_ID)) &&& USB_EP_CTR_TX ≠ 0
    · exact ⟨_, Or.inl (t1 htx).1⟩
    · have htx0 : s.epr (EPR (s.istr &&& USB_ISTR_EP_ID)) &&& USB_EP_CTR_TX = 0 := by
        simpa using htx
      by_cases hsu : s.epr (EPR (s.istr &&& USB_ISTR_EP_ID)) &&& USB_EP_SETUP ≠ 0
      · exact ⟨_, Or.inr (Or.inr ((t2 htx0).1 hsu))⟩
      · exact ⟨_, Or.inr (Or.inl ((t2 htx0).2 (by simpa using hsu)))⟩
  · intro h0 h1
    rw [evt_poll_no_ctr_v1 s h0]; exact o2 h1
  · intro h0 h1 h2
    rw [evt_poll_no_ctr_v1 s h0]; exact o3 h1 h2
  · intro h0 h1 h2 h3
    rw [evt_poll_no_ctr_v1 s h0]; exact o4 h1 h2 h3
  · intro h0 h1 h2 h3 h4
    rw [evt_poll_no_ctr_v1 s h0]; exact o5 h1 h2 h3 h4
  · intro h0 h1 h2 h3 h4 h5
    rw [evt_poll_no_ctr_v1 s h0]; exact o6 h1 h2 h3 h4 h5
  · intro h0 h1 h2 h3 h4 h5 h6
    rw [evt_poll_no_ctr_v1 s h0]; exact o7 h1 h2 h3 h4 h5 h6

end V1

/-- C13: for every ISTR value `evt_poll` decodes at most one event: if none of
CTR, RESET, SOF, WKUP, SUSP, ESOF, ERR is set the callback is not invoked and
no register or memory is modified; otherwise the callback is invoked exactly
once, with the event of the first set flag in the priority order CTR (one of
the three transfer events), RESET, SOF, WKUP, SUSP, ESOF, ERR; in v0 and in
v1. -/
theorem C13_poll_decodes_one_event (s : State) :
    poll_decodes V0.evt_poll s ∧ poll_decodes V1.evt_poll s :=
  ⟨V0.evt_poll_decodes s, V1.evt_poll_decodes_v1 s⟩

theorem C13_poll_decodes_one_event_witness :
    (V0.evt_poll reset_pending_state).1 =
      some (usbd_evt_reset, reset_pending_state.istr &&& USB_ISTR_EP_ID) := by
  have h := (C13_poll_decodes_one_event reset_pending_state).1
  unfold poll_decodes at h
  exact h.2.2.1 (by decide) (by decide)

/-- C14: when CTR is set in ISTR, `evt_poll` takes the endpoint index from the
EP_ID field of ISTR: if that endpoint's CTR_TX flag is set it reports
tx-complete with handle `index | 0x80`, also when CTR_RX is set at the same
time, which then stays as it was in the register; otherwise it reports
setup-received if the register's SETUP flag is set and rx-complete if it is
not, with handle `index`; in v0 and in v1. -/
theorem C14_transfer_complete_decoding (s : State) (hctr : s.istr &&& USB_ISTR_CTR ≠ 0) :
    poll_reports_transfer V0.evt_poll s ∧ poll_reports_transfer V1.evt_poll s :=
  ⟨V0.evt_poll_transfer s hctr, V1.evt_poll_transfer_v1 s hctr⟩

theorem C14_transfer_complete_decoding_witness :
    ((V0.evt_poll ctr_pending_state).1 = some (usbd_evt_eptx, 0x81) ∧
      (V0.evt_poll ctr_pending_state).2.epr 1 &&& USB_EP_CTR_RX = USB_EP_CTR_RX) ∧
    (V1.evt_poll ctr_pending_state).1 = some (usbd_evt_eptx, 0x81) :=
  have h := C14_transfer_complete_decoding ctr_pending_state (by decide)
  have h0 := h.1.1 (by decide)
  have h1 := h.2.1 (by decide)
  ⟨⟨h0.1, h0.2.trans (by decide)⟩, h1.1⟩

/-! ## Paths through `ep_read` and `ep_write` (v0) -/

namespace Usb

theorem ofNat_ne_neg_one (n : Nat) : Int.ofNat n ≠ -1 := by
  intro h
  have h0 : (0 : Int) ≤ Int.ofNat n := Int.ofNat_nonneg n
  rw [h] at h0
  exact absurd h0 (by decide)

end Usb

namespace V0

/-- Path: double-buffered bulk, RX status VALID. -/
theorem ep_read_path_dbl (s : State) (ep : Nat) (buf : Nat → Nat) (blen : Nat)
    (h : s.epr (EPR ep) &&& (USB_EPRX_STAT ||| USB_EP_T_FIELD ||| USB_EP_KIND) =
      (USB_EP_RX_VALID ||| USB_EP_BULK ||| USB_EP_KIND)) :
    ∃ s1 rec, s1.pma = s.pma ∧ (rec = rx0 (EPT ep) ∨ rec = rx1 (EPT ep)) ∧
      ep_read s ep buf blen =
        (Int.ofNat (pma_read s1 buf blen rec).1, (pma_read s1 buf blen rec).2.1,
          (pma_read s1 buf blen rec).2.2) := by
  simp only [ep_read, reg_rd, h, if_true]
  split_ifs
  · exact ⟨_, _, reg_wr_pma _ _ _, Or.inr rfl, rfl⟩
  · exact ⟨_, _, reg_wr_pma _ _ _, Or.inl rfl, rfl⟩
  · exact ⟨_, _, rfl, Or.inr rfl, rfl⟩
  · exact ⟨_, _, rfl, Or.inl rfl, rfl⟩

/-- Path: isochronous, RX status VALID. -/
theorem ep_read_path_iso (s : State) (ep : Nat) (buf : Nat → Nat) (blen : Nat)
    (h : s.epr (EPR ep) &&& (USB_EPRX_STAT ||| USB_EP_T_FIELD ||| USB_EP_KIND) =
      (USB_EP_RX_VALID ||| USB_EP_ISOCHRONOUS)) :
    ∃ rec, (rec = rx0 (EPT ep) ∨ rec = rx1 (EPT ep)) ∧
      ep_read s ep buf blen =
        (Int.ofNat (pma_read s buf blen rec).1, (pma_read s buf blen rec).2.1,
          (pma_read s buf blen rec).2.2) := by
  have h1 : (USB_EP_RX_VALID ||| USB_EP_ISOCHRONOUS) ≠
      (USB_EP_RX_VALID ||| USB_EP_BULK ||| USB_EP_KIND) := by decide
  simp only [ep_read, reg_rd, h, if_neg h1, if_true]
  split_ifs
  · exact ⟨_, Or.inr rfl, rfl⟩
  · exact ⟨_, Or.inl rfl, rfl⟩

/-- Path: single-buffered endpoint, RX status NAK. -/
theorem ep_read_path_single (s : State) (ep : Nat) (buf : Nat → Nat) (blen : Nat)
    (h : s.epr (EPR ep) &&& (USB_EPRX_STAT ||| USB_EP_T_FIELD ||| USB_EP_KIND) =
        (USB_EP_RX_NAK ||| USB_EP_BULK) ∨
      s.epr (EPR ep) &&& (USB_EPRX_STAT ||| USB_EP_T_FIELD ||| USB_EP_KIND) =
        (USB_EP_RX_NAK ||| USB_EP_CONTROL) ∨
      s.epr (EPR ep) &&& (USB_EPRX_STAT ||| USB_EP_T_FIELD ||| USB_EP_KIND) =
        (USB_EP_RX_NAK ||| USB_EP_INTERRUPT)) :
    ep_read s ep buf blen =
      (Int.ofNat (pma_read s buf blen (rx (EPT ep))).1,
        (pma_read s buf blen (rx (EPT ep))).2.1,
        EP_RX_VALID (pma_read s buf blen (rx (EPT ep))).2.2 (EPR ep)) := by
  have h1 : s.epr (EPR ep) &&& (USB_EPRX_STAT ||| USB_EP_T_FIELD ||| USB_EP_KIND) ≠
      (USB_EP_RX_VALID ||| USB_EP_BULK ||| USB_EP_KIND) := by
    rcases h with h | h | h <;> rw [h] <;> decide
  have h2 : s.epr (EPR ep) &&& (USB_EPRX_STAT ||| USB_EP_T_FIELD ||| USB_EP_KIND) ≠
      (USB_EP_RX_VALID ||| USB_EP_ISOCHRONOUS) := by
    rcases h with h | h | h <;> rw [h] <;> decide
  simp only [ep_read, reg_rd, if_neg h1, if_neg h2, if_pos h]

/-- Path: every other register state; nothing is touched. -/
theorem ep_read_path_fail (s : State) (ep : Nat) (buf : Nat → Nat) (blen : Nat)
    (h1 : s.epr (EPR ep) &&& (USB_EPRX_STAT ||| USB_EP_T_FIELD ||| USB_EP_KIND) ≠
      (USB_EP_RX_VALID ||| USB_EP_BULK ||| USB_EP_KIND))
    (h2 : s.epr (EPR ep) &&& (USB_EPRX_STAT ||| USB_EP_T_FIELD ||| USB_EP_KIND) ≠
      (USB_EP_RX_VALID ||| USB_EP_ISOCHRONOUS))
    (h3 : s.epr (EPR ep) &&& (USB_EPRX_STAT ||| USB_EP_T_FIELD ||| USB_EP_KIND) ≠
      (USB_EP_RX_NAK ||| USB_EP_BULK))
    (h4 : s.epr (EPR ep) &&& (USB_EPRX_STAT ||| USB_EP_T_FIELD ||| USB_EP_KIND) ≠
      (USB_EP_RX_NAK ||| USB_EP_CONTROL))
    (h5 : s.epr (EPR ep) &&& (USB_EPRX_STAT ||| USB_EP_T_FIELD ||| USB_EP_KIND) ≠
      (USB_EP_RX_NAK ||| USB_EP_INTERRUPT)) :
    ep_read s ep buf blen = (-1, buf, s) := by
  simp only [ep_read, reg_rd, if_neg h1, if_neg h2, h3, h4, h5, or_self, if_false]

/-- A permitted read took one of the five cases of the switch. -/
theorem ep_read_permitted (s : State) (ep : Nat) (buf : Nat → Nat) (blen : Nat)
    (h : (ep_read s ep buf blen).1 ≠ -1) :
    s.epr (EPR ep) &&& (USB_EPRX_STAT ||| USB_EP_T_FIELD ||| USB_EP_KIND) =
        (USB_EP_RX_VALID ||| USB_EP_BULK ||| USB_EP_KIND) ∨
    s.epr (EPR ep) &&& (USB_EPRX_STAT ||| USB_EP_T_FIELD ||| USB_EP_KIND) =
        (USB_EP_RX_VALID ||| USB_EP_ISOCHRONOUS) ∨
    (s.epr (EPR ep) &&& (USB_EPRX_STAT ||| USB_EP_T_FIELD ||| USB_EP_KIND) =
        (USB_EP_RX_NAK ||| USB_EP_BULK) ∨
      s.epr (EPR ep) &&& (USB_EPRX_STAT ||| USB_EP_T_FIELD ||| USB_EP_KIND) =
        (USB_EP_RX_NAK ||| USB_EP_CONTROL) ∨
      s.epr (EPR ep) &&& (USB_EPRX_STAT ||| USB_EP_T_FIELD ||| USB_EP_KIND) =
        (USB_EP_RX_NAK ||| USB_EP_INTERRUPT)) := by
  by_contra hc
  simp only [not_or] at hc
  obtain ⟨c1, c2, c3, c4, c5⟩ := hc
  rw [ep_read_path_fail s ep buf blen c1 c2 c3 c4 c5] at h
  exact h rfl

end V0

/-! ## The copy loops, byte by byte -/

namespace Usb

/-- What the read loop leaves in the caller's buffer: byte `q + 2k` is the low
half and byte `q + 2k + 1` the high half of the word at `a + st * k`; bytes
outside `[q, q + n)` are not written. -/
theorem pma_read_loop_spec (st : Nat) (m : Nat → Nat) :
    ∀ (n q a : Nat) (out : Nat → Nat) (j : Nat),
      pma_read_loop st m n q a out j =
        if q ≤ j ∧ j < q + n then
          (if (j - q) % 2 = 0 then rd16 m (a + st * ((j - q) / 2)) % 256
            else rd16 m (a + st * ((j - q) / 2)) / 256)
        else out j := by
  intro n
  induction n using Nat.strong_induction_on with
  | _ n ih =>
    intro q a out j
    match n with
    | 0 =>
      simp only [pma_read_loop]
      rw [if_neg (by omega)]
    | 1 =>
      simp only [pma_read_loop, wr8, and_ff]
      by_cases hj : j = q
      · subst hj
        rw [if_pos rfl, if_pos (by omega)]
        simp only [Nat.sub_self, Nat.zero_mod, Nat.zero_div, Nat.mul_zero, Nat.add_zero,
          if_true]
        omega
      · rw [if_neg hj, if_neg (by omega)]
    | k + 2 =>
      have hlt := rd16_lt m a
      simp only [pma_read_loop]
      rw [ih k (by omega) (q + 2) (a + st) _ j]
      simp only [wr8, and_ff, shr8]
      by_cases h1 : q + 2 ≤ j ∧ j < q + 2 + k
      · obtain ⟨d, rfl⟩ : ∃ d, j = q + 2 + d := ⟨j - (q + 2), by omega⟩
        rw [if_pos h1, if_pos (show q ≤ q + 2 + d ∧ q + 2 + d < q + (k + 2) by omega)]
        have e1 : q + 2 + d - (q + 2) = d := by omega
        have e2 : q + 2 + d - q = d + 2 := by omega
        have e3 : (d + 2) / 2 = d / 2 + 1 := by omega
        have e4 : (d + 2) % 2 = d % 2 := by omega
        have e5 : a + st + st * (d / 2) = a + st * (d / 2 + 1) := by
          rw [Nat.mul_succ]; omega
        rw [e1, e2, e3, e4, e5]
      · rw [if_neg h1]
        by_cases h2 : j = q + 1
        · subst h2
          rw [if_pos rfl, if_pos (by omega)]
          rw [show q + 1 - q = 1 by omega]
          simp only [Nat.one_mod, Nat.one_ne_zero, if_false, Nat.mul_zero, Nat.add_zero,
            show (1 : Nat) / 2 = 0 by norm_num]
          omega
        · rw [if_neg h2]
          by_cases h3 : j = q
          · subst h3
            rw [if_pos rfl, if_pos (by omega)]
            simp only [Nat.sub_self, Nat.zero_mod, Nat.zero_div, Nat.mul_zero, Nat.add_zero,
              if_true]
            omega
          · rw [if_neg h3, if_neg (by omega)]

/-- The write loop changes nothing at or above the end of the words it
stores. -/
theorem pma_write_loop_above (st : Nat) (hst : 2 ≤ st) (buf : Nat → Nat) :
    ∀ (n p a : Nat) (m : Nat → Nat) (x : Nat), a + st * ((n + 1) / 2) ≤ x →
      pma_write_loop st buf n p a m x = m x := by
  intro n
  induction n using Nat.strong_induction_on with
  | _ n ih =>
    intro p a m x hx
    match n with
    | 0 => rfl
    | 1 =>
      simp only [pma_write_loop]
      have e : (1 + 1) / 2 = 1 := by norm_num
      rw [e, Nat.mul_one] at hx
      exact wr16_other m a _ x (by omega) (by omega)
    | k + 2 =>
      have e : (k + 2 + 1) / 2 = (k + 1) / 2 + 1 := by omega
      rw [e, Nat.mul_succ] at hx
      simp only [pma_write_loop]
      rw [ih k (by omega) (p + 2) (a + st) _ x (by omega)]
      exact wr16_other m a _ x (by omega) (by omega)

/-- What the write loop stores: word `k` of the slot holds bytes `2k` (low)
and `2k + 1` (high) of the caller's buffer, and a trailing odd byte sits alone
in its word. -/
theorem pma_write_loop_spec (st : Nat) (hst : 2 ≤ st) (buf : Nat → Nat) :
    ∀ (n p a : Nat) (m : Nat → Nat), (∀ j, j < n → buf (p + j) < 256) →
      (∀ k, 2 * k + 1 < n →
        rd16 (pma_write_loop st buf n p a m) (a + st * k) =
          buf (p + 2 * k) + 256 * buf (p + 2 * k + 1)) ∧
      (∀ k, 2 * k + 1 = n →
        rd16 (pma_write_loop st buf n p a m) (a + st * k) = buf (p + 2 * k)) := by
  intro n
  induction n using Nat.strong_induction_on with
  | _ n ih =>
    intro p a m hb
    match n with
    | 0 =>
      exact ⟨fun k hk => by omega, fun k hk => by omega⟩
    | 1 =>
      have hb0 : buf p < 256 := by simpa using hb 0 (by omega)
      refine ⟨fun k hk => by omega, fun k hk => ?_⟩
      have hk0 : k = 0 := by omega
      subst hk0
      simp only [pma_write_loop, Nat.mul_zero, Nat.add_zero, rd16_wr16_same]
      omega
    | k + 2 =>
      have hb0 : buf p < 256 := by simpa using hb 0 (by omega)
      have hb1 : buf (p + 1) < 256 := hb 1 (by omega)
      have hrec := ih k (by omega) (p + 2) (a + st)
        (wr16 m a ((buf (p + 1) <<< 8) ||| buf p))
        (fun i hi => by
          have := hb (i + 2) (by omega)
          rwa [show p + (i + 2) = p + 2 + i by omega] at this)
      have h0 : rd16 (pma_write_loop st buf (k + 2) p a m) a =
          buf p + 256 * buf (p + 1) := by
        simp only [pma_write_loop]
        rw [rd16_congr _ (wr16 m a ((buf (p + 1) <<< 8) ||| buf p)) a
          (pma_write_loop_below _ _ _ _ _ _ _ (by omega))
          (pma_write_loop_below _ _ _ _ _ _ _ (by omega))]
        rw [rd16_wr16_same, word_of_bytes _ _ hb0]
        omega
      constructor
      · intro i hi
        match i with
        | 0 =>
          simp only [Nat.mul_zero, Nat.add_zero]
          exact h0
        | i + 1 =>
          have := hrec.1 i (by omega)
          simp only [pma_write_loop]
          rw [Nat.mul_succ, show a + (st * i + st) = a + st + st * i by omega,
            show p + 2 * (i + 1) = p + 2 + 2 * i by omega]
          exact this
      · intro i hi
        match i with
        | 0 => omega
        | i + 1 =>
          have := hrec.2 i (by omega)
          simp only [pma_write_loop]
          rw [Nat.mul_succ, show a + (st * i + st) = a + st + st * i by omega,
            show p + 2 * (i + 1) = p + 2 + 2 * i by omega]
          exact this

end Usb

namespace Usb

/-- The read loop started at buffer position 0, by even and odd index. -/
theorem pma_read_loop_bytes (st : Nat) (m : Nat → Nat) (n a : Nat) (buf : Nat → Nat) :
    (∀ k, 2 * k < n →
      pma_read_loop st m n 0 a buf (2 * k) = rd16 m (a + st * k) % 256) ∧
    (∀ k, 2 * k + 1 < n →
      pma_read_loop st m n 0 a buf (2 * k + 1) = rd16 m (a + st * k) / 256) ∧
    (∀ j, n ≤ j → pma_read_loop st m n 0 a buf j = buf j) := by
  refine ⟨fun k hk => ?_, fun k hk => ?_, fun j hj => ?_⟩
  · rw [pma_read_loop_spec, if_pos (by omega)]
    have e1 : (2 * k - 0) % 2 = 0 := by omega
    have e2 : (2 * k - 0) / 2 = k := by omega
    rw [e1, e2, if_pos rfl]
  · rw [pma_read_loop_spec, if_pos (by omega)]
    have e1 : (2 * k + 1 - 0) % 2 = 1 := by omega
    have e2 : (2 * k + 1 - 0) / 2 = k := by omega
    rw [e1, e2, if_neg (by decide)]
  · rw [pma_read_loop_spec, if_neg (by omega)]

theorem min_of_ite (a b : Nat) : (if a > b then b else a) = min a b := by
  simp only [Nat.min_def]
  split_ifs <;> omega

end Usb

namespace V0

/-- The routine `pma_read` on record `rec`: it returns
`n = min(blen, count & 0x3FF)`, clears the low ten bits of the count word,
and delivers `n` bytes of the slot at offset `rec.addr`. -/
theorem pma_read_spec (s : State) (buf : Nat → Nat) (blen rec : Nat) :
    (pma_read s buf blen rec).1 = min blen (rd16 s.pma (cnt rec) &&& 0x03FF) ∧
    (pma_read s buf blen rec).2.2.pma =
      wr16 s.pma (cnt rec) (rd16 s.pma (cnt rec) &&& 0xFC00) ∧
    (pma_read s buf blen rec).2.2.epr = s.epr ∧
    (∀ k, 2 * k < min blen (rd16 s.pma (cnt rec) &&& 0x03FF) →
      (pma_read s buf blen rec).2.1 (2 * k) =
        rd16 (pma_read s buf blen rec).2.2.pma (rd16 s.pma (addr rec) + 2 * k) % 256) ∧
    (∀ k, 2 * k + 1 < min blen (rd16 s.pma (cnt rec) &&& 0x03FF) →
      (pma_read s buf blen rec).2.1 (2 * k + 1) =
        rd16 (pma_read s buf blen rec).2.2.pma (rd16 s.pma (addr rec) + 2 * k) / 256) ∧
    (∀ j, min blen (rd16 s.pma (cnt rec) &&& 0x03FF) ≤ j →
      (pma_read s buf blen rec).2.1 j = buf j) := by
  simp only [pma_read, min_of_ite, pma_wr]
  have hl := pma_read_loop_bytes 2
    (wr16 s.pma (cnt rec) (rd16 s.pma (cnt rec) &&& 0xFC00))
    (min blen (rd16 s.pma (cnt rec) &&& 0x03FF)) (rd16 s.pma (addr rec)) buf
  exact ⟨trivial, trivial, trivial, hl.1, hl.2.1, hl.2.2⟩

end V0

/-! ## C15, C16, C17: `ep_read` (v0) -/

namespace Usb

/-- A switch key of `ep_read` that differs from `c` in one of its three
fields is not `c`. -/
theorem rx_key_ne (r c : Nat)
    (h : r &&& USB_EPRX_STAT ≠ c &&& USB_EPRX_STAT ∨
      r &&& USB_EP_T_FIELD ≠ c &&& USB_EP_T_FIELD ∨
      r &&& USB_EP_KIND ≠ c &&& USB_EP_KIND) :
    r &&& (USB_EPRX_STAT ||| USB_EP_T_FIELD ||| USB_EP_KIND) ≠ c := by
  intro hk
  rcases h with h | h | h
  · exact h (and_narrow_const _ _ _ _ hk (by decide))
  · exact h (and_narrow_const _ _ _ _ hk (by decide))
  · exact h (and_narrow_const _ _ _ _ hk (by decide))

end Usb

namespace V0

/-- Single-buffered endpoint: a read is permitted exactly in RX status NAK. -/
theorem ep_read_single_iff (s : State) (ep : Nat) (buf : Nat → Nat) (blen : Nat)
    (htype : s.epr (EPR ep) &&& USB_EP_T_FIELD = USB_EP_BULK ∨
      s.epr (EPR ep) &&& USB_EP_T_FIELD = USB_EP_CONTROL ∨
      s.epr (EPR ep) &&& USB_EP_T_FIELD = USB_EP_INTERRUPT)
    (hkind : s.epr (EPR ep) &&& USB_EP_KIND = 0) :
    ((ep_read s ep buf blen).1 ≠ -1 ↔ s.epr (EPR ep) &&& USB_EPRX_STAT = USB_EP_RX_NAK) ∧
    (s.epr (EPR ep) &&& USB_EPRX_STAT ≠ USB_EP_RX_NAK →
      ep_read s ep buf blen = (-1, buf, s)) := by
  have hfail : s.epr (EPR ep) &&& USB_EPRX_STAT ≠ USB_EP_RX_NAK →
      ep_read s ep buf blen = (-1, buf, s) := by
    intro hs
    apply ep_read_path_fail
    · exact rx_key_ne _ _ (Or.inr (Or.inr (by rw [hkind]; decide)))
    · refine rx_key_ne _ _ (Or.inr (Or.inl ?_))
      rcases htype with h | h | h <;> rw [h] <;> decide
    · refine rx_key_ne _ _ (Or.inl ?_)
      rw [show (USB_EP_RX_NAK ||| USB_EP_BULK) &&& USB_EPRX_STAT = USB_EP_RX_NAK by decide]
      exact hs
    · refine rx_key_ne _ _ (Or.inl ?_)
      rw [show (USB_EP_RX_NAK ||| USB_EP_CONTROL) &&& USB_EPRX_STAT = USB_EP_RX_NAK
        by decide]
      exact hs
    · refine rx_key_ne _ _ (Or.inl ?_)
      rw [show (USB_EP_RX_NAK ||| USB_EP_INTERRUPT) &&& USB_EPRX_STAT = USB_EP_RX_NAK
        by decide]
      exact hs
  refine ⟨⟨fun h => ?_, fun hs => ?_⟩, hfail⟩
  · by_contra hs
    rw [hfail hs] at h
    exact h rfl
  · have hk : s.epr (EPR ep) &&& (USB_EPRX_STAT ||| USB_EP_T_FIELD ||| USB_EP_KIND) =
          (USB_EP_RX_NAK ||| USB_EP_BULK) ∨
        s.epr (EPR ep) &&& (USB_EPRX_STAT ||| USB_EP_T_FIELD ||| USB_EP_KIND) =
          (USB_EP_RX_NAK ||| USB_EP_CONTROL) ∨
        s.epr (EPR ep) &&& (USB_EPRX_STAT ||| USB_EP_T_FIELD ||| USB_EP_KIND) =
          (USB_EP_RX_NAK ||| USB_EP_INTERRUPT) := by
      rw [rx_key_split, hs, hkind]
      rcases htype with h | h | h <;> rw [h] <;> decide
    rw [ep_read_path_single s ep buf blen hk]
    exact ofNat_ne_neg_one _

/-- Double-buffered bulk or isochronous endpoint: a read is permitted exactly
in RX status VALID. -/
theorem ep_read_dbl_iff (s : State) (ep : Nat) (buf : Nat → Nat) (blen : Nat)
    (hkind : (s.epr (EPR ep) &&& USB_EP_T_FIELD = USB_EP_BULK ∧
        s.epr (EPR ep) &&& USB_EP_KIND = USB_EP_KIND) ∨
      (s.epr (EPR ep) &&& USB_EP_T_FIELD = USB_EP_ISOCHRONOUS ∧
        s.epr (EPR ep) &&& USB_EP_KIND = 0)) :
    ((ep_read s ep buf blen).1 ≠ -1 ↔
      s.epr (EPR ep) &&& USB_EPRX_STAT = USB_EP_RX_VALID) ∧
    (s.epr (EPR ep) &&& USB_EPRX_STAT ≠ USB_EP_RX_VALID →
      ep_read s ep buf blen = (-1, buf, s)) := by
  have hfail : s.epr (EPR ep) &&& USB_EPRX_STAT ≠ USB_EP_RX_VALID →
      ep_read s ep buf blen = (-1, buf, s) := by
    intro hs
    apply ep_read_path_fail
    · refine rx_key_ne _ _ (Or.inl ?_)
      rw [show (USB_EP_RX_VALID ||| USB_EP_BULK ||| USB_EP_KIND) &&& USB_EPRX_STAT =
        USB_EP_RX_VALID by decide]
      exact hs
    · refine rx_key_ne _ _ (Or.inl ?_)
      rw [show (USB_EP_RX_VALID ||| USB_EP_ISOCHRONOUS) &&& USB_EPRX_STAT =
        USB_EP_RX_VALID by decide]
      exact hs
    · rcases hkind with ⟨_, h⟩ | ⟨h, _⟩
      · exact rx_key_ne _ _ (Or.inr (Or.inr (by rw [h]; decide)))
      · exact rx_key_ne _ _ (Or.inr (Or.inl (by rw [h]; decide)))
    · rcases hkind with ⟨_, h⟩ | ⟨h, _⟩
      · exact rx_key_ne _ _ (Or.inr (Or.inr (by rw [h]; decide)))
      · exact rx_key_ne _ _ (Or.inr (Or.inl (by rw [h]; decide)))
    · rcases hkind with ⟨_, h⟩ | ⟨h, _⟩
      · exact rx_key_ne _ _ (Or.inr (Or.inr (by rw [h]; decide)))
      · exact rx_key_ne _ _ (Or.inr (Or.inl (by rw [h]; decide)))
  refine ⟨⟨fun h => ?_, fun hs => ?_⟩, hfail⟩
  · by_contra hs
    rw [hfail hs] at h
    exact h rfl
  · rcases hkind with ⟨ht, hk⟩ | ⟨ht, hk⟩
    · have hkey : s.epr (EPR ep) &&& (USB_EPRX_STAT ||| USB_EP_T_FIELD ||| USB_EP_KIND) =
          (USB_EP_RX_VALID ||| USB_EP_BULK ||| USB_EP_KIND) := by
        rw [rx_key_split, hs, ht, hk]
      obtain ⟨s1, rec, _, _, he⟩ := ep_read_path_dbl s ep buf blen hkey
      rw [he]
      exact ofNat_ne_neg_one _
    · have hkey : s.epr (EPR ep) &&& (USB_EPRX_STAT ||| USB_EP_T_FIELD ||| USB_EP_KIND) =
          (USB_EP_RX_VALID ||| USB_EP_ISOCHRONOUS) := by
        rw [rx_key_split, hs, ht, hk]; decide
      obtain ⟨rec, _, he⟩ := ep_read_path_iso s ep buf blen hkey
      rw [he]
      exact ofNat_ne_neg_one _

/-- What a read that goes through record `rec` delivers. -/
theorem pma_read_outcome (s s1 : State) (buf : Nat → Nat) (blen rec : Nat)
    (r : Int × (Nat → Nat) × State) (hp : s1.pma = s.pma)
    (h1 : r.1 = Int.ofNat (pma_read s1 buf blen rec).1)
    (h2 : r.2.1 = (pma_read s1 buf blen rec).2.1)
    (h3 : r.2.2.pma = (pma_read s1 buf blen rec).2.2.pma) :
    r.1 = Int.ofNat (min blen (rd16 s.pma (cnt rec) &&& 0x03FF)) ∧
    r.2.2.pma = wr16 s.pma (cnt rec) (rd16 s.pma (cnt rec) &&& 0xFC00) ∧
    (∀ k, 2 * k < min blen (rd16 s.pma (cnt rec) &&& 0x03FF) →
      r.2.1 (2 * k) = rd16 r.2.2.pma (rd16 s.pma (addr rec) + 2 * k) % 256) ∧
    (∀ k, 2 * k + 1 < min blen (rd16 s.pma (cnt rec) &&& 0x03FF) →
      r.2.1 (2 * k + 1) = rd16 r.2.2.pma (rd16 s.pma (addr rec) + 2 * k) / 256) ∧
    (∀ j, min blen (rd16 s.pma (cnt rec) &&& 0x03FF) ≤ j → r.2.1 j = buf j) := by
  have hs := pma_read_spec s1 buf blen rec
  rw [hp] at hs
  rw [h1, h2, h3]
  exact ⟨by rw [hs.1], hs.2.1, hs.2.2.2.1, hs.2.2.2.2.1, hs.2.2.2.2.2⟩

end V0

/-- C15: in v0, on a single-buffered endpoint (type bulk, control or
interrupt, kind bit clear) `ep_read` succeeds exactly when the RX status is
NAK; in every other RX status it returns -1 and the register file, the packet
memory and the caller's buffer are what they were. -/
theorem C15_single_read_needs_nak (s : State) (ep : Nat) (buf : Nat → Nat) (blen : Nat)
    (htype : s.epr (EPR ep) &&& USB_EP_T_FIELD = USB_EP_BULK ∨
      s.epr (EPR ep) &&& USB_EP_T_FIELD = USB_EP_CONTROL ∨
      s.epr (EPR ep) &&& USB_EP_T_FIELD = USB_EP_INTERRUPT)
    (hkind : s.epr (EPR ep) &&& USB_EP_KIND = 0) :
    ((V0.ep_read s ep buf blen).1 ≠ -1 ↔
      s.epr (EPR ep) &&& USB_EPRX_STAT = USB_EP_RX_NAK) ∧
    (s.epr (EPR ep) &&& USB_EPRX_STAT ≠ USB_EP_RX_NAK →
      V0.ep_read s ep buf blen = (-1, buf, s)) :=
  V0.ep_read_single_iff s ep buf blen htype hkind

theorem C15_single_read_needs_nak_witness :
    (single_rx_state.epr (EPR 0x01) &&& USB_EP_T_FIELD = USB_EP_BULK ∧
      single_rx_state.epr (EPR 0x01) &&& USB_EP_KIND = 0) ∧
    (((V0.ep_read single_rx_state 0x01 (fun _ => 0xEE) 8).1 ≠ -1 ↔
      single_rx_state.epr (EPR 0x01) &&& USB_EPRX_STAT = USB_EP_RX_NAK) ∧
    (single_rx_state.epr (EPR 0x01) &&& USB_EPRX_STAT ≠ USB_EP_RX_NAK →
      V0.ep_read single_rx_state 0x01 (fun _ => 0xEE) 8 =
        (-1, (fun _ => 0xEE), single_rx_state))) :=
  ⟨by decide, C15_single_read_needs_nak single_rx_state 0x01 (fun _ => 0xEE) 8
    (Or.inl (by decide)) (by decide)⟩

/-- C16, counterexample: a double-buffered bulk OUT endpoint whose RX status
is NAK; `ep_read` returns -1. -/
theorem C16_counterexample :
    (dbl_rx_nak_state.epr (EPR 0x01) &&& USB_EP_T_FIELD = USB_EP_BULK ∧
      dbl_rx_nak_state.epr (EPR 0x01) &&& USB_EP_KIND = USB_EP_KIND) ∧
    (V0.ep_read dbl_rx_nak_state 0x01 (fun _ => 0xEE) 8).1 = -1 := by
  decide

/-- C16, amended: in v0, on a double-buffered bulk or isochronous OUT endpoint
`ep_read` does not return failure exactly when the RX status is VALID,
whatever the toggle and swap bits are; in every other RX status it returns -1
and changes nothing. -/
theorem C16_dbl_read_needs_valid (s : State) (ep : Nat) (buf : Nat → Nat) (blen : Nat)
    (hkind : (s.epr (EPR ep) &&& USB_EP_T_FIELD = USB_EP_BULK ∧
        s.epr (EPR ep) &&& USB_EP_KIND = USB_EP_KIND) ∨
      (s.epr (EPR ep) &&& USB_EP_T_FIELD = USB_EP_ISOCHRONOUS ∧
        s.epr (EPR ep) &&& USB_EP_KIND = 0)) :
    ((V0.ep_read s ep buf blen).1 ≠ -1 ↔
      s.epr (EPR ep) &&& USB_EPRX_STAT = USB_EP_RX_VALID) ∧
    (s.epr (EPR ep) &&& USB_EPRX_STAT ≠ USB_EP_RX_VALID →
      V0.ep_read s ep buf blen = (-1, buf, s)) :=
  V0.ep_read_dbl_iff s ep buf blen hkind

theorem C16_dbl_read_needs_valid_witness :
    (dbl_rx_valid_state.epr (EPR 0x01) &&& USB_EP_T_FIELD = USB_EP_BULK ∧
      dbl_rx_valid_state.epr (EPR 0x01) &&& USB_EP_KIND = USB_EP_KIND) ∧
    (((V0.ep_read dbl_rx_valid_state 0x01 (fun _ => 0xEE) 8).1 ≠ -1 ↔
      dbl_rx_valid_state.epr (EPR 0x01) &&& USB_EPRX_STAT = USB_EP_RX_VALID) ∧
    (dbl_rx_valid_state.epr (EPR 0x01) &&& USB_EPRX_STAT ≠ USB_EP_RX_VALID →
      V0.ep_read dbl_rx_valid_state 0x01 (fun _ => 0xEE) 8 =
        (-1, (fun _ => 0xEE), dbl_rx_valid_state))) :=
  ⟨by decide, C16_dbl_read_needs_valid dbl_rx_valid_state 0x01 (fun _ => 0xEE) 8
    (Or.inl (by decide))⟩

/-- C18: in v1 `ep_read` returns the stored length also when the caller's
buffer is shorter. On `short_read_state` (stored length 8) a call with
`blen = 3` writes three bytes, leaves the rest of the buffer alone, and
returns 8, not `min(3, 8) = 3`. -/
theorem C18_v1_read_returns_stored_length :
    (V1.ep_read short_read_state 0x01 (fun _ => 0xEE) 3).1 = 8 ∧
    (List.range 6).map (V1.ep_read short_read_state 0x01 (fun _ => 0xEE) 3).2.1 =
      [0x11, 0x22, 0x33, 0xEE, 0xEE, 0xEE] ∧
    (V1.ep_read short_read_state 0x01 (fun _ => 0xEE) 3).1 ≠
      min 3 (rd16 short_read_state.pma (V1.rxcnt (V1.EPT 0x01)) &&& 0x03FF) := by
  decide

/-! ## C19, C20: `ep_write` (v0) -/

namespace Usb

/-- A switch key of `ep_write` that differs from `c` in one of its three
fields is not `c`. -/
theorem tx_key_ne (r c : Nat)
    (h : r &&& USB_EPTX_STAT ≠ c &&& USB_EPTX_STAT ∨
      r &&& USB_EP_T_FIELD ≠ c &&& USB_EP_T_FIELD ∨
      r &&& USB_EP_KIND ≠ c &&& USB_EP_KIND) :
    r &&& (USB_EPTX_STAT ||| USB_EP_T_FIELD ||| USB_EP_KIND) ≠ c := by
  intro hk
  rcases h with h | h | h
  · exact h (and_narrow_const _ _ _ _ hk (by decide))
  · exact h (and_narrow_const _ _ _ _ hk (by decide))
  · exact h (and_narrow_const _ _ _ _ hk (by decide))

end Usb

namespace V0

/-- Path: single-buffered endpoint, TX status NAK. -/
theorem ep_write_path_single (s : State) (ep : Nat) (buf : Nat → Nat) (blen : Nat)
    (h : s.epr (EPR ep) &&& (USB_EPTX_STAT ||| USB_EP_T_FIELD ||| USB_EP_KIND) =
        (USB_EP_TX_NAK ||| USB_EP_BULK) ∨
      s.epr (EPR ep) &&& (USB_EPTX_STAT ||| USB_EP_T_FIELD ||| USB_EP_KIND) =
        (USB_EP_TX_NAK ||| USB_EP_CONTROL) ∨
      s.epr (EPR ep) &&& (USB_EPTX_STAT ||| USB_EP_T_FIELD ||| USB_EP_KIND) =
        (USB_EP_TX_NAK ||| USB_EP_INTERRUPT)) :
    ep_write s ep buf blen =
      (Int.ofNat blen, EP_TX_VALID (pma_write s buf blen (tx (EPT ep))) (EPR ep)) := by
  have h1 : s.epr (EPR ep) &&& (USB_EPTX_STAT ||| USB_EP_T_FIELD ||| USB_EP_KIND) ≠
      (USB_EP_TX_NAK ||| USB_EP_BULK ||| USB_EP_KIND) := by
    rcases h with h | h | h <;> rw [h] <;> decide
  have h2 : s.epr (EPR ep) &&& (USB_EPTX_STAT ||| USB_EP_T_FIELD ||| USB_EP_KIND) ≠
      (USB_EP_TX_VALID ||| USB_EP_ISOCHRONOUS) := by
    rcases h with h | h | h <;> rw [h] <;> decide
  simp only [ep_write, reg_rd, if_neg h1, if_neg h2, if_pos h]

/-- Path: every other register state; nothing is touched. -/
theorem ep_write_path_fail (s : State) (ep : Nat) (buf : Nat → Nat) (blen : Nat)
    (h1 : s.epr (EPR ep) &&& (USB_EPTX_STAT ||| USB_EP_T_FIELD ||| USB_EP_KIND) ≠
      (USB_EP_TX_NAK ||| USB_EP_BULK ||| USB_EP_KIND))
    (h2 : s.epr (EPR ep) &&& (USB_EPTX_STAT ||| USB_EP_T_FIELD ||| USB_EP_KIND) ≠
      (USB_EP_TX_VALID ||| USB_EP_ISOCHRONOUS))
    (h3 : s.epr (EPR ep) &&& (USB_EPTX_STAT ||| USB_EP_T_FIELD ||| USB_EP_KIND) ≠
      (USB_EP_TX_NAK ||| USB_EP_BULK))
    (h4 : s.epr (EPR ep) &&& (USB_EPTX_STAT ||| USB_EP_T_FIELD ||| USB_EP_KIND) ≠
      (USB_EP_TX_NAK ||| USB_EP_CONTROL))
    (h5 : s.epr (EPR ep) &&& (USB_EPTX_STAT ||| USB_EP_T_FIELD ||| USB_EP_KIND) ≠
      (USB_EP_TX_NAK ||| USB_EP_INTERRUPT)) :
    ep_write s ep buf blen = (-1, s) := by
  simp only [ep_write, reg_rd, if_neg h1, if_neg h2, h3, h4, h5, or_self, if_false]

/-- On a single-buffered endpoint a write that did not fail found TX status
NAK. -/
theorem ep_write_single_permitted (s : State) (ep : Nat) (buf : Nat → Nat) (blen : Nat)
    (htype : s.epr (EPR ep) &&& USB_EP_T_FIELD = USB_EP_BULK ∨
      s.epr (EPR ep) &&& USB_EP_T_FIELD = USB_EP_CONTROL ∨
      s.epr (EPR ep) &&& USB_EP_T_FIELD = USB_EP_INTERRUPT)
    (hkind : s.epr (EPR ep) &&& USB_EP_KIND = 0)
    (h : (ep_write s ep buf blen).1 ≠ -1) :
    s.epr (EPR ep) &&& USB_EPTX_STAT = USB_EP_TX_NAK := by
  by_contra hs
  apply h
  rw [ep_write_path_fail s ep buf blen]
  · exact tx_key_ne _ _ (Or.inr (Or.inr (by rw [hkind]; decide)))
  · refine tx_key_ne _ _ (Or.inr (Or.inl ?_))
    rcases htype with h | h | h <;> rw [h] <;> decide
  · refine tx_key_ne _ _ (Or.inl ?_)
    rw [show (USB_EP_TX_NAK ||| USB_EP_BULK) &&& USB_EPTX_STAT = USB_EP_TX_NAK by decide]
    exact hs
  · refine tx_key_ne _ _ (Or.inl ?_)
    rw [show (USB_EP_TX_NAK ||| USB_EP_CONTROL) &&& USB_EPTX_STAT = USB_EP_TX_NAK
      by decide]
    exact hs
  · refine tx_key_ne _ _ (Or.inl ?_)
    rw [show (USB_EP_TX_NAK ||| USB_EP_INTERRUPT) &&& USB_EPTX_STAT = USB_EP_TX_NAK
      by decide]
    exact hs

/-- The switch key of a single-buffered endpoint in TX status NAK. -/
theorem ep_write_single_key (s : State) (ep : Nat)
    (htype : s.epr (EPR ep) &&& USB_EP_T_FIELD = USB_EP_BULK ∨
      s.epr (EPR ep) &&& USB_EP_T_FIELD = USB_EP_CONTROL ∨
      s.epr (EPR ep) &&& USB_EP_T_FIELD = USB_EP_INTERRUPT)
    (hkind : s.epr (EPR ep) &&& USB_EP_KIND = 0)
    (hstat : s.epr (EPR ep) &&& USB_EPTX_STAT = USB_EP_TX_NAK) :
    s.epr (EPR ep) &&& (USB_EPTX_STAT ||| USB_EP_T_FIELD ||| USB_EP_KIND) =
        (USB_EP_TX_NAK ||| USB_EP_BULK) ∨
      s.epr (EPR ep) &&& (USB_EPTX_STAT ||| USB_EP_T_FIELD ||| USB_EP_KIND) =
        (USB_EP_TX_NAK ||| USB_EP_CONTROL) ∨
      s.epr (EPR ep) &&& (USB_EPTX_STAT ||| USB_EP_T_FIELD ||| USB_EP_KIND) =
        (USB_EP_TX_NAK ||| USB_EP_INTERRUPT) := by
  rw [tx_key_split, hstat, hkind]
  rcases htype with h | h | h <;> rw [h] <;> decide

theorem pma_write_epr (s : State) (buf : Nat → Nat) (blen rec : Nat) :
    (pma_write s buf blen rec).epr = s.epr := rfl

/-- The routine `pma_write` on record `rec`: the data words of the slot, and
the count word when the words written do not cover it. -/
theorem pma_write_spec (s : State) (buf : Nat → Nat) (blen rec : Nat)
    (hb : ∀ j, j < blen → buf j < 256) :
    (∀ k, 2 * k + 1 < blen →
      rd16 (pma_write s buf blen rec).pma (rd16 s.pma (addr rec) + 2 * k) =
        buf (2 * k) + 256 * buf (2 * k + 1)) ∧
    (∀ k, 2 * k + 1 = blen →
      rd16 (pma_write s buf blen rec).pma (rd16 s.pma (addr rec) + 2 * k) = buf (2 * k)) ∧
    (blen < 65536 →
      rd16 s.pma (addr rec) + 2 * ((blen + 1) / 2) ≤ cnt rec ∨
        cnt rec + 2 ≤ rd16 s.pma (addr rec) →
      rd16 (pma_write s buf blen rec).pma (cnt rec) = blen) := by
  have hl := pma_write_loop_spec 2 (le_refl 2) buf blen 0 (rd16 s.pma (addr rec))
    (wr16 s.pma (cnt rec) blen) (fun j hj => by simpa using hb j hj)
  simp only [Nat.zero_add] at hl
  refine ⟨hl.1, hl.2, fun hlen hsep => ?_⟩
  simp only [pma_write, pma_wr]
  have e : rd16 (pma_write_loop 2 buf blen 0 (rd16 s.pma (addr rec))
      (wr16 s.pma (cnt rec) blen)) (cnt rec) =
      rd16 (wr16 s.pma (cnt rec) blen) (cnt rec) := by
    rcases hsep with h | h
    · exact rd16_congr _ _ _
        (pma_write_loop_above 2 (le_refl 2) _ _ _ _ _ _ (by omega))
        (pma_write_loop_above 2 (le_refl 2) _ _ _ _ _ _ (by omega))
    · exact rd16_congr _ _ _
        (pma_write_loop_below _ _ _ _ _ _ _ (by omega))
        (pma_write_loop_below _ _ _ _ _ _ _ (by omega))
  rw [e, rd16_wr16_same]
  omega

/-- A write on a single-buffered endpoint in TX status NAK. -/
theorem ep_write_single_spec (s : State) (ep : Nat) (buf : Nat → Nat) (len : Nat)
    (htype : s.epr (EPR ep) &&& USB_EP_T_FIELD = USB_EP_BULK ∨
      s.epr (EPR ep) &&& USB_EP_T_FIELD = USB_EP_CONTROL ∨
      s.epr (EPR ep) &&& USB_EP_T_FIELD = USB_EP_INTERRUPT)
    (hkind : s.epr (EPR ep) &&& USB_EP_KIND = 0)
    (hstat : s.epr (EPR ep) &&& USB_EPTX_STAT = USB_EP_TX_NAK)
    (hb : ∀ j, j < len → buf j < 256) (hlen : len < 65536) :
    (ep_write s ep buf len).1 = Int.ofNat len ∧
    (rd16 s.pma (addr (tx (EPT ep))) + 2 * ((len + 1) / 2) ≤ cnt (tx (EPT ep)) ∨
        cnt (tx (EPT ep)) + 2 ≤ rd16 s.pma (addr (tx (EPT ep))) →
      rd16 (ep_write s ep buf len).2.pma (cnt (tx (EPT ep))) = len) ∧
    (∀ k, 2 * k + 1 < len →
      rd16 (ep_write s ep buf len).2.pma (rd16 s.pma (addr (tx (EPT ep))) + 2 * k) =
        buf (2 * k) + 256 * buf (2 * k + 1)) ∧
    (∀ k, 2 * k + 1 = len →
      rd16 (ep_write s ep buf len).2.pma (rd16 s.pma (addr (tx (EPT ep))) + 2 * k) =
        buf (2 * k)) ∧
    (ep_write s ep buf len).2.epr (EPR ep) &&& USB_EPTX_STAT = USB_EP_TX_VALID ∧
    (ep_write s ep buf len).2.epr (EPR ep) &&& 0xFFCF = s.epr (EPR ep) &&& 0xFFCF := by
  rw [ep_write_path_single s ep buf len (ep_write_single_key s ep htype hkind hstat)]
  have hw := pma_write_spec s buf len (tx (EPT ep)) hb
  have hr := tx_valid_epr (pma_write s buf len (tx (EPT ep))) (EPR ep)
  rw [pma_write_epr] at hr
  exact ⟨rfl, hw.2.2 hlen, hw.1, hw.2.1, hr.1, hr.2⟩

/-- After a write on a single-buffered endpoint went through, the next write
on that endpoint fails and changes nothing. -/
theorem ep_write_twice (s : State) (ep : Nat) (buf buf2 : Nat → Nat) (blen blen2 : Nat)
    (htype : s.epr (EPR ep) &&& USB_EP_T_FIELD = USB_EP_BULK ∨
      s.epr (EPR ep) &&& USB_EP_T_FIELD = USB_EP_CONTROL ∨
      s.epr (EPR ep) &&& USB_EP_T_FIELD = USB_EP_INTERRUPT)
    (hkind : s.epr (EPR ep) &&& USB_EP_KIND = 0)
    (h : (ep_write s ep buf blen).1 ≠ -1) :
    ep_write (ep_write s ep buf blen).2 ep buf2 blen2 = (-1, (ep_write s ep buf blen).2) := by
  have hstat := ep_write_single_permitted s ep buf blen htype hkind h
  rw [ep_write_path_single s ep buf blen (ep_write_single_key s ep htype hkind hstat)]
  have hr := tx_valid_epr (pma_write s buf blen (tx (EPT ep))) (EPR ep)
  rw [pma_write_epr] at hr
  have hs : (EP_TX_VALID (pma_write s buf blen (tx (EPT ep))) (EPR ep)).epr (EPR ep) &&&
      USB_EPTX_STAT = USB_EP_TX_VALID := hr.1
  have ht : (EP_TX_VALID (pma_write s buf blen (tx (EPT ep))) (EPR ep)).epr (EPR ep) &&&
      USB_EP_T_FIELD = s.epr (EPR ep) &&& USB_EP_T_FIELD :=
    and_narrow _ _ _ _ hr.2 (by decide)
  apply ep_write_path_fail
  · exact tx_key_ne _ _ (Or.inl (by rw [hs]; decide))
  · refine tx_key_ne _ _ (Or.inr (Or.inl ?_))
    rw [ht]
    rcases htype with h | h | h <;> rw [h] <;> decide
  · exact tx_key_ne _ _ (Or.inl (by rw [hs]; decide))
  · exact tx_key_ne _ _ (Or.inl (by rw [hs]; decide))
  · exact tx_key_ne _ _ (Or.inl (by rw [hs]; decide))

end V0

/-- C19: in v0, `ep_write` of `len` bytes to a single-buffered IN endpoint
whose TX status is NAK and whose TX record holds a slot offset (one the
allocator hands out, so at least 64, above the descriptor table) returns
`len`, stores `len` as the slot count, stores the payload two bytes per memory
word low byte first (a trailing odd byte is stored with a zero high byte), and
sets TX status to VALID leaving every other register bit as it was. -/
theorem C19_single_write (s : State) (ep : Nat) (buf : Nat → Nat) (len : Nat)
    (htype : s.epr (EPR ep) &&& USB_EP_T_FIELD = USB_EP_BULK ∨
      s.epr (EPR ep) &&& USB_EP_T_FIELD = USB_EP_CONTROL ∨
      s.epr (EPR ep) &&& USB_EP_T_FIELD = USB_EP_INTERRUPT)
    (hkind : s.epr (EPR ep) &&& USB_EP_KIND = 0)
    (hstat : s.epr (EPR ep) &&& USB_EPTX_STAT = USB_EP_TX_NAK)
    (hslot : 64 ≤ rd16 s.pma (V0.addr (V0.tx (V0.EPT ep))))
    (hb : ∀ j, j < len → buf j < 256) (hlen : len < 65536) :
    (V0.ep_write s ep buf len).1 = Int.ofNat len ∧
    rd16 (V0.ep_write s ep buf len).2.pma (V0.cnt (V0.tx (V0.EPT ep))) = len ∧
    (∀ k, 2 * k + 1 < len →
      rd16 (V0.ep_write s ep buf len).2.pma
          (rd16 s.pma (V0.addr (V0.tx (V0.EPT ep))) + 2 * k) =
        buf (2 * k) + 256 * buf (2 * k + 1)) ∧
    (∀ k, 2 * k + 1 = len →
      rd16 (V0.ep_write s ep buf len).2.pma
          (rd16 s.pma (V0.addr (V0.tx (V0.EPT ep))) + 2 * k) = buf (2 * k)) ∧
    (V0.ep_write s ep buf len).2.epr (EPR ep) &&& USB_EPTX_STAT = USB_EP_TX_VALID ∧
    (V0.ep_write s ep buf len).2.epr (EPR ep) &&& 0xFFCF = s.epr (EPR ep) &&& 0xFFCF := by
  obtain ⟨a1, a2, a3, a4, a5, a6⟩ :=
    V0.ep_write_single_spec s ep buf len htype hkind hstat hb hlen
  refine ⟨a1, a2 (Or.inr ?_), a3, a4, a5, a6⟩
  have := V0.EPT_lt ep
  simp only [V0.cnt, V0.tx, V0.addr] at hslot ⊢
  omega

theorem C19_single_write_witness :
    (V0.ep_config zero_state 0x81 USB_EPTYPE_BULK 64).1 = true ∧
    rd16 tx_config_state.pma (V0.addr (V0.tx (V0.EPT 0x81))) = 960 ∧
    (V0.ep_write tx_config_state 0x81 payload3 3).1 = Int.ofNat 3 ∧
    rd16 (V0.ep_write tx_config_state 0x81 payload3 3).2.pma
      (V0.cnt (V0.tx (V0.EPT 0x81))) = 3 ∧
    rd16 (V0.ep_write tx_config_state 0x81 payload3 3).2.pma 960 = 0xBBAA ∧
    rd16 (V0.ep_write tx_config_state 0x81 payload3 3).2.pma 962 = 0x00CC ∧
    (V0.ep_write tx_config_state 0x81 payload3 3).2.epr (EPR 0x81) &&& USB_EPTX_STAT =
      USB_EP_TX_VALID :=
  have h := C19_single_write tx_config_state 0x81 payload3 3 (Or.inl (by decide))
    (by decide) (by decide) (by decide) (by decide) (by decide)
  ⟨by decide, by decide, h.1, h.2.1, (h.2.2.1 0 (by decide)).trans (by decide),
    (h.2.2.2.1 1 (by decide)).trans (by decide), h.2.2.2.2.1⟩

/-- C20: in v0, after a write on a single-buffered endpoint (type bulk,
control or interrupt, kind bit clear) went through, a second `ep_write` on the
same endpoint of the state the first one left returns -1 and leaves that state
as it is: register file and packet memory, so the slot's data and count. -/
theorem C20_second_write_rejected (s : State) (ep : Nat) (buf buf2 : Nat → Nat)
    (blen blen2 : Nat)
    (htype : s.epr (EPR ep) &&& USB_EP_T_FIELD = USB_EP_BULK ∨
      s.epr (EPR ep) &&& USB_EP_T_FIELD = USB_EP_CONTROL ∨
      s.epr (EPR ep) &&& USB_EP_T_FIELD = USB_EP_INTERRUPT)
    (hkind : s.epr (EPR ep) &&& USB_EP_KIND = 0)
    (h : (V0.ep_write s ep buf blen).1 ≠ -1) :
    V0.ep_write (V0.ep_write s ep buf blen).2 ep buf2 blen2 =
      (-1, (V0.ep_write s ep buf blen).2) :=
  V0.ep_write_twice s ep buf buf2 blen blen2 htype hkind h

theorem C20_second_write_rejected_witness :
    (V0.ep_write tx_ready_state 0x81 payload3 3).1 ≠ -1 ∧
    V0.ep_write (V0.ep_write tx_ready_state 0x81 payload3 3).2 0x81 payload3 2 =
      (-1, (V0.ep_write tx_ready_state 0x81 payload3 3).2) :=
  ⟨by decide, C20_second_write_rejected tx_ready_state 0x81 payload3 payload3 3 2
    (Or.inl (by decide)) (by decide) (by decide)⟩

/-! ## The status primitive `EP_TOGGLE_SET`, by requested status -/

namespace Usb

/-- Applying the primitive to the TX status field: the field takes the
requested value, every other bit of the register keeps its value. -/
theorem toggle_tx_status (r st : Nat)
    (h : st = 0x00 ∨ st = 0x10 ∨ st = 0x20 ∨ st = 0x30) :
    hw_store r ((r ^^^ st) &&& (0x8F8F ||| 0x30)) &&& 0x30 = st ∧
    hw_store r ((r ^^^ st) &&& (0x8F8F ||| 0x30)) &&& 0xFFCF = r &&& 0xFFCF := by
  rcases h with rfl | rfl | rfl | rfl <;> constructor
  all_goals
    apply Nat.eq_of_testBit_eq; intro i
    simp only [hw_store, Nat.testBit_and, Nat.testBit_or, Nat.testBit_xor]
    by_cases hi : i < 16
    · interval_cases i <;> simp [Nat.testBit]
    · simp [testBit_hi _ i _ hi]

/-- Applying the primitive to the RX status field. -/
theorem toggle_rx_status (r st : Nat)
    (h : st = 0x0000 ∨ st = 0x1000 ∨ st = 0x2000 ∨ st = 0x3000) :
    hw_store r ((r ^^^ st) &&& (0x8F8F ||| 0x3000)) &&& 0x3000 = st ∧
    hw_store r ((r ^^^ st) &&& (0x8F8F ||| 0x3000)) &&& 0xCFFF = r &&& 0xCFFF := by
  rcases h with rfl | rfl | rfl | rfl <;> constructor
  all_goals
    apply Nat.eq_of_testBit_eq; intro i
    simp only [hw_store, Nat.testBit_and, Nat.testBit_or, Nat.testBit_xor]
    by_cases hi : i < 16
    · interval_cases i <;> simp [Nat.testBit]
    · simp [testBit_hi _ i _ hi]

theorem toggle_set_epr (s : State) (reg bits mask : Nat) :
    (EP_TOGGLE_SET s reg bits mask).epr reg =
      hw_store (s.epr reg) ((s.epr reg ^^^ bits) &&& (USB_EPREG_MASK ||| mask)) := by
  simp [EP_TOGGLE_SET, reg_wr, reg_rd]

theorem tx_stall_epr (s : State) (reg : Nat) :
    (EP_TX_STALL s reg).epr reg &&& USB_EPTX_STAT = USB_EP_TX_STALL ∧
    (EP_TX_STALL s reg).epr reg &&& 0xFFCF = s.epr reg &&& 0xFFCF := by
  rw [EP_TX_STALL, toggle_set_epr]
  exact toggle_tx_status _ _ (Or.inr (Or.inl rfl))

theorem rx_stall_epr (s : State) (reg : Nat) :
    (EP_RX_STALL s reg).epr reg &&& USB_EPRX_STAT = USB_EP_RX_STALL ∧
    (EP_RX_STALL s reg).epr reg &&& 0xCFFF = s.epr reg &&& 0xCFFF := by
  rw [EP_RX_STALL, toggle_set_epr]
  exact toggle_rx_status _ _ (Or.inr (Or.inl rfl))

end Usb

/-- C29: `EP_TOGGLE_SET(reg, bits, mask)` stores
`(current ^ bits) & (USB_EPREG_MASK | mask)`; through the toggle-on-write rule,
for every current register value and every requested status
(DISABLED, STALL, NAK, VALID), applying it with `bits` the status and `mask`
that direction's status field leaves the field equal to the status and every
other bit of the register (the other direction's status, both DTOG bits, type,
kind, address, CTR flags) unchanged; other registers and the packet memory are
not touched. -/
theorem C29_toggle_set_truth_table (s : State) (reg txs rxs : Nat)
    (htx : txs = USB_EP_TX_DIS ∨ txs = USB_EP_TX_STALL ∨ txs = USB_EP_TX_NAK ∨
      txs = USB_EP_TX_VALID)
    (hrx : rxs = USB_EP_RX_DIS ∨ rxs = USB_EP_RX_STALL ∨ rxs = USB_EP_RX_NAK ∨
      rxs = USB_EP_RX_VALID) :
    (∀ bits mask, EP_TOGGLE_SET s reg bits mask =
      reg_wr s reg ((s.epr reg ^^^ bits) &&& (USB_EPREG_MASK ||| mask))) ∧
    ((EP_TOGGLE_SET s reg txs USB_EPTX_STAT).epr reg &&& USB_EPTX_STAT = txs ∧
      (EP_TOGGLE_SET s reg txs USB_EPTX_STAT).epr reg &&& 0xFFCF = s.epr reg &&& 0xFFCF) ∧
    ((EP_TOGGLE_SET s reg rxs USB_EPRX_STAT).epr reg &&& USB_EPRX_STAT = rxs ∧
      (EP_TOGGLE_SET s reg rxs USB_EPRX_STAT).epr reg &&& 0xCFFF = s.epr reg &&& 0xCFFF) ∧
    (∀ bits mask i, i ≠ reg → (EP_TOGGLE_SET s reg bits mask).epr i = s.epr i) ∧
    (∀ bits mask, (EP_TOGGLE_SET s reg bits mask).pma = s.pma) := by
  refine ⟨fun _ _ => rfl, ?_, ?_, fun b m i hi => toggle_epr_other s reg b m i hi,
    fun _ _ => rfl⟩
  · rw [toggle_set_epr]
    exact toggle_tx_status _ _ htx
  · rw [toggle_set_epr]
    exact toggle_rx_status _ _ hrx

theorem C29_toggle_set_truth_table_witness :
    ((EP_TOGGLE_SET tx_ready_state 1 USB_EP_TX_STALL USB_EPTX_STAT).epr 1 &&&
        USB_EPTX_STAT = USB_EP_TX_STALL ∧
      (EP_TOGGLE_SET tx_ready_state 1 USB_EP_TX_STALL USB_EPTX_STAT).epr 1 &&& 0xFFCF =
        tx_ready_state.epr 1 &&& 0xFFCF) ∧
    ((EP_TOGGLE_SET tx_ready_state 1 USB_EP_RX_VALID USB_EPRX_STAT).epr 1 &&&
        USB_EPRX_STAT = USB_EP_RX_VALID ∧
      (EP_TOGGLE_SET tx_ready_state 1 USB_EP_RX_VALID USB_EPRX_STAT).epr 1 &&& 0xCFFF =
        tx_ready_state.epr 1 &&& 0xCFFF) :=
  ⟨(C29_toggle_set_truth_table tx_ready_state 1 USB_EP_TX_STALL USB_EP_RX_VALID
      (Or.inr (Or.inl rfl)) (Or.inr (Or.inr (Or.inr rfl)))).2.1,
    (C29_toggle_set_truth_table tx_ready_state 1 USB_EP_TX_STALL USB_EP_RX_VALID
      (Or.inr (Or.inl rfl)) (Or.inr (Or.inr (Or.inr rfl)))).2.2.1⟩

/-! ## Paths through `ep_setstall` -/

namespace Usb

theorem ep_setstall_iso (s : State) (ep : Nat) (stall : Bool)
    (h : s.epr (EPR ep) &&& USB_EP_T_FIELD = USB_EP_ISOCHRONOUS) :
    ep_setstall s ep stall = s := by
  simp only [ep_setstall, reg_rd, h, if_true]

theorem ep_setstall_in_dis (s : State) (ep : Nat) (stall : Bool) (hin : ep &&& 0x80 ≠ 0)
    (h : s.epr (EPR ep) &&& USB_EPTX_STAT = USB_EP_TX_DIS) :
    ep_setstall s ep stall = s := by
  simp only [ep_setstall, reg_rd, h, if_pos hin, if_true]
  split_ifs <;> rfl

theorem ep_setstall_out_dis (s : State) (ep : Nat) (stall : Bool) (hout : ep &&& 0x80 = 0)
    (h : s.epr (EPR ep) &&& USB_EPRX_STAT = USB_EP_RX_DIS) :
    ep_setstall s ep stall = s := by
  have hn : ¬ (ep &&& 0x80 ≠ 0) := fun c => c hout
  simp only [ep_setstall, reg_rd, h, if_neg hn, if_true]
  split_ifs <;> rfl

theorem ep_setstall_in_stall (s : State) (ep : Nat) (hin : ep &&& 0x80 ≠ 0)
    (hiso : s.epr (EPR ep) &&& USB_EP_T_FIELD ≠ USB_EP_ISOCHRONOUS)
    (h : s.epr (EPR ep) &&& USB_EPTX_STAT ≠ USB_EP_TX_DIS) :
    ep_setstall s ep true = EP_TX_STALL s (EPR ep) := by
  simp only [ep_setstall, reg_rd, if_neg (Ne.symm hiso), if_pos hin, if_neg (Ne.symm h),
    if_true]

theorem ep_setstall_out_stall (s : State) (ep : Nat) (hout : ep &&& 0x80 = 0)
    (hiso : s.epr (EPR ep) &&& USB_EP_T_FIELD ≠ USB_EP_ISOCHRONOUS)
    (h : s.epr (EPR ep) &&& USB_EPRX_STAT ≠ USB_EP_RX_DIS) :
    ep_setstall s ep true = EP_RX_STALL s (EPR ep) := by
  have hn : ¬ (ep &&& 0x80 ≠ 0) := fun c => c hout
  simp only [ep_setstall, reg_rd, if_neg (Ne.symm hiso), if_neg hn, if_neg (Ne.symm h),
    if_true]

theorem ep_setstall_in_unstall (s : State) (ep : Nat) (hin : ep &&& 0x80 ≠ 0)
    (hiso : s.epr (EPR ep) &&& USB_EP_T_FIELD ≠ USB_EP_ISOCHRONOUS)
    (h : s.epr (EPR ep) &&& USB_EPTX_STAT ≠ USB_EP_TX_DIS) :
    ep_setstall s ep false =
      if s.epr (EPR ep) &&& (USB_EP_T_FIELD ||| USB_EP_KIND) = (USB_EP_KIND ||| USB_EP_BULK)
      then EP_DTX_UNSTALL s (EPR ep) else EP_TX_UNSTALL s (EPR ep) := by
  simp only [ep_setstall, reg_rd, if_neg (Ne.symm hiso), if_pos hin, if_neg (Ne.symm h),
    Bool.false_eq_true, if_false]
  by_cases hk : s.epr (EPR ep) &&& (USB_EP_T_FIELD ||| USB_EP_KIND) =
      (USB_EP_KIND ||| USB_EP_BULK)
  · rw [if_pos hk, if_pos hk.symm]
  · rw [if_neg hk, if_neg (Ne.symm hk)]

theorem ep_setstall_out_unstall (s : State) (ep : Nat) (hout : ep &&& 0x80 = 0)
    (hiso : s.epr (EPR ep) &&& USB_EP_T_FIELD ≠ USB_EP_ISOCHRONOUS)
    (h : s.epr (EPR ep) &&& USB_EPRX_STAT ≠ USB_EP_RX_DIS) :
    ep_setstall s ep false =
      if s.epr (EPR ep) &&& (USB_EP_T_FIELD ||| USB_EP_KIND) = (USB_EP_KIND ||| USB_EP_BULK)
      then EP_DRX_UNSTALL s (EPR ep) else EP_RX_UNSTALL s (EPR ep) := by
  have hn : ¬ (ep &&& 0x80 ≠ 0) := fun c => c hout
  simp only [ep_setstall, reg_rd, if_neg (Ne.symm hiso), if_neg hn, if_neg (Ne.symm h),
    Bool.false_eq_true, if_false]
  by_cases hk : s.epr (EPR ep) &&& (USB_EP_T_FIELD ||| USB_EP_KIND) =
      (USB_EP_KIND ||| USB_EP_BULK)
  · rw [if_pos hk, if_pos hk.symm]
  · rw [if_neg hk, if_neg (Ne.symm hk)]

/-- The query, IN handle. -/
theorem ep_isstalled_in (s : State) (ep : Nat) (hin : ep &&& 0x80 ≠ 0) :
    ep_isstalled s ep = true ↔ s.epr (EPR ep) &&& USB_EPTX_STAT = USB_EP_TX_STALL := by
  simp only [ep_isstalled, reg_rd, if_pos hin, decide_eq_true_eq]
  rw [Nat.and_comm]
  exact eq_comm

/-- The query, OUT handle. -/
theorem ep_isstalled_out (s : State) (ep : Nat) (hout : ep &&& 0x80 = 0) :
    ep_isstalled s ep = true ↔ s.epr (EPR ep) &&& USB_EPRX_STAT = USB_EP_RX_STALL := by
  have hn : ¬ (ep &&& 0x80 ≠ 0) := fun c => c hout
  simp only [ep_isstalled, reg_rd, if_neg hn, decide_eq_true_eq]
  rw [Nat.and_comm]
  exact eq_comm

/-- The double-buffer test of `ep_setstall`, by field. -/
theorem dbl_key_iff (r : Nat) :
    r &&& (USB_EP_T_FIELD ||| USB_EP_KIND) = (USB_EP_KIND ||| USB_EP_BULK) ↔
      r &&& USB_EP_T_FIELD = USB_EP_BULK ∧ r &&& USB_EP_KIND = USB_EP_KIND := by
  constructor
  · intro h
    exact ⟨and_narrow_const _ _ _ _ h (by decide), and_narrow_const _ _ _ _ h (by decide)⟩
  · rintro ⟨h1, h2⟩
    rw [Nat.and_or_distrib_left, h1, h2]
    decide

end Usb

/-! ## C22, C30, C23: stall control -/

namespace Usb

/-- What `ep_setstall(ep, true)` does on an IN handle that is neither
isochronous nor disabled. -/
theorem set_stall_in (s : State) (ep : Nat) (hin : ep &&& 0x80 ≠ 0)
    (hiso : s.epr (EPR ep) &&& USB_EP_T_FIELD ≠ USB_EP_ISOCHRONOUS)
    (h : s.epr (EPR ep) &&& USB_EPTX_STAT ≠ USB_EP_TX_DIS) :
    (ep_setstall s ep true).epr (EPR ep) &&& USB_EPTX_STAT = USB_EP_TX_STALL ∧
    (ep_setstall s ep true).epr (EPR ep) &&& 0xFFCF = s.epr (EPR ep) &&& 0xFFCF := by
  rw [ep_setstall_in_stall s ep hin hiso h]
  exact tx_stall_epr s (EPR ep)

/-- What `ep_setstall(ep, true)` does on an OUT handle that is neither
isochronous nor disabled. -/
theorem set_stall_out (s : State) (ep : Nat) (hout : ep &&& 0x80 = 0)
    (hiso : s.epr (EPR ep) &&& USB_EP_T_FIELD ≠ USB_EP_ISOCHRONOUS)
    (h : s.epr (EPR ep) &&& USB_EPRX_STAT ≠ USB_EP_RX_DIS) :
    (ep_setstall s ep true).epr (EPR ep) &&& USB_EPRX_STAT = USB_EP_RX_STALL ∧
    (ep_setstall s ep true).epr (EPR ep) &&& 0xCFFF = s.epr (EPR ep) &&& 0xCFFF := by
  rw [ep_setstall_out_stall s ep hout hiso h]
  exact rx_stall_epr s (EPR ep)

/-- What `ep_setstall(ep, false)` does on an IN handle that is neither
isochronous nor disabled. -/
theorem clear_stall_in (s : State) (ep : Nat) (hin : ep &&& 0x80 ≠ 0)
    (hiso : s.epr (EPR ep) &&& USB_EP_T_FIELD ≠ USB_EP_ISOCHRONOUS)
    (h : s.epr (EPR ep) &&& USB_EPTX_STAT ≠ USB_EP_TX_DIS) :
    (¬ (s.epr (EPR ep) &&& USB_EP_T_FIELD = USB_EP_BULK ∧
        s.epr (EPR ep) &&& USB_EP_KIND = USB_EP_KIND) →
      (ep_setstall s ep false).epr (EPR ep) &&& USB_EPTX_STAT = USB_EP_TX_NAK ∧
      (ep_setstall s ep false).epr (EPR ep) &&& USB_EP_DTOG_TX = 0) ∧
    (s.epr (EPR ep) &&& USB_EP_T_FIELD = USB_EP_BULK ∧
        s.epr (EPR ep) &&& USB_EP_KIND = USB_EP_KIND →
      (ep_setstall s ep false).epr (EPR ep) &&& USB_EPTX_STAT = USB_EP_TX_VALID ∧
      (ep_setstall s ep false).epr (EPR ep) &&& USB_EP_DTOG_TX = 0 ∧
      (ep_setstall s ep false).epr (EPR ep) &&& USB_EP_SWBUF_TX = 0) := by
  rw [ep_setstall_in_unstall s ep hin hiso h]
  constructor
  · intro hk
    rw [if_neg (fun c => hk ((dbl_key_iff _).1 c))]
    have e := (tx_unstall_epr s (EPR ep)).1
    exact ⟨and_narrow_const _ _ _ _ e (by decide), and_narrow_const _ _ _ _ e (by decide)⟩
  · intro hk
    rw [if_pos ((dbl_key_iff _).2 hk)]
    have e := (dtx_unstall_epr s (EPR ep)).1
    exact ⟨and_narrow_const _ _ _ _ e (by decide), and_narrow_const _ _ _ _ e (by decide),
      and_narrow_const _ _ _ _ e (by decide)⟩

/-- What `ep_setstall(ep, false)` does on an OUT handle that is neither
isochronous nor disabled. -/
theorem clear_stall_out (s : State) (ep : Nat) (hout : ep &&& 0x80 = 0)
    (hiso : s.epr (EPR ep) &&& USB_EP_T_FIELD ≠ USB_EP_ISOCHRONOUS)
    (h : s.epr (EPR ep) &&& USB_EPRX_STAT ≠ USB_EP_RX_DIS) :
    (¬ (s.epr (EPR ep) &&& USB_EP_T_FIELD = USB_EP_BULK ∧
        s.epr (EPR ep) &&& USB_EP_KIND = USB_EP_KIND) →
      (ep_setstall s ep false).epr (EPR ep) &&& USB_EPRX_STAT = USB_EP_RX_VALID ∧
      (ep_setstall s ep false).epr (EPR ep) &&& USB_EP_DTOG_RX = 0) ∧
    (s.epr (EPR ep) &&& USB_EP_T_FIELD = USB_EP_BULK ∧
        s.epr (EPR ep) &&& USB_EP_KIND = USB_EP_KIND →
      (ep_setstall s ep false).epr (EPR ep) &&& USB_EPRX_STAT = USB_EP_RX_VALID ∧
      (ep_setstall s ep false).epr (EPR ep) &&& USB_EP_DTOG_RX = 0 ∧
      (ep_setstall s ep false).epr (EPR ep) &&& USB_EP_SWBUF_RX = USB_EP_SWBUF_RX) := by
  rw [ep_setstall_out_unstall s ep hout hiso h]
  constructor
  · intro hk
    rw [if_neg (fun c => hk ((dbl_key_iff _).1 c))]
    have e := (rx_unstall_epr s (EPR ep)).1
    exact ⟨and_narrow_const _ _ _ _ e (by decide), and_narrow_const _ _ _ _ e (by decide)⟩
  · intro hk
    rw [if_pos ((dbl_key_iff _).2 hk)]
    have e := (drx_unstall_epr s (EPR ep)).1
    exact ⟨and_narrow_const _ _ _ _ e (by decide), and_narrow_const _ _ _ _ e (by decide),
      and_narrow_const _ _ _ _ e (by decide)⟩

end Usb

/-- C22: `ep_setstall(h, true)` leaves the state alone when the endpoint is
isochronous or the addressed direction's status is DISABLED (so `ep_isstalled`
keeps its value, which is `false` in the DISABLED case); otherwise the
addressed direction's status becomes STALL, `ep_isstalled(h)` is then true,
and every register bit outside that status field (the other direction's
status, both data toggles) keeps its value. `ep_isstalled` is true exactly
when the addressed direction's status field equals STALL. -/
theorem C22_set_stall (s : State) (ep : Nat) :
    (s.epr (EPR ep) &&& USB_EP_T_FIELD = USB_EP_ISOCHRONOUS →
      ep_setstall s ep true = s) ∧
    (ep &&& 0x80 ≠ 0 → s.epr (EPR ep) &&& USB_EPTX_STAT = USB_EP_TX_DIS →
      ep_setstall s ep true = s ∧ ep_isstalled (ep_setstall s ep true) ep = false) ∧
    (ep &&& 0x80 = 0 → s.epr (EPR ep) &&& USB_EPRX_STAT = USB_EP_RX_DIS →
      ep_setstall s ep true = s ∧ ep_isstalled (ep_setstall s ep true) ep = false) ∧
    (ep &&& 0x80 ≠ 0 → s.epr (EPR ep) &&& USB_EP_T_FIELD ≠ USB_EP_ISOCHRONOUS →
      s.epr (EPR ep) &&& USB_EPTX_STAT ≠ USB_EP_TX_DIS →
      (ep_setstall s ep true).epr (EPR ep) &&& USB_EPTX_STAT = USB_EP_TX_STALL ∧
      ep_isstalled (ep_setstall s ep true) ep = true ∧
      (ep_setstall s ep true).epr (EPR ep) &&& 0xFFCF = s.epr (EPR ep) &&& 0xFFCF) ∧
    (ep &&& 0x80 = 0 → s.epr (EPR ep) &&& USB_EP_T_FIELD ≠ USB_EP_ISOCHRONOUS →
      s.epr (EPR ep) &&& USB_EPRX_STAT ≠ USB_EP_RX_DIS →
      (ep_setstall s ep true).epr (EPR ep) &&& USB_EPRX_STAT = USB_EP_RX_STALL ∧
      ep_isstalled (ep_setstall s ep true) ep = true ∧
      (ep_setstall s ep true).epr (EPR ep) &&& 0xCFFF = s.epr (EPR ep) &&& 0xCFFF) ∧
    (ep &&& 0x80 ≠ 0 →
      (ep_isstalled s ep = true ↔ s.epr (EPR ep) &&& USB_EPTX_STAT = USB_EP_TX_STALL)) ∧
    (ep &&& 0x80 = 0 →
      (ep_isstalled s ep = true ↔ s.epr (EPR ep) &&& USB_EPRX_STAT = USB_EP_RX_STALL)) := by
  refine ⟨fun h => ep_setstall_iso s ep true h, fun hin h => ?_, fun hout h => ?_,
    fun hin hiso h => ?_, fun hout hiso h => ?_, ep_isstalled_in s ep, ep_isstalled_out s ep⟩
  · rw [ep_setstall_in_dis s ep true hin h]
    refine ⟨rfl, ?_⟩
    cases hb : ep_isstalled s ep
    · rfl
    · rw [(ep_isstalled_in s ep hin).1 hb] at h
      exact absurd h (by decide)
  · rw [ep_setstall_out_dis s ep true hout h]
    refine ⟨rfl, ?_⟩
    cases hb : ep_isstalled s ep
    · rfl
    · rw [(ep_isstalled_out s ep hout).1 hb] at h
      exact absurd h (by decide)
  · have e := set_stall_in s ep hin hiso h
    exact ⟨e.1, (ep_isstalled_in _ ep hin).2 e.1, e.2⟩
  · have e := set_stall_out s ep hout hiso h
    exact ⟨e.1, (ep_isstalled_out _ ep hout).2 e.1, e.2⟩

theorem C22_set_stall_witness :
    (ep_setstall tx_ready_state 0x81 true).epr (EPR 0x81) &&& USB_EPTX_STAT =
        USB_EP_TX_STALL ∧
      ep_isstalled (ep_setstall tx_ready_state 0x81 true) 0x81 = true ∧
      (ep_setstall tx_ready_state 0x81 true).epr (EPR 0x81) &&& 0xFFCF =
        tx_ready_state.epr (EPR 0x81) &&& 0xFFCF :=
  (C22_set_stall tx_ready_state 0x81).2.2.2.1 (by decide) (by decide) (by decide)

/-- C30: `ep_setstall(h, false)` on a non-isochronous endpoint whose addressed
direction is not DISABLED, whatever that direction's status is. IN handle:
status NAK and DTOG_TX = 0 on a single-buffered endpoint, status VALID,
DTOG_TX = 0 and SWBUF_TX = 0 on a double-buffered bulk endpoint. OUT handle:
status VALID and DTOG_RX = 0 on a single-buffered endpoint, status VALID,
DTOG_RX = 0 and SWBUF_RX = 1 on a double-buffered bulk endpoint. -/
theorem C30_clear_stall (s : State) (ep : Nat)
    (hiso : s.epr (EPR ep) &&& USB_EP_T_FIELD ≠ USB_EP_ISOCHRONOUS) :
    (ep &&& 0x80 ≠ 0 → s.epr (EPR ep) &&& USB_EPTX_STAT ≠ USB_EP_TX_DIS →
      (¬ (s.epr (EPR ep) &&& USB_EP_T_FIELD = USB_EP_BULK ∧
          s.epr (EPR ep) &&& USB_EP_KIND = USB_EP_KIND) →
        (ep_setstall s ep false).epr (EPR ep) &&& USB_EPTX_STAT = USB_EP_TX_NAK ∧
        (ep_setstall s ep false).epr (EPR ep) &&& USB_EP_DTOG_TX = 0) ∧
      (s.epr (EPR ep) &&& USB_EP_T_FIELD = USB_EP_BULK ∧
          s.epr (EPR ep) &&& USB_EP_KIND = USB_EP_KIND →
        (ep_setstall s ep false).epr (EPR ep) &&& USB_EPTX_STAT = USB_EP_TX_VALID ∧
        (ep_setstall s ep false).epr (EPR ep) &&& USB_EP_DTOG_TX = 0 ∧
        (ep_setstall s ep false).epr (EPR ep) &&& USB_EP_SWBUF_TX = 0)) ∧
    (ep &&& 0x80 = 0 → s.epr (EPR ep) &&& USB_EPRX_STAT ≠ USB_EP_RX_DIS →
      (¬ (s.epr (EPR ep) &&& USB_EP_T_FIELD = USB_EP_BULK ∧
          s.epr (EPR ep) &&& USB_EP_KIND = USB_EP_KIND) →
        (ep_setstall s ep false).epr (EPR ep) &&& USB_EPRX_STAT = USB_EP_RX_VALID ∧
        (ep_setstall s ep false).epr (EPR ep) &&& USB_EP_DTOG_RX = 0) ∧
      (s.epr (EPR ep) &&& USB_EP_T_FIELD = USB_EP_BULK ∧
          s.epr (EPR ep) &&& USB_EP_KIND = USB_EP_KIND →
        (ep_setstall s ep false).epr (EPR ep) &&& USB_EPRX_STAT = USB_EP_RX_VALID ∧
        (ep_setstall s ep false).epr (EPR ep) &&& USB_EP_DTOG_RX = 0 ∧
        (ep_setstall s ep false).epr (EPR ep) &&& USB_EP_SWBUF_RX = USB_EP_SWBUF_RX)) :=
  ⟨fun hin h => clear_stall_in s ep hin hiso h,
    fun hout h => clear_stall_out s ep hout hiso h⟩

theorem C30_clear_stall_witness :
    ((ep_setstall stalled_in_state 0x81 false).epr (EPR 0x81) &&& USB_EPTX_STAT =
        USB_EP_TX_NAK ∧
      (ep_setstall stalled_in_state 0x81 false).epr (EPR 0x81) &&& USB_EP_DTOG_TX = 0) ∧
    ((ep_setstall dbl_rx_nak_state 0x01 false).epr (EPR 0x01) &&& USB_EPRX_STAT =
        USB_EP_RX_VALID ∧
      (ep_setstall dbl_rx_nak_state 0x01 false).epr (EPR 0x01) &&& USB_EP_DTOG_RX = 0 ∧
      (ep_setstall dbl_rx_nak_state 0x01 false).epr (EPR 0x01) &&& USB_EP_SWBUF_RX =
        USB_EP_SWBUF_RX) :=
  ⟨((C30_clear_stall stalled_in_state 0x81 (by decide)).1 (by decide) (by decide)).1
      (by decide),
    ((C30_clear_stall dbl_rx_nak_state 0x01 (by decide)).2 (by decide) (by decide)).2
      (by decide)⟩

namespace Usb

/-- Stall then unstall, IN handle of a bulk endpoint that is not disabled. -/
theorem stall_unstall_in (s : State) (ep : Nat) (hin : ep &&& 0x80 ≠ 0)
    (hbulk : s.epr (EPR ep) &&& USB_EP_T_FIELD = USB_EP_BULK)
    (h : s.epr (EPR ep) &&& USB_EPTX_STAT ≠ USB_EP_TX_DIS) :
    (s.epr (EPR ep) &&& USB_EP_KIND ≠ USB_EP_KIND →
      (ep_setstall (ep_setstall s ep true) ep false).epr (EPR ep) &&& USB_EPTX_STAT =
        USB_EP_TX_NAK ∧
      (ep_setstall (ep_setstall s ep true) ep false).epr (EPR ep) &&& USB_EP_DTOG_TX = 0) ∧
    (s.epr (EPR ep) &&& USB_EP_KIND = USB_EP_KIND →
      (ep_setstall (ep_setstall s ep true) ep false).epr (EPR ep) &&& USB_EPTX_STAT =
        USB_EP_TX_VALID ∧
      (ep_setstall (ep_setstall s ep true) ep false).epr (EPR ep) &&& USB_EP_DTOG_TX = 0) := by
  have hiso : s.epr (EPR ep) &&& USB_EP_T_FIELD ≠ USB_EP_ISOCHRONOUS := by
    rw [hbulk]; decide
  have e := set_stall_in s ep hin hiso h
  have ht : (ep_setstall s ep true).epr (EPR ep) &&& USB_EP_T_FIELD = USB_EP_BULK := by
    rw [and_narrow _ _ _ _ e.2 (by decide)]; exact hbulk
  have hk : (ep_setstall s ep true).epr (EPR ep) &&& USB_EP_KIND =
      s.epr (EPR ep) &&& USB_EP_KIND := and_narrow _ _ _ _ e.2 (by decide)
  have hiso1 : (ep_setstall s ep true).epr (EPR ep) &&& USB_EP_T_FIELD ≠
      USB_EP_ISOCHRONOUS := by rw [ht]; decide
  have hs1 : (ep_setstall s ep true).epr (EPR ep) &&& USB_EPTX_STAT ≠ USB_EP_TX_DIS := by
    rw [e.1]; decide
  have c := clear_stall_in (ep_setstall s ep true) ep hin hiso1 hs1
  constructor
  · intro hkind
    exact c.1 (fun d => hkind (hk ▸ d.2))
  · intro hkind
    have := c.2 ⟨ht, hk.trans hkind⟩
    exact ⟨this.1, this.2.1⟩

/-- Stall then unstall, OUT handle of a bulk endpoint that is not disabled. -/
theorem stall_unstall_out (s : State) (ep : Nat) (hout : ep &&& 0x80 = 0)
    (hbulk : s.epr (EPR ep) &&& USB_EP_T_FIELD = USB_EP_BULK)
    (h : s.epr (EPR ep) &&& USB_EPRX_STAT ≠ USB_EP_RX_DIS) :
    (ep_setstall (ep_setstall s ep true) ep false).epr (EPR ep) &&& USB_EPRX_STAT =
      USB_EP_RX_VALID ∧
    (ep_setstall (ep_setstall s ep true) ep false).epr (EPR ep) &&& USB_EP_DTOG_RX = 0 := by
  have hiso : s.epr (EPR ep) &&& USB_EP_T_FIELD ≠ USB_EP_ISOCHRONOUS := by
    rw [hbulk]; decide
  have e := set_stall_out s ep hout hiso h
  have ht : (ep_setstall s ep true).epr (EPR ep) &&& USB_EP_T_FIELD = USB_EP_BULK := by
    rw [and_narrow _ _ _ _ e.2 (by decide)]; exact hbulk
  have hiso1 : (ep_setstall s ep true).epr (EPR ep) &&& USB_EP_T_FIELD ≠
      USB_EP_ISOCHRONOUS := by rw [ht]; decide
  have hs1 : (ep_setstall s ep true).epr (EPR ep) &&& USB_EPRX_STAT ≠ USB_EP_RX_DIS := by
    rw [e.1]; decide
  have c := clear_stall_out (ep_setstall s ep true) ep hout hiso1 hs1
  by_cases hd : (ep_setstall s ep true).epr (EPR ep) &&& USB_EP_T_FIELD = USB_EP_BULK ∧
      (ep_setstall s ep true).epr (EPR ep) &&& USB_EP_KIND = USB_EP_KIND
  · exact ⟨(c.2 hd).1, (c.2 hd).2.1⟩
  · exact c.1 hd

end Usb

/-- C23, counterexample: a single-buffered bulk IN endpoint configured by
`ep_config` on the power-on state; after `ep_setstall(0x81, true)` and
`ep_setstall(0x81, false)` its TX status is NAK, not VALID. -/
theorem C23_counterexample :
    (V0.ep_config zero_state 0x81 USB_EPTYPE_BULK 64).1 = true ∧
    (ep_setstall (ep_setstall (V0.ep_config zero_state 0x81 USB_EPTYPE_BULK 64).2 0x81 true)
      0x81 false).epr (EPR 0x81) &&& USB_EPTX_STAT = USB_EP_TX_NAK ∧
    USB_EP_TX_NAK ≠ USB_EP_TX_VALID := by
  decide

/-- C23, amended: on a bulk endpoint whose addressed direction is not
DISABLED (as `ep_config` leaves it), `ep_setstall(h, true)` followed by
`ep_setstall(h, false)` returns the addressed direction's status to VALID,
except on a single-buffered IN handle, where it returns it to NAK; the
addressed direction's data-toggle bit is cleared. -/
theorem C23_stall_then_unstall (s : State) (ep : Nat)
    (hbulk : s.epr (EPR ep) &&& USB_EP_T_FIELD = USB_EP_BULK) :
    (ep &&& 0x80 ≠ 0 → s.epr (EPR ep) &&& USB_EPTX_STAT ≠ USB_EP_TX_DIS →
      (s.epr (EPR ep) &&& USB_EP_KIND ≠ USB_EP_KIND →
        (ep_setstall (ep_setstall s ep true) ep false).epr (EPR ep) &&& USB_EPTX_STAT =
          USB_EP_TX_NAK ∧
        (ep_setstall (ep_setstall s ep true) ep false).epr (EPR ep) &&& USB_EP_DTOG_TX =
          0) ∧
      (s.epr (EPR ep) &&& USB_EP_KIND = USB_EP_KIND →
        (ep_setstall (ep_setstall s ep true) ep false).epr (EPR ep) &&& USB_EPTX_STAT =
          USB_EP_TX_VALID ∧
        (ep_setstall (ep_setstall s ep true) ep false).epr (EPR ep) &&& USB_EP_DTOG_TX =
          0)) ∧
    (ep &&& 0x80 = 0 → s.epr (EPR ep) &&& USB_EPRX_STAT ≠ USB_EP_RX_DIS →
      (ep_setstall (ep_setstall s ep true) ep false).epr (EPR ep) &&& USB_EPRX_STAT =
        USB_EP_RX_VALID ∧
      (ep_setstall (ep_setstall s ep true) ep false).epr (EPR ep) &&& USB_EP_DTOG_RX = 0) :=
  ⟨fun hin h => stall_unstall_in s ep hin hbulk h,
    fun hout h => stall_unstall_out s ep hout hbulk h⟩

theorem C23_stall_then_unstall_witness :
    ((ep_setstall (ep_setstall stalled_in_state 0x81 true) 0x81 false).epr (EPR 0x81) &&&
        USB_EPTX_STAT = USB_EP_TX_NAK ∧
      (ep_setstall (ep_setstall stalled_in_state 0x81 true) 0x81 false).epr (EPR 0x81) &&&
        USB_EP_DTOG_TX = 0) ∧
    ((ep_setstall (ep_setstall dbl_rx_nak_state 0x01 true) 0x01 false).epr (EPR 0x01) &&&
        USB_EPRX_STAT = USB_EP_RX_VALID ∧
      (ep_setstall (ep_setstall dbl_rx_nak_state 0x01 true) 0x01 false).epr (EPR 0x01) &&&
        USB_EP_DTOG_RX = 0) :=
  ⟨((C23_stall_then_unstall stalled_in_state 0x81 (by decide)).1 (by decide)
      (by decide)).1 (by decide),
    (C23_stall_then_unstall dbl_rx_nak_state 0x01 (by decide)).2 (by decide) (by decide)⟩

/-! ## C26, C27, C28: the allocator -/

namespace V0

/-- The mark of `get_next_pma` is the smallest of `USB_PMASIZE` and the
nonzero recorded offsets. -/
theorem pma_mark_least (s : State) :
    pma_mark s ≤ USB_PMASIZE ∧
    (∀ a ∈ recorded_offsets s, a ≠ 0 → pma_mark s ≤ a) ∧
    (pma_mark s = USB_PMASIZE ∨ (pma_mark s ∈ recorded_offsets s ∧ pma_mark s ≠ 0)) := by
  have h := pma_scan_spec s.pma (fun i => addr (rx (EPT i))) (fun i => addr (tx (EPT i)))
    (List.range 8) USB_PMASIZE
  refine ⟨h.1, ?_, ?_⟩
  · intro a ha ha0
    simp only [recorded_offsets, List.mem_append, List.mem_map] at ha
    rcases ha with ⟨i, hi, rfl⟩ | ⟨i, hi, rfl⟩
    · exact (h.2.1 i hi).1 ha0
    · exact (h.2.1 i hi).2 ha0
  · rcases h.2.2 with h0 | ⟨i, hi, hc⟩
    · exact Or.inl h0
    · right
      simp only [recorded_offsets, List.mem_append, List.mem_map]
      rcases hc with ⟨e, e0⟩ | ⟨e, e0⟩
      · exact ⟨Or.inl ⟨i, hi, e.symm⟩, by unfold pma_mark; rw [e]; exact e0⟩
      · exact ⟨Or.inr ⟨i, hi, e.symm⟩, by unfold pma_mark; rw [e]; exact e0⟩

theorem get_next_pma_of_mark (s : State) (sz : Nat) :
    get_next_pma s sz = if 64 + sz ≤ pma_mark s then pma_mark s - sz else 0 := by
  rw [get_next_pma_eq]
  split_ifs <;> first | rfl | omega

end V0

namespace V1

/-- The mark of `get_next_pma` is the smallest of `USB_PMASIZE` and the
nonzero recorded offsets. -/
theorem pma_mark_least_v1 (s : State) :
    pma_mark s ≤ USB_PMASIZE ∧
    (∀ a ∈ recorded_offsets s, a ≠ 0 → pma_mark s ≤ a) ∧
    (pma_mark s = USB_PMASIZE ∨ (pma_mark s ∈ recorded_offsets s ∧ pma_mark s ≠ 0)) := by
  have h := pma_scan_spec s.pma (fun i => rxadr (EPT i)) (fun i => txadr (EPT i))
    (List.range 8) USB_PMASIZE
  refine ⟨h.1, ?_, ?_⟩
  · intro a ha ha0
    simp only [recorded_offsets, List.mem_append, List.mem_map] at ha
    rcases ha with ⟨i, hi, rfl⟩ | ⟨i, hi, rfl⟩
    · exact (h.2.1 i hi).1 ha0
    · exact (h.2.1 i hi).2 ha0
  · rcases h.2.2 with h0 | ⟨i, hi, hc⟩
    · exact Or.inl h0
    · right
      simp only [recorded_offsets, List.mem_append, List.mem_map]
      rcases hc with ⟨e, e0⟩ | ⟨e, e0⟩
      · exact ⟨Or.inl ⟨i, hi, e.symm⟩, by unfold pma_mark; rw [e]; exact e0⟩
      · exact ⟨Or.inr ⟨i, hi, e.symm⟩, by unfold pma_mark; rw [e]; exact e0⟩

theorem get_next_pma_of_mark_v1 (s : State) (sz : Nat) :
    get_next_pma s sz = if 64 + sz ≤ pma_mark s then pma_mark s - sz else 0 := by
  rw [get_next_pma_eq_v1]
  split_ifs <;> first | rfl | omega

end V1

namespace Usb

theorem foldl_min_spec : ∀ (l : List Nat) (a : Nat),
    l.foldl min a ∈ a :: l ∧ ∀ x ∈ a :: l, l.foldl min a ≤ x := by
  intro l
  induction l with
  | nil => intro a; simp
  | cons b l ih =>
    intro a
    obtain ⟨h1, h2⟩ := ih (min a b)
    simp only [List.foldl_cons]
    constructor
    · rcases List.mem_cons.mp h1 with h | h
      · rw [h]
        rcases Nat.le_total a b with hab | hab
        · rw [Nat.min_eq_left hab]; exact List.mem_cons_self _ _
        · rw [Nat.min_eq_right hab]
          exact List.mem_cons_of_mem _ (List.mem_cons_self _ _)
      · exact List.mem_cons_of_mem _ (List.mem_cons_of_mem _ h)
    · intro x hx
      have hm := h2 (min a b) (List.mem_cons_self _ _)
      rcases List.mem_cons.mp hx with h | h
      · rw [h]; exact le_trans hm (Nat.min_le_left a b)
      · rcases List.mem_cons.mp h with h | h
        · rw [h]; exact le_trans hm (Nat.min_le_right a b)
        · exact h2 x (List.mem_cons_of_mem _ h)

/-- What `smallest_nonzero_or` returns: `cap` when every offset is 0, and
otherwise a nonzero member of the list that is below every nonzero member. -/
theorem smallest_nonzero_or_spec (offs : List Nat) (cap : Nat) :
    ((∀ a ∈ offs, a = 0) → smallest_nonzero_or offs cap = cap) ∧
    ((∃ a ∈ offs, a ≠ 0) →
      smallest_nonzero_or offs cap ∈ offs ∧ smallest_nonzero_or offs cap ≠ 0 ∧
      ∀ a ∈ offs, a ≠ 0 → smallest_nonzero_or offs cap ≤ a) := by
  unfold smallest_nonzero_or
  cases hf : offs.filter (fun a => a ≠ 0) with
  | nil =>
    refine ⟨fun _ => rfl, fun ⟨a, ha, ha0⟩ => ?_⟩
    have : a ∈ offs.filter (fun a => a ≠ 0) := by
      simp only [List.mem_filter]; exact ⟨ha, by simpa using ha0⟩
    rw [hf] at this
    cases this
  | cons b l =>
    have hb : ∀ x, x ∈ b :: l ↔ x ∈ offs ∧ x ≠ 0 := by
      intro x
      rw [← hf]
      simp [List.mem_filter]
    obtain ⟨h1, h2⟩ := foldl_min_spec l b
    refine ⟨fun h0 => ?_, fun _ => ⟨((hb _).mp h1).1, ((hb _).mp h1).2, fun a ha ha0 => ?_⟩⟩
    · have := (hb b).mp (List.mem_cons_self _ _)
      exact absurd (h0 b this.1) this.2
    · exact h2 a ((hb a).mpr ⟨ha, ha0⟩)

/-- A mark with the three properties of the scan is the smallest nonzero
offset, or the capacity, when no offset exceeds the capacity. -/
theorem mark_unique (offs : List Nat) (cap mark : Nat)
    (hle : ∀ a ∈ offs, a ≤ cap)
    (h1 : ∀ a ∈ offs, a ≠ 0 → mark ≤ a)
    (h2 : mark = cap ∨ (mark ∈ offs ∧ mark ≠ 0)) :
    mark = smallest_nonzero_or offs cap := by
  obtain ⟨s0, s1⟩ := smallest_nonzero_or_spec offs cap
  by_cases hz : ∀ a ∈ offs, a = 0
  · rw [s0 hz]
    rcases h2 with h | ⟨hm, hm0⟩
    · exact h
    · exact absurd (hz mark hm) hm0
  · have hex : ∃ a ∈ offs, a ≠ 0 := by
      by_contra hn
      apply hz
      intro a ha
      by_contra ha0
      exact hn ⟨a, ha, ha0⟩
    obtain ⟨m1, m2, m3⟩ := s1 hex
    have hlow : mark ≤ smallest_nonzero_or offs cap := h1 _ m1 m2
    rcases h2 with h | ⟨hm, hm0⟩
    · have := hle _ m1
      omega
    · have := m3 mark hm hm0
      omega

end Usb

/-- C26: `get_next_pma(sz)`, in both revisions, on a descriptor table whose
recorded values are slot offsets (none above `USB_PMASIZE`, as every offset
the allocator hands out): let `mark` be the smallest nonzero slot offset
recorded in any of the two slots of any of the 8 descriptor entries, or
`USB_PMASIZE` if every offset is 0; the result is `mark - sz` when
`mark >= 64 + sz` and 0 otherwise. The function only reads the state. -/
theorem C26_next_pma_from_mark (s : State) (sz : Nat) :
    ((∀ a ∈ V0.recorded_offsets s, a ≤ V0.USB_PMASIZE) →
      V0.get_next_pma s sz =
        if 64 + sz ≤ smallest_nonzero_or (V0.recorded_offsets s) V0.USB_PMASIZE then
          smallest_nonzero_or (V0.recorded_offsets s) V0.USB_PMASIZE - sz
        else 0) ∧
    ((∀ a ∈ V1.recorded_offsets s, a ≤ V1.USB_PMASIZE) →
      V1.get_next_pma s sz =
        if 64 + sz ≤ smallest_nonzero_or (V1.recorded_offsets s) V1.USB_PMASIZE then
          smallest_nonzero_or (V1.recorded_offsets s) V1.USB_PMASIZE - sz
        else 0) := by
  constructor
  · intro hle
    rw [V0.get_next_pma_of_mark,
      mark_unique _ _ (V0.pma_mark s) hle (V0.pma_mark_least s).2.1 (V0.pma_mark_least s).2.2]
  · intro hle
    rw [V1.get_next_pma_of_mark_v1,
      mark_unique _ _ (V1.pma_mark s) hle (V1.pma_mark_least_v1 s).2.1 (V1.pma_mark_least_v1 s).2.2]

theorem C26_next_pma_from_mark_witness :
    (smallest_nonzero_or (V0.recorded_offsets frag_state2) V0.USB_PMASIZE = 448 ∧
      V0.get_next_pma frag_state2 64 = 384 ∧ V0.get_next_pma frag_state2 400 = 0) ∧
    (smallest_nonzero_or (V1.recorded_offsets zero_state) V1.USB_PMASIZE = 512 ∧
      V1.get_next_pma zero_state 64 = 448) :=
  ⟨⟨by decide,
      ((C26_next_pma_from_mark frag_state2 64).1 (by decide)).trans (by decide),
      ((C26_next_pma_from_mark frag_state2 400).1 (by decide)).trans (by decide)⟩,
    ⟨by decide, ((C26_next_pma_from_mark zero_state 64).2 (by decide)).trans (by decide)⟩⟩

/-- C27: whenever `get_next_pma(sz)` returns a nonzero offset `o`, then
`64 <= o`, `o + sz <= USB_PMASIZE`, and `o + sz <= a` for every nonzero offset
`a` recorded in the descriptor table; and the result is 0 only when the
request does not fit (`mark < 64 + sz`), never for a request that fits. Both
revisions. -/
theorem C27_allocation_clear (s : State) (sz : Nat) :
    (V0.get_next_pma s sz ≠ 0 →
      64 ≤ V0.get_next_pma s sz ∧ V0.get_next_pma s sz + sz ≤ V0.USB_PMASIZE ∧
      ∀ a ∈ V0.recorded_offsets s, a ≠ 0 → V0.get_next_pma s sz + sz ≤ a) ∧
    (V0.get_next_pma s sz = 0 ↔ V0.pma_mark s < 64 + sz) ∧
    (V1.get_next_pma s sz ≠ 0 →
      64 ≤ V1.get_next_pma s sz ∧ V1.get_next_pma s sz + sz ≤ V1.USB_PMASIZE ∧
      ∀ a ∈ V1.recorded_offsets s, a ≠ 0 → V1.get_next_pma s sz + sz ≤ a) ∧
    (V1.get_next_pma s sz = 0 ↔ V1.pma_mark s < 64 + sz) := by
  have h0 := V0.pma_mark_least s
  have h1 := V1.pma_mark_least_v1 s
  have e0 := V0.get_next_pma_of_mark s sz
  have e1 := V1.get_next_pma_of_mark_v1 s sz
  refine ⟨fun hn => ?_, ?_, fun hn => ?_, ?_⟩
  · by_cases hc : 64 + sz ≤ V0.pma_mark s
    · rw [if_pos hc] at e0
      refine ⟨by omega, by have := h0.1; omega, fun a ha ha0 => ?_⟩
      have := h0.2.1 a ha ha0
      omega
    · rw [if_neg hc] at e0
      exact absurd e0 hn
  · by_cases hc : 64 + sz ≤ V0.pma_mark s
    · rw [if_pos hc] at e0
      constructor <;> intro h <;> omega
    · rw [if_neg hc] at e0
      constructor <;> intro h <;> omega
  · by_cases hc : 64 + sz ≤ V1.pma_mark s
    · rw [if_pos hc] at e1
      refine ⟨by omega, by have := h1.1; omega, fun a ha ha0 => ?_⟩
      have := h1.2.1 a ha ha0
      omega
    · rw [if_neg hc] at e1
      exact absurd e1 hn
  · by_cases hc : 64 + sz ≤ V1.pma_mark s
    · rw [if_pos hc] at e1
      constructor <;> intro h <;> omega
    · rw [if_neg hc] at e1
      constructor <;> intro h <;> omega

theorem C27_allocation_clear_witness :
    V0.get_next_pma one_slot_state 0x40 = 0x380 ∧
    (64 ≤ V0.get_next_pma one_slot_state 0x40 ∧
      V0.get_next_pma one_slot_state 0x40 + 0x40 ≤ V0.USB_PMASIZE ∧
      ∀ a ∈ V0.recorded_offsets one_slot_state, a ≠ 0 →
        V0.get_next_pma one_slot_state 0x40 + 0x40 ≤ a) :=
  ⟨by decide, (C27_allocation_clear one_slot_state 0x40).1 (by decide)⟩

namespace Usb

/-- The RX length block on a multiple of 32 between 64 and 1024: the count
word has bit 15 set, block field `s / 32 - 1` and a zero byte count, and the
request to the allocator is `s`. -/
theorem ep_rxcnt_blocks (b : Nat) (h1 : 1 ≤ b) (h2 : b ≤ 31) :
    ep_rxcnt (32 * (b + 1)) = (0x8000 + 1024 * b, 32 * (b + 1)) := by
  interval_cases b <;> decide

end Usb

/-- C28: the RX length block on a size above 62 that is not a multiple of 32.
For the even size 66 the count word is `0x8040`: block field 0 instead of
`ceil(66/32) - 1 = 2`, and a nonzero low part; 34 bytes are requested from the
allocator, fewer than the 66 of the packet. `ep_config(0x01, BULK, 66)` on the
power-on state succeeds with that count word and a slot 34 bytes below the
top, in both revisions. -/
theorem C28_coarse_count_off_multiples :
    (ep_rxcnt 66).1 = 0x8040 ∧ (ep_rxcnt 66).2 = 34 ∧
    (ep_rxcnt 66).1 / 1024 % 32 = 0 ∧ (66 + 31) / 32 - 1 = 2 ∧
    (ep_rxcnt 66).1 % 1024 ≠ 0 ∧ (ep_rxcnt 66).2 < 66 ∧
    (V0.ep_config zero_state 0x01 USB_EPTYPE_BULK 66).1 = true ∧
    rd16 (V0.ep_config zero_state 0x01 USB_EPTYPE_BULK 66).2.pma
      (V0.cnt (V0.rx (V0.EPT 0x01))) = 0x8040 ∧
    rd16 (V0.ep_config zero_state 0x01 USB_EPTYPE_BULK 66).2.pma
      (V0.addr (V0.rx (V0.EPT 0x01))) = V0.USB_PMASIZE - 34 ∧
    (V1.ep_config zero_state 0x01 USB_EPTYPE_BULK 66).1 = true ∧
    rd16 (V1.ep_config zero_state 0x01 USB_EPTYPE_BULK 66).2.pma
      (V1.rxcnt (V1.EPT 0x01)) = 0x8040 ∧
    rd16 (V1.ep_config zero_state 0x01 USB_EPTYPE_BULK 66).2.pma
      (V1.rxadr (V1.EPT 0x01)) = V1.USB_PMASIZE - 34 := by
  decide

/-! ## C8: the count word of a configured RX slot -/

namespace Usb

theorem ep_align_round (e : Nat) (h : e < 0xFFFF) : ep_align e = round_even e := by
  unfold ep_align round_even
  rw [Nat.and_one_is_mod]
  rcases Nat.mod_two_eq_zero_or_one e with h0 | h1
  · rw [h0]; simp
  · rw [h1]
    simp only [ne_eq, one_ne_zero, not_false_eq_true, if_true]
    omega

/-- On a size that is at most 62 or a multiple of 32 up to 1024 (after
rounding up to even) the RX length block computes the encoding the statements
give. -/
theorem ep_rxcnt_encoding (e : Nat)
    (h : round_even e ≤ 62 ∨ (round_even e % 32 = 0 ∧ round_even e ≤ 1024)) :
    (ep_rxcnt (ep_align e)).1 = rx_len_encoding (round_even e) := by
  have hlt : e < 0xFFFF := by
    unfold round_even at h
    omega
  rw [ep_align_round e hlt]
  by_cases h62 : round_even e ≤ 62
  · rw [ep_rxcnt_linear _ h62]
    simp only [rx_len_encoding, if_pos h62]
  · have hm : round_even e % 32 = 0 ∧ round_even e ≤ 1024 := by
      rcases h with h | h
      · exact absurd h h62
      · exact h
    obtain ⟨b, hb⟩ : ∃ b, round_even e = 32 * (b + 1) := ⟨round_even e / 32 - 1, by omega⟩
    have hb1 : 1 ≤ b := by omega
    have hb2 : b ≤ 31 := by omega
    rw [hb, ep_rxcnt_blocks b hb1 hb2]
    simp only [rx_len_encoding]
    rw [if_neg (by omega)]
    interval_cases b <;> decide

end Usb

/-- C8 (amended): after a successful `ep_config` on an OUT handle (bit 7 of
the handle clear, which includes a control endpoint configured through its
OUT handle), under the toggle-on-write register rule: the RX slot, or both RX
slots for isochronous / double-buffered bulk, have nonzero offsets; when the
requested size, rounded up to even, is at most 62 or a multiple of 32 up to
1024, the count word of each is the RX length encoding of that size
(`size << 9` up to 62, `0x8000 | ((size / 32 - 1) << 10)` above); RX status
is VALID with DTOG_RX = 0, and for isochronous / double-buffered bulk the swap
flag SWBUF_RX is 1; in v0 and in v1. -/
theorem C8_rx_side_after_config (s : State) (ep eptype epsize : Nat)
    (hout : ep &&& 0x80 = 0) :
    ((V0.ep_config s ep eptype epsize).1 = true →
      (is_dbl eptype = false →
        rd16 (V0.ep_config s ep eptype epsize).2.pma (V0.addr (V0.rx (V0.EPT ep))) ≠ 0 ∧
        (round_even epsize ≤ 62 ∨ (round_even epsize % 32 = 0 ∧ round_even epsize ≤ 1024) →
          rd16 (V0.ep_config s ep eptype epsize).2.pma (V0.cnt (V0.rx (V0.EPT ep))) =
            rx_len_encoding (round_even epsize)) ∧
        (V0.ep_config s ep eptype epsize).2.epr (EPR ep) &&& USB_EPRX_STAT = USB_EP_RX_VALID ∧
        (V0.ep_config s ep eptype epsize).2.epr (EPR ep) &&& USB_EP_DTOG_RX = 0) ∧
      (is_dbl eptype = true →
        rd16 (V0.ep_config s ep eptype epsize).2.pma (V0.addr (V0.rx0 (V0.EPT ep))) ≠ 0 ∧
        rd16 (V0.ep_config s ep eptype epsize).2.pma (V0.addr (V0.rx1 (V0.EPT ep))) ≠ 0 ∧
        (round_even epsize ≤ 62 ∨ (round_even epsize % 32 = 0 ∧ round_even epsize ≤ 1024) →
          rd16 (V0.ep_config s ep eptype epsize).2.pma (V0.cnt (V0.rx0 (V0.EPT ep))) =
            rx_len_encoding (round_even epsize) ∧
          rd16 (V0.ep_config s ep eptype epsize).2.pma (V0.cnt (V0.rx1 (V0.EPT ep))) =
            rx_len_encoding (round_even epsize)) ∧
        (V0.ep_config s ep eptype epsize).2.epr (EPR ep) &&& USB_EPRX_STAT = USB_EP_RX_VALID ∧
        (V0.ep_config s ep eptype epsize).2.epr (EPR ep) &&& USB_EP_DTOG_RX = 0 ∧
        (V0.ep_config s ep eptype epsize).2.epr (EPR ep) &&& USB_EP_SWBUF_RX
          = USB_EP_SWBUF_RX)) ∧
    ((V1.ep_config s ep eptype epsize).1 = true →
      (is_dbl eptype = false →
        rd16 (V1.ep_config s ep eptype epsize).2.pma (V1.rxadr (V1.EPT ep)) ≠ 0 ∧
        (round_even epsize ≤ 62 ∨ (round_even epsize % 32 = 0 ∧ round_even epsize ≤ 1024) →
          rd16 (V1.ep_config s ep eptype epsize).2.pma (V1.rxcnt (V1.EPT ep)) =
            rx_len_encoding (round_even epsize)) ∧
        (V1.ep_config s ep eptype epsize).2.epr (EPR ep) &&& USB_EPRX_STAT = USB_EP_RX_VALID ∧
        (V1.ep_config s ep eptype epsize).2.epr (EPR ep) &&& USB_EP_DTOG_RX = 0) ∧
      (is_dbl eptype = true →
        rd16 (V1.ep_config s ep eptype epsize).2.pma (V1.rxadr0 (V1.EPT ep)) ≠ 0 ∧
        rd16 (V1.ep_config s ep eptype epsize).2.pma (V1.rxadr1 (V1.EPT ep)) ≠ 0 ∧
        (round_even epsize ≤ 62 ∨ (round_even epsize % 32 = 0 ∧ round_even epsize ≤ 1024) →
          rd16 (V1.ep_config s ep eptype epsize).2.pma (V1.rxcnt0 (V1.EPT ep)) =
            rx_len_encoding (round_even epsize) ∧
          rd16 (V1.ep_config s ep eptype epsize).2.pma (V1.rxcnt1 (V1.EPT ep)) =
            rx_len_encoding (round_even epsize)) ∧
        (V1.ep_config s ep eptype epsize).2.epr (EPR ep) &&& USB_EPRX_STAT = USB_EP_RX_VALID ∧
        (V1.ep_config s ep eptype epsize).2.epr (EPR ep) &&& USB_EP_DTOG_RX = 0 ∧
        (V1.ep_config s ep eptype epsize).2.epr (EPR ep) &&& USB_EP_SWBUF_RX
          = USB_EP_SWBUF_RX)) := by
  simp only [USB_EPRX_STAT, USB_EP_RX_VALID, USB_EP_DTOG_RX, USB_EP_SWBUF_RX, USB_EP_DTOG_TX]
  refine ⟨fun hok => ⟨fun hd => ?_, fun hd => ?_⟩, fun hok => ⟨fun hd => ?_, fun hd => ?_⟩⟩
  · obtain ⟨a1, a2, a3⟩ := V0.ep_config_out_single s ep eptype epsize hout hok hd
    exact ⟨a1, fun hsz => a2.trans (ep_rxcnt_encoding epsize hsz),
      and_narrow_const _ _ _ 0x3000 a3 (by decide),
      and_narrow_const _ _ _ 0x4000 a3 (by decide)⟩
  · obtain ⟨a1, a2, a3, a4, a5⟩ := V0.ep_config_out_double s ep eptype epsize hout hok hd
    exact ⟨a1, a3, fun hsz => ⟨a2.trans (ep_rxcnt_encoding epsize hsz),
        a4.trans (ep_rxcnt_encoding epsize hsz)⟩,
      and_narrow_const _ _ _ 0x3000 a5 (by decide),
      and_narrow_const _ _ _ 0x4000 a5 (by decide),
      and_narrow_const _ _ _ 0x40 a5 (by decide)⟩
  · obtain ⟨a1, a2, a3⟩ := V1.ep_config_out_single_v1 s ep eptype epsize hout hok hd
    exact ⟨a1, fun hsz => a2.trans (ep_rxcnt_encoding epsize hsz),
      and_narrow_const _ _ _ 0x3000 a3 (by decide),
      and_narrow_const _ _ _ 0x4000 a3 (by decide)⟩
  · obtain ⟨a1, a2, a3, a4, a5⟩ := V1.ep_config_out_double_v1 s ep eptype epsize hout hok hd
    exact ⟨a1, a3, fun hsz => ⟨a2.trans (ep_rxcnt_encoding epsize hsz),
        a4.trans (ep_rxcnt_encoding epsize hsz)⟩,
      and_narrow_const _ _ _ 0x3000 a5 (by decide),
      and_narrow_const _ _ _ 0x4000 a5 (by decide),
      and_narrow_const _ _ _ 0x40 a5 (by decide)⟩

theorem C8_rx_side_after_config_witness :
    (rd16 (V0.ep_config zero_state 0x00 USB_EPTYPE_CONTROL 64).2.pma
        (V0.addr (V0.rx (V0.EPT 0x00))) ≠ 0 ∧
      rd16 (V0.ep_config zero_state 0x00 USB_EPTYPE_CONTROL 64).2.pma
        (V0.cnt (V0.rx (V0.EPT 0x00))) = 0x8400 ∧
      (V0.ep_config zero_state 0x00 USB_EPTYPE_CONTROL 64).2.epr (EPR 0x00) &&& USB_EPRX_STAT
        = USB_EP_RX_VALID) ∧
    (rd16 (V1.ep_config zero_state 0x01 (USB_EPTYPE_BULK ||| USB_EPTYPE_DBLBUF) 15).2.pma
        (V1.rxadr0 (V1.EPT 0x01)) ≠ 0 ∧
      rd16 (V1.ep_config zero_state 0x01 (USB_EPTYPE_BULK ||| USB_EPTYPE_DBLBUF) 15).2.pma
        (V1.rxcnt0 (V1.EPT 0x01)) = 0x2000 ∧
      rd16 (V1.ep_config zero_state 0x01 (USB_EPTYPE_BULK ||| USB_EPTYPE_DBLBUF) 15).2.pma
        (V1.rxcnt1 (V1.EPT 0x01)) = 0x2000 ∧
      (V1.ep_config zero_state 0x01 (USB_EPTYPE_BULK ||| USB_EPTYPE_DBLBUF) 15).2.epr (EPR 0x01)
        &&& USB_EP_SWBUF_RX = USB_EP_SWBUF_RX) :=
  have h0 := ((C8_rx_side_after_config zero_state 0x00 USB_EPTYPE_CONTROL 64
    (by decide)).1 (by decide)).1 (by decide)
  have h1 := ((C8_rx_side_after_config zero_state 0x01 (USB_EPTYPE_BULK ||| USB_EPTYPE_DBLBUF)
    15 (by decide)).2 (by decide)).2 (by decide)
  ⟨⟨h0.1, (h0.2.1 (Or.inr (by decide))).trans (by decide), h0.2.2.1⟩,
    ⟨h1.1, ((h1.2.2.1 (Or.inl (by decide))).1).trans (by decide),
      ((h1.2.2.1 (Or.inl (by decide))).2).trans (by decide), h1.2.2.2.2.2⟩⟩

/-! ## C24, C25: the serial number descriptor -/

namespace Usb

/-- One call of `fnv1a32_turn` folds the four little-endian bytes of the word
into the hash. -/
theorem fnv1a32_turn_bytes (h w : Nat) :
    fnv1a32_turn h w =
      (le_bytes32 w).foldl (fun h b => ((h ^^^ b) * 16777619) % 2 ^ 32) h := by
  have e2 : w / 256 / 256 = w / 65536 := by
    rw [Nat.div_div_eq_div_mul]
  have e3 : w / 65536 / 256 = w / 16777216 := by
    rw [Nat.div_div_eq_div_mul]
  simp only [fnv1a32_turn, fnv1a32_loop, le_bytes32, List.foldl, and_ff, shr8, e2, e3]
  norm_num

theorem fnv1a32_turn_lt (h w : Nat) : fnv1a32_turn h w < 0x100000000 := by
  simp only [fnv1a32_turn, fnv1a32_loop]
  exact Nat.mod_lt _ (by norm_num)

theorem serial_hash_lt (uid : Nat → Nat) : serial_hash uid < 0x100000000 :=
  fnv1a32_turn_lt _ _

theorem serial_hash_bytes (uid : Nat → Nat) :
    serial_hash uid =
      fnv1a32 (le_bytes32 (uid 0x00 % 0x100000000) ++ le_bytes32 (uid 0x04 % 0x100000000) ++
        le_bytes32 (uid 0x14 % 0x100000000)) := by
  simp only [serial_hash, fnv1a32, List.foldl_append, fnv1a32_turn_bytes]

/-- The bytes of `le_bytes32` are bytes, and they spell the word. -/
theorem le_bytes32_spec (w : Nat) (hw : w < 0x100000000) :
    (∀ b ∈ le_bytes32 w, b < 256) ∧
    w = w % 256 + 256 * (w / 256 % 256) + 65536 * (w / 65536 % 256) +
      16777216 * (w / 16777216 % 256) := by
  constructor
  · intro b hb
    simp only [le_bytes32, List.mem_cons, List.mem_singleton, List.not_mem_nil,
      or_false] at hb
    rcases hb with rfl | rfl | rfl | rfl <;> omega
  · omega

end Usb

/-- C24: the hash of `get_serialno_desc` is 32-bit FNV-1a (offset basis
2166136261, prime 16777619, arithmetic modulo `2^32`, each byte XORed in and
then multiplied) over the twelve bytes formed by the unique-ID words at
`UID_BASE + 0x00`, `+ 0x04` and `+ 0x14`, each taken as four little-endian
bytes. -/
theorem C24_serial_hash_is_fnv1a (uid : Nat → Nat) :
    serial_hash uid =
      fnv1a32 (le_bytes32 (uid 0x00 % 0x100000000) ++ le_bytes32 (uid 0x04 % 0x100000000) ++
        le_bytes32 (uid 0x14 % 0x100000000)) ∧
    (le_bytes32 (uid 0x00 % 0x100000000) ++ le_bytes32 (uid 0x04 % 0x100000000) ++
        le_bytes32 (uid 0x14 % 0x100000000)).length = 12 ∧
    ∀ w, w < 0x100000000 →
      (∀ b ∈ le_bytes32 w, b < 256) ∧
      w = w % 256 + 256 * (w / 256 % 256) + 65536 * (w / 65536 % 256) +
        16777216 * (w / 16777216 % 256) :=
  ⟨serial_hash_bytes uid, rfl, fun w hw => le_bytes32_spec w hw⟩

namespace Usb

/-- The hexadecimal loop writes nothing outside its `n` code units. -/
theorem hex_loop_outside (fnv : Nat) :
    ∀ (n str : Nat) (b : Nat → Nat) (x : Nat), x < str ∨ str + 2 * n ≤ x →
      hex_loop fnv n str b x = b x := by
  intro n
  induction n with
  | zero => intro str b x _; rfl
  | succ n ih =>
    intro str b x hx
    simp only [hex_loop]
    rw [ih (str + 2) _ x (by omega)]
    exact wr16_other _ _ _ _ (by omega) (by omega)

/-- Code unit `k` of the hexadecimal loop started with `n` rounds to go is the
character of nibble `n - 1 - k` of the hash. -/
theorem hex_loop_unit (fnv : Nat) :
    ∀ (n str : Nat) (b : Nat → Nat) (k : Nat), k < n →
      rd16 (hex_loop fnv n str b) (str + 2 * k) =
        fnv / 2 ^ (4 * (n - 1 - k)) % 16 +
          (if fnv / 2 ^ (4 * (n - 1 - k)) % 16 < 10 then 48 else 55) := by
  intro n
  induction n with
  | zero => intro str b k hk; omega
  | succ n ih =>
    intro str b k hk
    simp only [hex_loop]
    match k with
    | 0 =>
      rw [rd16_congr _ (wr16 b str
          ((((fnv >>> (4 * n)) &&& 0x0F) +
            (if (fnv >>> (4 * n)) &&& 0x0F < 10 then 48 else 55)) % 0x10000)) (str + 2 * 0)
        (hex_loop_outside fnv n (str + 2) _ _ (by omega))
        (hex_loop_outside fnv n (str + 2) _ _ (by omega))]
      have e : (fnv >>> (4 * n)) &&& 0x0F = fnv / 2 ^ (4 * n) % 16 := by
        rw [Nat.shiftRight_eq_div_pow]
        exact Nat.and_pow_two_sub_one_eq_mod _ 4
      have hl : fnv / 2 ^ (4 * n) % 16 < 16 := Nat.mod_lt _ (by norm_num)
      simp only [Nat.mul_zero, Nat.add_zero, rd16_wr16_same, e, Nat.add_sub_cancel,
        Nat.sub_zero]
      split_ifs <;> omega
    | k + 1 =>
      have := ih (str + 2) (wr16 b str
          ((((fnv >>> (4 * n)) &&& 0x0F) +
            (if (fnv >>> (4 * n)) &&& 0x0F < 10 then 48 else 55)) % 0x10000)) k (by omega)
      rw [show str + 2 * (k + 1) = str + 2 + 2 * k by omega,
        show n + 1 - 1 - (k + 1) = n - 1 - k by omega]
      exact this

theorem rd16_wr8_other (b : Nat → Nat) (i v a : Nat) (h1 : a ≠ i) (h2 : a + 1 ≠ i) :
    rd16 (wr8 b i v) a = rd16 b a := by
  simp only [rd16, wr8, if_neg h1, if_neg h2]

/-- Code unit `k` of the descriptor `get_serialno_desc` writes. -/
theorem serial_unit (uid : Nat → Nat) (buffer : Nat → Nat) (k : Nat) (hk : k < 8) :
    rd16 (get_serialno_desc uid buffer).2 (2 + 2 * k) =
      serial_hash uid / 2 ^ (4 * (7 - k)) % 16 +
        (if serial_hash uid / 2 ^ (4 * (7 - k)) % 16 < 10 then 48 else 55) := by
  simp only [get_serialno_desc]
  rw [rd16_wr8_other _ _ _ _ (by omega) (by omega),
    rd16_wr8_other _ _ _ _ (by omega) (by omega)]
  exact hex_loop_unit (serial_hash uid) 8 2 buffer k hk

/-- An uppercase hexadecimal character decodes to its nibble. -/
theorem hex_value_char (n : Nat) (hn : n < 16) :
    ((48 ≤ n + (if n < 10 then 48 else 55) ∧ n + (if n < 10 then 48 else 55) ≤ 57) ∨
      (65 ≤ n + (if n < 10 then 48 else 55) ∧ n + (if n < 10 then 48 else 55) ≤ 70)) ∧
    hex_value (n + (if n < 10 then 48 else 55)) = n := by
  unfold hex_value
  split_ifs <;> omega

/-- The eight code units spell the hash. -/
theorem serial_digits_hash (uid : Nat → Nat) (buffer : Nat → Nat) :
    serial_digits (get_serialno_desc uid buffer).2 = serial_hash uid := by
  have hlt := serial_hash_lt uid
  have hr : List.range 8 = [0, 1, 2, 3, 4, 5, 6, 7] := by decide
  have hv : ∀ k, k < 8 → hex_value (rd16 (get_serialno_desc uid buffer).2 (2 + 2 * k)) =
      serial_hash uid / 2 ^ (4 * (7 - k)) % 16 := by
    intro k hk
    rw [serial_unit uid buffer k hk]
    exact (hex_value_char _ (Nat.mod_lt _ (by norm_num))).2
  simp only [serial_digits, hr, List.foldl]
  rw [hv 0 (by omega), hv 1 (by omega), hv 2 (by omega), hv 3 (by omega), hv 4 (by omega),
    hv 5 (by omega), hv 6 (by omega), hv 7 (by omega)]
  norm_num
  omega

end Usb

/-- C25: for every content of the unique-ID region and every buffer,
`get_serialno_desc` returns 18 and writes `bLength = 18`,
`bDescriptorType = 0x03` and eight 16-bit code units in bytes 2 to 17, leaving
the bytes from 18 on alone; each unit is an uppercase hexadecimal digit
(`'0'`-`'9'` or `'A'`-`'F'`), unit `k` being nibble `7 - k` of the 32-bit
hash, so that the eight digits read as a base-16 number give the hash; the
descriptor depends on the unique-ID region through the three words at offsets
`0x00`, `0x04` and `0x14` only. -/
theorem C25_serial_descriptor (uid : Nat → Nat) (buffer : Nat → Nat) :
    (get_serialno_desc uid buffer).1 = 18 ∧
    (get_serialno_desc uid buffer).2 0 = 18 ∧
    (get_serialno_desc uid buffer).2 1 = 0x03 ∧
    (∀ k, k < 8 →
      ((48 ≤ rd16 (get_serialno_desc uid buffer).2 (2 + 2 * k) ∧
          rd16 (get_serialno_desc uid buffer).2 (2 + 2 * k) ≤ 57) ∨
        (65 ≤ rd16 (get_serialno_desc uid buffer).2 (2 + 2 * k) ∧
          rd16 (get_serialno_desc uid buffer).2 (2 + 2 * k) ≤ 70)) ∧
      hex_value (rd16 (get_serialno_desc uid buffer).2 (2 + 2 * k)) =
        serial_hash uid / 2 ^ (4 * (7 - k)) % 16) ∧
    serial_digits (get_serialno_desc uid buffer).2 = serial_hash uid ∧
    serial_hash uid < 2 ^ 32 ∧
    (∀ j, 18 ≤ j → (get_serialno_desc uid buffer).2 j = buffer j) ∧
    (∀ uid2 : Nat → Nat, uid2 0x00 = uid 0x00 → uid2 0x04 = uid 0x04 →
      uid2 0x14 = uid 0x14 → get_serialno_desc uid2 buffer = get_serialno_desc uid buffer) := by
  refine ⟨rfl, ?_, ?_, fun k hk => ?_, serial_digits_hash uid buffer, serial_hash_lt uid,
    fun j hj => ?_, fun uid2 h0 h4 h14 => ?_⟩
  · simp [get_serialno_desc, wr8]
  · simp [get_serialno_desc, wr8, USB_DTYPE_STRING]
  · rw [serial_unit uid buffer k hk]
    exact hex_value_char _ (Nat.mod_lt _ (by norm_num))
  · simp only [get_serialno_desc, wr8]
    rw [if_neg (by omega), if_neg (by omega)]
    exact hex_loop_outside _ 8 2 buffer j (by omega)
  · simp only [get_serialno_desc, serial_hash, h0, h4, h14]

theorem C25_serial_descriptor_witness :
    (get_serialno_desc uid_zero (fun _ => 0xEE)).1 = 18 ∧
    serial_digits (get_serialno_desc uid_zero (fun _ => 0xEE)).2 = serial_hash uid_zero ∧
    serial_hash uid_zero = 0xE23C62B5 ∧
    (List.range 18).map (get_serialno_desc uid_zero (fun _ => 0xEE)).2 =
      [18, 3, 69, 0, 50, 0, 51, 0, 67, 0, 54, 0, 50, 0, 66, 0, 53, 0] :=
  ⟨(C25_serial_descriptor uid_zero (fun _ => 0xEE)).1,
    (C25_serial_descriptor uid_zero (fun _ => 0xEE)).2.2.2.2.1, by decide, by decide⟩

/-! ## C21: back-to-back writes on a double-buffered bulk IN endpoint -/

namespace Usb

/-- The store `*reg = (*reg & USB_EPREG_MASK) | USB_EP_SWBUF_TX` flips bit 14
and leaves every other bit of the register as it was. -/
theorem swbuf_tx_flip (r : Nat) :
    hw_store r ((r &&& 0x8F8F) ||| 0x4000) &&& 0xBFFF = r &&& 0xBFFF ∧
    hw_store r ((r &&& 0x8F8F) ||| 0x4000) &&& 0x4000 = (r &&& 0x4000) ^^^ 0x4000 := by
  constructor
  all_goals
    apply Nat.eq_of_testBit_eq; intro i
    simp only [hw_store, Nat.testBit_and, Nat.testBit_or, Nat.testBit_xor]
    by_cases hi : i < 16
    · interval_cases i <;> simp [Nat.testBit]
    · simp [testBit_hi _ i _ hi]

theorem and_bit14 (x : Nat) : x &&& 0x4000 = 0 ∨ x &&& 0x4000 = 0x4000 := by
  have h := Nat.and_two_pow x 14
  cases hb : x.testBit 14
  · left
    rw [hb] at h
    simpa using h
  · right
    rw [hb] at h
    simpa using h

/-- The register after the buffer switch of a write: SWBUF_TX has changed
sides, the rest is as before. -/
theorem swbuf_tx_switch (s : State) (reg r : Nat) (hr : s.epr reg = r) :
    (reg_wr s reg ((r &&& USB_EPREG_MASK) ||| USB_EP_SWBUF_TX)).epr reg &&& 0xBFFF =
      r &&& 0xBFFF ∧
    (r &&& USB_EP_SWBUF_TX = 0 →
      (reg_wr s reg ((r &&& USB_EPREG_MASK) ||| USB_EP_SWBUF_TX)).epr reg &&&
        USB_EP_SWBUF_TX ≠ 0) ∧
    (r &&& USB_EP_SWBUF_TX ≠ 0 →
      (reg_wr s reg ((r &&& USB_EPREG_MASK) ||| USB_EP_SWBUF_TX)).epr reg &&&
        USB_EP_SWBUF_TX = 0) := by
  subst hr
  have e : (reg_wr s reg ((s.epr reg &&& USB_EPREG_MASK) ||| USB_EP_SWBUF_TX)).epr reg =
      hw_store (s.epr reg) ((s.epr reg &&& 0x8F8F) ||| 0x4000) := by
    simp [reg_wr, USB_EPREG_MASK, USB_EP_SWBUF_TX, USB_EP_DTOG_RX]
  have f := swbuf_tx_flip (s.epr reg)
  rw [e]
  refine ⟨f.1, fun h0 => ?_, fun h1 => ?_⟩
  · have h0' : s.epr reg &&& 0x4000 = 0 := h0
    have : hw_store (s.epr reg) ((s.epr reg &&& 0x8F8F) ||| 0x4000) &&& 0x4000 = 0x4000 := by
      rw [f.2, h0']; decide
    show hw_store (s.epr reg) ((s.epr reg &&& 0x8F8F) ||| 0x4000) &&& 0x4000 ≠ 0
    rw [this]; decide
  · have h1' : s.epr reg &&& 0x4000 = 0x4000 := by
      rcases and_bit14 (s.epr reg) with h | h
      · exact absurd h h1
      · exact h
    show hw_store (s.epr reg) ((s.epr reg &&& 0x8F8F) ||| 0x4000) &&& 0x4000 = 0
    rw [f.2, h1']; decide

end Usb

namespace V0

/-- Path: double-buffered bulk, TX status NAK. The write goes through `tx1`
when SWBUF_TX is set and through `tx0` when it is clear, then switches
SWBUF_TX. -/
theorem ep_write_path_dbl (s : State) (ep : Nat) (buf : Nat → Nat) (blen : Nat)
    (h : s.epr (EPR ep) &&& (USB_EPTX_STAT ||| USB_EP_T_FIELD ||| USB_EP_KIND) =
      (USB_EP_TX_NAK ||| USB_EP_BULK ||| USB_EP_KIND)) :
    ep_write s ep buf blen =
      (Int.ofNat blen,
        reg_wr
          (pma_write s buf blen
            (if s.epr (EPR ep) &&& USB_EP_SWBUF_TX ≠ 0 then tx1 (EPT ep) else tx0 (EPT ep)))
          (EPR ep) ((s.epr (EPR ep) &&& USB_EPREG_MASK) ||| USB_EP_SWBUF_TX)) := by
  simp only [ep_write, reg_rd, h, if_true]
  split_ifs <;> rfl

/-- On a double-buffered bulk endpoint a write that did not fail found TX
status NAK. -/
theorem ep_write_dbl_key (s : State) (ep : Nat) (buf : Nat → Nat) (blen : Nat)
    (hkind : s.epr (EPR ep) &&& USB_EP_KIND = USB_EP_KIND)
    (h : (ep_write s ep buf blen).1 ≠ -1) :
    s.epr (EPR ep) &&& (USB_EPTX_STAT ||| USB_EP_T_FIELD ||| USB_EP_KIND) =
      (USB_EP_TX_NAK ||| USB_EP_BULK ||| USB_EP_KIND) := by
  by_contra hk
  apply h
  rw [ep_write_path_fail s ep buf blen hk]
  · exact tx_key_ne _ _ (Or.inr (Or.inr (by rw [hkind]; decide)))
  · exact tx_key_ne _ _ (Or.inr (Or.inr (by rw [hkind]; decide)))
  · exact tx_key_ne _ _ (Or.inr (Or.inr (by rw [hkind]; decide)))
  · exact tx_key_ne _ _ (Or.inr (Or.inr (by rw [hkind]; decide)))

/-- One write on a double-buffered bulk IN endpoint in TX status NAK. -/
theorem ep_write_dbl_step (s : State) (ep : Nat) (buf : Nat → Nat) (blen : Nat)
    (h : s.epr (EPR ep) &&& (USB_EPTX_STAT ||| USB_EP_T_FIELD ||| USB_EP_KIND) =
      (USB_EP_TX_NAK ||| USB_EP_BULK ||| USB_EP_KIND)) :
    (ep_write s ep buf blen).1 = Int.ofNat blen ∧
    (ep_write s ep buf blen).2.epr (EPR ep) &&& 0xBFFF = s.epr (EPR ep) &&& 0xBFFF ∧
    (s.epr (EPR ep) &&& USB_EP_SWBUF_TX = 0 →
      (ep_write s ep buf blen).2.pma = (pma_write s buf blen (tx0 (EPT ep))).pma ∧
      (ep_write s ep buf blen).2.epr (EPR ep) &&& USB_EP_SWBUF_TX ≠ 0) ∧
    (s.epr (EPR ep) &&& USB_EP_SWBUF_TX ≠ 0 →
      (ep_write s ep buf blen).2.pma = (pma_write s buf blen (tx1 (EPT ep))).pma ∧
      (ep_write s ep buf blen).2.epr (EPR ep) &&& USB_EP_SWBUF_TX = 0) := by
  rw [ep_write_path_dbl s ep buf blen h]
  have sw := swbuf_tx_switch
    (pma_write s buf blen
      (if s.epr (EPR ep) &&& USB_EP_SWBUF_TX ≠ 0 then tx1 (EPT ep) else tx0 (EPT ep)))
    (EPR ep) (s.epr (EPR ep)) rfl
  refine ⟨rfl, sw.1, fun h0 => ⟨?_, sw.2.1 h0⟩, fun h1 => ⟨?_, sw.2.2 h1⟩⟩
  · rw [if_neg (fun c => c h0)]; rfl
  · rw [if_pos h1]; rfl

/-- Two writes in a row on a double-buffered bulk IN endpoint (v0). -/
theorem write_twice_dbl (s : State) (ep : Nat) (buf buf2 : Nat → Nat) (blen blen2 : Nat)
    (hkind : s.epr (EPR ep) &&& USB_EP_KIND = USB_EP_KIND)
    (h : (ep_write s ep buf blen).1 ≠ -1) :
    ∃ recA recB,
      ((recA = tx0 (EPT ep) ∧ recB = tx1 (EPT ep)) ∨
        (recA = tx1 (EPT ep) ∧ recB = tx0 (EPT ep))) ∧
      (ep_write s ep buf blen).2.pma = (pma_write s buf blen recA).pma ∧
      (ep_write (ep_write s ep buf blen).2 ep buf2 blen2).1 = Int.ofNat blen2 ∧
      (ep_write (ep_write s ep buf blen).2 ep buf2 blen2).2.pma =
        (pma_write (ep_write s ep buf blen).2 buf2 blen2 recB).pma ∧
      (ep_write s ep buf blen).2.epr (EPR ep) &&& USB_EPTX_STAT =
        s.epr (EPR ep) &&& USB_EPTX_STAT ∧
      (ep_write (ep_write s ep buf blen).2 ep buf2 blen2).2.epr (EPR ep) &&& USB_EPTX_STAT =
        s.epr (EPR ep) &&& USB_EPTX_STAT := by
  have hk := ep_write_dbl_key s ep buf blen hkind h
  have a := ep_write_dbl_step s ep buf blen hk
  have hk2 : (ep_write s ep buf blen).2.epr (EPR ep) &&&
      (USB_EPTX_STAT ||| USB_EP_T_FIELD ||| USB_EP_KIND) =
      (USB_EP_TX_NAK ||| USB_EP_BULK ||| USB_EP_KIND) := by
    rw [and_narrow _ _ _ _ a.2.1 (by decide)]; exact hk
  have b := ep_write_dbl_step (ep_write s ep buf blen).2 ep buf2 blen2 hk2
  have st1 := and_narrow _ _ _ USB_EPTX_STAT a.2.1 (by decide)
  have st2 := and_narrow _ _ _ USB_EPTX_STAT b.2.1 (by decide)
  by_cases hb : s.epr (EPR ep) &&& USB_EP_SWBUF_TX = 0
  · exact ⟨tx0 (EPT ep), tx1 (EPT ep), Or.inl ⟨rfl, rfl⟩, (a.2.2.1 hb).1, b.1,
      (b.2.2.2 (a.2.2.1 hb).2).1, st1, st2.trans st1⟩
  · exact ⟨tx1 (EPT ep), tx0 (EPT ep), Or.inr ⟨rfl, rfl⟩, (a.2.2.2 hb).1, b.1,
      (b.2.2.1 (a.2.2.2 hb).2).1, st1, st2.trans st1⟩

end V0

namespace V1

theorem tx_store_epr_v1 (s : State) (cntw adrw : Nat) (buf : Nat → Nat) (blen : Nat) :
    (tx_store s cntw adrw buf blen).epr = s.epr := rfl

/-- Path: double-buffered bulk (v1). -/
theorem ep_write_path_dbl_v1 (s : State) (ep : Nat) (buf : Nat → Nat) (blen : Nat)
    (h : s.epr (EPR ep) &&& (USB_EP_T_FIELD ||| USB_EP_KIND) =
      (USB_EP_BULK ||| USB_EP_KIND)) :
    ep_write s ep buf blen =
      (blen,
        reg_wr
          (if s.epr (EPR ep) &&& USB_EP_SWBUF_TX ≠ 0 then
            tx_store s (txcnt1 (EPT ep)) (txadr1 (EPT ep)) buf blen
          else tx_store s (txcnt0 (EPT ep)) (txadr0 (EPT ep)) buf blen)
          (EPR ep) ((s.epr (EPR ep) &&& USB_EPREG_MASK) ||| USB_EP_SWBUF_TX)) := by
  by_cases hb : s.epr (EPR ep) &&& USB_EP_SWBUF_TX ≠ 0
  · simp only [ep_write, reg_rd, h, if_true, if_pos hb, tx_store_epr_v1]
  · simp only [ep_write, reg_rd, h, if_true, if_neg hb, tx_store_epr_v1]

/-- One write on a double-buffered bulk IN endpoint (v1). -/
theorem ep_write_dbl_step_v1 (s : State) (ep : Nat) (buf : Nat → Nat) (blen : Nat)
    (h : s.epr (EPR ep) &&& (USB_EP_T_FIELD ||| USB_EP_KIND) =
      (USB_EP_BULK ||| USB_EP_KIND)) :
    (ep_write s ep buf blen).1 = blen ∧
    (ep_write s ep buf blen).2.epr (EPR ep) &&& 0xBFFF = s.epr (EPR ep) &&& 0xBFFF ∧
    (s.epr (EPR ep) &&& USB_EP_SWBUF_TX = 0 →
      (ep_write s ep buf blen).2.pma =
        (tx_store s (txcnt0 (EPT ep)) (txadr0 (EPT ep)) buf blen).pma ∧
      (ep_write s ep buf blen).2.epr (EPR ep) &&& USB_EP_SWBUF_TX ≠ 0) ∧
    (s.epr (EPR ep) &&& USB_EP_SWBUF_TX ≠ 0 →
      (ep_write s ep buf blen).2.pma =
        (tx_store s (txcnt1 (EPT ep)) (txadr1 (EPT ep)) buf blen).pma ∧
      (ep_write s ep buf blen).2.epr (EPR ep) &&& USB_EP_SWBUF_TX = 0) := by
  rw [ep_write_path_dbl_v1 s ep buf blen h]
  have sw := swbuf_tx_switch
    (if s.epr (EPR ep) &&& USB_EP_SWBUF_TX ≠ 0 then
      tx_store s (txcnt1 (EPT ep)) (txadr1 (EPT ep)) buf blen
    else tx_store s (txcnt0 (EPT ep)) (txadr0 (EPT ep)) buf blen)
    (EPR ep) (s.epr (EPR ep)) (by split_ifs <;> rfl)
  refine ⟨rfl, sw.1, fun h0 => ⟨?_, sw.2.1 h0⟩, fun h1 => ⟨?_, sw.2.2 h1⟩⟩
  · rw [if_neg (fun c => c h0)]; rfl
  · rw [if_pos h1]; rfl

/-- Two writes in a row on a double-buffered bulk IN endpoint (v1). -/
theorem write_twice_dbl_v1 (s : State) (ep : Nat) (buf buf2 : Nat → Nat) (blen blen2 : Nat)
    (hbulk : s.epr (EPR ep) &&& USB_EP_T_FIELD = USB_EP_BULK)
    (hkind : s.epr (EPR ep) &&& USB_EP_KIND = USB_EP_KIND) :
    ∃ cA aA cB aB,
      ((cA = txcnt0 (EPT ep) ∧ aA = txadr0 (EPT ep) ∧
          cB = txcnt1 (EPT ep) ∧ aB = txadr1 (EPT ep)) ∨
        (cA = txcnt1 (EPT ep) ∧ aA = txadr1 (EPT ep) ∧
          cB = txcnt0 (EPT ep) ∧ aB = txadr0 (EPT ep))) ∧
      (ep_write s ep buf blen).1 = blen ∧
      (ep_write s ep buf blen).2.pma = (tx_store s cA aA buf blen).pma ∧
      (ep_write (ep_write s ep buf blen).2 ep buf2 blen2).1 = blen2 ∧
      (ep_write (ep_write s ep buf blen).2 ep buf2 blen2).2.pma =
        (tx_store (ep_write s ep buf blen).2 cB aB buf2 blen2).pma ∧
      (ep_write s ep buf blen).2.epr (EPR ep) &&& USB_EPTX_STAT =
        s.epr (EPR ep) &&& USB_EPTX_STAT ∧
      (ep_write (ep_write s ep buf blen).2 ep buf2 blen2).2.epr (EPR ep) &&& USB_EPTX_STAT =
        s.epr (EPR ep) &&& USB_EPTX_STAT := by
  have hk : s.epr (EPR ep) &&& (USB_EP_T_FIELD ||| USB_EP_KIND) =
      (USB_EP_BULK ||| USB_EP_KIND) := by
    rw [Nat.and_or_distrib_left, hbulk, hkind]
  have a := ep_write_dbl_step_v1 s ep buf blen hk
  have hk2 : (ep_write s ep buf blen).2.epr (EPR ep) &&& (USB_EP_T_FIELD ||| USB_EP_KIND) =
      (USB_EP_BULK ||| USB_EP_KIND) := by
    rw [and_narrow _ _ _ _ a.2.1 (by decide)]; exact hk
  have b := ep_write_dbl_step_v1 (ep_write s ep buf blen).2 ep buf2 blen2 hk2
  have st1 := and_narrow _ _ _ USB_EPTX_STAT a.2.1 (by decide)
  have st2 := and_narrow _ _ _ USB_EPTX_STAT b.2.1 (by decide)
  by_cases hb : s.epr (EPR ep) &&& USB_EP_SWBUF_TX = 0
  · exact ⟨txcnt0 (EPT ep), txadr0 (EPT ep), txcnt1 (EPT ep), txadr1 (EPT ep),
      Or.inl ⟨rfl, rfl, rfl, rfl⟩, a.1, (a.2.2.1 hb).1, b.1,
      (b.2.2.2 (a.2.2.1 hb).2).1, st1, st2.trans st1⟩
  · exact ⟨txcnt1 (EPT ep), txadr1 (EPT ep), txcnt0 (EPT ep), txadr0 (EPT ep),
      Or.inr ⟨rfl, rfl, rfl, rfl⟩, a.1, (a.2.2.2 hb).1, b.1,
      (b.2.2.1 (a.2.2.2 hb).2).1, st1, st2.trans st1⟩

end V1

/-! ## C21: what two writes in a row leave in the two slots -/

namespace Usb

/-- A store of a count word followed by the copy loop, with the count word
below the slot: the count word reads `blen`, the slot holds the payload, and
no other byte changes. -/
theorem store_spec (st : Nat) (hst : 2 ≤ st) (buf : Nat → Nat) (blen base cw : Nat)
    (m : Nat → Nat) (hb : ∀ j, j < blen → buf j < 256) (hlen : blen < 65536)
    (hsep : cw + 2 ≤ base) :
    rd16 (pma_write_loop st buf blen 0 base (wr16 m cw blen)) cw = blen ∧
    slot_holds (pma_write_loop st buf blen 0 base (wr16 m cw blen)) base st buf blen ∧
    ∀ x, x ≠ cw → x ≠ cw + 1 → x < base ∨ base + st * ((blen + 1) / 2) ≤ x →
      pma_write_loop st buf blen 0 base (wr16 m cw blen) x = m x := by
  have hl := pma_write_loop_spec st hst buf blen 0 base (wr16 m cw blen)
    (fun j hj => by simpa using hb j hj)
  simp only [Nat.zero_add] at hl
  refine ⟨?_, fun k _ => ⟨hl.1 k, hl.2 k⟩, fun x h1 h2 hx => ?_⟩
  · rw [rd16_congr _ (wr16 m cw blen) cw
      (pma_write_loop_below _ _ _ _ _ _ _ (by omega))
      (pma_write_loop_below _ _ _ _ _ _ _ (by omega)), rd16_wr16_same]
    omega
  · rcases hx with hx | hx
    · rw [pma_write_loop_below _ _ _ _ _ _ _ hx]
      exact wr16_other _ _ _ _ h1 h2
    · rw [pma_write_loop_above st hst _ _ _ _ _ _ hx]
      exact wr16_other _ _ _ _ h1 h2

/-- A slot keeps holding its payload when the bytes of its words do not
change. -/
theorem slot_holds_congr (m m2 : Nat → Nat) (base st : Nat) (hst : 2 ≤ st) (buf : Nat → Nat)
    (len : Nat) (h : slot_holds m base st buf len)
    (he : ∀ x, base ≤ x → x < base + st * ((len + 1) / 2) → m2 x = m x) :
    slot_holds m2 base st buf len := by
  intro k hk
  by_cases hk2 : 2 * k + 1 ≤ len
  · have hk1 : k + 1 ≤ (len + 1) / 2 := by omega
    have hm := Nat.mul_le_mul_left st hk1
    rw [Nat.mul_succ] at hm
    have e : rd16 m2 (base + st * k) = rd16 m (base + st * k) :=
      rd16_congr _ _ _ (he _ (by omega) (by omega)) (he _ (by omega) (by omega))
    rw [e]
    exact h k hk
  · exact ⟨fun c => by omega, fun c => by omega⟩

/-- Two stores in a row through two count words below `top` into two slots at
or above `top`: each count word reads the length of its store, the second slot
holds the second payload, and the first slot still holds the first payload
when the second store stays clear of it. -/
theorem two_stores (st : Nat) (hst : 2 ≤ st) (buf buf2 : Nat → Nat) (blen blen2 : Nat)
    (m : Nat → Nat) (top cA bA cB bB : Nat)
    (hb : ∀ j, j < blen → buf j < 256) (hb2 : ∀ j, j < blen2 → buf2 j < 256)
    (hlen : blen < 65536) (hlen2 : blen2 < 65536)
    (hcA : cA + 2 ≤ top) (hcB : cB + 2 ≤ top) (hbA : top ≤ bA) (hbB : top ≤ bB)
    (hAB : cA + 2 ≤ cB ∨ cB + 2 ≤ cA) :
    rd16 (pma_write_loop st buf blen 0 bA (wr16 m cA blen)) cA = blen ∧
    slot_holds (pma_write_loop st buf blen 0 bA (wr16 m cA blen)) bA st buf blen ∧
    rd16 (pma_write_loop st buf2 blen2 0 bB
      (wr16 (pma_write_loop st buf blen 0 bA (wr16 m cA blen)) cB blen2)) cB = blen2 ∧
    slot_holds (pma_write_loop st buf2 blen2 0 bB
      (wr16 (pma_write_loop st buf blen 0 bA (wr16 m cA blen)) cB blen2)) bB st buf2 blen2 ∧
    rd16 (pma_write_loop st buf2 blen2 0 bB
      (wr16 (pma_write_loop st buf blen 0 bA (wr16 m cA blen)) cB blen2)) cA = blen ∧
    (bA + st * ((blen + 1) / 2) ≤ bB ∨ bB + st * ((blen2 + 1) / 2) ≤ bA →
      slot_holds (pma_write_loop st buf2 blen2 0 bB
        (wr16 (pma_write_loop st buf blen 0 bA (wr16 m cA blen)) cB blen2)) bA st buf blen) := by
  obtain ⟨a1, a2, _⟩ := store_spec st hst buf blen bA cA m hb hlen (by omega)
  obtain ⟨b1, b2, b3⟩ := store_spec st hst buf2 blen2 bB cB
    (pma_write_loop st buf blen 0 bA (wr16 m cA blen)) hb2 hlen2 (by omega)
  refine ⟨a1, a2, b1, b2, ?_, fun hd => ?_⟩
  · rw [rd16_congr _ _ cA (b3 cA (by omega) (by omega) (Or.inl (by omega)))
      (b3 (cA + 1) (by omega) (by omega) (Or.inl (by omega)))]
    exact a1
  · refine slot_holds_congr _ _ bA st hst buf blen a2 (fun x hx1 hx2 => ?_)
    apply b3 x (by omega) (by omega)
    rcases hd with hd | hd
    · exact Or.inl (by omega)
    · exact Or.inr (by omega)

end Usb

namespace V0

/-- Two writes in a row on a double-buffered bulk IN endpoint (v0) whose two
slots lie above the descriptor table: which count words and slots hold what
afterwards. -/
theorem write_twice_dbl_slots (s : State) (ep : Nat) (buf buf2 : Nat → Nat)
    (blen blen2 : Nat)
    (hkind : s.epr (EPR ep) &&& USB_EP_KIND = USB_EP_KIND)
    (h : (ep_write s ep buf blen).1 ≠ -1)
    (h0 : 64 ≤ rd16 s.pma (addr (tx0 (EPT ep))))
    (h1 : 64 ≤ rd16 s.pma (addr (tx1 (EPT ep))))
    (hb : ∀ j, j < blen → buf j < 256) (hb2 : ∀ j, j < blen2 → buf2 j < 256)
    (hlen : blen < 65536) (hlen2 : blen2 < 65536) :
    ∃ recA recB,
      ((recA = tx0 (EPT ep) ∧ recB = tx1 (EPT ep)) ∨
        (recA = tx1 (EPT ep) ∧ recB = tx0 (EPT ep))) ∧
      rd16 (ep_write s ep buf blen).2.pma (cnt recA) = blen ∧
      slot_holds (ep_write s ep buf blen).2.pma (rd16 s.pma (addr recA)) 2 buf blen ∧
      (ep_write (ep_write s ep buf blen).2 ep buf2 blen2).1 = Int.ofNat blen2 ∧
      rd16 (ep_write (ep_write s ep buf blen).2 ep buf2 blen2).2.pma (cnt recB) = blen2 ∧
      slot_holds (ep_write (ep_write s ep buf blen).2 ep buf2 blen2).2.pma
        (rd16 s.pma (addr recB)) 2 buf2 blen2 ∧
      rd16 (ep_write (ep_write s ep buf blen).2 ep buf2 blen2).2.pma (cnt recA) = blen ∧
      (rd16 s.pma (addr recA) + round_even blen ≤ rd16 s.pma (addr recB) ∨
          rd16 s.pma (addr recB) + round_even blen2 ≤ rd16 s.pma (addr recA) →
        slot_holds (ep_write (ep_write s ep buf blen).2 ep buf2 blen2).2.pma
          (rd16 s.pma (addr recA)) 2 buf blen) ∧
      (ep_write s ep buf blen).2.epr (EPR ep) &&& USB_EPTX_STAT =
        s.epr (EPR ep) &&& USB_EPTX_STAT ∧
      (ep_write (ep_write s ep buf blen).2 ep buf2 blen2).2.epr (EPR ep) &&& USB_EPTX_STAT =
        s.epr (EPR ep) &&& USB_EPTX_STAT := by
  obtain ⟨recA, recB, hopp, e1, r2, e2, st1, st2⟩ :=
    write_twice_dbl s ep buf buf2 blen blen2 hkind h
  have hE := EPT_lt ep
  have hA : recA + 4 ≤ 64 ∧ 64 ≤ rd16 s.pma recA ∧ recB + 4 ≤ 64 ∧ 64 ≤ rd16 s.pma recB ∧
      (recA + 4 ≤ recB ∨ recB + 4 ≤ recA) := by
    simp only [tx0, tx1, addr] at hopp h0 h1
    rcases hopp with ⟨a, b⟩ | ⟨a, b⟩ <;> subst a <;> subst b <;>
      exact ⟨by omega, by assumption, by omega, by assumption, by omega⟩
  obtain ⟨hA1, hA2, hB1, hB2, hAB⟩ := hA
  have hs1 : (ep_write s ep buf blen).2.pma =
      pma_write_loop 2 buf blen 0 (rd16 s.pma recA) (wr16 s.pma (recA + 2) blen) :=
    e1.trans rfl
  have fr := (store_spec 2 (le_refl 2) buf blen (rd16 s.pma recA) (recA + 2) s.pma hb hlen
    (by omega)).2.2
  have hrB : rd16 (ep_write s ep buf blen).2.pma recB = rd16 s.pma recB := by
    rw [hs1]
    exact rd16_congr _ _ _ (fr recB (by omega) (by omega) (Or.inl (by omega)))
      (fr (recB + 1) (by omega) (by omega) (Or.inl (by omega)))
  have hs2 : (ep_write (ep_write s ep buf blen).2 ep buf2 blen2).2.pma =
      pma_write_loop 2 buf2 blen2 0 (rd16 s.pma recB)
        (wr16 (pma_write_loop 2 buf blen 0 (rd16 s.pma recA) (wr16 s.pma (recA + 2) blen))
          (recB + 2) blen2) := by
    have e : (ep_write (ep_write s ep buf blen).2 ep buf2 blen2).2.pma =
        pma_write_loop 2 buf2 blen2 0 (rd16 (ep_write s ep buf blen).2.pma recB)
          (wr16 (ep_write s ep buf blen).2.pma (recB + 2) blen2) := e2.trans rfl
    rw [hrB, hs1] at e
    exact e
  obtain ⟨t1, t2, t3, t4, t5, t6⟩ := two_stores 2 (le_refl 2) buf buf2 blen blen2 s.pma 64
    (recA + 2) (rd16 s.pma recA) (recB + 2) (rd16 s.pma recB) hb hb2 hlen hlen2
    (by omega) (by omega) hA2 hB2 (by omega)
  refine ⟨recA, recB, hopp, ?_, ?_, r2, ?_, ?_, ?_, ?_, st1, st2⟩
  · rw [hs1]; exact t1
  · rw [hs1]; exact t2
  · rw [hs2]; exact t3
  · rw [hs2]; exact t4
  · rw [hs2]; exact t5
  · intro hd
    rw [hs2]
    apply t6
    simp only [round_even, addr] at hd
    rcases hd with hd | hd
    · exact Or.inl (by omega)
    · exact Or.inr (by omega)

end V0

namespace V1

/-- Two writes in a row on a double-buffered bulk IN endpoint (v1) whose two
slots lie above the descriptor table: which count words and slots hold what
afterwards. -/
theorem write_twice_dbl_slots_v1 (s : State) (ep : Nat) (buf buf2 : Nat → Nat)
    (blen blen2 : Nat)
    (hbulk : s.epr (EPR ep) &&& USB_EP_T_FIELD = USB_EP_BULK)
    (hkind : s.epr (EPR ep) &&& USB_EP_KIND = USB_EP_KIND)
    (h0 : 64 ≤ rd16 s.pma (txadr0 (EPT ep)))
    (h1 : 64 ≤ rd16 s.pma (txadr1 (EPT ep)))
    (hb : ∀ j, j < blen → buf j < 256) (hb2 : ∀ j, j < blen2 → buf2 j < 256)
    (hlen : blen < 65536) (hlen2 : blen2 < 65536) :
    ∃ cA aA cB aB,
      ((cA = txcnt0 (EPT ep) ∧ aA = txadr0 (EPT ep) ∧
          cB = txcnt1 (EPT ep) ∧ aB = txadr1 (EPT ep)) ∨
        (cA = txcnt1 (EPT ep) ∧ aA = txadr1 (EPT ep) ∧
          cB = txcnt0 (EPT ep) ∧ aB = txadr0 (EPT ep))) ∧
      (ep_write s ep buf blen).1 = blen ∧
      rd16 (ep_write s ep buf blen).2.pma cA = blen ∧
      slot_holds (ep_write s ep buf blen).2.pma (2 * rd16 s.pma aA) 4 buf blen ∧
      (ep_write (ep_write s ep buf blen).2 ep buf2 blen2).1 = blen2 ∧
      rd16 (ep_write (ep_write s ep buf blen).2 ep buf2 blen2).2.pma cB = blen2 ∧
      slot_holds (ep_write (ep_write s ep buf blen).2 ep buf2 blen2).2.pma
        (2 * rd16 s.pma aB) 4 buf2 blen2 ∧
      rd16 (ep_write (ep_write s ep buf blen).2 ep buf2 blen2).2.pma cA = blen ∧
      (rd16 s.pma aA + round_even blen ≤ rd16 s.pma aB ∨
          rd16 s.pma aB + round_even blen2 ≤ rd16 s.pma aA →
        slot_holds (ep_write (ep_write s ep buf blen).2 ep buf2 blen2).2.pma
          (2 * rd16 s.pma aA) 4 buf blen) ∧
      (ep_write s ep buf blen).2.epr (EPR ep) &&& USB_EPTX_STAT =
        s.epr (EPR ep) &&& USB_EPTX_STAT ∧
      (ep_write (ep_write s ep buf blen).2 ep buf2 blen2).2.epr (EPR ep) &&& USB_EPTX_STAT =
        s.epr (EPR ep) &&& USB_EPTX_STAT := by
  obtain ⟨cA, aA, cB, aB, hopp, r1, e1, r2, e2, st1, st2⟩ :=
    write_twice_dbl_v1 s ep buf buf2 blen blen2 hbulk hkind
  have hE := EPT_lt_v1 ep
  have hA : cA = aA + 4 ∧ cB = aB + 4 ∧ aA + 8 ≤ 128 ∧ aB + 8 ≤ 128 ∧
      64 ≤ rd16 s.pma aA ∧ 64 ≤ rd16 s.pma aB ∧ (aA + 8 ≤ aB ∨ aB + 8 ≤ aA) := by
    simp only [txcnt0, txcnt1, txadr0, txadr1] at hopp h0 h1
    rcases hopp with ⟨a, b, c, d⟩ | ⟨a, b, c, d⟩ <;> subst a <;> subst b <;> subst c <;>
      subst d <;>
      exact ⟨rfl, rfl, by omega, by omega, by assumption, by assumption, by omega⟩
  obtain ⟨hcA, hcB, hA1, hB1, hA2, hB2, hAB⟩ := hA
  subst hcA
  subst hcB
  have hs1 : (ep_write s ep buf blen).2.pma =
      pma_write_loop 4 buf blen 0 (2 * rd16 s.pma aA) (wr16 s.pma (aA + 4) blen) := by
    rw [e1]
    simp only [tx_store, pma_write, pma_wr]
    rw [rd16_wr16_other _ _ _ _ (Or.inl (by omega))]
  have fr := (store_spec 4 (by omega) buf blen (2 * rd16 s.pma aA) (aA + 4) s.pma hb hlen
    (by omega)).2.2
  have hrB : rd16 (ep_write s ep buf blen).2.pma aB = rd16 s.pma aB := by
    rw [hs1]
    exact rd16_congr _ _ _ (fr aB (by omega) (by omega) (Or.inl (by omega)))
      (fr (aB + 1) (by omega) (by omega) (Or.inl (by omega)))
  have hs2 : (ep_write (ep_write s ep buf blen).2 ep buf2 blen2).2.pma =
      pma_write_loop 4 buf2 blen2 0 (2 * rd16 s.pma aB)
        (wr16 (pma_write_loop 4 buf blen 0 (2 * rd16 s.pma aA) (wr16 s.pma (aA + 4) blen))
          (aB + 4) blen2) := by
    have e : (ep_write (ep_write s ep buf blen).2 ep buf2 blen2).2.pma =
        pma_write_loop 4 buf2 blen2 0 (2 * rd16 (ep_write s ep buf blen).2.pma aB)
          (wr16 (ep_write s ep buf blen).2.pma (aB + 4) blen2) := by
      rw [e2]
      simp only [tx_store, pma_write, pma_wr]
      rw [rd16_wr16_other _ _ _ _ (Or.inl (by omega))]
    rw [hrB, hs1] at e
    exact e
  obtain ⟨t1, t2, t3, t4, t5, t6⟩ := two_stores 4 (by omega) buf buf2 blen blen2 s.pma 128
    (aA + 4) (2 * rd16 s.pma aA) (aB + 4) (2 * rd16 s.pma aB) hb hb2 hlen hlen2
    (by omega) (by omega) (by omega) (by omega) (by omega)
  refine ⟨aA + 4, aA, aB + 4, aB, hopp, r1, ?_, ?_, r2, ?_, ?_, ?_, ?_, st1, st2⟩
  · rw [hs1]; exact t1
  · rw [hs1]; exact t2
  · rw [hs2]; exact t3
  · rw [hs2]; exact t4
  · rw [hs2]; exact t5
  · intro hd
    rw [hs2]
    apply t6
    simp only [round_even] at hd
    rcases hd with hd | hd
    · exact Or.inl (by omega)
    · exact Or.inr (by omega)

end V1

/-- C21: on a double-buffered bulk IN endpoint whose two TX records hold slot
offsets (at least 64, as the allocator hands them out), two `ep_write` calls
issued one after the other store through opposite slots, one through slot 0
(`tx0` in v0, `txcnt0`/`txadr0` in v1) and the other through slot 1. After the
first call the count word of its slot reads the first length and the slot
holds the first payload; after the second call the count word of the other
slot reads the second length and that slot holds the second payload, the first
count word still reads the first length, and the first payload is still in its
slot when the two stored regions do not overlap. After each call the TX status
is what it was before the first. In v0 this holds whenever the first call does
not fail, and then the second does not fail either; in v1 `ep_write` never
fails. -/
theorem C21_dbl_writes_alternate (s : State) (ep : Nat) (buf buf2 : Nat → Nat)
    (blen blen2 : Nat)
    (hbulk : s.epr (EPR ep) &&& USB_EP_T_FIELD = USB_EP_BULK)
    (hkind : s.epr (EPR ep) &&& USB_EP_KIND = USB_EP_KIND)
    (hb : ∀ j, j < blen → buf j < 256) (hb2 : ∀ j, j < blen2 → buf2 j < 256)
    (hlen : blen < 65536) (hlen2 : blen2 < 65536) :
    ((V0.ep_write s ep buf blen).1 ≠ -1 →
      64 ≤ rd16 s.pma (V0.addr (V0.tx0 (V0.EPT ep))) →
      64 ≤ rd16 s.pma (V0.addr (V0.tx1 (V0.EPT ep))) →
      ∃ recA recB,
        ((recA = V0.tx0 (V0.EPT ep) ∧ recB = V0.tx1 (V0.EPT ep)) ∨
          (recA = V0.tx1 (V0.EPT ep) ∧ recB = V0.tx0 (V0.EPT ep))) ∧
        rd16 (V0.ep_write s ep buf blen).2.pma (V0.cnt recA) = blen ∧
        slot_holds (V0.ep_write s ep buf blen).2.pma (rd16 s.pma (V0.addr recA)) 2 buf blen ∧
        (V0.ep_write (V0.ep_write s ep buf blen).2 ep buf2 blen2).1 = Int.ofNat blen2 ∧
        rd16 (V0.ep_write (V0.ep_write s ep buf blen).2 ep buf2 blen2).2.pma (V0.cnt recB) =
          blen2 ∧
        slot_holds (V0.ep_write (V0.ep_write s ep buf blen).2 ep buf2 blen2).2.pma
          (rd16 s.pma (V0.addr recB)) 2 buf2 blen2 ∧
        rd16 (V0.ep_write (V0.ep_write s ep buf blen).2 ep buf2 blen2).2.pma (V0.cnt recA) =
          blen ∧
        (rd16 s.pma (V0.addr recA) + round_even blen ≤ rd16 s.pma (V0.addr recB) ∨
            rd16 s.pma (V0.addr recB) + round_even blen2 ≤ rd16 s.pma (V0.addr recA) →
          slot_holds (V0.ep_write (V0.ep_write s ep buf blen).2 ep buf2 blen2).2.pma
            (rd16 s.pma (V0.addr recA)) 2 buf blen) ∧
        (V0.ep_write s ep buf blen).2.epr (EPR ep) &&& USB_EPTX_STAT =
          s.epr (EPR ep) &&& USB_EPTX_STAT ∧
        (V0.ep_write (V0.ep_write s ep buf blen).2 ep buf2 blen2).2.epr (EPR ep) &&&
          USB_EPTX_STAT = s.epr (EPR ep) &&& USB_EPTX_STAT) ∧
    (64 ≤ rd16 s.pma (V1.txadr0 (V1.EPT ep)) →
      64 ≤ rd16 s.pma (V1.txadr1 (V1.EPT ep)) →
      ∃ cA aA cB aB,
        ((cA = V1.txcnt0 (V1.EPT ep) ∧ aA = V1.txadr0 (V1.EPT ep) ∧
            cB = V1.txcnt1 (V1.EPT ep) ∧ aB = V1.txadr1 (V1.EPT ep)) ∨
          (cA = V1.txcnt1 (V1.EPT ep) ∧ aA = V1.txadr1 (V1.EPT ep) ∧
            cB = V1.txcnt0 (V1.EPT ep) ∧ aB = V1.txadr0 (V1.EPT ep))) ∧
        (V1.ep_write s ep buf blen).1 = blen ∧
        rd16 (V1.ep_write s ep buf blen).2.pma cA = blen ∧
        slot_holds (V1.ep_write s ep buf blen).2.pma (2 * rd16 s.pma aA) 4 buf blen ∧
        (V1.ep_write (V1.ep_write s ep buf blen).2 ep buf2 blen2).1 = blen2 ∧
        rd16 (V1.ep_write (V1.ep_write s ep buf blen).2 ep buf2 blen2).2.pma cB = blen2 ∧
        slot_holds (V1.ep_write (V1.ep_write s ep buf blen).2 ep buf2 blen2).2.pma
          (2 * rd16 s.pma aB) 4 buf2 blen2 ∧
        rd16 (V1.ep_write (V1.ep_write s ep buf blen).2 ep buf2 blen2).2.pma cA = blen ∧
        (rd16 s.pma aA + round_even blen ≤ rd16 s.pma aB ∨
            rd16 s.pma aB + round_even blen2 ≤ rd16 s.pma aA →
          slot_holds (V1.ep_write (V1.ep_write s ep buf blen).2 ep buf2 blen2).2.pma
            (2 * rd16 s.pma aA) 4 buf blen) ∧
        (V1.ep_write s ep buf blen).2.epr (EPR ep) &&& USB_EPTX_STAT =
          s.epr (EPR ep) &&& USB_EPTX_STAT ∧
        (V1.ep_write (V1.ep_write s ep buf blen).2 ep buf2 blen2).2.epr (EPR ep) &&&
          USB_EPTX_STAT = s.epr (EPR ep) &&& USB_EPTX_STAT) :=
  ⟨fun h h0 h1 =>
      V0.write_twice_dbl_slots s ep buf buf2 blen blen2 hkind h h0 h1 hb hb2 hlen hlen2,
    fun h0 h1 =>
      V1.write_twice_dbl_slots_v1 s ep buf buf2 blen blen2 hbulk hkind h0 h1 hb hb2 hlen hlen2⟩

theorem C21_dbl_writes_alternate_witness :
    ((V0.ep_write dbl_tx_state 0x81 payload3 3).1 = 3 ∧
      (V0.ep_write (V0.ep_write dbl_tx_state 0x81 payload3 3).2 0x81 payload2 2).1 = 2 ∧
      rd16 (V0.ep_write (V0.ep_write dbl_tx_state 0x81 payload3 3).2 0x81 payload2 2).2.pma
        (V0.cnt (V0.tx0 (V0.EPT 0x81))) = 3 ∧
      rd16 (V0.ep_write (V0.ep_write dbl_tx_state 0x81 payload3 3).2 0x81 payload2 2).2.pma
        64 = 0xBBAA ∧
      rd16 (V0.ep_write (V0.ep_write dbl_tx_state 0x81 payload3 3).2 0x81 payload2 2).2.pma
        66 = 0x00CC ∧
      rd16 (V0.ep_write (V0.ep_write dbl_tx_state 0x81 payload3 3).2 0x81 payload2 2).2.pma
        (V0.cnt (V0.tx1 (V0.EPT 0x81))) = 2 ∧
      rd16 (V0.ep_write (V0.ep_write dbl_tx_state 0x81 payload3 3).2 0x81 payload2 2).2.pma
        128 = 0x2211) ∧
    (∃ recA recB,
      ((recA = V0.tx0 (V0.EPT 0x81) ∧ recB = V0.tx1 (V0.EPT 0x81)) ∨
        (recA = V0.tx1 (V0.EPT 0x81) ∧ recB = V0.tx0 (V0.EPT 0x81))) ∧
      rd16 (V0.ep_write dbl_tx_state 0x81 payload3 3).2.pma (V0.cnt recA) = 3 ∧
      slot_holds (V0.ep_write dbl_tx_state 0x81 payload3 3).2.pma
        (rd16 dbl_tx_state.pma (V0.addr recA)) 2 payload3 3 ∧
      (V0.ep_write (V0.ep_write dbl_tx_state 0x81 payload3 3).2 0x81 payload2 2).1 =
        Int.ofNat 2 ∧
      rd16 (V0.ep_write (V0.ep_write dbl_tx_state 0x81 payload3 3).2 0x81 payload2 2).2.pma
        (V0.cnt recB) = 2 ∧
      slot_holds (V0.ep_write (V0.ep_write dbl_tx_state 0x81 payload3 3).2 0x81 payload2 2).2.pma
        (rd16 dbl_tx_state.pma (V0.addr recB)) 2 payload2 2 ∧
      rd16 (V0.ep_write (V0.ep_write dbl_tx_state 0x81 payload3 3).2 0x81 payload2 2).2.pma
        (V0.cnt recA) = 3 ∧
      (rd16 dbl_tx_state.pma (V0.addr recA) + round_even 3 ≤
            rd16 dbl_tx_state.pma (V0.addr recB) ∨
          rd16 dbl_tx_state.pma (V0.addr recB) + round_even 2 ≤
            rd16 dbl_tx_state.pma (V0.addr recA) →
        slot_holds
          (V0.ep_write (V0.ep_write dbl_tx_state 0x81 payload3 3).2 0x81 payload2 2).2.pma
          (rd16 dbl_tx_state.pma (V0.addr recA)) 2 payload3 3) ∧
      (V0.ep_write dbl_tx_state 0x81 payload3 3).2.epr (EPR 0x81) &&& USB_EPTX_STAT =
        dbl_tx_state.epr (EPR 0x81) &&& USB_EPTX_STAT ∧
      (V0.ep_write (V0.ep_write dbl_tx_state 0x81 payload3 3).2 0x81 payload2 2).2.epr
        (EPR 0x81) &&& USB_EPTX_STAT = dbl_tx_state.epr (EPR 0x81) &&& USB_EPTX_STAT) ∧
    ((V1.ep_write dbl_tx_state 0x81 payload3 3).1 = 3 ∧
      rd16 (V1.ep_write (V1.ep_write dbl_tx_state 0x81 payload3 3).2 0x81 payload2 2).2.pma
        (V1.txcnt0 (V1.EPT 0x81)) = 3 ∧
      rd16 (V1.ep_write (V1.ep_write dbl_tx_state 0x81 payload3 3).2 0x81 payload2 2).2.pma
        128 = 0xBBAA ∧
      rd16 (V1.ep_write (V1.ep_write dbl_tx_state 0x81 payload3 3).2 0x81 payload2 2).2.pma
        132 = 0x00CC ∧
      rd16 (V1.ep_write (V1.ep_write dbl_tx_state 0x81 payload3 3).2 0x81 payload2 2).2.pma
        (V1.txcnt1 (V1.EPT 0x81)) = 2 ∧
      rd16 (V1.ep_write (V1.ep_write dbl_tx_state 0x81 payload3 3).2 0x81 payload2 2).2.pma
        256 = 0x2211) :=
  ⟨by decide,
    (C21_dbl_writes_alternate dbl_tx_state 0x81 payload3 payload2 3 2
      (by decide) (by decide) (by decide) (by decide) (by decide) (by decide)).1
      (by decide) (by decide) (by decide),
    by decide⟩

/-! ## C33: what `evt_poll` acknowledges -/

namespace Usb

theorem acks_of_clear (s s2 : State) (flag : Nat)
    (h : s2.istr = s.istr &&& (0xFFFF ^^^ flag)) (hf : (0xFFFF ^^^ flag) &&& flag = 0) :
    acks_only s s2 flag := by
  constructor
  · rw [h, Nat.and_assoc, hf, Nat.and_zero]
  · rw [h, Nat.and_assoc, Nat.and_self]

/-- The value of ISTR after the branches below transfer-complete. -/
theorem evt_poll_other_istr (deconfig : State → Nat → State)
    (hd : ∀ (l : List Nat) (s : State), (l.foldl deconfig s).istr = s.istr)
    (s : State) (i e : Nat) :
    (i &&& USB_ISTR_RESET ≠ 0 →
      (evt_poll_other deconfig s i e).2.istr = s.istr &&& (0xFFFF ^^^ USB_ISTR_RESET)) ∧
    (i &&& USB_ISTR_RESET = 0 → i &&& USB_ISTR_SOF ≠ 0 →
      (evt_poll_other deconfig s i e).2.istr = s.istr &&& (0xFFFF ^^^ USB_ISTR_SOF)) ∧
    (i &&& USB_ISTR_RESET = 0 → i &&& USB_ISTR_SOF = 0 → i &&& USB_ISTR_WKUP ≠ 0 →
      (evt_poll_other deconfig s i e).2.istr = s.istr &&& (0xFFFF ^^^ USB_ISTR_WKUP)) ∧
    (i &&& USB_ISTR_RESET = 0 → i &&& USB_ISTR_SOF = 0 → i &&& USB_ISTR_WKUP = 0 →
      i &&& USB_ISTR_SUSP ≠ 0 →
      (evt_poll_other deconfig s i e).2.istr = s.istr &&& (0xFFFF ^^^ USB_ISTR_SUSP)) ∧
    (i &&& USB_ISTR_RESET = 0 → i &&& USB_ISTR_SOF = 0 → i &&& USB_ISTR_WKUP = 0 →
      i &&& USB_ISTR_SUSP = 0 → i &&& USB_ISTR_ESOF ≠ 0 →
      (evt_poll_other deconfig s i e).2.istr = s.istr &&& (0xFFFF ^^^ USB_ISTR_ESOF)) ∧
    (i &&& USB_ISTR_RESET = 0 → i &&& USB_ISTR_SOF = 0 → i &&& USB_ISTR_WKUP = 0 →
      i &&& USB_ISTR_SUSP = 0 → i &&& USB_ISTR_ESOF = 0 → i &&& USB_ISTR_ERR ≠ 0 →
      (evt_poll_other deconfig s i e).2.istr = s.istr &&& (0xFFFF ^^^ USB_ISTR_ERR)) := by
  refine ⟨?_, ?_, ?_, ?_, ?_, ?_⟩
  · intro h1
    rw [evt_poll_other_reset _ _ _ _ h1]
    exact hd _ _
  · intro h1 h2
    simp [evt_poll_other, h1, h2, istr_clear]
  · intro h1 h2 h3
    simp [evt_poll_other, h1, h2, h3, istr_clear]
  · intro h1 h2 h3 h4
    simp [evt_poll_other, h1, h2, h3, h4, istr_clear]
  · intro h1 h2 h3 h4 h5
    simp [evt_poll_other, h1, h2, h3, h4, h5, istr_clear]
  · intro h1 h2 h3 h4 h5 h6
    simp [evt_poll_other, h1, h2, h3, h4, h5, h6, istr_clear]

end Usb

namespace V0

/-- The transfer-complete branch of `evt_poll`: only the reported direction's
CTR flag of the endpoint register changes. -/
theorem evt_poll_ctr_ack (s : State) (h : s.istr &&& USB_ISTR_CTR ≠ 0) :
    (s.epr (EPR (s.istr &&& USB_ISTR_EP_ID)) &&& USB_EP_CTR_TX ≠ 0 →
      (evt_poll s).2.epr (EPR (s.istr &&& USB_ISTR_EP_ID)) &&& USB_EP_CTR_TX = 0 ∧
      (evt_poll s).2.epr (EPR (s.istr &&& USB_ISTR_EP_ID)) &&& 0xFF7F =
        s.epr (EPR (s.istr &&& USB_ISTR_EP_ID)) &&& 0xFF7F) ∧
    (s.epr (EPR (s.istr &&& USB_ISTR_EP_ID)) &&& USB_EP_CTR_TX = 0 →
      (evt_poll s).2.epr (EPR (s.istr &&& USB_ISTR_EP_ID)) &&& USB_EP_CTR_RX = 0 ∧
      (evt_poll s).2.epr (EPR (s.istr &&& USB_ISTR_EP_ID)) &&& 0x7FFF =
        s.epr (EPR (s.istr &&& USB_ISTR_EP_ID)) &&& 0x7FFF) ∧
    (evt_poll s).2.istr = s.istr ∧
    (∀ i, i ≠ EPR (s.istr &&& USB_ISTR_EP_ID) → (evt_poll s).2.epr i = s.epr i) ∧
    (evt_poll s).2.pma = s.pma := by
  simp only [evt_poll, if_pos h, reg_rd]
  by_cases htx : s.epr (EPR (s.istr &&& USB_ISTR_EP_ID)) &&& USB_EP_CTR_TX ≠ 0
  · simp only [if_pos htx, reg_wr_epr_same]
    refine ⟨fun _ => ⟨ctr_tx_clear_flag _, ctr_tx_clear_frame _⟩, fun c => absurd c htx,
      rfl, fun i hi => reg_wr_epr_other _ _ _ _ hi, rfl⟩
  · simp only [if_neg htx, reg_wr_epr_same]
    refine ⟨fun c => absurd c htx, fun _ => ⟨ctr_rx_clear_flag _, ctr_rx_clear_frame _⟩,
      rfl, fun i hi => reg_wr_epr_other _ _ _ _ hi, rfl⟩

end V0

/-- C33: in v0 `evt_poll` clears exactly the acknowledgement bit of the event
it reports. For reset, SOF, wakeup, suspend, ESOF and error (taken in that
order when CTR is clear) the ISTR bit of the event is cleared and every other
ISTR bit is as before. For transfer-complete, the endpoint register loses
CTR_TX if that flag was set and CTR_RX otherwise, every other bit of it
(status fields, toggles, type, kind, address, the other CTR flag) is as
before, and ISTR, the other registers and the packet memory are untouched. -/
theorem C33_poll_acknowledges (s : State) :
    (s.istr &&& USB_ISTR_CTR = 0 → s.istr &&& USB_ISTR_RESET ≠ 0 →
      acks_only s (V0.evt_poll s).2 USB_ISTR_RESET) ∧
    (s.istr &&& USB_ISTR_CTR = 0 → s.istr &&& USB_ISTR_RESET = 0 →
      s.istr &&& USB_ISTR_SOF ≠ 0 → acks_only s (V0.evt_poll s).2 USB_ISTR_SOF) ∧
    (s.istr &&& USB_ISTR_CTR = 0 → s.istr &&& USB_ISTR_RESET = 0 →
      s.istr &&& USB_ISTR_SOF = 0 → s.istr &&& USB_ISTR_WKUP ≠ 0 →
      acks_only s (V0.evt_poll s).2 USB_ISTR_WKUP) ∧
    (s.istr &&& USB_ISTR_CTR = 0 → s.istr &&& USB_ISTR_RESET = 0 →
      s.istr &&& USB_ISTR_SOF = 0 → s.istr &&& USB_ISTR_WKUP = 0 →
      s.istr &&& USB_ISTR_SUSP ≠ 0 → acks_only s (V0.evt_poll s).2 USB_ISTR_SUSP) ∧
    (s.istr &&& USB_ISTR_CTR = 0 → s.istr &&& USB_ISTR_RESET = 0 →
      s.istr &&& USB_ISTR_SOF = 0 → s.istr &&& USB_ISTR_WKUP = 0 →
      s.istr &&& USB_ISTR_SUSP = 0 → s.istr &&& USB_ISTR_ESOF ≠ 0 →
      acks_only s (V0.evt_poll s).2 USB_ISTR_ESOF) ∧
    (s.istr &&& USB_ISTR_CTR = 0 → s.istr &&& USB_ISTR_RESET = 0 →
      s.istr &&& USB_ISTR_SOF = 0 → s.istr &&& USB_ISTR_WKUP = 0 →
      s.istr &&& USB_ISTR_SUSP = 0 → s.istr &&& USB_ISTR_ESOF = 0 →
      s.istr &&& USB_ISTR_ERR ≠ 0 → acks_only s (V0.evt_poll s).2 USB_ISTR_ERR) ∧
    (s.istr &&& USB_ISTR_CTR ≠ 0 →
      (s.epr (EPR (s.istr &&& USB_ISTR_EP_ID)) &&& USB_EP_CTR_TX ≠ 0 →
        (V0.evt_poll s).2.epr (EPR (s.istr &&& USB_ISTR_EP_ID)) &&& USB_EP_CTR_TX = 0 ∧
        (V0.evt_poll s).2.epr (EPR (s.istr &&& USB_ISTR_EP_ID)) &&& 0xFF7F =
          s.epr (EPR (s.istr &&& USB_ISTR_EP_ID)) &&& 0xFF7F) ∧
      (s.epr (EPR (s.istr &&& USB_ISTR_EP_ID)) &&& USB_EP_CTR_TX = 0 →
        (V0.evt_poll s).2.epr (EPR (s.istr &&& USB_ISTR_EP_ID)) &&& USB_EP_CTR_RX = 0 ∧
        (V0.evt_poll s).2.epr (EPR (s.istr &&& USB_ISTR_EP_ID)) &&& 0x7FFF =
          s.epr (EPR (s.istr &&& USB_ISTR_EP_ID)) &&& 0x7FFF) ∧
      (V0.evt_poll s).2.istr = s.istr ∧
      (∀ i, i ≠ EPR (s.istr &&& USB_ISTR_EP_ID) → (V0.evt_poll s).2.epr i = s.epr i) ∧
      (V0.evt_poll s).2.pma = s.pma) := by
  obtain ⟨o1, o2, o3, o4, o5, o6⟩ := evt_poll_other_istr V0.ep_deconfig
    (fun l t => (V0.deconfig_all_btable l t).2.1) s s.istr (s.istr &&& USB_ISTR_EP_ID)
  refine ⟨?_, ?_, ?_, ?_, ?_, ?_, fun h => V0.evt_poll_ctr_ack s h⟩
  · intro h0 h1
    rw [V0.evt_poll_no_ctr s h0]; exact acks_of_clear _ _ _ (o1 h1) (by decide)
  · intro h0 h1 h2
    rw [V0.evt_poll_no_ctr s h0]; exact acks_of_clear _ _ _ (o2 h1 h2) (by decide)
  · intro h0 h1 h2 h3
    rw [V0.evt_poll_no_ctr s h0]; exact acks_of_clear _ _ _ (o3 h1 h2 h3) (by decide)
  · intro h0 h1 h2 h3 h4
    rw [V0.evt_poll_no_ctr s h0]; exact acks_of_clear _ _ _ (o4 h1 h2 h3 h4) (by decide)
  · intro h0 h1 h2 h3 h4 h5
    rw [V0.evt_poll_no_ctr s h0]; exact acks_of_clear _ _ _ (o5 h1 h2 h3 h4 h5) (by decide)
  · intro h0 h1 h2 h3 h4 h5 h6
    rw [V0.evt_poll_no_ctr s h0]
    exact acks_of_clear _ _ _ (o6 h1 h2 h3 h4 h5 h6) (by decide)

theorem C33_poll_acknowledges_witness :
    acks_only sof_pending_state (V0.evt_poll sof_pending_state).2 USB_ISTR_SOF ∧
    (V0.evt_poll sof_pending_state).2.istr = 0x2800 ∧
    ((V0.evt_poll ctr_pending_state).2.epr (EPR (ctr_pending_state.istr &&& USB_ISTR_EP_ID))
        &&& USB_EP_CTR_TX = 0 ∧
      (V0.evt_poll ctr_pending_state).2.epr (EPR (ctr_pending_state.istr &&& USB_ISTR_EP_ID))
        &&& 0xFF7F =
        ctr_pending_state.epr (EPR (ctr_pending_state.istr &&& USB_ISTR_EP_ID)) &&& 0xFF7F) :=
  ⟨(C33_poll_acknowledges sof_pending_state).2.1 (by decide) (by decide) (by decide),
    by decide,
    ((C33_poll_acknowledges ctr_pending_state).2.2.2.2.2.2 (by decide)).1 (by decide)⟩

/-! ## C31, C32: what `ep_read` (v0) does to the count word and the register -/

namespace Usb

/-- The store `*reg = (*reg & USB_EPREG_MASK) | USB_EP_SWBUF_RX` flips bit 6
and leaves every other bit of the register as it was. -/
theorem swbuf_rx_flip (r : Nat) :
    hw_store r ((r &&& 0x8F8F) ||| 0x0040) &&& 0xFFBF = r &&& 0xFFBF ∧
    hw_store r ((r &&& 0x8F8F) ||| 0x0040) &&& 0x0040 = (r &&& 0x0040) ^^^ 0x0040 := by
  constructor
  all_goals
    apply Nat.eq_of_testBit_eq; intro i
    simp only [hw_store, Nat.testBit_and, Nat.testBit_or, Nat.testBit_xor]
    by_cases hi : i < 16
    · interval_cases i <;> simp [Nat.testBit]
    · simp [testBit_hi _ i _ hi]

theorem and_bit6 (x : Nat) : x &&& 0x0040 = 0 ∨ x &&& 0x0040 = 0x0040 := by
  have h := Nat.and_two_pow x 6
  cases hb : x.testBit 6
  · left
    rw [hb] at h
    simpa using h
  · right
    rw [hb] at h
    simpa using h

/-- The inner switch of the double-buffered read, by bit: the value
`*reg & (DTOG_RX | SWBUF_RX)` is 0 or both bits exactly when the two bits are
equal. -/
theorem sw_matched_iff (r : Nat) :
    (r &&& (USB_EP_DTOG_RX ||| USB_EP_SWBUF_RX) = 0 ∨
      r &&& (USB_EP_DTOG_RX ||| USB_EP_SWBUF_RX) = (USB_EP_DTOG_RX ||| USB_EP_SWBUF_RX)) ↔
    ((r &&& USB_EP_DTOG_RX = 0 ∧ r &&& USB_EP_SWBUF_RX = 0) ∨
      (r &&& USB_EP_DTOG_RX ≠ 0 ∧ r &&& USB_EP_SWBUF_RX ≠ 0)) := by
  have h14 : r &&& USB_EP_DTOG_RX = 0 ∨ r &&& USB_EP_DTOG_RX = 0x4000 := and_bit14 r
  have h6 : r &&& USB_EP_SWBUF_RX = 0 ∨ r &&& USB_EP_SWBUF_RX = 0x0040 := and_bit6 r
  rw [Nat.and_or_distrib_left]
  rcases h14 with a | a <;> rcases h6 with b | b <;> rw [a, b] <;> decide

/-- The register after the buffer switch of a read. -/
theorem swbuf_rx_switch (s : State) (reg r : Nat) (hr : s.epr reg = r) :
    (reg_wr s reg ((r &&& USB_EPREG_MASK) ||| USB_EP_SWBUF_RX)).epr reg &&& 0xFFBF =
      r &&& 0xFFBF ∧
    (r &&& USB_EP_SWBUF_RX = 0 →
      (reg_wr s reg ((r &&& USB_EPREG_MASK) ||| USB_EP_SWBUF_RX)).epr reg &&&
        USB_EP_SWBUF_RX ≠ 0) ∧
    (r &&& USB_EP_SWBUF_RX ≠ 0 →
      (reg_wr s reg ((r &&& USB_EPREG_MASK) ||| USB_EP_SWBUF_RX)).epr reg &&&
        USB_EP_SWBUF_RX = 0) := by
  subst hr
  have e : (reg_wr s reg ((s.epr reg &&& USB_EPREG_MASK) ||| USB_EP_SWBUF_RX)).epr reg =
      hw_store (s.epr reg) ((s.epr reg &&& 0x8F8F) ||| 0x0040) := by
    simp [reg_wr, USB_EPREG_MASK, USB_EP_SWBUF_RX, USB_EP_DTOG_TX]
  have f := swbuf_rx_flip (s.epr reg)
  rw [e]
  refine ⟨f.1, fun h0 => ?_, fun h1 => ?_⟩
  · have h0' : s.epr reg &&& 0x0040 = 0 := h0
    have : hw_store (s.epr reg) ((s.epr reg &&& 0x8F8F) ||| 0x0040) &&& 0x0040 = 0x0040 := by
      rw [f.2, h0']; decide
    show hw_store (s.epr reg) ((s.epr reg &&& 0x8F8F) ||| 0x0040) &&& 0x0040 ≠ 0
    rw [this]; decide
  · have h1' : s.epr reg &&& 0x0040 = 0x0040 := by
      rcases and_bit6 (s.epr reg) with h | h
      · exact absurd h h1
      · exact h
    show hw_store (s.epr reg) ((s.epr reg &&& 0x8F8F) ||| 0x0040) &&& 0x0040 = 0
    rw [f.2, h1']; decide

theorem rx_valid_epr (s : State) (reg : Nat) :
    (EP_RX_VALID s reg).epr reg &&& USB_EPRX_STAT = USB_EP_RX_VALID ∧
    (EP_RX_VALID s reg).epr reg &&& 0xCFFF = s.epr reg &&& 0xCFFF := by
  rw [EP_RX_VALID, toggle_set_epr]
  exact toggle_rx_status _ _ (Or.inr (Or.inr (Or.inr rfl)))

/-- A count word with its low ten bits cleared. -/
theorem count_cleared (m : Nat → Nat) (a : Nat) :
    rd16 (wr16 m a (rd16 m a &&& 0xFC00)) a &&& 0x03FF = 0 ∧
    rd16 (wr16 m a (rd16 m a &&& 0xFC00)) a &&& 0xFC00 = rd16 m a &&& 0xFC00 := by
  have hlt : rd16 m a &&& 0xFC00 < 65536 :=
    lt_of_le_of_lt Nat.and_le_left (rd16_lt m a)
  rw [rd16_wr16_same, Nat.mod_eq_of_lt hlt]
  constructor
  · rw [Nat.and_assoc, show (0xFC00 : Nat) &&& 0x03FF = 0 by decide, Nat.and_zero]
  · rw [Nat.and_assoc, Nat.and_self]

end Usb

namespace V0

theorem pma_read_epr (s : State) (buf : Nat → Nat) (blen rec : Nat) :
    (pma_read s buf blen rec).2.2.epr = s.epr := rfl

theorem pma_read_congr (s s1 : State) (buf : Nat → Nat) (blen rec : Nat)
    (h : s1.pma = s.pma) :
    (pma_read s1 buf blen rec).1 = (pma_read s buf blen rec).1 ∧
    (pma_read s1 buf blen rec).2.1 = (pma_read s buf blen rec).2.1 ∧
    (pma_read s1 buf blen rec).2.2.pma = (pma_read s buf blen rec).2.2.pma := by
  simp only [pma_read, pma_wr, h, and_self]

/-- The double-buffered bulk path of `ep_read`, step by step: `s1` is the state
after the inner switch, which flips SWBUF_RX when the two bits match; the
record read is picked from the SWBUF_RX bit of `s1`. -/
theorem ep_read_dbl_step (s : State) (ep : Nat) (buf : Nat → Nat) (blen : Nat)
    (h : s.epr (EPR ep) &&& (USB_EPRX_STAT ||| USB_EP_T_FIELD ||| USB_EP_KIND) =
      (USB_EP_RX_VALID ||| USB_EP_BULK ||| USB_EP_KIND)) :
    ∃ s1 : State, s1.pma = s.pma ∧
      (((s.epr (EPR ep) &&& USB_EP_DTOG_RX = 0 ∧ s.epr (EPR ep) &&& USB_EP_SWBUF_RX = 0) ∨
          (s.epr (EPR ep) &&& USB_EP_DTOG_RX ≠ 0 ∧
            s.epr (EPR ep) &&& USB_EP_SWBUF_RX ≠ 0)) →
        s1 = reg_wr s (EPR ep) ((s.epr (EPR ep) &&& USB_EPREG_MASK) ||| USB_EP_SWBUF_RX)) ∧
      (¬ ((s.epr (EPR ep) &&& USB_EP_DTOG_RX = 0 ∧ s.epr (EPR ep) &&& USB_EP_SWBUF_RX = 0) ∨
          (s.epr (EPR ep) &&& USB_EP_DTOG_RX ≠ 0 ∧
            s.epr (EPR ep) &&& USB_EP_SWBUF_RX ≠ 0)) → s1 = s) ∧
      (ep_read s ep buf blen).2.2.epr = s1.epr ∧
      (s1.epr (EPR ep) &&& USB_EP_SWBUF_RX ≠ 0 →
        ep_read s ep buf blen =
          (Int.ofNat (pma_read s1 buf blen (rx1 (EPT ep))).1,
            (pma_read s1 buf blen (rx1 (EPT ep))).2.1,
            (pma_read s1 buf blen (rx1 (EPT ep))).2.2)) ∧
      (s1.epr (EPR ep) &&& USB_EP_SWBUF_RX = 0 →
        ep_read s ep buf blen =
          (Int.ofNat (pma_read s1 buf blen (rx0 (EPT ep))).1,
            (pma_read s1 buf blen (rx0 (EPT ep))).2.1,
            (pma_read s1 buf blen (rx0 (EPT ep))).2.2)) := by
  by_cases hm : s.epr (EPR ep) &&& (USB_EP_DTOG_RX ||| USB_EP_SWBUF_RX) = 0 ∨
      s.epr (EPR ep) &&& (USB_EP_DTOG_RX ||| USB_EP_SWBUF_RX) =
        (USB_EP_DTOG_RX ||| USB_EP_SWBUF_RX)
  · refine ⟨reg_wr s (EPR ep) ((s.epr (EPR ep) &&& USB_EPREG_MASK) ||| USB_EP_SWBUF_RX),
      rfl, fun _ => rfl, fun c => absurd ((sw_matched_iff _).1 hm) c, ?_, ?_, ?_⟩
    · simp only [ep_read, reg_rd, h, if_true, if_pos hm]
      split_ifs <;> rfl
    · intro hb
      simp only [ep_read, reg_rd, h, if_true, if_pos hm, if_pos hb]
    · intro hb
      have hb' : ¬ ((reg_wr s (EPR ep)
          ((s.epr (EPR ep) &&& USB_EPREG_MASK) ||| USB_EP_SWBUF_RX)).epr (EPR ep) &&&
          USB_EP_SWBUF_RX ≠ 0) := fun c => c hb
      simp only [ep_read, reg_rd, h, if_true, if_pos hm, if_neg hb']
  · refine ⟨s, rfl, fun c => absurd ((sw_matched_iff _).2 c) hm, fun _ => rfl, ?_, ?_, ?_⟩
    · simp only [ep_read, reg_rd, h, if_true, if_neg hm]
      split_ifs <;> rfl
    · intro hb
      simp only [ep_read, reg_rd, h, if_true, if_neg hm, if_pos hb]
    · intro hb
      have hb' : ¬ (s.epr (EPR ep) &&& USB_EP_SWBUF_RX ≠ 0) := fun c => c hb
      simp only [ep_read, reg_rd, h, if_true, if_neg hm, if_neg hb']

end V0

namespace V0

/-- The double-buffered bulk read and the two buffer bits. -/
theorem ep_read_dbl_swap (s : State) (ep : Nat) (buf : Nat → Nat) (blen : Nat)
    (hbulk : s.epr (EPR ep) &&& USB_EP_T_FIELD = USB_EP_BULK)
    (hkind : s.epr (EPR ep) &&& USB_EP_KIND = USB_EP_KIND)
    (hvalid : s.epr (EPR ep) &&& USB_EPRX_STAT = USB_EP_RX_VALID) :
    (((s.epr (EPR ep) &&& USB_EP_DTOG_RX = 0 ∧ s.epr (EPR ep) &&& USB_EP_SWBUF_RX = 0) ∨
        (s.epr (EPR ep) &&& USB_EP_DTOG_RX ≠ 0 ∧ s.epr (EPR ep) &&& USB_EP_SWBUF_RX ≠ 0)) →
      (ep_read s ep buf blen).2.2.epr (EPR ep) &&& 0xFFBF = s.epr (EPR ep) &&& 0xFFBF ∧
      (s.epr (EPR ep) &&& USB_EP_SWBUF_RX = 0 →
        (ep_read s ep buf blen).2.2.epr (EPR ep) &&& USB_EP_SWBUF_RX ≠ 0) ∧
      (s.epr (EPR ep) &&& USB_EP_SWBUF_RX ≠ 0 →
        (ep_read s ep buf blen).2.2.epr (EPR ep) &&& USB_EP_SWBUF_RX = 0)) ∧
    (¬ ((s.epr (EPR ep) &&& USB_EP_DTOG_RX = 0 ∧ s.epr (EPR ep) &&& USB_EP_SWBUF_RX = 0) ∨
        (s.epr (EPR ep) &&& USB_EP_DTOG_RX ≠ 0 ∧ s.epr (EPR ep) &&& USB_EP_SWBUF_RX ≠ 0)) →
      (ep_read s ep buf blen).2.2.epr = s.epr) ∧
    (((ep_read s ep buf blen).2.2.epr (EPR ep) &&& USB_EP_DTOG_RX = 0 ∧
        (ep_read s ep buf blen).2.2.epr (EPR ep) &&& USB_EP_SWBUF_RX ≠ 0) ∨
      ((ep_read s ep buf blen).2.2.epr (EPR ep) &&& USB_EP_DTOG_RX ≠ 0 ∧
        (ep_read s ep buf blen).2.2.epr (EPR ep) &&& USB_EP_SWBUF_RX = 0)) ∧
    ((ep_read s ep buf blen).2.2.epr (EPR ep) &&& USB_EP_SWBUF_RX ≠ 0 →
      (ep_read s ep buf blen).1 = Int.ofNat (pma_read s buf blen (rx1 (EPT ep))).1 ∧
      (ep_read s ep buf blen).2.1 = (pma_read s buf blen (rx1 (EPT ep))).2.1 ∧
      (ep_read s ep buf blen).2.2.pma = (pma_read s buf blen (rx1 (EPT ep))).2.2.pma) ∧
    ((ep_read s ep buf blen).2.2.epr (EPR ep) &&& USB_EP_SWBUF_RX = 0 →
      (ep_read s ep buf blen).1 = Int.ofNat (pma_read s buf blen (rx0 (EPT ep))).1 ∧
      (ep_read s ep buf blen).2.1 = (pma_read s buf blen (rx0 (EPT ep))).2.1 ∧
      (ep_read s ep buf blen).2.2.pma = (pma_read s buf blen (rx0 (EPT ep))).2.2.pma) := by
  have hkey : s.epr (EPR ep) &&& (USB_EPRX_STAT ||| USB_EP_T_FIELD ||| USB_EP_KIND) =
      (USB_EP_RX_VALID ||| USB_EP_BULK ||| USB_EP_KIND) := by
    rw [rx_key_split, hvalid, hbulk, hkind]
  obtain ⟨s1, hp, hm, hn, he, h1, h0⟩ := ep_read_dbl_step s ep buf blen hkey
  rw [he]
  have sw := swbuf_rx_switch s (EPR ep) (s.epr (EPR ep)) rfl
  refine ⟨fun c => ?_, fun c => ?_, ?_, fun hb => ?_, fun hb => ?_⟩
  · rw [hm c]; exact sw
  · rw [hn c]
  · by_cases c : (s.epr (EPR ep) &&& USB_EP_DTOG_RX = 0 ∧
        s.epr (EPR ep) &&& USB_EP_SWBUF_RX = 0) ∨
        (s.epr (EPR ep) &&& USB_EP_DTOG_RX ≠ 0 ∧ s.epr (EPR ep) &&& USB_EP_SWBUF_RX ≠ 0)
    · rw [hm c]
      have hd := and_narrow _ _ _ USB_EP_DTOG_RX sw.1 (by decide)
      rcases c with ⟨c1, c2⟩ | ⟨c1, c2⟩
      · exact Or.inl ⟨hd.trans c1, sw.2.1 c2⟩
      · exact Or.inr ⟨fun x => c1 (hd.symm.trans x), sw.2.2 c2⟩
    · rw [hn c]
      by_cases d : s.epr (EPR ep) &&& USB_EP_DTOG_RX = 0
      · by_cases e : s.epr (EPR ep) &&& USB_EP_SWBUF_RX = 0
        · exact absurd (Or.inl ⟨d, e⟩) c
        · exact Or.inl ⟨d, e⟩
      · by_cases e : s.epr (EPR ep) &&& USB_EP_SWBUF_RX = 0
        · exact Or.inr ⟨d, e⟩
        · exact absurd (Or.inr ⟨d, e⟩) c
  · rw [h1 hb]
    have := pma_read_congr s s1 buf blen (rx1 (EPT ep)) hp
    exact ⟨by rw [this.1], this.2.1, this.2.2⟩
  · rw [h0 hb]
    have := pma_read_congr s s1 buf blen (rx0 (EPT ep)) hp
    exact ⟨by rw [this.1], this.2.1, this.2.2⟩

/-- A double-buffered bulk read keeps the RX status. -/
theorem ep_read_dbl_status (s : State) (ep : Nat) (buf : Nat → Nat) (blen : Nat)
    (hbulk : s.epr (EPR ep) &&& USB_EP_T_FIELD = USB_EP_BULK)
    (hkind : s.epr (EPR ep) &&& USB_EP_KIND = USB_EP_KIND)
    (hvalid : s.epr (EPR ep) &&& USB_EPRX_STAT = USB_EP_RX_VALID) :
    (ep_read s ep buf blen).2.2.epr (EPR ep) &&& USB_EPRX_STAT =
      s.epr (EPR ep) &&& USB_EPRX_STAT := by
  have h := ep_read_dbl_swap s ep buf blen hbulk hkind hvalid
  by_cases c : (s.epr (EPR ep) &&& USB_EP_DTOG_RX = 0 ∧
      s.epr (EPR ep) &&& USB_EP_SWBUF_RX = 0) ∨
      (s.epr (EPR ep) &&& USB_EP_DTOG_RX ≠ 0 ∧ s.epr (EPR ep) &&& USB_EP_SWBUF_RX ≠ 0)
  · exact and_narrow _ _ _ _ (h.1 c).1 (by decide)
  · rw [h.2.1 c]

/-- An isochronous read leaves the register file alone. -/
theorem ep_read_iso_epr (s : State) (ep : Nat) (buf : Nat → Nat) (blen : Nat)
    (h : s.epr (EPR ep) &&& (USB_EPRX_STAT ||| USB_EP_T_FIELD ||| USB_EP_KIND) =
      (USB_EP_RX_VALID ||| USB_EP_ISOCHRONOUS)) :
    (ep_read s ep buf blen).2.2.epr = s.epr := by
  obtain ⟨rec, _, he⟩ := ep_read_path_iso s ep buf blen h
  rw [he]
  rfl

/-- A single-buffered read moves RX status from NAK to VALID and changes no
other register bit. -/
theorem ep_read_single_status (s : State) (ep : Nat) (buf : Nat → Nat) (blen : Nat)
    (htype : s.epr (EPR ep) &&& USB_EP_T_FIELD = USB_EP_BULK ∨
      s.epr (EPR ep) &&& USB_EP_T_FIELD = USB_EP_CONTROL ∨
      s.epr (EPR ep) &&& USB_EP_T_FIELD = USB_EP_INTERRUPT)
    (hkind : s.epr (EPR ep) &&& USB_EP_KIND = 0)
    (h : (ep_read s ep buf blen).1 ≠ -1) :
    s.epr (EPR ep) &&& USB_EPRX_STAT = USB_EP_RX_NAK ∧
    (ep_read s ep buf blen).2.2.epr (EPR ep) &&& USB_EPRX_STAT = USB_EP_RX_VALID ∧
    (ep_read s ep buf blen).2.2.epr (EPR ep) &&& 0xCFFF = s.epr (EPR ep) &&& 0xCFFF := by
  have hs := (ep_read_single_iff s ep buf blen htype hkind).1.1 h
  have hk : s.epr (EPR ep) &&& (USB_EPRX_STAT ||| USB_EP_T_FIELD ||| USB_EP_KIND) =
        (USB_EP_RX_NAK ||| USB_EP_BULK) ∨
      s.epr (EPR ep) &&& (USB_EPRX_STAT ||| USB_EP_T_FIELD ||| USB_EP_KIND) =
        (USB_EP_RX_NAK ||| USB_EP_CONTROL) ∨
      s.epr (EPR ep) &&& (USB_EPRX_STAT ||| USB_EP_T_FIELD ||| USB_EP_KIND) =
        (USB_EP_RX_NAK ||| USB_EP_INTERRUPT) := by
    rw [rx_key_split, hs, hkind]
    rcases htype with t | t | t <;> rw [t] <;> decide
  rw [ep_read_path_single s ep buf blen hk]
  have e := rx_valid_epr (pma_read s buf blen (rx (EPT ep))).2.2 (EPR ep)
  rw [pma_read_epr] at e
  exact ⟨hs, e.1, e.2⟩

end V0

/-- C32: in v0, on a double-buffered bulk OUT endpoint with RX status VALID,
`ep_read` flips SWBUF_RX (and nothing else in the register) when DTOG_RX and
SWBUF_RX are both 0 or both 1, and leaves the registers alone otherwise; after
the call the two bits differ; the record drained is `rx1` if the resulting
SWBUF_RX is 1 and `rx0` if it is 0. -/
theorem C32_dbl_read_swaps_once (s : State) (ep : Nat) (buf : Nat → Nat) (blen : Nat)
    (hbulk : s.epr (EPR ep) &&& USB_EP_T_FIELD = USB_EP_BULK)
    (hkind : s.epr (EPR ep) &&& USB_EP_KIND = USB_EP_KIND)
    (hvalid : s.epr (EPR ep) &&& USB_EPRX_STAT = USB_EP_RX_VALID) :
    (((s.epr (EPR ep) &&& USB_EP_DTOG_RX = 0 ∧ s.epr (EPR ep) &&& USB_EP_SWBUF_RX = 0) ∨
        (s.epr (EPR ep) &&& USB_EP_DTOG_RX ≠ 0 ∧ s.epr (EPR ep) &&& USB_EP_SWBUF_RX ≠ 0)) →
      (V0.ep_read s ep buf blen).2.2.epr (EPR ep) &&& 0xFFBF = s.epr (EPR ep) &&& 0xFFBF ∧
      (s.epr (EPR ep) &&& USB_EP_SWBUF_RX = 0 →
        (V0.ep_read s ep buf blen).2.2.epr (EPR ep) &&& USB_EP_SWBUF_RX ≠ 0) ∧
      (s.epr (EPR ep) &&& USB_EP_SWBUF_RX ≠ 0 →
        (V0.ep_read s ep buf blen).2.2.epr (EPR ep) &&& USB_EP_SWBUF_RX = 0)) ∧
    (¬ ((s.epr (EPR ep) &&& USB_EP_DTOG_RX = 0 ∧ s.epr (EPR ep) &&& USB_EP_SWBUF_RX = 0) ∨
        (s.epr (EPR ep) &&& USB_EP_DTOG_RX ≠ 0 ∧ s.epr (EPR ep) &&& USB_EP_SWBUF_RX ≠ 0)) →
      (V0.ep_read s ep buf blen).2.2.epr = s.epr) ∧
    (((V0.ep_read s ep buf blen).2.2.epr (EPR ep) &&& USB_EP_DTOG_RX = 0 ∧
        (V0.ep_read s ep buf blen).2.2.epr (EPR ep) &&& USB_EP_SWBUF_RX ≠ 0) ∨
      ((V0.ep_read s ep buf blen).2.2.epr (EPR ep) &&& USB_EP_DTOG_RX ≠ 0 ∧
        (V0.ep_read s ep buf blen).2.2.epr (EPR ep) &&& USB_EP_SWBUF_RX = 0)) ∧
    ((V0.ep_read s ep buf blen).2.2.epr (EPR ep) &&& USB_EP_SWBUF_RX ≠ 0 →
      (V0.ep_read s ep buf blen).1 =
        Int.ofNat (V0.pma_read s buf blen (V0.rx1 (V0.EPT ep))).1 ∧
      (V0.ep_read s ep buf blen).2.1 = (V0.pma_read s buf blen (V0.rx1 (V0.EPT ep))).2.1 ∧
      (V0.ep_read s ep buf blen).2.2.pma =
        (V0.pma_read s buf blen (V0.rx1 (V0.EPT ep))).2.2.pma) ∧
    ((V0.ep_read s ep buf blen).2.2.epr (EPR ep) &&& USB_EP_SWBUF_RX = 0 →
      (V0.ep_read s ep buf blen).1 =
        Int.ofNat (V0.pma_read s buf blen (V0.rx0 (V0.EPT ep))).1 ∧
      (V0.ep_read s ep buf blen).2.1 = (V0.pma_read s buf blen (V0.rx0 (V0.EPT ep))).2.1 ∧
      (V0.ep_read s ep buf blen).2.2.pma =
        (V0.pma_read s buf blen (V0.rx0 (V0.EPT ep))).2.2.pma) :=
  V0.ep_read_dbl_swap s ep buf blen hbulk hkind hvalid

theorem C32_dbl_read_swaps_once_witness :
    (V0.ep_read dbl_rx_valid_state 0x01 (fun _ => 0xEE) 8).2.2.epr (EPR 0x01) &&& 0xFFBF =
        dbl_rx_valid_state.epr (EPR 0x01) &&& 0xFFBF ∧
      (dbl_rx_valid_state.epr (EPR 0x01) &&& USB_EP_SWBUF_RX = 0 →
        (V0.ep_read dbl_rx_valid_state 0x01 (fun _ => 0xEE) 8).2.2.epr (EPR 0x01) &&&
          USB_EP_SWBUF_RX ≠ 0) ∧
      (dbl_rx_valid_state.epr (EPR 0x01) &&& USB_EP_SWBUF_RX ≠ 0 →
        (V0.ep_read dbl_rx_valid_state 0x01 (fun _ => 0xEE) 8).2.2.epr (EPR 0x01) &&&
          USB_EP_SWBUF_RX = 0) :=
  (C32_dbl_read_swaps_once dbl_rx_valid_state 0x01 (fun _ => 0xEE) 8 (by decide) (by decide)
    (by decide)).1 (Or.inl (by decide))

namespace V0

/-- Every permitted read goes through one record, whose count word loses its
low ten bits and keeps the rest. -/
theorem ep_read_count (s : State) (ep : Nat) (buf : Nat → Nat) (blen : Nat)
    (h : (ep_read s ep buf blen).1 ≠ -1) :
    ∃ rec, (rec = rx0 (EPT ep) ∨ rec = rx1 (EPT ep)) ∧
      (ep_read s ep buf blen).1 =
        Int.ofNat (min blen (rd16 s.pma (cnt rec) &&& 0x03FF)) ∧
      (ep_read s ep buf blen).2.2.pma =
        wr16 s.pma (cnt rec) (rd16 s.pma (cnt rec) &&& 0xFC00) ∧
      rd16 (ep_read s ep buf blen).2.2.pma (cnt rec) &&& 0x03FF = 0 ∧
      rd16 (ep_read s ep buf blen).2.2.pma (cnt rec) &&& 0xFC00 =
        rd16 s.pma (cnt rec) &&& 0xFC00 := by
  have key : ∀ (s1 : State) (rec : Nat), s1.pma = s.pma →
      (rec = rx0 (EPT ep) ∨ rec = rx1 (EPT ep)) →
      (ep_read s ep buf blen).1 = Int.ofNat (pma_read s1 buf blen rec).1 →
      (ep_read s ep buf blen).2.1 = (pma_read s1 buf blen rec).2.1 →
      (ep_read s ep buf blen).2.2.pma = (pma_read s1 buf blen rec).2.2.pma →
      ∃ rec, (rec = rx0 (EPT ep) ∨ rec = rx1 (EPT ep)) ∧
        (ep_read s ep buf blen).1 =
          Int.ofNat (min blen (rd16 s.pma (cnt rec) &&& 0x03FF)) ∧
        (ep_read s ep buf blen).2.2.pma =
          wr16 s.pma (cnt rec) (rd16 s.pma (cnt rec) &&& 0xFC00) ∧
        rd16 (ep_read s ep buf blen).2.2.pma (cnt rec) &&& 0x03FF = 0 ∧
        rd16 (ep_read s ep buf blen).2.2.pma (cnt rec) &&& 0xFC00 =
          rd16 s.pma (cnt rec) &&& 0xFC00 := by
    intro s1 rec hp hrec h1 h2 h3
    have o := pma_read_outcome s s1 buf blen rec _ hp h1 h2 h3
    have c := count_cleared s.pma (cnt rec)
    refine ⟨rec, hrec, o.1, o.2.1, ?_, ?_⟩
    · rw [o.2.1]; exact c.1
    · rw [o.2.1]; exact c.2
  rcases ep_read_permitted s ep buf blen h with hk | hk | hk
  · obtain ⟨s1, rec, hp, hrec, he⟩ := ep_read_path_dbl s ep buf blen hk
    exact key s1 rec hp hrec (by rw [he]) (by rw [he]) (by rw [he])
  · obtain ⟨rec, hrec, he⟩ := ep_read_path_iso s ep buf blen hk
    exact key s rec rfl hrec (by rw [he]) (by rw [he]) (by rw [he])
  · have he := ep_read_path_single s ep buf blen hk
    exact key s (rx (EPT ep)) rfl (Or.inr rfl) (by rw [he]) (by rw [he]) (by rw [he]; rfl)

/-- A permitted read on a double-buffered bulk or isochronous endpoint keeps
the RX status. -/
theorem ep_read_dbl_iso_status (s : State) (ep : Nat) (buf : Nat → Nat) (blen : Nat)
    (hd : (s.epr (EPR ep) &&& USB_EP_T_FIELD = USB_EP_BULK ∧
        s.epr (EPR ep) &&& USB_EP_KIND = USB_EP_KIND) ∨
      (s.epr (EPR ep) &&& USB_EP_T_FIELD = USB_EP_ISOCHRONOUS ∧
        s.epr (EPR ep) &&& USB_EP_KIND = 0))
    (h : (ep_read s ep buf blen).1 ≠ -1) :
    (ep_read s ep buf blen).2.2.epr (EPR ep) &&& USB_EPRX_STAT =
      s.epr (EPR ep) &&& USB_EPRX_STAT := by
  have hv := (ep_read_dbl_iff s ep buf blen hd).1.1 h
  rcases hd with ⟨ht, hk⟩ | ⟨ht, hk⟩
  · exact ep_read_dbl_status s ep buf blen ht hk hv
  · have hkey : s.epr (EPR ep) &&& (USB_EPRX_STAT ||| USB_EP_T_FIELD ||| USB_EP_KIND) =
        (USB_EP_RX_VALID ||| USB_EP_ISOCHRONOUS) := by
      rw [rx_key_split, hv, ht, hk]; decide
    rw [ep_read_iso_epr s ep buf blen hkey]

end V0

/-- C31: in v0, every permitted `ep_read` clears the low ten bits (the stored
count) of the count word of the record it drained and keeps bits 15..10 of
that word; nothing else in the packet memory changes. On a single-buffered
endpoint the RX status was NAK and is VALID afterwards, every other register
bit being as before; on a double-buffered bulk or isochronous endpoint the RX
status is as before. -/
theorem C31_read_clears_count (s : State) (ep : Nat) (buf : Nat → Nat) (blen : Nat)
    (h : (V0.ep_read s ep buf blen).1 ≠ -1) :
    (∃ rec, (rec = V0.rx0 (V0.EPT ep) ∨ rec = V0.rx1 (V0.EPT ep)) ∧
      (V0.ep_read s ep buf blen).1 =
        Int.ofNat (min blen (rd16 s.pma (V0.cnt rec) &&& 0x03FF)) ∧
      (V0.ep_read s ep buf blen).2.2.pma =
        wr16 s.pma (V0.cnt rec) (rd16 s.pma (V0.cnt rec) &&& 0xFC00) ∧
      rd16 (V0.ep_read s ep buf blen).2.2.pma (V0.cnt rec) &&& 0x03FF = 0 ∧
      rd16 (V0.ep_read s ep buf blen).2.2.pma (V0.cnt rec) &&& 0xFC00 =
        rd16 s.pma (V0.cnt rec) &&& 0xFC00) ∧
    ((s.epr (EPR ep) &&& USB_EP_T_FIELD = USB_EP_BULK ∨
        s.epr (EPR ep) &&& USB_EP_T_FIELD = USB_EP_CONTROL ∨
        s.epr (EPR ep) &&& USB_EP_T_FIELD = USB_EP_INTERRUPT) →
      s.epr (EPR ep) &&& USB_EP_KIND = 0 →
      s.epr (EPR ep) &&& USB_EPRX_STAT = USB_EP_RX_NAK ∧
      (V0.ep_read s ep buf blen).2.2.epr (EPR ep) &&& USB_EPRX_STAT = USB_EP_RX_VALID ∧
      (V0.ep_read s ep buf blen).2.2.epr (EPR ep) &&& 0xCFFF =
        s.epr (EPR ep) &&& 0xCFFF) ∧
    (((s.epr (EPR ep) &&& USB_EP_T_FIELD = USB_EP_BULK ∧
          s.epr (EPR ep) &&& USB_EP_KIND = USB_EP_KIND) ∨
        (s.epr (EPR ep) &&& USB_EP_T_FIELD = USB_EP_ISOCHRONOUS ∧
          s.epr (EPR ep) &&& USB_EP_KIND = 0)) →
      (V0.ep_read s ep buf blen).2.2.epr (EPR ep) &&& USB_EPRX_STAT =
        s.epr (EPR ep) &&& USB_EPRX_STAT) :=
  ⟨V0.ep_read_count s ep buf blen h,
    fun ht hk => V0.ep_read_single_status s ep buf blen ht hk h,
    fun hd => V0.ep_read_dbl_iso_status s ep buf blen hd h⟩

theorem C31_read_clears_count_witness :
    (V0.ep_read counted_rx_state 0x01 (fun _ => 0xEE) 8).1 ≠ -1 ∧
    (∃ rec, (rec = V0.rx0 (V0.EPT 0x01) ∨ rec = V0.rx1 (V0.EPT 0x01)) ∧
      (V0.ep_read counted_rx_state 0x01 (fun _ => 0xEE) 8).1 =
        Int.ofNat (min 8 (rd16 counted_rx_state.pma (V0.cnt rec) &&& 0x03FF)) ∧
      (V0.ep_read counted_rx_state 0x01 (fun _ => 0xEE) 8).2.2.pma =
        wr16 counted_rx_state.pma (V0.cnt rec)
          (rd16 counted_rx_state.pma (V0.cnt rec) &&& 0xFC00) ∧
      rd16 (V0.ep_read counted_rx_state 0x01 (fun _ => 0xEE) 8).2.2.pma (V0.cnt rec) &&&
        0x03FF = 0 ∧
      rd16 (V0.ep_read counted_rx_state 0x01 (fun _ => 0xEE) 8).2.2.pma (V0.cnt rec) &&&
        0xFC00 = rd16 counted_rx_state.pma (V0.cnt rec) &&& 0xFC00) ∧
    rd16 counted_rx_state.pma (V0.cnt (V0.rx (V0.EPT 0x01))) = 0x8403 ∧
    rd16 (V0.ep_read counted_rx_state 0x01 (fun _ => 0xEE) 8).2.2.pma
      (V0.cnt (V0.rx (V0.EPT 0x01))) = 0x8400 :=
  ⟨by decide, (C31_read_clears_count counted_rx_state 0x01 (fun _ => 0xEE) 8 (by decide)).1,
    by decide, by decide⟩

/-- C34: fragmentation (v0). From the power-on state, `ep_config(0x81, BULK,
512)` takes the slot at offset 512, `ep_config(0x82, BULK, 64)` the slot at
448, and `ep_deconfig(0x81)` zeroes the first offset. The only slot then
recorded is the 64-byte slot at 448, so the 400 bytes from offset 512 lie above
the table, inside the memory and off every allocated slot; yet
`get_next_pma(400)` returns 0 and `ep_config(0x83, BULK, 400)` fails, because
the scan finds the mark 448 and `448 < 64 + 400`. -/
theorem C34_fragmentation :
    (V0.ep_config zero_state 0x81 USB_EPTYPE_BULK 512).1 = true ∧
    (V0.ep_config frag_state1 0x82 USB_EPTYPE_BULK 64).1 = true ∧
    V0.get_next_pma frag_state1 64 = 448 ∧
    V0.recorded_offsets frag_state2 = [0, 0, 0, 0, 0, 0, 0, 0, 0, 512, 448, 0, 0, 0, 0, 0] ∧
    V0.recorded_offsets frag_state = [0, 0, 0, 0, 0, 0, 0, 0, 0, 0, 448, 0, 0, 0, 0, 0] ∧
    free_run [(448, 64)] 512 400 V0.USB_PMASIZE ∧
    V0.pma_mark frag_state = 448 ∧
    V0.get_next_pma frag_state 400 = 0 ∧
    (V0.ep_config frag_state 0x83 USB_EPTYPE_BULK 400).1 = false := by
  decide

/-! ## C35: slot selection of the isochronous read in the two revisions -/

namespace V0

/-- The isochronous read (v0) drains `rx1` when DTOG_RX is set and `rx0` when
it is clear. -/
theorem ep_read_iso_slot (s : State) (ep : Nat) (buf : Nat → Nat) (blen : Nat)
    (h : s.epr (EPR ep) &&& (USB_EPRX_STAT ||| USB_EP_T_FIELD ||| USB_EP_KIND) =
      (USB_EP_RX_VALID ||| USB_EP_ISOCHRONOUS)) :
    (s.epr (EPR ep) &&& USB_EP_DTOG_RX ≠ 0 →
      ep_read s ep buf blen =
        (Int.ofNat (pma_read s buf blen (rx1 (EPT ep))).1,
          (pma_read s buf blen (rx1 (EPT ep))).2.1,
          (pma_read s buf blen (rx1 (EPT ep))).2.2)) ∧
    (s.epr (EPR ep) &&& USB_EP_DTOG_RX = 0 →
      ep_read s ep buf blen =
        (Int.ofNat (pma_read s buf blen (rx0 (EPT ep))).1,
          (pma_read s buf blen (rx0 (EPT ep))).2.1,
          (pma_read s buf blen (rx0 (EPT ep))).2.2)) := by
  have h1 : (USB_EP_RX_VALID ||| USB_EP_ISOCHRONOUS) ≠
      (USB_EP_RX_VALID ||| USB_EP_BULK ||| USB_EP_KIND) := by decide
  constructor
  · intro hd
    simp only [ep_read, reg_rd, h, if_neg h1, if_true, if_pos hd]
  · intro hd
    have hd' : ¬ (s.epr (EPR ep) &&& USB_EP_DTOG_RX ≠ 0) := fun c => c hd
    simp only [ep_read, reg_rd, h, if_neg h1, if_true, if_neg hd']

end V0

namespace V1

/-- The isochronous read (v1) drains slot 0 (`rxadr0`, `rxcnt0`) when DTOG_RX
is set and slot 1 when it is clear. -/
theorem ep_read_iso_slot_v1 (s : State) (ep : Nat) (buf : Nat → Nat) (blen : Nat)
    (h : s.epr (EPR ep) &&& (USB_EP_T_FIELD ||| USB_EP_KIND) = USB_EP_ISOCHRONOUS) :
    (s.epr (EPR ep) &&& USB_EP_DTOG_RX ≠ 0 →
      ep_read s ep buf blen =
        (rd16 s.pma (rxcnt0 (EPT ep)) &&& 0x03FF,
          pma_read s (rd16 s.pma (rxadr0 (EPT ep))) buf blen
            (rd16 s.pma (rxcnt0 (EPT ep)) &&& 0x03FF), s)) ∧
    (s.epr (EPR ep) &&& USB_EP_DTOG_RX = 0 →
      ep_read s ep buf blen =
        (rd16 s.pma (rxcnt1 (EPT ep)) &&& 0x03FF,
          pma_read s (rd16 s.pma (rxadr1 (EPT ep))) buf blen
            (rd16 s.pma (rxcnt1 (EPT ep)) &&& 0x03FF), s)) := by
  have h1 : USB_EP_ISOCHRONOUS ≠ (USB_EP_BULK ||| USB_EP_KIND) := by decide
  constructor
  · intro hd
    simp only [ep_read, reg_rd, h, if_neg h1, if_true, if_pos hd]
  · intro hd
    have hd' : ¬ (s.epr (EPR ep) &&& USB_EP_DTOG_RX ≠ 0) := fun c => c hd
    simp only [ep_read, reg_rd, h, if_neg h1, if_true, if_neg hd']

end V1

/-- C35: the two revisions pick opposite slots for an isochronous read. On
`iso_rx_state` (DTOG_RX set; slot 0 holds `A0 A1`, slot 1 holds `B0 B1`) v0
`ep_read` delivers the bytes of slot 1 and clears the count of `rx1`, while v1
`ep_read` delivers the bytes of slot 0; with DTOG_RX clear it is the other way
round. -/
theorem C35_iso_read_slots_differ :
    (V0.ep_read iso_rx_state 0x01 (fun _ => 0) 2).1 = 2 ∧
    (List.range 2).map (V0.ep_read iso_rx_state 0x01 (fun _ => 0) 2).2.1 = [0xB0, 0xB1] ∧
    rd16 (V0.ep_read iso_rx_state 0x01 (fun _ => 0) 2).2.2.pma
      (V0.cnt (V0.rx1 (V0.EPT 0x01))) = 0 ∧
    rd16 (V0.ep_read iso_rx_state 0x01 (fun _ => 0) 2).2.2.pma
      (V0.cnt (V0.rx0 (V0.EPT 0x01))) = 2 ∧
    (V1.ep_read iso_rx_state 0x01 (fun _ => 0) 2).1 = 2 ∧
    (List.range 2).map (V1.ep_read iso_rx_state 0x01 (fun _ => 0) 2).2.1 = [0xA0, 0xA1] ∧
    (List.range 2).map (V0.ep_read iso_rx_state0 0x01 (fun _ => 0) 2).2.1 = [0xA0, 0xA1] ∧
    (List.range 2).map (V1.ep_read iso_rx_state0 0x01 (fun _ => 0) 2).2.1 = [0xB0, 0xB1] := by
  decide

/-! ## C36, C37: when a write is accepted -/

namespace V1

/-- The write of v1 has no failure path: it returns `blen` in every register
state. -/
theorem ep_write_returns_v1 (s : State) (ep : Nat) (buf : Nat → Nat) (blen : Nat) :
    (ep_write s ep buf blen).1 = blen := rfl

end V1

namespace V0

/-- Path: isochronous, TX status VALID. -/
theorem ep_write_path_iso (s : State) (ep : Nat) (buf : Nat → Nat) (blen : Nat)
    (h : s.epr (EPR ep) &&& (USB_EPTX_STAT ||| USB_EP_T_FIELD ||| USB_EP_KIND) =
      (USB_EP_TX_VALID ||| USB_EP_ISOCHRONOUS)) :
    (ep_write s ep buf blen).1 = Int.ofNat blen := by
  have h1 : (USB_EP_TX_VALID ||| USB_EP_ISOCHRONOUS) ≠
      (USB_EP_TX_NAK ||| USB_EP_BULK ||| USB_EP_KIND) := by decide
  simp only [ep_write, reg_rd, h, if_neg h1, if_true]

/-- After a successful `ep_config` on an IN handle with a control,
isochronous, bulk or interrupt type, the first `ep_write` is accepted. -/
theorem first_write_accepted (s : State) (ep eptype epsize : Nat) (buf : Nat → Nat)
    (len : Nat) (hin : ep &&& 0x80 ≠ 0)
    (ht : eptype = USB_EPTYPE_CONTROL ∨ eptype = USB_EPTYPE_ISOCHRONUS ∨
      eptype = USB_EPTYPE_BULK ∨ eptype = USB_EPTYPE_INTERRUPT)
    (hok : (ep_config s ep eptype epsize).1 = true) :
    (ep_write (ep_config s ep eptype epsize).2 ep buf len).1 = Int.ofNat len := by
  obtain ⟨c1, c2, c3, c4, c5, _⟩ :=
    type_committed_of_plain _ ep eptype (ep_config_plain s ep eptype epsize)
  have hkind : (ep_config s ep eptype epsize).2.epr (EPR ep) &&& USB_EP_KIND = 0 := by
    rw [c5, if_neg]
    rcases ht with rfl | rfl | rfl | rfl <;> decide
  by_cases hiso : eptype = USB_EPTYPE_ISOCHRONUS
  · have hd := ep_config_in_double s ep eptype epsize (Or.inl hin) hok (by rw [hiso]; decide)
    have hs : (ep_config s ep eptype epsize).2.epr (EPR ep) &&& USB_EPTX_STAT =
        USB_EP_TX_VALID := and_narrow_const _ _ _ _ hd.2.2.2.2 (by decide)
    apply ep_write_path_iso
    rw [tx_key_split, hs, c2 hiso, hkind]
    decide
  · have hnd : is_dbl eptype = false := by
      rcases ht with rfl | rfl | rfl | rfl
      · decide
      · exact absurd rfl hiso
      · decide
      · decide
    have hsg := ep_config_in_single s ep eptype epsize (Or.inl hin) hok hnd
    have hs : (ep_config s ep eptype epsize).2.epr (EPR ep) &&& USB_EPTX_STAT =
        USB_EP_TX_NAK := and_narrow_const _ _ _ _ hsg.2.2.2 (by decide)
    have htype : (ep_config s ep eptype epsize).2.epr (EPR ep) &&& USB_EP_T_FIELD =
          USB_EP_BULK ∨
        (ep_config s ep eptype epsize).2.epr (EPR ep) &&& USB_EP_T_FIELD = USB_EP_CONTROL ∨
        (ep_config s ep eptype epsize).2.epr (EPR ep) &&& USB_EP_T_FIELD =
          USB_EP_INTERRUPT := by
      rcases ht with t | t | t | t
      · exact Or.inr (Or.inl (c1 t))
      · exact absurd t hiso
      · exact Or.inl (c3 (Or.inl t))
      · exact Or.inr (Or.inr (c4 t))
    rw [ep_write_path_single _ ep buf len (ep_write_single_key _ ep htype hkind hs)]

/-- After a successful `ep_config` on an IN handle with the double-buffered
bulk type, the first `ep_write` is refused: the endpoint is left in TX status
VALID and the write accepts only TX status NAK for that type. -/
theorem first_write_dbl_refused (s : State) (ep epsize : Nat) (buf : Nat → Nat)
    (len : Nat) (hin : ep &&& 0x80 ≠ 0)
    (hok : (ep_config s ep (USB_EPTYPE_BULK ||| USB_EPTYPE_DBLBUF) epsize).1 = true) :
    ep_write (ep_config s ep (USB_EPTYPE_BULK ||| USB_EPTYPE_DBLBUF) epsize).2 ep buf len =
      (-1, (ep_config s ep (USB_EPTYPE_BULK ||| USB_EPTYPE_DBLBUF) epsize).2) := by
  obtain ⟨_, _, _, _, c5, _⟩ :=
    type_committed_of_plain _ ep (USB_EPTYPE_BULK ||| USB_EPTYPE_DBLBUF)
      (ep_config_plain s ep (USB_EPTYPE_BULK ||| USB_EPTYPE_DBLBUF) epsize)
  rw [if_pos rfl] at c5
  have hd := ep_config_in_double s ep (USB_EPTYPE_BULK ||| USB_EPTYPE_DBLBUF) epsize
    (Or.inl hin) hok (by decide)
  have hs : (ep_config s ep (USB_EPTYPE_BULK ||| USB_EPTYPE_DBLBUF) epsize).2.epr (EPR ep) &&&
      USB_EPTX_STAT = USB_EP_TX_VALID := and_narrow_const _ _ _ _ hd.2.2.2.2 (by decide)
  apply ep_write_path_fail
  · exact tx_key_ne _ _ (Or.inl (by rw [hs]; decide))
  · exact tx_key_ne _ _ (Or.inr (Or.inr (by rw [c5]; decide)))
  · exact tx_key_ne _ _ (Or.inl (by rw [hs]; decide))
  · exact tx_key_ne _ _ (Or.inl (by rw [hs]; decide))
  · exact tx_key_ne _ _ (Or.inl (by rw [hs]; decide))

end V0

/-- C36: the write of v1 does not refuse where the write of v0 does. On
`tx_busy_state` (single-buffered bulk IN endpoint 1 with TX status VALID, its
previous packet of 2 bytes pending) v0 `ep_write` returns -1, while v1
`ep_write` returns 3, overwrites the count with 3 and the slot with the new
payload; on the disabled endpoint 2 v0 returns -1 and v1 returns 3 and turns
the TX status to VALID. -/
theorem C36_v1_write_never_refuses :
    (V0.ep_write tx_busy_state 0x81 payload3 3).1 = -1 ∧
    (V1.ep_write tx_busy_state 0x81 payload3 3).1 = 3 ∧
    rd16 tx_busy_state.pma (V1.txcnt (V1.EPT 0x81)) = 2 ∧
    rd16 (V1.ep_write tx_busy_state 0x81 payload3 3).2.pma (V1.txcnt (V1.EPT 0x81)) = 3 ∧
    rd16 tx_busy_state.pma 64 = 0x2211 ∧
    rd16 (V1.ep_write tx_busy_state 0x81 payload3 3).2.pma 64 = 0xBBAA ∧
    (V0.ep_write tx_busy_state 0x82 payload3 3).1 = -1 ∧
    (V1.ep_write tx_busy_state 0x82 payload3 3).1 = 3 ∧
    tx_busy_state.epr (EPR 0x82) &&& USB_EPTX_STAT = USB_EP_TX_DIS ∧
    (V1.ep_write tx_busy_state 0x82 payload3 3).2.epr (EPR 0x82) &&& USB_EPTX_STAT =
      USB_EP_TX_VALID := by
  decide

/-- C37 as stated fails for the double-buffered bulk type: on the power-on
state `ep_config(0x81, BULK | DBLBUF, 64)` succeeds and leaves the register at
`0x0131` (TX status VALID), and the `ep_write` that follows returns -1. -/
theorem C37_counterexample :
    (V0.ep_config zero_state 0x81 (USB_EPTYPE_BULK ||| USB_EPTYPE_DBLBUF) 64).1 = true ∧
    (V0.ep_config zero_state 0x81 (USB_EPTYPE_BULK ||| USB_EPTYPE_DBLBUF) 64).2.epr
      (EPR 0x81) = 0x0131 ∧
    (V0.ep_write (V0.ep_config zero_state 0x81 (USB_EPTYPE_BULK ||| USB_EPTYPE_DBLBUF) 64).2
      0x81 payload3 3).1 = -1 := by
  decide

/-- C37 (amended): in v0, after a successful `ep_config` on an IN handle with
the control, isochronous, bulk or interrupt type, the first `ep_write` on that
handle, with nothing in between, is accepted and returns `len`; with the
double-buffered bulk type `ep_config` leaves TX status VALID, and the first
`ep_write` returns -1 and changes nothing, since for that type the write is
accepted in TX status NAK only. -/
theorem C37_first_write_after_config (s : State) (ep eptype epsize : Nat)
    (buf : Nat → Nat) (len : Nat) (hin : ep &&& 0x80 ≠ 0)
    (hok : (V0.ep_config s ep eptype epsize).1 = true) :
    (eptype = USB_EPTYPE_CONTROL ∨ eptype = USB_EPTYPE_ISOCHRONUS ∨
        eptype = USB_EPTYPE_BULK ∨ eptype = USB_EPTYPE_INTERRUPT →
      (V0.ep_write (V0.ep_config s ep eptype epsize).2 ep buf len).1 = Int.ofNat len ∧
      (V0.ep_write (V0.ep_config s ep eptype epsize).2 ep buf len).1 ≠ -1) ∧
    (eptype = (USB_EPTYPE_BULK ||| USB_EPTYPE_DBLBUF) →
      (V0.ep_config s ep eptype epsize).2.epr (EPR ep) &&& USB_EPTX_STAT = USB_EP_TX_VALID ∧
      V0.ep_write (V0.ep_config s ep eptype epsize).2 ep buf len =
        (-1, (V0.ep_config s ep eptype epsize).2)) := by
  refine ⟨fun ht => ?_, fun ht => ?_⟩
  · have h := V0.first_write_accepted s ep eptype epsize buf len hin ht hok
    exact ⟨h, by rw [h]; exact ofNat_ne_neg_one len⟩
  · subst ht
    have hd := V0.ep_config_in_double s ep (USB_EPTYPE_BULK ||| USB_EPTYPE_DBLBUF) epsize
      (Or.inl hin) hok (by decide)
    exact ⟨and_narrow_const _ _ _ _ hd.2.2.2.2 (by decide),
      V0.first_write_dbl_refused s ep epsize buf len hin hok⟩

theorem C37_first_write_after_config_witness :
    ((V0.ep_config zero_state 0x81 USB_EPTYPE_BULK 64).1 = true ∧
      (V0.ep_write (V0.ep_config zero_state 0x81 USB_EPTYPE_BULK 64).2 0x81 payload3 3).1 =
        Int.ofNat 3) ∧
    ((V0.ep_config zero_state 0x82 USB_EPTYPE_ISOCHRONUS 64).1 = true ∧
      (V0.ep_write (V0.ep_config zero_state 0x82 USB_EPTYPE_ISOCHRONUS 64).2 0x82
        payload3 3).1 = Int.ofNat 3) ∧
    ((V0.ep_config zero_state 0x81 (USB_EPTYPE_BULK ||| USB_EPTYPE_DBLBUF) 64).1 = true ∧
      V0.ep_write
          (V0.ep_config zero_state 0x81 (USB_EPTYPE_BULK ||| USB_EPTYPE_DBLBUF) 64).2 0x81
          payload3 3 =
        (-1, (V0.ep_config zero_state 0x81 (USB_EPTYPE_BULK ||| USB_EPTYPE_DBLBUF) 64).2)) :=
  ⟨⟨by decide,
      ((C37_first_write_after_config zero_state 0x81 USB_EPTYPE_BULK 64 payload3 3
        (by decide) (by decide)).1 (Or.inr (Or.inr (Or.inl rfl)))).1⟩,
    ⟨by decide,
      ((C37_first_write_after_config zero_state 0x82 USB_EPTYPE_ISOCHRONUS 64 payload3 3
        (by decide) (by decide)).1 (Or.inr (Or.inl rfl))).1⟩,
    ⟨by decide,
      ((C37_first_write_after_config zero_state 0x81 (USB_EPTYPE_BULK ||| USB_EPTYPE_DBLBUF)
        64 payload3 3 (by decide) (by decide)).2 rfl).2⟩⟩

/-! ## Slot offsets: what `ep_config` and `ep_deconfig` record -/

namespace V0

/-- The allocator returns 0 or an offset between 64 and `USB_PMASIZE`. -/
theorem get_next_pma_range (s : State) (sz : Nat) :
    get_next_pma s sz = 0 ∨ (64 ≤ get_next_pma s sz ∧ get_next_pma s sz ≤ USB_PMASIZE) := by
  have hle := pma_mark_le s
  rw [get_next_pma_eq]
  split_ifs
  · exact Or.inl rfl
  · exact Or.inr ⟨by omega, by omega⟩

/-- An offset word of the entry after the TX block: as before, or a value the
allocator returned. -/
theorem ep_config_tx_word (s : State) (ep t e w : Nat) (hw : w = EPT ep ∨ w = EPT ep + 4) :
    rd16 (ep_config_tx s ep t e).2.pma w = rd16 s.pma w ∨
      (64 ≤ rd16 (ep_config_tx s ep t e).2.pma w ∧
        rd16 (ep_config_tx s ep t e).2.pma w ≤ USB_PMASIZE) := by
  have g1 := get_next_pma_range s e
  have l1 := get_next_pma_lt s e
  have g2 := get_next_pma_range (pma_wr (pma_wr s (EPT ep) (get_next_pma s e)) (EPT ep + 2) 0) e
  have l2 := get_next_pma_lt (pma_wr (pma_wr s (EPT ep) (get_next_pma s e)) (EPT ep + 2) 0) e
  simp only [ep_config_tx, addr, cnt, tx, tx1]
  split_ifs with h1 hd h2
  · exact Or.inl rfl
  · rcases hw with rfl | rfl
    · right
      simp (disch := omega) only [pma_wr_pma, rd16_wr16_other, rd16_wr16_same]
      omega
    · left
      simp (disch := omega) only [pma_wr_pma, rd16_wr16_other, rd16_wr16_same]
  · rcases hw with rfl | rfl
    · right
      simp (disch := omega) only [dtx_unstall_pma, pma_wr_pma, rd16_wr16_other,
        rd16_wr16_same]
      omega
    · right
      simp (disch := omega) only [dtx_unstall_pma, pma_wr_pma, rd16_wr16_other,
        rd16_wr16_same]
      simp only [pma_wr_pma] at g2 l2 h2
      omega
  · rcases hw with rfl | rfl
    · right
      simp (disch := omega) only [tx_unstall_pma, pma_wr_pma, rd16_wr16_other,
        rd16_wr16_same]
      omega
    · left
      simp (disch := omega) only [tx_unstall_pma, pma_wr_pma, rd16_wr16_other,
        rd16_wr16_same]

/-- An offset word of the entry after the RX block: as before, or a value the
allocator returned. -/
theorem ep_config_rx_word (s : State) (ep t e w : Nat) (hw : w = EPT ep ∨ w = EPT ep + 4) :
    rd16 (ep_config_rx s ep t e).2.pma w = rd16 s.pma w ∨
      (64 ≤ rd16 (ep_config_rx s ep t e).2.pma w ∧
        rd16 (ep_config_rx s ep t e).2.pma w ≤ USB_PMASIZE) := by
  have g1 := get_next_pma_range s (ep_rxcnt e).2
  have l1 := get_next_pma_lt s (ep_rxcnt e).2
  have g2 := get_next_pma_range
    (pma_wr (pma_wr s (EPT ep + 4) (get_next_pma s (ep_rxcnt e).2)) (EPT ep + 4 + 2)
      (ep_rxcnt e).1) (ep_rxcnt e).2
  have l2 := get_next_pma_lt
    (pma_wr (pma_wr s (EPT ep + 4) (get_next_pma s (ep_rxcnt e).2)) (EPT ep + 4 + 2)
      (ep_rxcnt e).1) (ep_rxcnt e).2
  simp only [ep_config_rx, addr, cnt, rx, rx0]
  split_ifs with h1 hd h2
  · exact Or.inl rfl
  · rcases hw with rfl | rfl
    · left
      simp (disch := omega) only [pma_wr_pma, rd16_wr16_other, rd16_wr16_same]
    · right
      simp (disch := omega) only [pma_wr_pma, rd16_wr16_other, rd16_wr16_same]
      omega
  · rcases hw with rfl | rfl
    · right
      simp (disch := omega) only [drx_unstall_pma, pma_wr_pma, rd16_wr16_other,
        rd16_wr16_same]
      simp only [pma_wr_pma] at g2 l2 h2
      omega
    · right
      simp (disch := omega) only [drx_unstall_pma, pma_wr_pma, rd16_wr16_other,
        rd16_wr16_same]
      omega
  · rcases hw with rfl | rfl
    · left
      simp (disch := omega) only [rx_unstall_pma, pma_wr_pma, rd16_wr16_other,
        rd16_wr16_same]
    · right
      simp (disch := omega) only [rx_unstall_pma, pma_wr_pma, rd16_wr16_other,
        rd16_wr16_same]
      omega

end V0

namespace V0

/-- An offset word of the entry after `ep_config`, whatever it returns: as
before, or a value the allocator returned. -/
theorem ep_config_word (s : State) (ep t e w : Nat) (hw : w = EPT ep ∨ w = EPT ep + 4) :
    rd16 (ep_config s ep t e).2.pma w = rd16 s.pma w ∨
      (64 ≤ rd16 (ep_config s ep t e).2.pma w ∧
        rd16 (ep_config s ep t e).2.pma w ≤ USB_PMASIZE) := by
  have ht := ep_config_tx_word (reg_wr s (EPR ep) (ep_type_word ep t)) ep t (ep_align e) w hw
  rw [reg_wr_pma] at ht
  by_cases htx : ep &&& 0x80 ≠ 0 ∨ t = USB_EPTYPE_CONTROL
  · by_cases hok :
      (ep_config_tx (reg_wr s (EPR ep) (ep_type_word ep t)) ep t (ep_align e)).1 = true
    · by_cases hrx : ep &&& 0x80 = 0
      · rw [ep_config_path_tx_rx s ep t e htx hok hrx]
        have hr := ep_config_rx_word
          (ep_config_tx (reg_wr s (EPR ep) (ep_type_word ep t)) ep t (ep_align e)).2
          ep t (ep_align e) w hw
        rcases hr with hr | hr
        · rw [hr]; exact ht
        · exact Or.inr hr
      · rw [ep_config_path_tx s ep t e htx hok hrx]
        exact ht
    · rw [ep_config_path_tx_fail s ep t e htx (by simpa using hok)]
      exact ht
  · rw [ep_config_path_rx s ep t e htx]
    have hr := ep_config_rx_word (reg_wr s (EPR ep) (ep_type_word ep t)) ep t (ep_align e) w hw
    rw [reg_wr_pma] at hr
    exact hr

/-- A state function that leaves every offset word of the table as it was, or
stores a value from the allocator's range there, keeps the recorded offsets
slot offsets. -/
theorem offsets_allocated_of_words (s s2 : State) (h : offsets_allocated s)
    (hw : ∀ i, i < 8 → ∀ w, w = EPT i ∨ w = EPT i + 4 →
      rd16 s2.pma w = rd16 s.pma w ∨ rd16 s2.pma w = 0 ∨
        (64 ≤ rd16 s2.pma w ∧ rd16 s2.pma w ≤ USB_PMASIZE)) :
    offsets_allocated s2 := by
  intro a ha
  simp only [recorded_offsets, List.mem_append, List.mem_map, List.mem_range, addr, rx, tx]
    at ha
  rcases ha with ⟨i, hi, rfl⟩ | ⟨i, hi, rfl⟩
  · rcases hw i hi (EPT i + 4) (Or.inr rfl) with e | e | e
    · rw [e]
      apply h
      simp only [recorded_offsets, List.mem_append, List.mem_map, List.mem_range, addr, rx, tx]
      exact Or.inl ⟨i, hi, rfl⟩
    · exact Or.inl e
    · exact Or.inr e
  · rcases hw i hi (EPT i) (Or.inl rfl) with e | e | e
    · rw [e]
      apply h
      simp only [recorded_offsets, List.mem_append, List.mem_map, List.mem_range, addr, rx, tx]
      exact Or.inr ⟨i, hi, rfl⟩
    · exact Or.inl e
    · exact Or.inr e

/-- The routine `ep_config` keeps the recorded offsets slot offsets, whether it
succeeds or fails. -/
theorem ep_config_offsets_allocated (s : State) (ep t e : Nat) (h : offsets_allocated s) :
    offsets_allocated (ep_config s ep t e).2 := by
  apply offsets_allocated_of_words s _ h
  intro i hi w hw
  have h7 := and7_lt ep
  by_cases hie : i = ep &&& 0x07
  · have hE : EPT i = EPT ep := by
      simp only [EPT, hie, and7_of_lt _ h7]
    rw [hE] at hw
    rcases ep_config_word s ep t e w hw with e1 | e1
    · exact Or.inl e1
    · exact Or.inr (Or.inr e1)
  · left
    have fr := (ep_config_frame s ep t e).2
    simp only [EPT] at fr
    simp only [EPT, and7_of_lt i hi] at hw
    rcases hw with rfl | rfl <;>
      exact rd16_congr _ _ _ (fr _ (by omega)) (fr _ (by omega))

/-- The routine `ep_deconfig` keeps the recorded offsets slot offsets. -/
theorem ep_deconfig_offsets_allocated (s : State) (ep : Nat) (h : offsets_allocated s) :
    offsets_allocated (ep_deconfig s ep) := by
  apply offsets_allocated_of_words s _ h
  intro i hi w hw
  have h7 := and7_lt ep
  by_cases hie : i = ep &&& 0x07
  · have hE : EPT i = EPT ep := by
      simp only [EPT, hie, and7_of_lt _ h7]
    rw [hE] at hw
    obtain ⟨_, z1, _, z2, _⟩ := ep_deconfig_zero s ep
    simp only [addr, tx, rx] at z1 z2
    rcases hw with rfl | rfl
    · exact Or.inr (Or.inl z1)
    · exact Or.inr (Or.inl z2)
  · left
    have fr := (ep_deconfig_frame s ep).2
    simp only [EPT] at fr
    simp only [EPT, and7_of_lt i hi] at hw
    rcases hw with rfl | rfl <;>
      exact rd16_congr _ _ _ (fr _ (by omega)) (fr _ (by omega))

/-- The power-on state records no slot. -/
theorem zero_offsets_allocated : offsets_allocated zero_state := by decide

/-- A nonzero offset recorded in a table of slot offsets lies above the
descriptor table and inside the packet memory. -/
theorem slot_above_table (s : State) (h : offsets_allocated s) (i : Nat) (hi : i < 8) :
    (rd16 s.pma (addr (tx (EPT i))) ≠ 0 →
      64 ≤ rd16 s.pma (addr (tx (EPT i))) ∧ rd16 s.pma (addr (tx (EPT i))) ≤ USB_PMASIZE) ∧
    (rd16 s.pma (addr (rx (EPT i))) ≠ 0 →
      64 ≤ rd16 s.pma (addr (rx (EPT i))) ∧ rd16 s.pma (addr (rx (EPT i))) ≤ USB_PMASIZE) := by
  constructor
  · intro hn
    have := h (rd16 s.pma (addr (tx (EPT i)))) (by
      simp only [recorded_offsets, List.mem_append, List.mem_map, List.mem_range]
      exact Or.inr ⟨i, hi, rfl⟩)
    rcases this with e | e
    · exact absurd e hn
    · exact e
  · intro hn
    have := h (rd16 s.pma (addr (rx (EPT i)))) (by
      simp only [recorded_offsets, List.mem_append, List.mem_map, List.mem_range]
      exact Or.inl ⟨i, hi, rfl⟩)
    rcases this with e | e
    · exact absurd e hn
    · exact e

end V0

namespace V1

/-- The allocator returns 0 or an offset between 64 and `USB_PMASIZE`. -/
theorem get_next_pma_range_v1 (s : State) (sz : Nat) :
    get_next_pma s sz = 0 ∨ (64 ≤ get_next_pma s sz ∧ get_next_pma s sz ≤ USB_PMASIZE) := by
  have hle := pma_mark_le_v1 s
  rw [get_next_pma_eq_v1]
  split_ifs
  · exact Or.inl rfl
  · exact Or.inr ⟨by omega, by omega⟩

/-- An offset word of the entry after the TX block: as before, or a value the
allocator returned. -/
theorem ep_config_tx_word_v1 (s : State) (ep t e w : Nat) (hw : w = EPT ep ∨ w = EPT ep + 8) :
    rd16 (ep_config_tx s ep t e).2.pma w = rd16 s.pma w ∨
      (64 ≤ rd16 (ep_config_tx s ep t e).2.pma w ∧
        rd16 (ep_config_tx s ep t e).2.pma w ≤ USB_PMASIZE) := by
  have g1 := get_next_pma_range_v1 s e
  have l1 := get_next_pma_lt_v1 s e
  have g2 := get_next_pma_range_v1 (pma_wr s (EPT ep) (get_next_pma s e)) e
  have l2 := get_next_pma_lt_v1 (pma_wr s (EPT ep) (get_next_pma s e)) e
  simp only [ep_config_tx, txadr, txcnt, txadr0, txcnt0, txadr1, txcnt1]
  split_ifs with h1 hd h2
  · exact Or.inl rfl
  · rcases hw with rfl | rfl
    · right
      simp (disch := omega) only [pma_wr_pma, rd16_wr16_other, rd16_wr16_same]
      omega
    · left
      simp (disch := omega) only [pma_wr_pma, rd16_wr16_other, rd16_wr16_same]
  · rcases hw with rfl | rfl
    · right
      simp (disch := omega) only [dtx_unstall_pma, pma_wr_pma, rd16_wr16_other,
        rd16_wr16_same]
      omega
    · right
      simp (disch := omega) only [dtx_unstall_pma, pma_wr_pma, rd16_wr16_other,
        rd16_wr16_same]
      simp only [pma_wr_pma] at g2 l2 h2
      omega
  · rcases hw with rfl | rfl
    · right
      simp (disch := omega) only [tx_unstall_pma, pma_wr_pma, rd16_wr16_other,
        rd16_wr16_same]
      omega
    · left
      simp (disch := omega) only [tx_unstall_pma, pma_wr_pma, rd16_wr16_other,
        rd16_wr16_same]

/-- An offset word of the entry after the RX block: as before, or a value the
allocator returned. -/
theorem ep_config_rx_word_v1 (s : State) (ep t e w : Nat) (hw : w = EPT ep ∨ w = EPT ep + 8) :
    rd16 (ep_config_rx s ep t e).2.pma w = rd16 s.pma w ∨
      (64 ≤ rd16 (ep_config_rx s ep t e).2.pma w ∧
        rd16 (ep_config_rx s ep t e).2.pma w ≤ USB_PMASIZE) := by
  have g1 := get_next_pma_range_v1 s (ep_rxcnt e).2
  have l1 := get_next_pma_lt_v1 s (ep_rxcnt e).2
  have g2 := get_next_pma_range_v1 (pma_wr s (EPT ep) (get_next_pma s (ep_rxcnt e).2))
    (ep_rxcnt e).2
  have l2 := get_next_pma_lt_v1 (pma_wr s (EPT ep) (get_next_pma s (ep_rxcnt e).2))
    (ep_rxcnt e).2
  simp only [ep_config_rx, rxadr, rxcnt, rxadr0, rxcnt0, rxadr1, rxcnt1]
  split_ifs with h1 hd h2
  · exact Or.inl rfl
  · rcases hw with rfl | rfl
    · right
      simp (disch := omega) only [pma_wr_pma, rd16_wr16_other, rd16_wr16_same]
      omega
    · left
      simp (disch := omega) only [pma_wr_pma, rd16_wr16_other, rd16_wr16_same]
  · rcases hw with rfl | rfl
    · right
      simp (disch := omega) only [drx_unstall_pma, pma_wr_pma, rd16_wr16_other,
        rd16_wr16_same]
      omega
    · right
      simp (disch := omega) only [drx_unstall_pma, pma_wr_pma, rd16_wr16_other,
        rd16_wr16_same]
      simp only [pma_wr_pma] at g2 l2 h2
      omega
  · rcases hw with rfl | rfl
    · left
      simp (disch := omega) only [rx_unstall_pma, pma_wr_pma, rd16_wr16_other,
        rd16_wr16_same]
    · right
      simp (disch := omega) only [rx_unstall_pma, pma_wr_pma, rd16_wr16_other,
        rd16_wr16_same]
      omega

/-- An offset word of the entry after `ep_config`, whatever it returns: as
before, or a value the allocator returned. -/
theorem ep_config_word_v1 (s : State) (ep t e w : Nat) (hw : w = EPT ep ∨ w = EPT ep + 8) :
    rd16 (ep_config s ep t e).2.pma w = rd16 s.pma w ∨
      (64 ≤ rd16 (ep_config s ep t e).2.pma w ∧
        rd16 (ep_config s ep t e).2.pma w ≤ USB_PMASIZE) := by
  have ht := ep_config_tx_word_v1 (reg_wr s (EPR ep) (ep_type_word ep t)) ep t (ep_align e) w hw
  rw [reg_wr_pma] at ht
  by_cases htx : ep &&& 0x80 ≠ 0 ∨ t = USB_EPTYPE_CONTROL
  · by_cases hok :
      (ep_config_tx (reg_wr s (EPR ep) (ep_type_word ep t)) ep t (ep_align e)).1 = true
    · by_cases hrx : ep &&& 0x80 = 0
      · rw [ep_config_path_tx_rx_v1 s ep t e htx hok hrx]
        have hr := ep_config_rx_word_v1
          (ep_config_tx (reg_wr s (EPR ep) (ep_type_word ep t)) ep t (ep_align e)).2
          ep t (ep_align e) w hw
        rcases hr with hr | hr
        · rw [hr]; exact ht
        · exact Or.inr hr
      · rw [ep_config_path_tx_v1 s ep t e htx hok hrx]
        exact ht
    · rw [ep_config_path_tx_fail_v1 s ep t e htx (by simpa using hok)]
      exact ht
  · rw [ep_config_path_rx_v1 s ep t e htx]
    have hr := ep_config_rx_word_v1 (reg_wr s (EPR ep) (ep_type_word ep t)) ep t (ep_align e) w hw
    rw [reg_wr_pma] at hr
    exact hr

/-- A state function that leaves every offset word of the table as it was, or
stores a value from the allocator's range there, keeps the recorded offsets
slot offsets. -/
theorem offsets_allocated_of_words_v1 (s s2 : State) (h : offsets_allocated s)
    (hw : ∀ i, i < 8 → ∀ w, w = EPT i ∨ w = EPT i + 8 →
      rd16 s2.pma w = rd16 s.pma w ∨ rd16 s2.pma w = 0 ∨
        (64 ≤ rd16 s2.pma w ∧ rd16 s2.pma w ≤ USB_PMASIZE)) :
    offsets_allocated s2 := by
  intro a ha
  simp only [recorded_offsets, List.mem_append, List.mem_map, List.mem_range, rxadr, txadr]
    at ha
  rcases ha with ⟨i, hi, rfl⟩ | ⟨i, hi, rfl⟩
  · rcases hw i hi (EPT i + 8) (Or.inr rfl) with e | e | e
    · rw [e]
      apply h
      simp only [recorded_offsets, List.mem_append, List.mem_map, List.mem_range, rxadr, txadr]
      exact Or.inl ⟨i, hi, rfl⟩
    · exact Or.inl e
    · exact Or.inr e
  · rcases hw i hi (EPT i) (Or.inl rfl) with e | e | e
    · rw [e]
      apply h
      simp only [recorded_offsets, List.mem_append, List.mem_map, List.mem_range, rxadr, txadr]
      exact Or.inr ⟨i, hi, rfl⟩
    · exact Or.inl e
    · exact Or.inr e

/-- The routine `ep_config` keeps the recorded offsets slot offsets, whether it
succeeds or fails. -/
theorem ep_config_offsets_allocated_v1 (s : State) (ep t e : Nat) (h : offsets_allocated s) :
    offsets_allocated (ep_config s ep t e).2 := by
  apply offsets_allocated_of_words_v1 s _ h
  intro i hi w hw
  have h7 := and7_lt ep
  by_cases hie : i = ep &&& 0x07
  · have hE : EPT i = EPT ep := by
      simp only [EPT, hie, and7_of_lt _ h7]
    rw [hE] at hw
    rcases ep_config_word_v1 s ep t e w hw with e1 | e1
    · exact Or.inl e1
    · exact Or.inr (Or.inr e1)
  · left
    have fr := (ep_config_frame_v1 s ep t e).2
    simp only [EPT] at fr
    simp only [EPT, and7_of_lt i hi] at hw
    rcases hw with rfl | rfl <;>
      exact rd16_congr _ _ _ (fr _ (by omega)) (fr _ (by omega))

/-- The routine `ep_deconfig` keeps the recorded offsets slot offsets. -/
theorem ep_deconfig_offsets_allocated_v1 (s : State) (ep : Nat) (h : offsets_allocated s) :
    offsets_allocated (ep_deconfig s ep) := by
  apply offsets_allocated_of_words_v1 s _ h
  intro i hi w hw
  have h7 := and7_lt ep
  by_cases hie : i = ep &&& 0x07
  · have hE : EPT i = EPT ep := by
      simp only [EPT, hie, and7_of_lt _ h7]
    rw [hE] at hw
    obtain ⟨_, z1, _, z2, _⟩ := ep_deconfig_zero_v1 s ep
    simp only [txadr, rxadr] at z1 z2
    rcases hw with rfl | rfl
    · exact Or.inr (Or.inl z1)
    · exact Or.inr (Or.inl z2)
  · left
    have fr := (ep_deconfig_frame_v1 s ep).2
    simp only [EPT] at fr
    simp only [EPT, and7_of_lt i hi] at hw
    rcases hw with rfl | rfl <;>
      exact rd16_congr _ _ _ (fr _ (by omega)) (fr _ (by omega))

/-- The power-on state records no slot. -/
theorem zero_offsets_allocated_v1 : offsets_allocated zero_state := by decide

/-- A nonzero offset recorded in a table of slot offsets lies above the
descriptor table and inside the packet memory. -/
theorem slot_above_table_v1 (s : State) (h : offsets_allocated s) (i : Nat) (hi : i < 8) :
    (rd16 s.pma (txadr (EPT i)) ≠ 0 →
      64 ≤ rd16 s.pma (txadr (EPT i)) ∧ rd16 s.pma (txadr (EPT i)) ≤ USB_PMASIZE) ∧
    (rd16 s.pma (rxadr (EPT i)) ≠ 0 →
      64 ≤ rd16 s.pma (rxadr (EPT i)) ∧ rd16 s.pma (rxadr (EPT i)) ≤ USB_PMASIZE) := by
  constructor
  · intro hn
    have := h (rd16 s.pma (txadr (EPT i))) (by
      simp only [recorded_offsets, List.mem_append, List.mem_map, List.mem_range]
      exact Or.inr ⟨i, hi, rfl⟩)
    rcases this with e | e
    · exact absurd e hn
    · exact e
  · intro hn
    have := h (rd16 s.pma (rxadr (EPT i))) (by
      simp only [recorded_offsets, List.mem_append, List.mem_map, List.mem_range]
      exact Or.inl ⟨i, hi, rfl⟩)
    rcases this with e | e
    · exact absurd e hn
    · exact e

end V1

namespace V0

theorem offsets_allocated_le (s : State) (h : offsets_allocated s) :
    ∀ a ∈ recorded_offsets s, a ≤ USB_PMASIZE := by
  intro a ha
  rcases h a ha with e | e
  · rw [e]; exact Nat.zero_le _
  · exact e.2

/-- What the write and read statements assume of an IN endpoint is what a
successful `ep_config` on its handle establishes on a table of slot offsets:
the TX slot offset, and for an isochronous or double-buffered bulk endpoint
the offsets of both TX slots, are at least 64. -/
theorem configured_in_slots (s : State) (ep t e : Nat) (h : offsets_allocated s)
    (hin : ep &&& 0x80 ≠ 0) (hok : (ep_config s ep t e).1 = true) :
    64 ≤ rd16 (ep_config s ep t e).2.pma (addr (tx0 (EPT ep))) ∧
    (is_dbl t = true → 64 ≤ rd16 (ep_config s ep t e).2.pma (addr (tx1 (EPT ep)))) := by
  have h7 := and7_lt ep
  have hE : EPT (ep &&& 0x07) = EPT ep := by
    simp only [EPT, and7_of_lt _ h7]
  have hs := slot_above_table _ (ep_config_offsets_allocated s ep t e h) (ep &&& 0x07) h7
  rw [hE] at hs
  by_cases hd : is_dbl t = true
  · obtain ⟨a1, _, a3, _, _⟩ := ep_config_in_double s ep t e (Or.inl hin) hok hd
    simp only [tx0, tx1, tx, rx, addr] at a1 a3 hs ⊢
    exact ⟨(hs.1 a1).1, fun _ => (hs.2 a3).1⟩
  · have hd0 : is_dbl t = false := by simpa using hd
    obtain ⟨a1, a2, _, _⟩ := ep_config_in_single s ep t e (Or.inl hin) hok hd0
    simp only [tx0, tx, addr] at a2 hs ⊢
    refine ⟨(hs.1 (by rw [a2]; exact a1)).1, fun c => ?_⟩
    rw [hd0] at c
    cases c

end V0

namespace V1

theorem offsets_allocated_le_v1 (s : State) (h : offsets_allocated s) :
    ∀ a ∈ recorded_offsets s, a ≤ USB_PMASIZE := by
  intro a ha
  rcases h a ha with e | e
  · rw [e]; exact Nat.zero_le _
  · exact e.2

/-- After a successful `ep_config` on an IN handle, on a table of slot offsets,
the TX slot offset, and for an isochronous or double-buffered bulk endpoint the
offsets of both TX slots, are at least 64. -/
theorem configured_in_slots_v1 (s : State) (ep t e : Nat) (h : offsets_allocated s)
    (hin : ep &&& 0x80 ≠ 0) (hok : (ep_config s ep t e).1 = true) :
    64 ≤ rd16 (ep_config s ep t e).2.pma (txadr0 (EPT ep)) ∧
    (is_dbl t = true → 64 ≤ rd16 (ep_config s ep t e).2.pma (txadr1 (EPT ep))) := by
  have h7 := and7_lt ep
  have hE : EPT (ep &&& 0x07) = EPT ep := by
    simp only [EPT, and7_of_lt _ h7]
  have hs := slot_above_table_v1 _ (ep_config_offsets_allocated_v1 s ep t e h) (ep &&& 0x07) h7
  rw [hE] at hs
  by_cases hd : is_dbl t = true
  · obtain ⟨a1, _, a3, _, _⟩ := ep_config_in_double_v1 s ep t e (Or.inl hin) hok hd
    simp only [txadr0, txadr1, txadr, rxadr] at a1 a3 hs ⊢
    exact ⟨(hs.1 a1).1, fun _ => (hs.2 a3).1⟩
  · have hd0 : is_dbl t = false := by simpa using hd
    obtain ⟨a1, a2, _, _⟩ := ep_config_in_single_v1 s ep t e (Or.inl hin) hok hd0
    simp only [txadr0, txadr] at a2 hs ⊢
    refine ⟨(hs.1 (by rw [a2]; exact a1)).1, fun c => ?_⟩
    rw [hd0] at c
    cases c

end V1
